import Mathlib

/-!
Zeal raid bars: layout, hit test and management gestures

A shallow embedding of `raid_bars.cpp` and `raid_bars_manage.cpp`.

* `float` values (cell sizes, screen positions) are taken as exact rationals `ℚ`;
  `static_cast<int>` of a float is truncation toward zero (`truncToInt`).
* `int`, `short`, `DWORD` and `size_t` values are `Int` / `Nat`; the developments below stay
  inside the ranges in which the machine operations do not wrap.
* Pointers to game entities are addresses (`EntityPtr`), a nullable pointer is an `Option`;
  the pointee is read through the game memory `Game.entity`.
* Everything the overlay reads from the game client (raid roster, key state, fonts, screen
  size) is a field of `Game`; chat lines and commands sent to the server are collected in a
  list of `Emit`.
-/

namespace Zeal

/-! ## Game side data -/

/-- Address of a game entity (`Zeal::GameStructures::Entity *`, non-null). -/
abbrev EntityPtr := Nat

/-- The fields of `Zeal::GameStructures::Entity` the overlay reads. -/
structure Entity where
  Name : String
  /-- The field `Type` of the source. -/
  Type_ : Nat
  HpCurrent : Int
  HpMax : Int
deriving DecidableEq, Repr

/-- Modelled from the spec: the entity type tag `Zeal::GameEnums::EntityTypes::Player` of
`game_structures.h` (the type of a participant; only equality with this tag is ever tested). -/
def EntityTypes.Player : Nat := 0

/-- Modelled from the spec: the sentinel `RaidMember::kRaidUngrouped` of `game_structures.h`,
the group number of an unaffiliated member, a `DWORD` outside the group numbers `0..11`. -/
def kRaidUngrouped : Nat := 0xFFFFFFFF

/-- Modelled from the spec: `RaidInfo::kRaidMaxMembers` of `game_structures.h`, the number of
slots of `RaidInfo::MemberList` (12 groups of 6). -/
def kRaidMaxMembers : Nat := 72

/-- Modelled from the spec: the enumeration `Zeal::GameEnums::ClassTypes` of `game_structures.h`,
the fifteen categories, numbered consecutively from `Warrior = 1` to `Beastlord = 15` (the class
ids of the game). -/
def ClassTypes.Warrior : Nat := 1
/-- Class id of clerics. -/
def ClassTypes.Cleric : Nat := 2
/-- Class id of paladins. -/
def ClassTypes.Paladin : Nat := 3
/-- Class id of rangers. -/
def ClassTypes.Ranger : Nat := 4
/-- Class id of shadow knights. -/
def ClassTypes.Shadowknight : Nat := 5
/-- Class id of druids. -/
def ClassTypes.Druid : Nat := 6
/-- Class id of monks. -/
def ClassTypes.Monk : Nat := 7
/-- Class id of bards. -/
def ClassTypes.Bard : Nat := 8
/-- Class id of rogues. -/
def ClassTypes.Rogue : Nat := 9
/-- Class id of shamans. -/
def ClassTypes.Shaman : Nat := 10
/-- Class id of necromancers. -/
def ClassTypes.Necromancer : Nat := 11
/-- Class id of wizards. -/
def ClassTypes.Wizard : Nat := 12
/-- Class id of magicians. -/
def ClassTypes.Magician : Nat := 13
/-- Class id of enchanters. -/
def ClassTypes.Enchanter : Nat := 14
/-- Class id of beastlords. -/
def ClassTypes.Beastlord : Nat := 15

/-- `RaidBars::kNumClasses`. -/
def kNumClasses : Nat := ClassTypes.Beastlord - ClassTypes.Warrior + 1

/-- `RaidBars::kClassIndexOffset`. -/
def kClassIndexOffset : Nat := ClassTypes.Warrior

/-- `RaidBars::kNumGroupLabelSlots`: groups 1-12 plus ungrouped. -/
def kNumGroupLabelSlots : Nat := 13

/-- One slot of `RaidInfo::MemberList` (the fields read by `UpdateRaidMembers`). -/
structure RaidInfoMember where
  Name : String
  ClassValue : Nat
  GroupNumber : Nat
  IsGroupLeader : Nat
deriving DecidableEq, Repr

/-- What a loaded `BitmapFont` reports: the measured size of the sample text, the height of the
two-line sample text and the line spacing. -/
structure BitmapFont where
  measure_x : ℚ
  measure_y : ℚ
  text_height : ℚ
  line_spacing : ℚ
  stats_bar_width : ℚ
  stats_bar_height : ℚ
deriving DecidableEq

/-- Modifier key bytes of `CXWndManager`. -/
structure CXWndManager where
  ShiftKeyState : Nat
  ControlKeyState : Nat
  AltKeyState : Nat
deriving DecidableEq, Repr

/-- The game client as seen by the overlay: every external call of the two source files. -/
structure Game where
  /-- `Zeal::Game::is_in_game()`. -/
  is_in_game : Bool
  /-- `Zeal::Game::RaidInfo->is_in_raid()`. -/
  is_in_raid : Bool
  /-- `Zeal::Game::RaidInfo->MemberList`. -/
  MemberList : List RaidInfoMember
  /-- `Zeal::Game::get_display()`: null, or the display with its `GameTimeMs`. -/
  display : Option Nat
  /-- `Zeal::Game::is_gui_visible()`. -/
  is_gui_visible : Bool
  /-- `ZealService::get_instance()->dx->GetDevice()` is non-null. -/
  has_device : Bool
  /-- `BitmapFont::create_bitmap_font(device, filename)`. -/
  create_bitmap_font : String → Option BitmapFont
  /-- `Zeal::Game::get_screen_resolution_x()`. -/
  screen_resolution_x : Int
  /-- `Zeal::Game::get_screen_resolution_y()`. -/
  screen_resolution_y : Int
  /-- `entity_manager->Get(name)`. -/
  entity_get : String → Option EntityPtr
  /-- Game memory: the entity stored at an address. -/
  entity : EntityPtr → Entity
  /-- `Zeal::Game::get_self()`. -/
  self : Option EntityPtr
  /-- `Zeal::Game::get_raid_class_color(class_value)`. -/
  get_raid_class_color : Nat → Nat
  /-- `Zeal::Game::get_raid_group_number(name)`. -/
  get_raid_group_number : String → Nat
  /-- `Zeal::Game::get_raid_group_count(group)`. -/
  get_raid_group_count : Nat → Int
  /-- `Zeal::Game::get_wnd_manager()`. -/
  wnd_manager : Option CXWndManager
  /-- `Zeal::Game::class_name_short(class_value)`. -/
  class_name_short : Nat → String
  /-- `Zeal::String::split_text(text, " ")`. -/
  split_text : String → List String
  /-- `std::transform(..., ::toupper)` on a whole string. -/
  toupper : String → String
  /-- The client is waiting for a server ack (`*0x007d0254 != 0`). -/
  waiting_for_ack : Bool
  /-- The right mouse button is held (`*0x007985ea != 0`). -/
  rmb_down : Bool
  /-- `Zeal::String::tryParse(text, &value)` and `Zeal::String::tryParse(text, &value, true)`
  (the flag tells the two call forms apart): the parsed value, or failure. -/
  tryParse : String → Bool → Option Int := fun _ _ => none
  /-- `BitmapFontBase::get_available_fonts()`. -/
  get_available_fonts : List String := []

/-! ## Output -/

/-- Argument of a `printf`-style format string. -/
inductive FmtArg where
  | str (s : String)
  | int (i : Int)
deriving DecidableEq, Repr

/-- An output action: `Zeal::Game::print_chat(fmt, args...)` or
`Zeal::Game::do_say(true, fmt, args...)`, with the format string and its arguments. -/
inductive Emit where
  | print_chat (fmt : String) (args : List FmtArg)
  | do_say (fmt : String) (args : List FmtArg)
deriving DecidableEq, Repr

/-- An output action is a command sent to the server. -/
def Emit.isCommand : Emit → Bool
  | .do_say _ _ => true
  | .print_chat _ _ => false

/-! ## Overlay state -/

/-- `RaidBars::RaidMember`. -/
structure RaidMember where
  name : String
  entity : Option EntityPtr
  color : Nat
  group_number : Nat
  is_group_leader : Bool
deriving DecidableEq, Repr

/-- State of `RaidBarsManage`. -/
structure RaidBarsManage where
  enabled : Bool
  move_pending_name : String
deriving DecidableEq, Repr

/-- State of `RaidBars` (settings and private members). -/
structure RaidBars where
  setting_enabled : Bool
  setting_clickable : Bool
  setting_position_left : Int
  setting_position_top : Int
  setting_position_right : Int
  setting_position_bottom : Int
  setting_bar_width : Int
  setting_bar_height : Int
  setting_show_all : Bool
  setting_group_sort : Bool
  setting_show_threshold : Int
  setting_background_alpha : Int
  setting_class_priority : String
  setting_class_always : String
  setting_class_never : String
  setting_class_filter : String
  setting_bitmap_font_filename : String
  next_update_game_time_ms : Nat
  raid_update_dirty : Bool
  bitmap_font : Option BitmapFont
  grid_height : ℚ
  grid_width : ℚ
  grid_height_count_max : Int
  raid_classes : List (List RaidMember)
  class_priority : List Nat
  class_always : List Bool
  class_never : List Bool
  class_filter : List Bool
  visible_list : List (Option EntityPtr)
  visible_group_index : List Int
  manage : RaidBarsManage
deriving DecidableEq

/-- `static_cast<int>` of a float: truncation toward zero. -/
def truncToInt (q : ℚ) : Int := if 0 ≤ q then ⌊q⌋ else ⌈q⌉

/-- `std::string` comparison `a < b`: lexicographic on the characters. -/
def string_lt (a b : String) : Bool := decide (a.toList < b.toList)

/-! ## Hit test -/

/-- `RaidBars::CalcClickIndex`: the `visible_list` index for screen coordinates, or `-1`, with
coordinates and cell sizes taken as exact values: quotients and products are exact. The same
function in the arithmetic of the compiled program is `RaidBars.CalcClickIndex_f32`. -/
def RaidBars.CalcClickIndex (s : RaidBars) (x y : Int) : Int :=
  let x_min : ℚ := (s.setting_position_left : ℚ)
  let y_min : ℚ := (s.setting_position_top : ℚ)
  if (x : ℚ) < x_min ∨ (y : ℚ) < y_min then -1 else
  let click_row_index : Int := truncToInt (((y : ℚ) - y_min) / s.grid_height)
  if click_row_index ≥ s.grid_height_count_max then -1 else
  let click_column_index : Int := truncToInt (((x : ℚ) - x_min) / s.grid_width)
  let click_column_start : Int := click_column_index * s.grid_height_count_max
  let column_row_index_max : Int := (s.visible_list.length : Int) - click_column_start
  if column_row_index_max < 0 ∨ click_row_index ≥ column_row_index_max then -1 else
  let index : Int := click_column_start + click_row_index
  if index < 0 ∨ index ≥ (s.visible_list.length : Int) then -1 else
  index

/-- The hit test as the specification words it (`HitTestIndex.locate`): with
`row = floor((y - top) / cellHeight)` and `column = floor((x - left) / cellWidth)` the result is
`column * m + row` when the point is not left of or above the anchor, `row < m` and the index
lies in `[0, n)`; otherwise there is no hit. -/
def locate (x y left top : Int) (cellWidth cellHeight : ℚ) (n : Nat) (m : Int) : Option Int :=
  let row : Int := ⌊((y : ℚ) - (top : ℚ)) / cellHeight⌋
  let column : Int := ⌊((x : ℚ) - (left : ℚ)) / cellWidth⌋
  if x ≥ left ∧ y ≥ top ∧ row < m ∧ 0 ≤ column * m + row ∧ column * m + row < (n : Int) then
    some (column * m + row)
  else none

/-! ## Cleaning and settings -/

/-- `RaidBarsManage::Clean`. -/
def RaidBarsManage.Clean (m : RaidBarsManage) : RaidBarsManage :=
  { m with move_pending_name := "" }

/-- `RaidBars::Clean`: resets state and releases all resources. -/
def RaidBars.Clean (s : RaidBars) : RaidBars :=
  { s with
    next_update_game_time_ms := 0
    bitmap_font := none
    visible_list := []
    raid_classes := s.raid_classes.map (fun _ => [])
    manage := s.manage.Clean }

/-- Modelled from the spec: `ZealSetting<bool>::set` of `zeal_settings.h` for `setting_enabled`:
the value is stored and the change callback of the setting, `Clean()`, is invoked
synchronously. -/
def RaidBars.set_setting_enabled (s : RaidBars) (v : Bool) : RaidBars :=
  RaidBars.Clean { s with setting_enabled := v }

/-! ## Class priority -/

/-- The default contents of `class_priority` (before the conversion to zero index). -/
def default_class_types : List Nat :=
  [ClassTypes.Warrior, ClassTypes.Paladin, ClassTypes.Shadowknight, ClassTypes.Enchanter,
   ClassTypes.Wizard, ClassTypes.Monk, ClassTypes.Ranger, ClassTypes.Rogue,
   ClassTypes.Beastlord, ClassTypes.Bard, ClassTypes.Cleric, ClassTypes.Shaman,
   ClassTypes.Druid, ClassTypes.Magician, ClassTypes.Necromancer]

/-- The default priority after `index -= kClassIndexOffset`. -/
def default_class_priority : List Nat :=
  default_class_types.map (fun index => index - kClassIndexOffset)

/-- Inner loop of the token scan: the first `i < size` whose short class name equals the
token (the loop breaks at the first match). -/
def find_class_index (g : Game) (size : Nat) (entry : String) : Option Nat :=
  (List.range size).find? (fun i => entry == g.class_name_short (i + kClassIndexOffset))

/-- The vector `entries` of `SyncClassPriority`: the zero indices of the recognised tokens,
without duplicates, in order of first occurrence. -/
def priority_entries (g : Game) (size : Nat) (split : List String) : List Nat :=
  split.foldl
    (fun entries entry =>
      match find_class_index g size entry with
      | some i => if i ∈ entries then entries else entries ++ [i]
      | none => entries)
    []

/-- The loop `for (auto &value : entries)`: writes the entries to the front of
`class_priority` and erases them from `source`. The state is
`(class_priority, source, index)`. -/
def assign_entries (entries : List Nat) (class_priority source : List Nat) :
    List Nat × List Nat × Nat :=
  entries.foldl
    (fun st value => (st.1.set st.2.2 value, st.2.1.filter (fun v => v ≠ value), st.2.2 + 1))
    (class_priority, source, 0)

/-- The loop `for (auto &value : source)`: appends the classes not specified; once
`index >= class_priority.size()` the loop breaks, so nothing more is written. -/
def append_source (source : List Nat) (class_priority : List Nat) (index : Nat) : List Nat :=
  (source.foldl
    (fun st value => if st.2 ≥ st.1.length then st else (st.1.set st.2 value, st.2 + 1))
    (class_priority, index)).1

/-- `RaidBars::SyncClassPriority`: loads the class priority from the setting. -/
def RaidBars.SyncClassPriority (g : Game) (s : RaidBars) : RaidBars :=
  let priority_list := s.setting_class_priority
  let class_priority := default_class_priority
  if priority_list = "" then { s with class_priority := class_priority } else
  let priority_list := g.toupper priority_list
  let split := g.split_text priority_list
  let entries := priority_entries g class_priority.length split
  let st := assign_entries entries class_priority class_priority
  { s with class_priority := append_source st.2.1 st.1 st.2.2 }

/-! ## Roster snapshot -/

/-- Insertion of `a` into a list sorted by `lt`. -/
def sort_insert {α : Type} (lt : α → α → Bool) (a : α) : List α → List α
  | [] => [a]
  | b :: l => if lt a b then a :: b :: l else b :: sort_insert lt a l

/-- `std::sort(begin, end, lt)`: the elements rearranged into an order with no inversion of the
comparison `lt`, here by insertion. (The library leaves the order of elements that compare
equivalent unspecified.) -/
def std_sort {α : Type} (lt : α → α → Bool) (l : List α) : List α :=
  l.foldr (sort_insert lt) []

/-- The comparison lambda of `UpdateRaidMembers`: `a.name < b.name`. -/
def RaidMember.name_lt (a b : RaidMember) : Bool := string_lt a.name b.name

/-- Body of the bucketizing loop of `UpdateRaidMembers` for one `MemberList` slot. -/
def bucketize (g : Game) (raid_classes : List (List RaidMember)) (member : RaidInfoMember) :
    List (List RaidMember) :=
  if member.Name = "" then raid_classes else
  -- `size_t class_index = ClassValue - kClassIndexOffset`: a class value below the offset
  -- wraps around to a huge index and is rejected by the bounds check as well.
  if member.ClassValue < kClassIndexOffset then raid_classes else
  let class_index := member.ClassValue - kClassIndexOffset
  if class_index ≥ raid_classes.length then raid_classes else
  let entity := g.entity_get member.Name
  let entity :=
    match entity with
    | some p => if (g.entity p).Type_ ≠ EntityTypes.Player then none else some p
    | none => none
  let class_color := g.get_raid_class_color member.ClassValue
  raid_classes.set class_index
    (raid_classes.getD class_index [] ++
      [{ name := member.Name, entity := entity, color := class_color,
         group_number := member.GroupNumber,
         is_group_leader := decide (member.IsGroupLeader ≠ 0) }])

/-- `RaidBars::UpdateRaidMembers`: populates `raid_classes` with all raid members. -/
def RaidBars.UpdateRaidMembers (g : Game) (s : RaidBars) : RaidBars :=
  let cleared := s.raid_classes.map (fun _ => ([] : List RaidMember))
  if !g.is_in_raid then { s with raid_classes := cleared } else
  let filled := (g.MemberList.take kRaidMaxMembers).foldl (bucketize g) cleared
  { s with raid_classes := filled.map (std_sort RaidMember.name_lt) }

/-! ## Despawn -/

/-- The `EntityDespawn` callback registered in the constructor of `RaidBars`. -/
def RaidBars.EntityDespawn (g : Game) (s : RaidBars) (entity : Option EntityPtr) : RaidBars :=
  match entity with
  | none => s
  | some p =>
    if !s.setting_enabled || decide ((g.entity p).Type_ ≠ EntityTypes.Player) then s else
    { s with
      raid_classes := s.raid_classes.map (fun class_group =>
        class_group.map (fun member =>
          if member.entity = some p then { member with entity := none } else member))
      visible_list := s.visible_list.map (fun list_entity =>
        if list_entity = some p then none else list_entity) }

/-! ## Layout -/

/-- What one layout step shows in a cell. -/
inductive CellKind where
  | bar
  | label (slot : Nat)
  | empty
deriving DecidableEq, Repr

/-- One placed cell: the value pushed to `visible_list`, the position `(x, y)` of the cell (the
values of the loop variables `x` and `y` at the push) and the arguments of the `queue_string`
call that draws it. -/
structure Cell where
  entity : Option EntityPtr
  x : ℚ
  y : ℚ
  kind : CellKind
  text : String
  text_y : ℚ
  color : Nat
  hp_percent : Int
deriving DecidableEq

/-- The local variables `x`, `y` of a layout pass and the cells placed so far. -/
structure Flow where
  x : ℚ
  y : ℚ
  cells : List Cell

/-- `D3DCOLOR_XRGB(r, g, b)`. -/
def D3DCOLOR_XRGB (r g b : Nat) : Nat := 0xFF000000 + r * 0x10000 + g * 0x100 + b

/-- Health percent of a (possibly null) entity as computed by both layout passes. The integer
division is taken on positive operands only, where every rounding convention agrees. -/
def hp_percent_of (g : Game) (entity : Option EntityPtr) : Int :=
  match entity with
  | some p =>
    if (g.entity p).HpCurrent > 0 ∧ (g.entity p).HpMax > 0 then
      ((g.entity p).HpCurrent * 100) / (g.entity p).HpMax
    else 0
  | none => 0

/-- The column wrap at the head of every placement:
`if (y + grid_height > y_max) { y = y_min; x += grid_width; }`, with the loop variables taken as
exact values. The same step on `float` variables is `flow_wrap_f32`. -/
def flow_wrap (grid_width grid_height y_min y_max : ℚ) (f : Flow) : Flow :=
  if f.y + grid_height > y_max then { f with y := y_min, x := f.x + grid_width } else f

/-- The cell of a raid member bar placed at `(x, y)`. -/
def bar_cell (g : Game) (member : RaidMember) (x y : ℚ) : Cell :=
  { entity := member.entity, x := x, y := y, kind := CellKind.bar, text := member.name,
    text_y := y,
    color := if member.entity.isSome then member.color else D3DCOLOR_XRGB 0x80 0x80 0x80,
    hp_percent := hp_percent_of g member.entity }

/-- Inner loop of `QueueByClass` over the members of one class; `break` leaves this loop only. -/
def QueueByClass.members (g : Game) (s : RaidBars) (x_max y_min y_max : ℚ)
    (show_class : Bool) (threshold : Int) : List RaidMember → Flow → Flow
  | [], f => f
  | member :: rest, f =>
    let f := flow_wrap s.grid_width s.grid_height y_min y_max f
    if f.x + s.grid_width > x_max then f else
    if member.entity = g.self then QueueByClass.members g s x_max y_min y_max show_class threshold rest f
    else if hp_percent_of g member.entity ≥ threshold ∧ show_class = false then
      QueueByClass.members g s x_max y_min y_max show_class threshold rest f
    else
      QueueByClass.members g s x_max y_min y_max show_class threshold rest
        { f with cells := f.cells ++ [bar_cell g member f.x f.y], y := f.y + s.grid_height }

/-- Body of the outer loop of `QueueByClass` for one entry of `class_priority`. -/
def QueueByClass.class_step (g : Game) (s : RaidBars) (x_max y_min y_max : ℚ) (f : Flow)
    (class_index : Nat) : Flow :=
  let group := s.raid_classes.getD class_index []
  if group = [] ∨ s.class_never.getD class_index false = true then f else
  let show_class := s.setting_show_all || s.class_always.getD class_index false
  let threshold : Int :=
    if s.class_filter.getD class_index false then s.setting_show_threshold else 99
  QueueByClass.members g s x_max y_min y_max show_class threshold group f

/-- `RaidBars::QueueByClass`; returns the new state and the cells placed, in order. -/
def RaidBars.QueueByClass (g : Game) (s : RaidBars) (x_min y_min x_max y_max : ℚ) :
    RaidBars × List Cell :=
  let f := s.class_priority.foldl (QueueByClass.class_step g s x_max y_min y_max)
    { x := x_min, y := y_min, cells := [] }
  ({ s with visible_list := s.visible_list ++ f.cells.map (fun c => c.entity) }, f.cells)

/-- The sweep of `QueueByGroup` that collects the members of one group: class priority order,
the leader inserted at the front, at most `group_max` members. -/
def group_members_of (s : RaidBars) (group_index group_max : Nat) : List RaidMember :=
  s.class_priority.foldl
    (fun acc class_index =>
      (s.raid_classes.getD class_index []).foldl
        (fun acc member =>
          if member.group_number ≠ group_index ∨ acc.length ≥ group_max then acc
          else if member.is_group_leader then member :: acc
          else acc ++ [member])
        acc)
    []

/-- Local state of `QueueByGroup`: the flow, the label index map and whether the function has
returned (`return` on overflow). -/
structure GroupFlow where
  flow : Flow
  visible_group_index : List Int
  returned : Bool

/-- One placement of `QueueByGroup`: wrap, bail out (`return`) if the column is off-screen, else
push the cell made by `mk` and advance `y`. -/
def QueueByGroup.put (s : RaidBars) (x_max y_min y_max : ℚ) (mk : ℚ → ℚ → Cell)
    (f : GroupFlow) : GroupFlow :=
  if f.returned then f else
  let fl := flow_wrap s.grid_width s.grid_height y_min y_max f.flow
  if fl.x + s.grid_width > x_max then { f with flow := fl, returned := true } else
  { f with flow := { fl with cells := fl.cells ++ [mk fl.x fl.y], y := fl.y + s.grid_height } }

/-- The label cell of group slot `i` placed at `(x, y)`. -/
def label_cell (s : RaidBars) (i : Nat) (x y : ℚ) : Cell :=
  { entity := none, x := x, y := y, kind := CellKind.label i,
    text := if i = 12 then "Ungrouped:" else "Group " ++ toString (i + 1) ++ ": ",
    text_y := y + (s.grid_height - ((s.bitmap_font.map (fun b => b.line_spacing)).getD 0) - 2),
    color := D3DCOLOR_XRGB 0xff 0xff 0xff, hp_percent := 0 }

/-- The cell of an empty slot placed at `(x, y)`. -/
def empty_cell (x y : ℚ) : Cell :=
  { entity := none, x := x, y := y, kind := CellKind.empty, text := "Empty", text_y := y,
    color := D3DCOLOR_XRGB 0x60 0x60 0x60, hp_percent := 0 }

/-- Placement of the label of slot `i`: as `QueueByGroup.put`, recording the label index
(`base` is the length of `visible_list` at the start of the pass). -/
def QueueByGroup.put_label (s : RaidBars) (base : Nat) (x_max y_min y_max : ℚ) (i : Nat)
    (f : GroupFlow) : GroupFlow :=
  if f.returned then f else
  let fl := flow_wrap s.grid_width s.grid_height y_min y_max f.flow
  if fl.x + s.grid_width > x_max then { f with flow := fl, returned := true } else
  { f with
    visible_group_index := f.visible_group_index.set i ((base + fl.cells.length : Nat) : Int)
    flow := { fl with cells := fl.cells ++ [label_cell s i fl.x fl.y], y := fl.y + s.grid_height } }

/-- Body of the main loop of `QueueByGroup` for group slot `i` (`0..11`, and `12` = ungrouped). -/
def QueueByGroup.group_step (g : Game) (s : RaidBars) (base : Nat) (x_max y_min y_max : ℚ)
    (f : GroupFlow) (i : Nat) : GroupFlow :=
  if f.returned then f else
  let ungrouped := decide (i = 12)
  let group_index := if ungrouped then kRaidUngrouped else i
  let group_max := if ungrouped then 72 else 6
  let group_members := group_members_of s group_index group_max
  if group_members = [] then f else
  let f := QueueByGroup.put_label s base x_max y_min y_max i f
  let f := group_members.foldl
    (fun f member => QueueByGroup.put s x_max y_min y_max (bar_cell g member) f) f
  if !s.setting_show_all || ungrouped then f else
  (List.range' group_members.length (6 - group_members.length)).foldl
    (fun f _ => QueueByGroup.put s x_max y_min y_max empty_cell f) f

/-- `RaidBars::QueueByGroup`; returns the new state and the cells placed, in order. -/
def RaidBars.QueueByGroup (g : Game) (s : RaidBars) (x_min y_min x_max y_max : ℚ) :
    RaidBars × List Cell :=
  let f := (List.range 13).foldl
    (QueueByGroup.group_step g s s.visible_list.length x_max y_min y_max)
    { flow := { x := x_min, y := y_min, cells := [] },
      visible_group_index := s.visible_group_index, returned := false }
  ({ s with
     visible_list := s.visible_list ++ f.flow.cells.map (fun c => c.entity)
     visible_group_index := f.visible_group_index }, f.flow.cells)

/-! ## Font and render pass -/

/-- `RaidBars::kUseDefaultFont`. -/
def kUseDefaultFont : String := "Default"

/-- `RaidBars::kDefaultFont`. -/
def kDefaultFont : String := "arial_08"

/-- Modelled from the spec: `ZealSetting<std::string>::set` of `zeal_settings.h` for
`setting_bitmap_font_filename`: the value is stored and the change callback of the setting,
`bitmap_font.reset()`, is invoked synchronously. -/
def RaidBars.set_setting_bitmap_font_filename (s : RaidBars) (v : String) : RaidBars :=
  { s with setting_bitmap_font_filename := v, bitmap_font := none }

/-- `std::roundf`: rounding to the nearest integer, halves away from zero. -/
def roundf (q : ℚ) : ℚ := if 0 ≤ q then (⌊q + 1 / 2⌋ : Int) else (⌈q - 1 / 2⌉ : Int)

/-- `RaidBars::LoadBitmapFont`: loads the font and derives the cell size from it. -/
def RaidBars.LoadBitmapFont (g : Game) (s : RaidBars) : RaidBars × List Emit :=
  if s.bitmap_font.isSome ∨ s.setting_bitmap_font_filename = "" then (s, []) else
  let font_filename := s.setting_bitmap_font_filename
  let is_default_font := decide (font_filename = "" ∨ font_filename = kUseDefaultFont)
  let font_filename := if is_default_font then kDefaultFont else font_filename
  let font := if g.has_device then g.create_bitmap_font font_filename else none
  match font with
  | none =>
    let out := [Emit.print_chat "Failed to load font: %s" [FmtArg.str font_filename]]
    if is_default_font then
      (s.set_setting_enabled false,
        out ++ [Emit.print_chat "Disabling raidbars due to font issue" []])
    else (s.set_setting_bitmap_font_filename kUseDefaultFont, out)
  | some font =>
    let bar_width : ℚ := (s.setting_bar_width : ℚ)
    let bar_width := if bar_width = 0 then roundf (font.measure_x * (9 / 10)) else bar_width
    let bar_width := max 10 (min 150 bar_width)
    let bar_height : ℚ := (s.setting_bar_height : ℚ)
    let bar_height := if bar_height = 0 then roundf (font.measure_y * (7 / 10)) else bar_height
    let bar_height := max 4 (min 50 bar_height)
    ({ s with
       bitmap_font := some { font with stats_bar_width := bar_width, stats_bar_height := bar_height }
       grid_width := max (font.measure_x + 1 / 4) (bar_width + 5)
       grid_height := max (font.text_height + 1 / 4) (bar_height + 2) }, [])

/-- The roster refresh of `CallbackRender`: `UpdateRaidMembers` runs when the dirty flag is set
or the update time is reached. -/
def RaidBars.render_update (g : Game) (s : RaidBars) (current_time_ms : Nat) : RaidBars :=
  if s.raid_update_dirty || decide (s.next_update_game_time_ms ≤ current_time_ms) then
    RaidBars.UpdateRaidMembers g
      { s with
        next_update_game_time_ms := (current_time_ms + 1000) % 2 ^ 32
        raid_update_dirty := false }
  else s

/-- The layout part of `CallbackRender` (from the computation of the position coordinates to the
call of `QueueByGroup` or `QueueByClass`), with coordinates and cell sizes taken as exact values;
returns the new state and the cells placed. The same part in the arithmetic of the compiled
program is `RaidBars.render_layout_f32`. -/
def RaidBars.render_layout (g : Game) (s : RaidBars) : RaidBars × List Cell :=
  let left := s.setting_position_left
  let top := s.setting_position_top
  let right :=
    if s.setting_position_right > left then s.setting_position_right else g.screen_resolution_x
  let bottom :=
    if s.setting_position_bottom > top then s.setting_position_bottom else g.screen_resolution_y
  let x_min : ℚ := (left : ℚ)
  let y_min : ℚ := (top : ℚ)
  let x_max : ℚ := (right : ℚ)
  let y_max : ℚ := (bottom : ℚ)
  let s := { s with grid_height_count_max := truncToInt ((y_max - y_min) / s.grid_height) }
  let s := { s with
             visible_list := []
             visible_group_index := List.replicate kNumGroupLabelSlots (-1) }
  if s.setting_group_sort then s.QueueByGroup g x_min y_min x_max y_max
  else s.QueueByClass g x_min y_min x_max y_max

/-- `RaidBars::CallbackRender`: one render pass; returns the new state, the chat output and the
cells placed. (The background rectangle and the flush of the draw queue do not touch the
state.) -/
def RaidBars.CallbackRender (g : Game) (s : RaidBars) : RaidBars × List Emit × List Cell :=
  if !s.setting_enabled || !g.is_in_game then (s, [], []) else
  if !g.is_in_raid then ((if s.bitmap_font.isSome then s.Clean else s), [], []) else
  match g.display with
  | none => (s, [], [])
  | some GameTimeMs =>
    if !g.is_gui_visible then (s, [], []) else
    if (s.LoadBitmapFont g).1.bitmap_font.isNone then
      ((s.LoadBitmapFont g).1, (s.LoadBitmapFont g).2, [])
    else
      ((((s.LoadBitmapFont g).1.render_update g GameTimeMs).render_layout g).1,
        (s.LoadBitmapFont g).2,
        (((s.LoadBitmapFont g).1.render_update g GameTimeMs).render_layout g).2)

/-! ## Management gestures -/

/-- `RaidBarsManage::GetRaidMemberNameAtIndex`. -/
def RaidBars.GetRaidMemberNameAtIndex (g : Game) (s : RaidBars) (index : Int) : String :=
  if index < 0 ∨ index ≥ (s.visible_list.length : Int) then "" else
  match s.visible_list.getD index.toNat none with
  | some p => (g.entity p).Name
  | none => ""

/-- `RaidBarsManage::FindFirstEmptyGroup`. -/
def FindFirstEmptyGroup (g : Game) : Int :=
  if !g.is_in_raid then -1 else
  match (List.range 12).find? (fun group => g.get_raid_group_count group == 0) with
  | some group => (group : Int)
  | none => -1

/-- `RaidBarsManage::HandleAltClick`: kick to ungrouped. -/
def RaidBars.HandleAltClick (g : Game) (s : RaidBars) (index : Int) :
    Bool × RaidBars × List Emit :=
  let s := { s with manage := { s.manage with move_pending_name := "" } }
  let name := s.GetRaidMemberNameAtIndex g index
  if name = "" then (true, s, []) else
  let group := g.get_raid_group_number name
  if group = kRaidUngrouped then
    (true, s, [Emit.print_chat "Player %s is already ungrouped." [FmtArg.str name]])
  else
    (true, s, [Emit.print_chat "Kicking %s to ungrouped." [FmtArg.str name],
               Emit.do_say "#raidmove %s 0" [FmtArg.str name]])

/-- `RaidBarsManage::HandleShiftClick`: promote to group leader. -/
def RaidBars.HandleShiftClick (g : Game) (s : RaidBars) (index : Int) :
    Bool × RaidBars × List Emit :=
  let s := { s with manage := { s.manage with move_pending_name := "" } }
  let name := s.GetRaidMemberNameAtIndex g index
  if name = "" then (true, s, []) else
  let group := g.get_raid_group_number name
  if group = kRaidUngrouped then
    let empty_group := FindFirstEmptyGroup g
    if empty_group < 0 then
      (true, s, [Emit.print_chat "No empty groups available to move %s into." [FmtArg.str name]])
    else
      (true, s, [Emit.print_chat "Moving %s to group %d." [FmtArg.str name, FmtArg.int (empty_group + 1)],
                 Emit.do_say "#raidmove %s %d" [FmtArg.str name, FmtArg.int (empty_group + 1)]])
  else
    (true, s, [Emit.print_chat "Promoting %s to group leader." [FmtArg.str name],
               Emit.do_say "#raidpromote %s" [FmtArg.str name]])

/-- The destination scan of `HandleCtrlClick` over the label index map: invisible slots are
skipped and every slot whose label index is `<= index` overwrites the destination. -/
def resolve_dest_group (visible_group_index : List Int) (index : Int) : Nat :=
  (List.range visible_group_index.length).foldl
    (fun dest_group group_slot =>
      if visible_group_index.getD group_slot (-1) = -1 then dest_group
      else if visible_group_index.getD group_slot (-1) ≤ index then
        (if group_slot = 12 then kRaidUngrouped else group_slot)
      else dest_group)
    kRaidUngrouped

/-- `RaidBarsManage::HandleCtrlClick`: select a player, then a destination group. -/
def RaidBars.HandleCtrlClick (g : Game) (s : RaidBars) (index : Int) :
    Bool × RaidBars × List Emit :=
  if s.manage.move_pending_name = "" then
    let name := s.GetRaidMemberNameAtIndex g index
    if name = "" then (true, s, []) else
    (true, { s with manage := { s.manage with move_pending_name := name } },
      [Emit.print_chat "Selected %s for move. Ctrl+Click a destination group." [FmtArg.str name]])
  else
  let pending := s.manage.move_pending_name
  let cleared := { s with manage := { s.manage with move_pending_name := "" } }
  let dest_group := resolve_dest_group s.visible_group_index index
  if dest_group = kRaidUngrouped then
    (true, cleared, [Emit.print_chat "Moving %s to ungrouped." [FmtArg.str pending],
                     Emit.do_say "#raidmove %s 0" [FmtArg.str pending]])
  else
    let group_count := g.get_raid_group_count dest_group
    if group_count ≥ 6 then
      (true, cleared,
        [Emit.print_chat "Group %d is full. Cannot move %s."
          [FmtArg.int ((dest_group : Int) + 1), FmtArg.str pending]])
    else
      (true, cleared,
        [Emit.print_chat "Moving %s to group %d." [FmtArg.str pending, FmtArg.int ((dest_group : Int) + 1)],
         Emit.do_say "#raidmove %s %d" [FmtArg.str pending, FmtArg.int ((dest_group : Int) + 1)]])

/-- `RaidBarsManage::HandleClick`: dispatch of a click on the modifier keys. -/
def RaidBars.HandleClick (g : Game) (s : RaidBars) (x y : Int) : Bool × RaidBars × List Emit :=
  if !s.manage.enabled || !s.setting_enabled || s.visible_list.isEmpty then (false, s, []) else
  match g.wnd_manager with
  | none => (false, s, [])
  | some wnd_mgr =>
    let shift := decide (wnd_mgr.ShiftKeyState ≠ 0)
    let ctrl := decide (wnd_mgr.ControlKeyState ≠ 0)
    let alt := decide (wnd_mgr.AltKeyState ≠ 0)
    if !shift && !ctrl && !alt then (false, s, []) else
    let index := s.CalcClickIndex x y
    if index < 0 then (false, s, []) else
    if alt && !shift && !ctrl then s.HandleAltClick g index else
    if shift && !ctrl && !alt then s.HandleShiftClick g index else
    if ctrl && !shift && !alt then s.HandleCtrlClick g index else
    (false, s, [])

/-- `RaidBarsManage::ParseManageArgs`: the `/raidbars manage <on | off>` command. The settings
`setting_group_sort`, `setting_clickable` and `setting_show_all` have no change callback. -/
def RaidBars.ParseManageArgs (s : RaidBars) (args : List String) : Bool × RaidBars × List Emit :=
  if args.length < 2 ∨ args.getD 1 "" ≠ "manage" then (false, s, []) else
  if args.length = 3 ∧ (args.getD 2 "" = "on" ∨ args.getD 2 "" = "off") then
    let s := { s with manage := { s.manage with enabled := decide (args.getD 2 "" = "on") } }
    if s.manage.enabled then
      let s := { s with setting_group_sort := true }
      let s := { s with setting_clickable := true }
      let s := { s with setting_show_all := true }
      let s := s.set_setting_enabled true
      let s := { s with manage := { s.manage with move_pending_name := "" } }
      (true, s,
        [Emit.print_chat "Raidbars manage mode ON" [],
         Emit.print_chat "Shift+Click = Promote to group leader" [],
         Emit.print_chat "Alt+Click   = Kick to ungrouped" [],
         Emit.print_chat "Ctrl+Click  = Select player then Ctrl+Click destination group" []])
    else
      let s := { s with manage := { s.manage with move_pending_name := "" } }
      (true, s, [Emit.print_chat "Raidbars manage mode OFF" []])
  else
    (true, s,
      [Emit.print_chat "Usage: /raidbars manage <on | off>" [],
       Emit.print_chat "Raidbars manage is %s" [FmtArg.str (if s.manage.enabled then "on" else "off")]])

/-- The state after the command `/raidbars manage off`. -/
def RaidBars.manage_off (s : RaidBars) : RaidBars :=
  (s.ParseManageArgs ["/raidbars", "manage", "off"]).2.1

/-- The state after the command `/raidbars manage on`. -/
def RaidBars.manage_on (s : RaidBars) : RaidBars :=
  (s.ParseManageArgs ["/raidbars", "manage", "on"]).2.1

/-! ## Commands -/

/-- Modelled from the spec: `ZealSetting<int>::set` of `zeal_settings.h` for `setting_bar_width`:
the value is stored and the change callback of the setting, `Clean()`, is invoked. -/
def RaidBars.set_setting_bar_width (s : RaidBars) (v : Int) : RaidBars :=
  RaidBars.Clean { s with setting_bar_width := v }

/-- Modelled from the spec: `ZealSetting<int>::set` of `zeal_settings.h` for
`setting_bar_height`: the value is stored and the change callback, `Clean()`, is invoked. -/
def RaidBars.set_setting_bar_height (s : RaidBars) (v : Int) : RaidBars :=
  RaidBars.Clean { s with setting_bar_height := v }

/-- The body shared word for word by `SyncClassAlways`, `SyncClassNever` and `SyncClassFilter`:
all flags are reset, then the flag of every recognised token of the list is set. -/
def sync_class_flags (g : Game) (flags : List Bool) (list : String) : List Bool :=
  let flags := flags.map (fun _ => false)
  if list = "" then flags else
  let list := g.toupper list
  let split := g.split_text list
  split.foldl
    (fun flags entry =>
      match find_class_index g kNumClasses entry with
      | some i => flags.set i true
      | none => flags)
    flags

/-- `RaidBars::SyncClassAlways`. -/
def RaidBars.SyncClassAlways (g : Game) (s : RaidBars) : RaidBars :=
  { s with class_always := sync_class_flags g s.class_always s.setting_class_always }

/-- `RaidBars::SyncClassNever`. -/
def RaidBars.SyncClassNever (g : Game) (s : RaidBars) : RaidBars :=
  { s with class_never := sync_class_flags g s.class_never s.setting_class_never }

/-- `RaidBars::SyncClassFilter`. -/
def RaidBars.SyncClassFilter (g : Game) (s : RaidBars) : RaidBars :=
  { s with class_filter := sync_class_flags g s.class_filter s.setting_class_filter }

/-- Modelled from the spec: `ZealSetting<std::string>::set` of `zeal_settings.h` for the four
class list settings: the value is stored and the change callback of the setting
(`SyncClassPriority`, `SyncClassAlways`, `SyncClassNever`, `SyncClassFilter`) is invoked. -/
def RaidBars.set_class_setting (g : Game) (s : RaidBars) (which text : String) : RaidBars :=
  if which = "priority" then RaidBars.SyncClassPriority g { s with setting_class_priority := text }
  else if which = "always" then RaidBars.SyncClassAlways g { s with setting_class_always := text }
  else if which = "never" then RaidBars.SyncClassNever g { s with setting_class_never := text }
  else if which = "filter" then RaidBars.SyncClassFilter g { s with setting_class_filter := text }
  else s

/-- The list of short class names of the set flags, each preceded by a blank. -/
def flag_names (g : Game) (flags : List Bool) : String :=
  (List.range flags.length).foldl
    (fun list i =>
      if flags.getD i false then list ++ (" " ++ g.class_name_short (i + kClassIndexOffset))
      else list)
    ""

/-- `RaidBars::DumpClassSettings`: the four lines it prints (each message is passed as the
format string). -/
def RaidBars.DumpClassSettings (g : Game) (s : RaidBars) : List Emit :=
  [Emit.print_chat
     ("RaidBars class priority:" ++
       s.class_priority.foldl
         (fun list value => list ++ (" " ++ g.class_name_short (value + kClassIndexOffset))) "")
     [],
   Emit.print_chat ("RaidBars class always:" ++ flag_names g s.class_always) [],
   Emit.print_chat ("RaidBars class never:" ++ flag_names g s.class_never) [],
   Emit.print_chat ("RaidBars class filter:" ++ flag_names g s.class_filter) []]

/-- `RaidBars::HandleSetGrid`: derives the right and bottom edges from a grid size. -/
def RaidBars.HandleSetGrid (g : Game) (s : RaidBars) (num_rows num_cols : Int) :
    Bool × RaidBars × List Emit :=
  if num_rows ≤ 0 ∨ num_rows > 100 ∨ num_cols ≤ 0 ∨ num_cols > 100 then
    (false, s, [Emit.print_chat "Error: num_rows and num_cols must be between 1 and 100" []])
  else
  let loaded := s.LoadBitmapFont g
  let s := loaded.1
  if s.bitmap_font.isNone ∨ s.grid_height ≤ 0 ∨ s.grid_width ≤ 0 then (false, s, loaded.2) else
  let max_rows : Int :=
    truncToInt (((g.screen_resolution_y - s.setting_position_top : Int) : ℚ) / s.grid_height)
  let max_cols : Int :=
    truncToInt (((g.screen_resolution_x - s.setting_position_left : Int) : ℚ) / s.grid_width)
  if max_rows ≤ 0 ∨ max_cols ≤ 0 then
    (false, s, loaded.2 ++
      [Emit.print_chat
        "Error: Can not fit any on screen. Reduce /raidbar positions left or top." []])
  else
  let num_rows := min num_rows max_rows
  let num_cols := min num_cols max_cols
  let bottom : ℚ := (s.setting_position_top : ℚ) + (num_rows : ℚ) * s.grid_height
  let right : ℚ := (s.setting_position_left : ℚ) + (num_cols : ℚ) * s.grid_width
  (true,
    { s with setting_position_bottom := ⌈bottom⌉, setting_position_right := ⌈right⌉ },
    loaded.2 ++
      [Emit.print_chat "Setting grid to %d rows by %d cols"
        [FmtArg.int num_rows, FmtArg.int num_cols]])

/-- Modelled from the spec: `ZealSetting<bool>::toggle` of `zeal_settings.h` for
`setting_enabled`: the negated value is stored through `set`, which invokes `Clean()`. -/
def RaidBars.toggle_setting_enabled (s : RaidBars) : RaidBars :=
  s.set_setting_enabled (!s.setting_enabled)

/-- The text `on` or `off` printed for a boolean setting. -/
def on_off (b : Bool) : FmtArg := FmtArg.str (if b then "on" else "off")

/-- The line `Raidbars position set to (%d, %d, %d, %d)` of `ParseArgs`. -/
def position_line (s : RaidBars) : Emit :=
  Emit.print_chat "Raidbars position set to (%d, %d, %d, %d)"
    [FmtArg.int s.setting_position_left, FmtArg.int s.setting_position_top,
     FmtArg.int s.setting_position_right, FmtArg.int s.setting_position_bottom]

/-- The `groups` block of `ParseArgs`; `setting_group_sort` has no change callback, and
`toggle` stores the negated value. -/
def ParseArgs.groups (s : RaidBars) (args : List String) : RaidBars × List Emit :=
  if args.length = 3 ∧ (args.getD 2 "" = "on" ∨ args.getD 2 "" = "off") then
    let s := { s with setting_group_sort := decide (args.getD 2 "" = "on") }
    (s, [Emit.print_chat "Raidbars sort by groups is set to %s" [on_off s.setting_group_sort]])
  else if args.length = 3 ∧ args.getD 2 "" = "toggle" then
    let s := { s with setting_group_sort := !s.setting_group_sort }
    (s, [Emit.print_chat "Raidbars sort by groups is set to %s" [on_off s.setting_group_sort]])
  else if args.length ≠ 2 then
    (s, [Emit.print_chat "Usage: /raidbars groups <on | off | toggle>" [],
         Emit.print_chat "Raidbars sort by groups is set to %s" [on_off s.setting_group_sort]])
  else
    (s, [Emit.print_chat "Raidbars sort by groups is set to %s" [on_off s.setting_group_sort]])

/-- The `font` block of `ParseArgs`. -/
def ParseArgs.font (g : Game) (s : RaidBars) (args : List String) : RaidBars × List Emit :=
  if args.length = 3 then
    let s := s.set_setting_bitmap_font_filename (args.getD 2 "")
    (s, [Emit.print_chat "Font filename set to %s" [FmtArg.str s.setting_bitmap_font_filename]])
  else
    (s, [Emit.print_chat "Usage: /raidbars font <fontname> where fontname is one of:" []] ++
        g.get_available_fonts.map (fun font => Emit.print_chat font []) ++
        [Emit.print_chat "Font filename set to %s" [FmtArg.str s.setting_bitmap_font_filename]])

/-- The `barwidth` block of `ParseArgs`. -/
def ParseArgs.barwidth (g : Game) (s : RaidBars) (args : List String) : RaidBars × List Emit :=
  match (if args.length = 3 then g.tryParse (args.getD 2 "") false else none) with
  | some width =>
    let s := s.set_setting_bar_width width
    (s, [Emit.print_chat "Bar width set to %d" [FmtArg.int s.setting_bar_width]])
  | none =>
    (s, [Emit.print_chat "Usage: '/raidbars barwidth value' where 0 = use auto-scale" [],
         Emit.print_chat "Bar width set to %d" [FmtArg.int s.setting_bar_width]])

/-- The `barheight` block of `ParseArgs`. -/
def ParseArgs.barheight (g : Game) (s : RaidBars) (args : List String) : RaidBars × List Emit :=
  match (if args.length = 3 then g.tryParse (args.getD 2 "") false else none) with
  | some height =>
    let s := s.set_setting_bar_height height
    (s, [Emit.print_chat "Bar height set to %d" [FmtArg.int s.setting_bar_height]])
  | none =>
    (s, [Emit.print_chat "Usage: '/raidbars barheight value' where 0 = use auto-scale" [],
         Emit.print_chat "Bar height set to %d" [FmtArg.int s.setting_bar_height]])

/-- The coordinates parsed by the `position` block of `ParseArgs`, as `(left, top, right,
bottom)`; `none` when `valid` stays false after parsing (`&&` stops at the first failure).
Only lists of four or six arguments are parsed. -/
def ParseArgs.position_parse (g : Game) (args : List String) : Option (Int × Int × Int × Int) :=
  if args.length = 4 then
    match g.tryParse (args.getD 2 "") true, g.tryParse (args.getD 3 "") true with
    | some left, some top => some (left, top, 0, 0)
    | _, _ => none
  else if args.length = 6 then
    match g.tryParse (args.getD 2 "") true, g.tryParse (args.getD 3 "") true,
      g.tryParse (args.getD 4 "") true, g.tryParse (args.getD 5 "") true with
    | some left, some top, some right, some bottom => some (left, top, right, bottom)
    | _, _, _, _ => none
  else none

/-- The `position` block of `ParseArgs`; the first component tells whether the block returned
(otherwise control falls through to the blocks below). -/
def ParseArgs.position (g : Game) (s : RaidBars) (args : List String) :
    Bool × RaidBars × List Emit :=
  match ParseArgs.position_parse g args with
  | some (left, top, right, bottom) =>
    if left < 0 ∨ (right ≠ 0 ∧ right < left) ∨ top < 0 ∨ (bottom ≠ 0 ∧ bottom < top) then
      (false, s, [Emit.print_chat "Invalid position coordinates" []])
    else
      let s := { s with setting_position_left := left, setting_position_top := top,
                        setting_position_right := right, setting_position_bottom := bottom }
      (true, s, [position_line s])
  | none =>
    if args.length = 2 then (true, s, [position_line s]) else (false, s, [])

/-- The `grid` block of `ParseArgs`. -/
def ParseArgs.grid (g : Game) (s : RaidBars) (args : List String) : RaidBars × List Emit :=
  match (if args.length = 4 then g.tryParse (args.getD 2 "") true else none),
    (if args.length = 4 then g.tryParse (args.getD 3 "") true else none) with
  | some rows, some columns =>
    let r := s.HandleSetGrid g rows columns
    if r.1 then (r.2.1, r.2.2 ++ [position_line r.2.1])
    else (r.2.1, r.2.2 ++ [Emit.print_chat "Usage: /raidbars grid <num_rows> <num_cols>" []])
  | _, _ => (s, [Emit.print_chat "Usage: /raidbars grid <num_rows> <num_cols>" []])

/-- The `showall` block of `ParseArgs`; `setting_show_all` has no change callback, and
`toggle` stores the negated value. -/
def ParseArgs.showall (s : RaidBars) (args : List String) : RaidBars × List Emit :=
  if args.length = 3 ∧ (args.getD 2 "" = "on" ∨ args.getD 2 "" = "off") then
    let s := { s with setting_show_all := decide (args.getD 2 "" = "on") }
    (s, [Emit.print_chat "Raidbars showall is set to %s" [on_off s.setting_show_all]])
  else if args.length = 3 ∧ args.getD 2 "" = "toggle" then
    let s := { s with setting_show_all := !s.setting_show_all }
    (s, [Emit.print_chat "Raidbars showall is set to %s" [on_off s.setting_show_all]])
  else if args.length ≠ 2 then
    (s, [Emit.print_chat "Usage: /raidbars showall <on | off | toggle>" [],
         Emit.print_chat "Raidbars showall is set to %s" [on_off s.setting_show_all]])
  else
    (s, [Emit.print_chat "Raidbars showall is set to %s" [on_off s.setting_show_all]])

/-- The `clickable` block of `ParseArgs`. -/
def ParseArgs.clickable (s : RaidBars) (args : List String) : RaidBars × List Emit :=
  let s :=
    if args.length = 3 ∧ (args.getD 2 "" = "on" ∨ args.getD 2 "" = "off") then
      { s with setting_clickable := decide (args.getD 2 "" = "on") }
    else s
  (s, [Emit.print_chat "Raidbars clickable is set to %s" [on_off s.setting_clickable]])

/-- The `background` block of `ParseArgs`. -/
def ParseArgs.background (g : Game) (s : RaidBars) (args : List String) : RaidBars × List Emit :=
  match (if args.length = 3 then g.tryParse (args.getD 2 "") true else none) with
  | some alpha =>
    if alpha ≥ 0 ∧ alpha ≤ 100 then
      let s := { s with setting_background_alpha := alpha }
      (s, [Emit.print_chat "Raidbars background alpha is set to %d%%"
            [FmtArg.int s.setting_background_alpha]])
    else
      (s, [Emit.print_chat
            "Usage: /raidbars background <alpha> (0 to 100 = invisible to solid black)" [],
           Emit.print_chat "Raidbars background alpha is set to %d%%"
            [FmtArg.int s.setting_background_alpha]])
  | none =>
    if args.length ≠ 2 then
      (s, [Emit.print_chat
            "Usage: /raidbars background <alpha> (0 to 100 = invisible to solid black)" [],
           Emit.print_chat "Raidbars background alpha is set to %d%%"
            [FmtArg.int s.setting_background_alpha]])
    else
      (s, [Emit.print_chat "Raidbars background alpha is set to %d%%"
            [FmtArg.int s.setting_background_alpha]])

/-- The `threshold` block of `ParseArgs`. -/
def ParseArgs.threshold (g : Game) (s : RaidBars) (args : List String) : RaidBars × List Emit :=
  match (if args.length = 3 then g.tryParse (args.getD 2 "") true else none) with
  | some threshold =>
    if threshold ≥ 0 ∧ threshold ≤ 100 then
      let s := { s with setting_show_threshold := threshold }
      (s, [Emit.print_chat "Raidbars filter threshold is set to show values <= to %d%%"
            [FmtArg.int s.setting_show_threshold]])
    else
      (s, [Emit.print_chat
            "Usage: /raidbars threshold <value> (0 to 100, applies to /raidbars filter <classes>)"
            [],
           Emit.print_chat "Raidbars filter threshold is set to show values <= to %d%%"
            [FmtArg.int s.setting_show_threshold]])
  | none =>
    if args.length ≠ 2 then
      (s, [Emit.print_chat
            "Usage: /raidbars threshold <value> (0 to 100, applies to /raidbars filter <classes>)"
            [],
           Emit.print_chat "Raidbars filter threshold is set to show values <= to %d%%"
            [FmtArg.int s.setting_show_threshold]])
    else
      (s, [Emit.print_chat "Raidbars filter threshold is set to show values <= to %d%%"
            [FmtArg.int s.setting_show_threshold]])

/-- The `priority | always | never | filter` block of `ParseArgs`: with more than two arguments
the rest of the line, joined by blanks and upper-cased, is stored in the setting. -/
def ParseArgs.class_list (g : Game) (s : RaidBars) (args : List String) : RaidBars × List Emit :=
  let s :=
    if args.length > 2 then
      let text := (args.drop 3).foldl (fun text arg => text ++ (" " ++ arg)) (args.getD 2 "")
      s.set_class_setting g (args.getD 1 "") (g.toupper text)
    else s
  (s, s.DumpClassSettings g)

/-- The usage text at the end of `ParseArgs`. -/
def ParseArgs.usage : List Emit :=
  [Emit.print_chat "Usage: /raidbars <on | off | toggle>" [],
   Emit.print_chat "Usage: /raidbars manage <on | off>" [],
   Emit.print_chat "Usage: /raidbars position <left> <top> [<right> <bottom>]" [],
   Emit.print_chat "Note: right and bottom are screen coordinates relative to upper left" [],
   Emit.print_chat "Usage: /raidbars grid <num_rows> <num_cols> (auto-calcs right and bottom)" [],
   Emit.print_chat "Usage: /raidbars background <alpha> (0 to 100 = invisible to solid black)" [],
   Emit.print_chat "Usage: /raidbars [barheight | barwidth] <value> (0 = autoscale to font)" [],
   Emit.print_chat "Usage: /raidbars font font_filename" [],
   Emit.print_chat "Usage: /raidbars clickable <on | off>" [],
   Emit.print_chat "Usage: /raidbars groups <on | off | toggle>" [],
   Emit.print_chat "Usage: /raidbars showall <on | off | toggle>" [],
   Emit.print_chat "Usage: /raidbars always <class list> where list is like 'WAR PAL SHD'" [],
   Emit.print_chat "Usage: /raidbars never <class list> where list is like 'WAR PAL SHD'" [],
   Emit.print_chat "Usage: /raidbars priority <class list> where list is like 'WAR PAL SHD ENC'"
     [],
   Emit.print_chat "Usage: /raidbars filter <class list> where list is like 'WAR PAL SHD'" [],
   Emit.print_chat "Usage: /raidbars threshold <value> (filtered class shown with hp % <= value)"
     []]

/-- The blocks of `ParseArgs` below the `position` block. -/
def ParseArgs.rest (g : Game) (s : RaidBars) (args : List String) : RaidBars × List Emit :=
  if args.length ≥ 2 ∧ args.getD 1 "" = "grid" then ParseArgs.grid g s args
  else if args.length ≥ 2 ∧ args.getD 1 "" = "showall" then ParseArgs.showall s args
  else if args.length ≥ 2 ∧ args.getD 1 "" = "clickable" then ParseArgs.clickable s args
  else if args.length ≥ 2 ∧ args.getD 1 "" = "background" then ParseArgs.background g s args
  else if args.length ≥ 2 ∧ args.getD 1 "" = "threshold" then ParseArgs.threshold g s args
  else if args.length ≥ 2 ∧ (args.getD 1 "" = "priority" ∨ args.getD 1 "" = "always" ∨
      args.getD 1 "" = "never" ∨ args.getD 1 "" = "filter") then ParseArgs.class_list g s args
  else (s, ParseArgs.usage)

/-- `RaidBars::ParseArgs`: the `/raidbars` command. -/
def RaidBars.ParseArgs (g : Game) (s : RaidBars) (args : List String) : RaidBars × List Emit :=
  if args.length = 2 ∧ (args.getD 1 "" = "on" ∨ args.getD 1 "" = "off") then
    let s := s.set_setting_enabled (decide (args.getD 1 "" = "on"))
    (s, [Emit.print_chat "Raidbars are %s" [on_off s.setting_enabled]])
  else if args.length = 2 ∧ args.getD 1 "" = "toggle" then
    let s := s.toggle_setting_enabled
    (s, [Emit.print_chat "Raidbars are %s" [on_off s.setting_enabled]])
  else if (s.ParseManageArgs args).1 then ((s.ParseManageArgs args).2.1, (s.ParseManageArgs args).2.2)
  else if args.length ≥ 2 ∧ args.getD 1 "" = "groups" then ParseArgs.groups s args
  else if args.length > 1 ∧ args.getD 1 "" = "font" then ParseArgs.font g s args
  else if args.length > 1 ∧ args.getD 1 "" = "barwidth" then ParseArgs.barwidth g s args
  else if args.length > 1 ∧ args.getD 1 "" = "barheight" then ParseArgs.barheight g s args
  else if args.length ≥ 2 ∧ args.getD 1 "" = "position" then
    let p := ParseArgs.position g s args
    if p.1 then (p.2.1, p.2.2)
    else ((ParseArgs.rest g p.2.1 args).1, p.2.2 ++ (ParseArgs.rest g p.2.1 args).2)
  else ParseArgs.rest g s args

/-- Opcode of a world message: the roster update `Zeal::Packets::RaidUpdate`, or any other. -/
inductive Opcode where
  | RaidUpdate
  | other (code : Nat)
deriving DecidableEq, Repr

/-- The `WorldMessage` packet callback registered in the constructor of `RaidBars`. -/
def RaidBars.WorldMessage (s : RaidBars) (opcode : Opcode) : RaidBars :=
  if opcode = Opcode.RaidUpdate then { s with raid_update_dirty := true } else s

/-- `RaidBars::HandleLMouseUp`: returns whether the click was consumed, the new state, the chat
output and the entity passed to `Zeal::Game::set_target`, if any. -/
def RaidBars.HandleLMouseUp (g : Game) (s : RaidBars) (x y : Int) :
    Bool × RaidBars × List Emit × Option EntityPtr :=
  if !s.setting_enabled || s.visible_list.isEmpty then (false, s, [], none) else
  if !s.setting_clickable then (false, s, [], none) else
  if g.waiting_for_ack then (false, s, [], none) else
  if g.rmb_down then (false, s, [], none) else
  let r := s.HandleClick g x y
  if r.1 then (true, r.2.1, r.2.2, none) else
  let s := r.2.1
  let index := s.CalcClickIndex x y
  if index < 0 then (false, s, r.2.2, none) else
  match s.visible_list.getD index.toNat none with
  | none => (false, s, r.2.2, none)
  | some entity => (true, s, r.2.2, some entity)

/-- The notifications the constructor of `RaidBars` registers a handler for: the render
callback, the four callbacks bound to `Clean()` (`EnterZone`, `CleanUI`, `DXReset`,
`DXCleanDevice`), the `WorldMessage` packet callback, the `EntityDespawn` callback, the
`LMouseUp` hook and the `/raidbars` command. -/
inductive Event where
  | render
  | clean
  | packet (opcode : Opcode)
  | despawn (entity : Option EntityPtr)
  | click (x y : Int)
  | command (args : List String)
deriving DecidableEq, Repr

/-- The handler registered for each notification, as a state transformer (the game side is the
one current at the time of the notification). -/
def RaidBars.handle (g : Game) (s : RaidBars) : Event → RaidBars
  | .render => (s.CallbackRender g).1
  | .clean => s.Clean
  | .packet opcode => s.WorldMessage opcode
  | .despawn entity => s.EntityDespawn g entity
  | .click x y => (s.HandleLMouseUp g x y).2.1
  | .command args => (s.ParseArgs g args).1

/-- The second half of `HandleCtrlClick` (a name is pending), once the destination scan has
produced `dest_group`: the pending name is cleared and the move is announced and requested,
unless the destination group is full. -/
def RaidBars.move_pending (g : Game) (s : RaidBars) (dest_group : Nat) :
    Bool × RaidBars × List Emit :=
  let pending := s.manage.move_pending_name
  let cleared := { s with manage := { s.manage with move_pending_name := "" } }
  if dest_group = kRaidUngrouped then
    (true, cleared, [Emit.print_chat "Moving %s to ungrouped." [FmtArg.str pending],
                     Emit.do_say "#raidmove %s 0" [FmtArg.str pending]])
  else
    let group_count := g.get_raid_group_count dest_group
    if group_count ≥ 6 then
      (true, cleared,
        [Emit.print_chat "Group %d is full. Cannot move %s."
          [FmtArg.int ((dest_group : Int) + 1), FmtArg.str pending]])
    else
      (true, cleared,
        [Emit.print_chat "Moving %s to group %d." [FmtArg.str pending, FmtArg.int ((dest_group : Int) + 1)],
         Emit.do_say "#raidmove %s %d" [FmtArg.str pending, FmtArg.int ((dest_group : Int) + 1)]])

/-! ## Machine arithmetic -/

/-- Upward search for the spacing of the binary32 values around `q >= 2 ^ 24`: starting from
`u`, the spacing is doubled while `q` has more than 24 significant bits in units of `u`. -/
def f32_ulp_from : Nat → ℚ → ℚ → ℚ
  | 0, _, u => u
  | fuel + 1, q, u => if 2 ^ 24 * u ≤ q then f32_ulp_from fuel q (2 * u) else u

/-- Downward search for the spacing of the binary32 values around `0 <= q < 2 ^ 24`: starting
from `u`, the spacing is halved while `q` has fewer than 24 significant bits in units of `u`;
the search stops at the spacing of the subnormal values. -/
def f32_ulp_down : Nat → ℚ → ℚ → ℚ
  | 0, _, u => u
  | fuel + 1, q, u => if q < 2 ^ 23 * u then f32_ulp_down fuel q (u / 2) else u

/-- The spacing of the binary32 (IEEE 754 single precision) values around `q`: `2 ^ (e - 23)`
for `2 ^ e <= |q| < 2 ^ (e + 1)`, and `2 ^ (-149)` in the subnormal range. Magnitudes of
`2 ^ 128` and above, which round to infinity, are outside the model. -/
def f32_ulp (q : ℚ) : ℚ :=
  if 2 ^ 24 ≤ (if q < 0 then -q else q) then f32_ulp_from 104 (if q < 0 then -q else q) 1
  else f32_ulp_down 149 (if q < 0 then -q else q) 1

/-- Rounding to the nearest integer, a tie going to the even one. -/
def round_half_even (t : ℚ) : Int :=
  if t - (⌊t⌋ : ℚ) < 1 / 2 then ⌊t⌋
  else if 1 / 2 < t - (⌊t⌋ : ℚ) then ⌊t⌋ + 1
  else if ⌊t⌋ % 2 = 0 then ⌊t⌋ else ⌊t⌋ + 1

/-- The binary32 value of a real `q`: the result of a `float` operation whose exact value is
`q` (round to nearest, ties to even). -/
def f32 (q : ℚ) : ℚ := (round_half_even (q / f32_ulp q) : ℚ) * f32_ulp q

/-- A 32-bit two's complement `int` holding the low 32 bits of `z`. -/
def wrap32 (z : Int) : Int := (z + 2 ^ 31) % 2 ^ 32 - 2 ^ 31

/-- `static_cast<int>` of a `float` on x86: truncation toward zero, and `INT_MIN` when the value
does not fit an `int`. -/
def cast_int (q : ℚ) : Int :=
  if -(2 ^ 31 : Int) ≤ truncToInt q ∧ truncToInt q < 2 ^ 31 then truncToInt q else -(2 ^ 31)

/-! ## Layout and hit test in machine arithmetic

The definitions of this section repeat `flow_wrap`, the two layout passes, the layout part of
`CallbackRender` and `CalcClickIndex` with the arithmetic of the compiled program: every `float`
operation is rounded to binary32 by `f32`, every `int` operation keeps 32 bits (`wrap32`), and a
`float` is converted to `int` by `cast_int`. The cells are those of the exact passes (`bar_cell`,
`label_cell`, `empty_cell`); only the loop variables `x` and `y` are rounded. -/

/-- The column wrap `if (y + grid_height > y_max) { y = y_min; x += grid_width; }` on `float`
variables. -/
def flow_wrap_f32 (grid_width grid_height y_min y_max : ℚ) (f : Flow) : Flow :=
  if f32 (f.y + grid_height) > y_max then { f with y := y_min, x := f32 (f.x + grid_width) }
  else f

/-- Inner loop of `QueueByClass` over the members of one class, on `float` variables. -/
def QueueByClass_f32.members (g : Game) (s : RaidBars) (x_max y_min y_max : ℚ)
    (show_class : Bool) (threshold : Int) : List RaidMember → Flow → Flow
  | [], f => f
  | member :: rest, f =>
    let f := flow_wrap_f32 s.grid_width s.grid_height y_min y_max f
    if f32 (f.x + s.grid_width) > x_max then f else
    if member.entity = g.self then
      QueueByClass_f32.members g s x_max y_min y_max show_class threshold rest f
    else if hp_percent_of g member.entity ≥ threshold ∧ show_class = false then
      QueueByClass_f32.members g s x_max y_min y_max show_class threshold rest f
    else
      QueueByClass_f32.members g s x_max y_min y_max show_class threshold rest
        { f with
          cells := f.cells ++ [bar_cell g member f.x f.y], y := f32 (f.y + s.grid_height) }

/-- Body of the outer loop of `QueueByClass` for one entry of `class_priority`, on `float`
variables. -/
def QueueByClass_f32.class_step (g : Game) (s : RaidBars) (x_max y_min y_max : ℚ) (f : Flow)
    (class_index : Nat) : Flow :=
  let group := s.raid_classes.getD class_index []
  if group = [] ∨ s.class_never.getD class_index false = true then f else
  let show_class := s.setting_show_all || s.class_always.getD class_index false
  let threshold : Int :=
    if s.class_filter.getD class_index false then s.setting_show_threshold else 99
  QueueByClass_f32.members g s x_max y_min y_max show_class threshold group f

/-- `RaidBars::QueueByClass` on `float` variables; returns the new state and the cells placed. -/
def RaidBars.QueueByClass_f32 (g : Game) (s : RaidBars) (x_min y_min x_max y_max : ℚ) :
    RaidBars × List Cell :=
  let f := s.class_priority.foldl (QueueByClass_f32.class_step g s x_max y_min y_max)
    { x := x_min, y := y_min, cells := [] }
  ({ s with visible_list := s.visible_list ++ f.cells.map (fun c => c.entity) }, f.cells)

/-- One placement of `QueueByGroup` on `float` variables. -/
def QueueByGroup_f32.put (s : RaidBars) (x_max y_min y_max : ℚ) (mk : ℚ → ℚ → Cell)
    (f : GroupFlow) : GroupFlow :=
  if f.returned then f else
  let fl := flow_wrap_f32 s.grid_width s.grid_height y_min y_max f.flow
  if f32 (fl.x + s.grid_width) > x_max then { f with flow := fl, returned := true } else
  { f with
    flow := { fl with cells := fl.cells ++ [mk fl.x fl.y], y := f32 (fl.y + s.grid_height) } }

/-- Placement of the label of slot `i` in `QueueByGroup` on `float` variables. -/
def QueueByGroup_f32.put_label (s : RaidBars) (base : Nat) (x_max y_min y_max : ℚ) (i : Nat)
    (f : GroupFlow) : GroupFlow :=
  if f.returned then f else
  let fl := flow_wrap_f32 s.grid_width s.grid_height y_min y_max f.flow
  if f32 (fl.x + s.grid_width) > x_max then { f with flow := fl, returned := true } else
  { f with
    visible_group_index := f.visible_group_index.set i ((base + fl.cells.length : Nat) : Int)
    flow :=
      { fl with
        cells := fl.cells ++ [label_cell s i fl.x fl.y], y := f32 (fl.y + s.grid_height) } }

/-- Body of the main loop of `QueueByGroup` for group slot `i`, on `float` variables. -/
def QueueByGroup_f32.group_step (g : Game) (s : RaidBars) (base : Nat) (x_max y_min y_max : ℚ)
    (f : GroupFlow) (i : Nat) : GroupFlow :=
  if f.returned then f else
  let ungrouped := decide (i = 12)
  let group_index := if ungrouped then kRaidUngrouped else i
  let group_max := if ungrouped then 72 else 6
  let group_members := group_members_of s group_index group_max
  if group_members = [] then f else
  let f := QueueByGroup_f32.put_label s base x_max y_min y_max i f
  let f := group_members.foldl
    (fun f member => QueueByGroup_f32.put s x_max y_min y_max (bar_cell g member) f) f
  if !s.setting_show_all || ungrouped then f else
  (List.range' group_members.length (6 - group_members.length)).foldl
    (fun f _ => QueueByGroup_f32.put s x_max y_min y_max empty_cell f) f

/-- `RaidBars::QueueByGroup` on `float` variables; returns the new state and the cells placed. -/
def RaidBars.QueueByGroup_f32 (g : Game) (s : RaidBars) (x_min y_min x_max y_max : ℚ) :
    RaidBars × List Cell :=
  let f := (List.range 13).foldl
    (QueueByGroup_f32.group_step g s s.visible_list.length x_max y_min y_max)
    { flow := { x := x_min, y := y_min, cells := [] },
      visible_group_index := s.visible_group_index, returned := false }
  ({ s with
     visible_list := s.visible_list ++ f.flow.cells.map (fun c => c.entity)
     visible_group_index := f.visible_group_index }, f.flow.cells)

/-- The layout part of `CallbackRender` in machine arithmetic: the `int` coordinates are
converted to `float`, `grid_height_count_max` is the `float` quotient converted to `int`. -/
def RaidBars.render_layout_f32 (g : Game) (s : RaidBars) : RaidBars × List Cell :=
  let left := s.setting_position_left
  let top := s.setting_position_top
  let right :=
    if s.setting_position_right > left then s.setting_position_right else g.screen_resolution_x
  let bottom :=
    if s.setting_position_bottom > top then s.setting_position_bottom else g.screen_resolution_y
  let x_min : ℚ := f32 (left : ℚ)
  let y_min : ℚ := f32 (top : ℚ)
  let x_max : ℚ := f32 (right : ℚ)
  let y_max : ℚ := f32 (bottom : ℚ)
  let s := { s with
             grid_height_count_max := cast_int (f32 (f32 (y_max - y_min) / s.grid_height)) }
  let s := { s with
             visible_list := []
             visible_group_index := List.replicate kNumGroupLabelSlots (-1) }
  if s.setting_group_sort then s.QueueByGroup_f32 g x_min y_min x_max y_max
  else s.QueueByClass_f32 g x_min y_min x_max y_max

/-- `RaidBars::CalcClickIndex` in machine arithmetic: `float` subtraction and division, the
quotients converted to `int`, and the index computed on 32-bit `int` values. -/
def RaidBars.CalcClickIndex_f32 (s : RaidBars) (x y : Int) : Int :=
  let x_min : ℚ := f32 (s.setting_position_left : ℚ)
  let y_min : ℚ := f32 (s.setting_position_top : ℚ)
  if (x : ℚ) < x_min ∨ (y : ℚ) < y_min then -1 else
  let click_row_index : Int := cast_int (f32 (f32 ((y : ℚ) - y_min) / s.grid_height))
  if click_row_index ≥ s.grid_height_count_max then -1 else
  let click_column_index : Int := cast_int (f32 (f32 ((x : ℚ) - x_min) / s.grid_width))
  let click_column_start : Int := wrap32 (click_column_index * s.grid_height_count_max)
  let column_row_index_max : Int :=
    wrap32 (wrap32 (s.visible_list.length : Int) - click_column_start)
  if column_row_index_max < 0 ∨ click_row_index ≥ column_row_index_max then -1 else
  let index : Int := wrap32 (click_column_start + click_row_index)
  if index < 0 ∨ index ≥ (s.visible_list.length : Int) then -1 else
  index

/-! ## Example data -/

/-- A font whose sample text gives cells of 50 by 20 with the bar settings of `example_bars`. -/
def example_font : BitmapFont :=
  { measure_x := 199 / 4, measure_y := 10, text_height := 79 / 4, line_spacing := 8,
    stats_bar_width := 40, stats_bar_height := 10 }

/-- The roster snapshot of the example raid (`example_game`), as `UpdateRaidMembers` builds it. -/
def example_classes : List (List RaidMember) :=
  [[{ name := "Anna", entity := some 1, color := 0xFFFFFFFF, group_number := 0,
      is_group_leader := false },
    { name := "Zed", entity := some 3, color := 0xFFFFFFFF, group_number := 0,
      is_group_leader := true }],
   [{ name := "Mona", entity := some 2, color := 0xFFFFFFFF, group_number := 2,
      is_group_leader := true }],
   [], [], [], [],
   [{ name := "Foo", entity := none, color := 0xFFFFFFFF, group_number := kRaidUngrouped,
      is_group_leader := false }],
   [], [], [], [],
   [{ name := "Otto", entity := none, color := 0xFFFFFFFF, group_number := 2,
      is_group_leader := false }],
   [], [], []]

/-- An enabled overlay with the font loaded, viewport (10,10)-(110,70), cells of 50 by 20 and the
roster snapshot of the example raid taken at game time 5000. -/
def example_bars : RaidBars :=
  { setting_enabled := true, setting_clickable := true,
    setting_position_left := 10, setting_position_top := 10,
    setting_position_right := 110, setting_position_bottom := 70,
    setting_bar_width := 40, setting_bar_height := 10,
    setting_show_all := false, setting_group_sort := false,
    setting_show_threshold := 100, setting_background_alpha := 0,
    setting_class_priority := "", setting_class_always := "", setting_class_never := "",
    setting_class_filter := "", setting_bitmap_font_filename := "Default",
    next_update_game_time_ms := 6000, raid_update_dirty := false,
    bitmap_font := some example_font, grid_height := 20, grid_width := 50,
    grid_height_count_max := 0,
    raid_classes := example_classes,
    class_priority := default_class_priority,
    class_always := List.replicate 15 false, class_never := List.replicate 15 false,
    class_filter := List.replicate 15 false,
    visible_list := [], visible_group_index := List.replicate 13 (-1),
    manage := { enabled := true, move_pending_name := "" } }

/-- The entities of the example zone: Anna at address 1, Mona at address 2, Zed at address 3,
the player itself at address 9. -/
def example_entity (p : EntityPtr) : Entity :=
  if p = 1 then { Name := "Anna", Type_ := EntityTypes.Player, HpCurrent := 50, HpMax := 100 }
  else if p = 2 then { Name := "Mona", Type_ := EntityTypes.Player, HpCurrent := 80, HpMax := 100 }
  else if p = 3 then { Name := "Zed", Type_ := EntityTypes.Player, HpCurrent := 10, HpMax := 100 }
  else { Name := "Self", Type_ := EntityTypes.Player, HpCurrent := 100, HpMax := 100 }

/-- The entity manager of the example zone; Otto and Foo are raid members out of zone. -/
def example_entity_get (name : String) : Option EntityPtr :=
  if name = "Anna" then some 1 else if name = "Mona" then some 2
  else if name = "Zed" then some 3 else none

/-- A raid of five: Zed and Anna (warriors, group 1), Mona (cleric, group 3, leader), Otto
(wizard, group 3, out of zone) and Foo (monk, ungrouped, out of zone). -/
def example_game : Game :=
  { is_in_game := true, is_in_raid := true,
    MemberList :=
      [{ Name := "Zed", ClassValue := 1, GroupNumber := 0, IsGroupLeader := 1 },
       { Name := "Anna", ClassValue := 1, GroupNumber := 0, IsGroupLeader := 0 },
       { Name := "Mona", ClassValue := 2, GroupNumber := 2, IsGroupLeader := 1 },
       { Name := "Otto", ClassValue := 12, GroupNumber := 2, IsGroupLeader := 0 },
       { Name := "Foo", ClassValue := 7, GroupNumber := kRaidUngrouped, IsGroupLeader := 0 }],
    display := some 5500, is_gui_visible := true, has_device := true,
    create_bitmap_font := fun _ => some example_font,
    screen_resolution_x := 1024, screen_resolution_y := 768,
    entity_get := example_entity_get,
    entity := example_entity,
    self := some 9, get_raid_class_color := fun _ => 0xFFFFFFFF,
    get_raid_group_number := fun name =>
      if name = "Zed" ∨ name = "Anna" then 0
      else if name = "Mona" ∨ name = "Otto" then 2 else kRaidUngrouped,
    get_raid_group_count := fun group => if group = 0 then 2 else if group = 2 then 2 else 0,
    wnd_manager := some { ShiftKeyState := 0, ControlKeyState := 1, AltKeyState := 0 },
    class_name_short := fun _ => "", split_text := fun _ => [],
    toupper := fun t => t, waiting_for_ack := false, rmb_down := false }

/-- The example overlay with a viewport lower than one cell: (10,10)-(110,25). -/
def short_bars : RaidBars := { example_bars with setting_position_bottom := 25 }

/-- The example overlay in management mode: sorted by groups, all slots shown, in a viewport
(10,10)-(210,170) of four columns by eight rows. -/
def manage_bars : RaidBars :=
  { example_bars with
    setting_group_sort := true, setting_show_all := true,
    setting_position_right := 210, setting_position_bottom := 170 }

/-- The state after one render pass of the example raid in management mode. The visible list is
`[label 1, Zed, Anna, empty x4, label 3, Mona, Otto, empty x4, label U, Foo]`, where the bars of
Otto and Foo (out of zone) hold a null reference. -/
def managed : RaidBars := (manage_bars.CallbackRender example_game).1

/-- The state `managed` with a pending selection. -/
def selecting (name : String) : RaidBars :=
  { managed with manage := { managed.manage with move_pending_name := name } }

/-- The example game with group 1 at capacity. -/
def full_game : Game :=
  { example_game with get_raid_group_count := fun group => if group = 0 then 6 else 0 }

/-- The example game after Zed has died: the entity at address 3 is no longer a player. -/
def corpse_game : Game :=
  { example_game with
    entity := fun p =>
      if p = 3 then { Name := "Zed's corpse", Type_ := 3, HpCurrent := 0, HpMax := 100 }
      else example_entity p }

/-- The example game with exactly the Alt key held. -/
def alt_game : Game :=
  { example_game with
    wnd_manager := some { ShiftKeyState := 0, ControlKeyState := 0, AltKeyState := 1 } }

/-- The example gesture reset: Mona is selected, management mode is turned off and on again,
and the next render pass rebuilds the visible list. -/
def reset_bars : RaidBars :=
  ((selecting "Mona").manage_off.manage_on.CallbackRender example_game).1

/-- The example game with exactly the Shift key held. -/
def shift_game : Game :=
  { example_game with
    wnd_manager := some { ShiftKeyState := 1, ControlKeyState := 0, AltKeyState := 0 } }

/-- The example game seen before the server has applied any group: every name is reported as
ungrouped, while groups 1 and 3 are already counted as occupied. -/
def loose_game : Game :=
  { shift_game with get_raid_group_number := fun _ => kRaidUngrouped }

/-- The example game with every one of the twelve groups occupied. -/
def crowded_game : Game :=
  { loose_game with get_raid_group_count := fun _ => 1 }

/-- Scenario 1 of the specification: categories A = warriors `[Zed, Anna]` and B = clerics
`[Mona]`, all in zone, with real class names, tokenizer and upper-casing. -/
def scenario_game : Game :=
  { example_game with
    MemberList :=
      [{ Name := "Zed", ClassValue := 1, GroupNumber := 0, IsGroupLeader := 1 },
       { Name := "Anna", ClassValue := 1, GroupNumber := 0, IsGroupLeader := 0 },
       { Name := "Mona", ClassValue := 2, GroupNumber := 2, IsGroupLeader := 1 }],
    class_name_short := fun c => if c = 1 then "WAR" else if c = 2 then "CLR" else "UNK",
    split_text := fun t => t.splitOn " ",
    toupper := fun t => t.toUpper }

/-- The overlay `short_bars` sorted by groups. -/
def short_group_bars : RaidBars := { short_bars with setting_group_sort := true }

/-- The example game of scenario 1 with a decimal number parser. -/
def command_game : Game := { scenario_game with tryParse := fun text _ => text.toInt? }

/-- The example overlay after a roster update packet: the dirty flag is set while the update
time (6000) is not yet reached at game time 5500. -/
def dirty_bars : RaidBars := example_bars.WorldMessage Opcode.RaidUpdate

/-- The example overlay with a priority override holding a duplicate and an unknown token. -/
def override_bars : RaidBars := { example_bars with setting_class_priority := "war xyz war clr" }

/-- The example overlay after the commands `/raidbars threshold 50` and `/raidbars filter war`:
the warriors are filtered with the threshold 50. -/
def filtered_bars : RaidBars :=
  ((example_bars.ParseArgs command_game ["/raidbars", "threshold", "50"]).1.ParseArgs
    command_game ["/raidbars", "filter", "war"]).1

/-- The game `loose_game` seen after the player has left the raid: Mona is reported as
ungrouped, group 2 is counted as empty, exactly the Shift key is held. -/
def left_game : Game := { loose_game with is_in_raid := false }

/-- The example zone in which the entity at address 2 carries an empty name. -/
def nameless_entity (p : EntityPtr) : Entity :=
  if p = 2 then { Name := "", Type_ := EntityTypes.Player, HpCurrent := 80, HpMax := 100 }
  else example_entity p

/-- The game `alt_game` (exactly the Alt key held) over the zone `nameless_entity`; the empty
name is reported in group 3. -/
def nameless_alt_game : Game :=
  { alt_game with
    entity := nameless_entity
    get_raid_group_number := fun _ => 2 }

/-- The game `shift_game` (exactly the Shift key held) over the zone `nameless_entity`; the empty
name is reported in group 3. -/
def nameless_shift_game : Game :=
  { shift_game with
    entity := nameless_entity
    get_raid_group_number := fun _ => 2 }

/-- The management example with the cell height 6.3000002 (the binary32 value nearest to 6.3,
`6606029 / 2 ^ 20`) in the viewport (10,10)-(1000,73): exactly,
`(73 - 10) / 6.3000002 = 9.9999997`, so nine rows fit. -/
def tall_bars : RaidBars :=
  { manage_bars with
    grid_height := 6606029 / 1048576
    setting_position_right := 1000, setting_position_bottom := 73 }

/-- The overlay `tall_bars` in a viewport one column wide: (10,10)-(60,73). -/
def tall_narrow_bars : RaidBars := { tall_bars with setting_position_right := 60 }

/-- The overlay `tall_bars` in the higher viewport (10,10)-(1000,200), of thirty rows. -/
def tall_high_bars : RaidBars := { tall_bars with setting_position_bottom := 200 }

/-- The management example in a viewport (10,10)-(1000,1342177290) of `2 ^ 26` rows of height
20. -/
def deep_bars : RaidBars := { manage_bars with
    setting_position_right := 1000, setting_position_bottom := 1342177290 }

/-! ## Specification predicates -/

/-- The test of `QueueByClass` that lets a member through: it is not the player itself and it
is not skipped by the threshold (`hp_percent >= threshold && !show_class`). -/
def member_shown (g : Game) (show_class : Bool) (threshold : Int) (member : RaidMember) : Bool :=
  decide (member.entity ≠ g.self) &&
    !(decide (hp_percent_of g member.entity ≥ threshold) && !show_class)

/-- The display threshold of `QueueByClass` for a class. -/
def class_threshold (s : RaidBars) (class_index : Nat) : Int :=
  if s.class_filter.getD class_index false then s.setting_show_threshold else 99

/-- The flag `show_class` of `QueueByClass` for a class. -/
def class_forced (s : RaidBars) (class_index : Nat) : Bool :=
  s.setting_show_all || s.class_always.getD class_index false

/-- The members of one class that the by-class pass offers for placement, in bucket order. -/
def class_members_shown (g : Game) (s : RaidBars) (class_index : Nat) : List RaidMember :=
  if s.raid_classes.getD class_index [] = [] ∨ s.class_never.getD class_index false = true then []
  else (s.raid_classes.getD class_index []).filter
    (member_shown g (class_forced s class_index) (class_threshold s class_index))

/-- The producer order of the by-class pass: the cells it would place in an unbounded viewport,
each as a function of its position. -/
def class_sequence (g : Game) (s : RaidBars) : List (ℚ → ℚ → Cell) :=
  s.class_priority.flatMap (fun class_index =>
    (class_members_shown g s class_index).map (bar_cell g))

/-- The members of group slot `i` (`12` = ungrouped) collected by `QueueByGroup`. -/
def slot_members (s : RaidBars) (i : Nat) : List RaidMember :=
  group_members_of s (if i = 12 then kRaidUngrouped else i) (if i = 12 then 72 else 6)

/-- The cells that the by-group pass offers for group slot `i`: nothing for an empty group, else
the label, the members and, with show-all on a numbered group, the empty slots. -/
def slot_sequence (g : Game) (s : RaidBars) (i : Nat) : List (ℚ → ℚ → Cell) :=
  if slot_members s i = [] then []
  else
    label_cell s i :: ((slot_members s i).map (bar_cell g) ++
      (if !s.setting_show_all || decide (i = 12) then []
       else (List.range' (slot_members s i).length (6 - (slot_members s i).length)).map
         (fun _ => empty_cell)))

/-- The producer order of the by-group pass. -/
def group_sequence (g : Game) (s : RaidBars) : List (ℚ → ℚ → Cell) :=
  (List.range 13).flatMap (slot_sequence g s)

/-- Column-major placement of a sequence of cells, the first one in slot `k0`: slot `k` is at
column `k / m`, row `k % m` of the grid anchored at `(x_min, y_min)`. -/
def place_from (gw gh x_min y_min : ℚ) (m : ℕ) : ℕ → List (ℚ → ℚ → Cell) → List Cell
  | _, [] => []
  | k0, mk :: rest =>
    mk (x_min + ((k0 / m : ℕ) : ℚ) * gw) (y_min + ((k0 % m : ℕ) : ℚ) * gh) ::
      place_from gw gh x_min y_min m (k0 + 1) rest

/-- Column-major placement of a sequence of cells from slot 0. -/
def place_cells (gw gh x_min y_min : ℚ) (m : ℕ) (makers : List (ℚ → ℚ → Cell)) : List Cell :=
  place_from gw gh x_min y_min m 0 makers

/-- Number of cells that fit a viewport: `m` rows times `floor(width / cellWidth)` columns
(no column when the width is negative). -/
def grid_capacity (gw x_min x_max : ℚ) (m : ℕ) : ℕ := m * (⌊(x_max - x_min) / gw⌋).toNat

/-- State of a flow that has been offered `k` cells and placed them all: it stands at a column
`col` and row `row <= m` with `k = col * m + row`. -/
def FlowNormal (gw gh x_min y_min : ℚ) (m : ℕ) (f : Flow) (k : ℕ) : Prop :=
  ∃ col row : ℕ, row ≤ m ∧ f.x = x_min + (col : ℚ) * gw ∧ f.y = y_min + (row : ℚ) * gh ∧
    k = col * m + row

/-- State of a flow whose column is off the right edge: every later placement bails out. -/
def FlowOver (gw gh x_max y_max : ℚ) (f : Flow) : Prop :=
  f.x + gw > x_max ∧ ¬ (f.y + gh > y_max)

/-- Invariant of a layout pass after the cells `offered` have been offered: the cells placed are
the first `cap` of them in column-major position, and the flow is in the matching state. -/
def Placed (gw gh x_min y_min x_max y_max : ℚ) (m : ℕ) (offered : List (ℚ → ℚ → Cell))
    (f : Flow) : Prop :=
  f.cells = place_cells gw gh x_min y_min m (offered.take (grid_capacity gw x_min x_max m)) ∧
    ((offered.length ≤ grid_capacity gw x_min x_max m ∧
        FlowNormal gw gh x_min y_min m f offered.length) ∨
      (grid_capacity gw x_min x_max m ≤ offered.length ∧ FlowOver gw gh x_max y_max f))

/-- Invariant of the by-group pass: `Placed` for its flow, and once the pass has returned the
flow is off the right edge with at least `cap` cells offered. -/
def GroupPlaced (gw gh x_min y_min x_max y_max : ℚ) (m : ℕ) (offered : List (ℚ → ℚ → Cell))
    (f : GroupFlow) : Prop :=
  Placed gw gh x_min y_min x_max y_max m offered f.flow ∧
    (f.returned = true →
      grid_capacity gw x_min x_max m ≤ offered.length ∧ FlowOver gw gh x_max y_max f.flow)

/-- Number of modifier keys (Shift, Ctrl, Alt) held according to the window manager. -/
def held_modifiers (w : CXWndManager) : Nat :=
  (if w.ShiftKeyState ≠ 0 then 1 else 0) + (if w.ControlKeyState ≠ 0 then 1 else 0) +
    (if w.AltKeyState ≠ 0 then 1 else 0)

/-- The slots of the label index map that qualify for a click on `index`: visible (not `-1`)
and with a recorded label position `<= index`, in slot order. -/
def qualifying_slots (visible_group_index : List Int) (index : Int) : List Nat :=
  (List.range visible_group_index.length).filter (fun slot =>
    decide (visible_group_index.getD slot (-1) ≠ -1) &&
      decide (visible_group_index.getD slot (-1) ≤ index))

/-- The better of the best slot so far and a later slot: the one with the greater recorded label
position, the later slot winning a tie. -/
def greater_label (visible_group_index : List Int) (best : Option Nat) (slot : Nat) :
    Option Nat :=
  match best with
  | none => some slot
  | some b =>
    if visible_group_index.getD b (-1) ≤ visible_group_index.getD slot (-1) then some slot
    else some b

/-- Destination resolution in the words of the specification: among the qualifying slots the one
whose recorded label position is the greatest, a later slot winning a tie; slot 13 (index 12)
and the absence of any qualifying slot map to the unaffiliated bucket. -/
def greatest_label_dest (visible_group_index : List Int) (index : Int) : Nat :=
  match (qualifying_slots visible_group_index index).foldl (greater_label visible_group_index)
      none with
  | none => kRaidUngrouped
  | some slot => if slot = 12 then kRaidUngrouped else slot

/-- The recorded label positions grow with the slot number (over the visible slots). -/
def LabelsAscending (visible_group_index : List Int) : Prop :=
  ∀ a b : Nat, a < b → visible_group_index.getD a (-1) ≠ -1 →
    visible_group_index.getD b (-1) ≠ -1 →
    visible_group_index.getD a (-1) < visible_group_index.getD b (-1)

/-- Invariant of the by-group pass before slot `i`: thirteen slots, every visible slot is below
`i` and records a position below the current end of the visible list, in ascending order. -/
def LabelInv (base i : Nat) (f : GroupFlow) : Prop :=
  f.visible_group_index.length = 13 ∧
    (∀ a : Nat, f.visible_group_index.getD a (-1) ≠ -1 →
      a < i ∧ f.visible_group_index.getD a (-1) < ((base + f.flow.cells.length : Nat) : Int)) ∧
    LabelsAscending f.visible_group_index

/-- A chat line is a usage line: a `print_chat` whose text starts with `Usage`. -/
def Emit.isUsage : Emit → Bool
  | .print_chat fmt _ => "Usage".toList.isPrefixOf fmt.toList
  | .do_say _ _ => false

/-- A well-formed `position` request: two or four numbers (right and bottom default to 0) with
non-negative left and top, and a right (bottom) edge that is 0 or not before left (top). -/
def well_formed_position (g : Game) (args : List String) : Prop :=
  ∃ left top right bottom : Int,
    ((args.length = 4 ∧ g.tryParse (args.getD 2 "") true = some left ∧
        g.tryParse (args.getD 3 "") true = some top ∧ right = 0 ∧ bottom = 0) ∨
      (args.length = 6 ∧ g.tryParse (args.getD 2 "") true = some left ∧
        g.tryParse (args.getD 3 "") true = some top ∧
        g.tryParse (args.getD 4 "") true = some right ∧
        g.tryParse (args.getD 5 "") true = some bottom)) ∧
    0 ≤ left ∧ 0 ≤ top ∧ (right = 0 ∨ left ≤ right) ∧ (bottom = 0 ∨ top ≤ bottom)

/-- A `grid` request with a wrong argument count, a non-numeric argument or a number outside
`1..100`. -/
def malformed_grid (g : Game) (args : List String) : Prop :=
  ¬ ∃ rows columns : Int, args.length = 4 ∧ g.tryParse (args.getD 2 "") true = some rows ∧
    g.tryParse (args.getD 3 "") true = some columns ∧
    1 ≤ rows ∧ rows ≤ 100 ∧ 1 ≤ columns ∧ columns ≤ 100

/-- A `grid` request that cannot be honoured: with the font loaded, not even one cell fits
between the anchor and the screen edge. -/
def unfit_grid (g : Game) (s : RaidBars) : Prop :=
  s.bitmap_font.isSome = true ∧
    (s.grid_height ≤ 0 ∨ s.grid_width ≤ 0 ∨
      truncToInt (((g.screen_resolution_y - s.setting_position_top : Int) : ℚ) / s.grid_height)
        ≤ 0 ∨
      truncToInt (((g.screen_resolution_x - s.setting_position_left : Int) : ℚ) / s.grid_width)
        ≤ 0)

/-- A well-formed percentage argument: one number in `0..100`. -/
def well_formed_percent (g : Game) (args : List String) : Prop :=
  ∃ v : Int, args.length = 3 ∧ g.tryParse (args.getD 2 "") true = some v ∧ 0 ≤ v ∧ v ≤ 100

/-- The `/raidbars` argument lists that are malformed for their subcommand, subcommand by
subcommand: wrong argument count, non-numeric or out-of-range number, unknown keyword, invalid
position or grid request. A subcommand alone (a query of the current value) is not malformed.
The lists of `clickable` and of the four class list subcommands are not covered. -/
def malformed_args (g : Game) (s : RaidBars) (args : List String) : Prop :=
  args.length < 2 ∨
  (2 ≤ args.length ∧
    (((args.getD 1 "" = "on" ∨ args.getD 1 "" = "off" ∨ args.getD 1 "" = "toggle") ∧
        args.length ≠ 2) ∨
      (args.getD 1 "" = "manage" ∧
        ¬ (args.length = 3 ∧ (args.getD 2 "" = "on" ∨ args.getD 2 "" = "off"))) ∨
      ((args.getD 1 "" = "groups" ∨ args.getD 1 "" = "showall") ∧ args.length ≠ 2 ∧
        ¬ (args.length = 3 ∧
          (args.getD 2 "" = "on" ∨ args.getD 2 "" = "off" ∨ args.getD 2 "" = "toggle"))) ∨
      (args.getD 1 "" = "font" ∧ args.length ≠ 3) ∨
      ((args.getD 1 "" = "barwidth" ∨ args.getD 1 "" = "barheight") ∧
        ¬ (args.length = 3 ∧ (g.tryParse (args.getD 2 "") false).isSome = true)) ∨
      (args.getD 1 "" = "position" ∧ args.length ≠ 2 ∧ ¬ well_formed_position g args) ∨
      (args.getD 1 "" = "grid" ∧ (malformed_grid g args ∨ unfit_grid g s)) ∨
      ((args.getD 1 "" = "background" ∨ args.getD 1 "" = "threshold") ∧ args.length ≠ 2 ∧
        ¬ well_formed_percent g args) ∨
      (args.getD 1 "" ∉ ["on", "off", "toggle", "manage", "groups", "font", "barwidth",
        "barheight", "position", "grid", "showall", "clickable", "background", "threshold",
        "priority", "always", "never", "filter"])))

/-- The command left the whole state, hence every setting, unchanged and printed at least one
usage line. -/
def RejectedWithUsage (g : Game) (s : RaidBars) (args : List String) : Prop :=
  (s.ParseArgs g args).1 = s ∧ ∃ e ∈ (s.ParseArgs g args).2, e.isUsage = true

/-- The render pass of state `s` performs the roster rebuild: it reaches the rebuild check at
game time `t`, clears the dirty flag, sets the next update time and runs `UpdateRaidMembers`
before the layout. -/
def rebuilds (g : Game) (s : RaidBars) : Prop :=
  ∃ t : Nat, g.display = some t ∧
    (s.CallbackRender g).1 =
      (RaidBars.render_layout g
        (RaidBars.UpdateRaidMembers g
          { (s.LoadBitmapFont g).1 with
            next_update_game_time_ms := (t + 1000) % 2 ^ 32
            raid_update_dirty := false })).1

/-- The states visited by a run of notifications, each with the game side current at its
time: the state before each notification, in order. -/
def states_before (s : RaidBars) : List (Game × Event) → List RaidBars
  | [] => []
  | (g, ev) :: rest => s :: states_before (s.handle g ev) rest

/-- The state after a run of notifications. -/
def run (s : RaidBars) (events : List (Game × Event)) : RaidBars :=
  events.foldl (fun s ge => s.handle ge.1 ge.2) s

/-- The live reference of a roster name in the words of the specification: the handle the
resolver gives when that handle is a player, and null otherwise. -/
def resolved_reference (g : Game) (name : String) : Option EntityPtr :=
  (g.entity_get name).filter (fun p => decide ((g.entity p).Type_ = EntityTypes.Player))

/-- The roster entry the specification expects for a roster slot. -/
def roster_entry (g : Game) (member : RaidInfoMember) : RaidMember :=
  { name := member.Name, entity := resolved_reference g member.Name,
    color := g.get_raid_class_color member.ClassValue,
    group_number := member.GroupNumber,
    is_group_leader := decide (member.IsGroupLeader ≠ 0) }

/-- The roster slot holds a member of the class with zero-based index `class_index`: its name is
not empty and its class value is that class. -/
def in_class (class_index : Nat) (member : RaidInfoMember) : Bool :=
  decide (member.Name ≠ "") && decide (kClassIndexOffset ≤ member.ClassValue) &&
    decide (member.ClassValue - kClassIndexOffset = class_index)

/-- The recognised class indices of a token list in the words of the specification: the tokens
that are short class names, as zero-based class indices, in order of first occurrence
(duplicates and unknown tokens dropped). -/
def recognised_classes (g : Game) (tokens : List String) : List Nat :=
  ((tokens.filterMap (find_class_index g kNumClasses)).reverse.dedup).reverse

/-- The members of the bucket of slot `i` (`0..11` the numbered groups, `12` the unaffiliated
bucket) as the roster snapshot lists them: category by category in priority order, each category
in its stored order. -/
def bucket_candidates (s : RaidBars) (i : Nat) : List RaidMember :=
  s.class_priority.flatMap (fun class_index =>
    (s.raid_classes.getD class_index []).filter (fun member =>
      decide (member.group_number = if i = 12 then kRaidUngrouped else i)))

/-- Leaders moved to the front: the members flagged as group leader (the one listed last in
front), then the other members in their order. -/
def leaders_first (members : List RaidMember) : List RaidMember :=
  (members.filter (fun member => member.is_group_leader)).reverse ++
    members.filter (fun member => !member.is_group_leader)

/-- The members shown for the bucket of slot `i`: the first 6 candidates (72 for the
unaffiliated bucket), leaders first. -/
def bucket_listing (s : RaidBars) (i : Nat) : List RaidMember :=
  leaders_first ((bucket_candidates s i).take (if i = 12 then 72 else 6))

/-- The local state of `QueueByGroup` after the first `k` iterations of its main loop. -/
def QueueByGroup.after (g : Game) (s : RaidBars) (x_min y_min x_max y_max : ℚ) (k : Nat) :
    GroupFlow :=
  (List.range k).foldl
    (QueueByGroup.group_step g s s.visible_list.length x_max y_min y_max)
    { flow := { x := x_min, y := y_min, cells := [] },
      visible_group_index := s.visible_group_index, returned := false }

/-- The cell is one the bucket of slot `i` draws: its label, the bar of one of its listed
members, or an empty slot. -/
def cell_of_bucket (g : Game) (s : RaidBars) (i : Nat) (c : Cell) : Prop :=
  (∃ x y, c = label_cell s i x y) ∨
    (∃ member ∈ bucket_listing s i, ∃ x y, c = bar_cell g member x y) ∨
    (∃ x y, c = empty_cell x y)

/-- The label index map and the label cells agree (`base` is the length of the visible list at
the start of the pass): every recorded slot points at the label cell of that slot, every label
cell is recorded at its position, and the first cell placed is a label. -/
def LabelCellsInv (base : Nat) (f : GroupFlow) : Prop :=
  (∀ a : Nat, f.visible_group_index.getD a (-1) ≠ -1 →
    ∃ (p : Nat) (c : Cell), f.visible_group_index.getD a (-1) = ((base + p : Nat) : Int) ∧
      f.flow.cells[p]? = some c ∧ c.kind = CellKind.label a ∧ c.entity = none) ∧
    (∀ (p : Nat) (c : Cell) (a : Nat), f.flow.cells[p]? = some c → c.kind = CellKind.label a →
      f.visible_group_index.getD a (-1) = ((base + p : Nat) : Int)) ∧
    (f.flow.cells ≠ [] →
      ∃ (c : Cell) (a : Nat), f.flow.cells[0]? = some c ∧ c.kind = CellKind.label a)

/-- The label-slot index invariant of a layout pass with label index map `vgi`, visible list
`vl` and placed cells `cells`: thirteen slots; each is `-1` or a valid index of the visible list
whose entry is null and whose cell is the label of that slot; the recorded positions grow with
the slot number; a slot is recorded exactly when the label of its bucket was placed; and when
the visible list is not empty some slot records position 0, the smallest possible one. -/
def LabelSlots (vgi : List Int) (vl : List (Option EntityPtr)) (cells : List Cell) : Prop :=
  vgi.length = 13 ∧
    (∀ a : Nat, vgi.getD a (-1) = -1 ∨
      ∃ (p : Nat) (c : Cell), vgi.getD a (-1) = (p : Int) ∧ p < vl.length ∧
        vl[p]? = some none ∧ cells[p]? = some c ∧ c.kind = CellKind.label a) ∧
    LabelsAscending vgi ∧
    (∀ a : Nat, vgi.getD a (-1) ≠ -1 ↔ ∃ c ∈ cells, c.kind = CellKind.label a) ∧
    (vl ≠ [] → ∃ a : Nat, vgi.getD a (-1) = 0) ∧
    (∀ a : Nat, vgi.getD a (-1) = -1 ∨ 0 ≤ vgi.getD a (-1))

/-- The state in which the layout part of a render pass starts its loop: the row count is
refreshed and the visible list and the label index map are cleared. -/
def RaidBars.layout_start (g : Game) (s : RaidBars) : RaidBars :=
  { s with
    grid_height_count_max := truncToInt
      ((((if s.setting_position_bottom > s.setting_position_top then
            s.setting_position_bottom else g.screen_resolution_y : Int) : ℚ) -
        (s.setting_position_top : ℚ)) / s.grid_height)
    visible_list := []
    visible_group_index := List.replicate kNumGroupLabelSlots (-1) }

/-- The by-group loop of the layout part of a render pass after its first `k` iterations (that
is, after the buckets of the slots `0 .. k-1`). -/
def RaidBars.layout_after (g : Game) (s : RaidBars) (k : Nat) : GroupFlow :=
  QueueByGroup.after g (s.layout_start g) (s.setting_position_left : ℚ)
    (s.setting_position_top : ℚ)
    ((if s.setting_position_right > s.setting_position_left then
        s.setting_position_right else g.screen_resolution_x : Int) : ℚ)
    ((if s.setting_position_bottom > s.setting_position_top then
        s.setting_position_bottom else g.screen_resolution_y : Int) : ℚ) k

/-- Position `p` of the visible list is occupied by a cell that iteration `i` of the by-group
loop of the pass placed: the label, a member bar or an empty-slot cell of bucket `i`. -/
def drawn_by_bucket (g : Game) (s : RaidBars) (i p : Nat) : Prop :=
  (s.layout_after g i).flow.cells.length ≤ p ∧
    p < (s.layout_after g (i + 1)).flow.cells.length ∧
    ∃ c : Cell, (s.render_layout g).2[p]? = some c ∧ cell_of_bucket g (s.layout_start g) i c

/-- The destination that stands for the bucket of slot `i`: the group number `i` (0-based) for
the twelve group slots, the unaffiliated marker for slot 13. -/
def bucket_dest (i : Nat) : Nat := if i = 12 then kRaidUngrouped else i

/-- Ownership invariant of the by-group loop before slot `k`: every position placed so far lies
in the segment of one earlier iteration `i`, holds a cell of bucket `i`, and slot `i` is the last
slot whose recorded label position is at or before it. -/
def OwnInv (g : Game) (s : RaidBars) (x_min y_min x_max y_max : ℚ) (k : Nat) (f : GroupFlow) :
    Prop :=
  ∀ p : Nat, p < f.flow.cells.length → ∃ i : Nat, i < k ∧
    (QueueByGroup.after g s x_min y_min x_max y_max i).flow.cells.length ≤ p ∧
    p < (QueueByGroup.after g s x_min y_min x_max y_max (i + 1)).flow.cells.length ∧
    f.visible_group_index.getD i (-1) ≠ -1 ∧
    f.visible_group_index.getD i (-1) ≤ ((s.visible_list.length + p : Nat) : Int) ∧
    (∃ c : Cell, f.flow.cells[p]? = some c ∧ cell_of_bucket g s i c) ∧
    ∀ j : Nat, i < j → f.visible_group_index.getD j (-1) = -1 ∨
      ((s.visible_list.length + p : Nat) : Int) < f.visible_group_index.getD j (-1)

/-- Exactly the Ctrl key (select) is held. -/
def only_ctrl (w : CXWndManager) : Prop :=
  w.ControlKeyState ≠ 0 ∧ w.ShiftKeyState = 0 ∧ w.AltKeyState = 0

/-- Exactly the Alt key (demote) is held. -/
def only_alt (w : CXWndManager) : Prop :=
  w.AltKeyState ≠ 0 ∧ w.ShiftKeyState = 0 ∧ w.ControlKeyState = 0

/-- Exactly the Shift key (promote) is held. -/
def only_shift (w : CXWndManager) : Prop :=
  w.ShiftKeyState ≠ 0 ∧ w.ControlKeyState = 0 ∧ w.AltKeyState = 0

/-- The loop variables of a layout pass stand on the grid: at a column `col` and a row
`row <= m` of the grid anchored at `(x_min, y_min)`, the column being inside the viewport, and
strictly so once a cell has been placed in it. -/
def OnGrid (gw gh x_min y_min x_max : ℚ) (m : ℕ) (f : Flow) : Prop :=
  ∃ col row : ℕ, f.x = x_min + (col : ℚ) * gw ∧ f.y = y_min + (row : ℚ) * gh ∧ row ≤ m ∧
    col ≤ (⌊(x_max - x_min) / gw⌋).toNat ∧ (1 ≤ row → col + 1 ≤ (⌊(x_max - x_min) / gw⌋).toNat)

/-- A selection is pending only in management mode with the overlay enabled. -/
def GestureInv (s : RaidBars) : Prop :=
  s.manage.move_pending_name ≠ "" → s.manage.enabled = true ∧ s.setting_enabled = true

/-! # Theorems -/

/-! ## Hit test -/

theorem truncToInt_of_nonneg {q : ℚ} (h : 0 ≤ q) : truncToInt q = ⌊q⌋ := by
  simp [truncToInt, h]

/-- The hit test without its local definitions, for a point that is not left of or above the
anchor. -/
theorem CalcClickIndex_inside (s : RaidBars) (x y : Int)
    (hx : s.setting_position_left ≤ x) (hy : s.setting_position_top ≤ y)
    (hw : 0 < s.grid_width) (hh : 0 < s.grid_height) :
    s.CalcClickIndex x y =
      (if ⌊((y : ℚ) - (s.setting_position_top : ℚ)) / s.grid_height⌋ < s.grid_height_count_max ∧
          ⌊((x : ℚ) - (s.setting_position_left : ℚ)) / s.grid_width⌋ * s.grid_height_count_max +
            ⌊((y : ℚ) - (s.setting_position_top : ℚ)) / s.grid_height⌋ < (s.visible_list.length : Int)
        then ⌊((x : ℚ) - (s.setting_position_left : ℚ)) / s.grid_width⌋ * s.grid_height_count_max +
            ⌊((y : ℚ) - (s.setting_position_top : ℚ)) / s.grid_height⌋
        else -1) := by
  have hxq : (s.setting_position_left : ℚ) ≤ (x : ℚ) := by exact_mod_cast hx
  have hyq : (s.setting_position_top : ℚ) ≤ (y : ℚ) := by exact_mod_cast hy
  have hrq : 0 ≤ ((y : ℚ) - (s.setting_position_top : ℚ)) / s.grid_height :=
    div_nonneg (by linarith) hh.le
  have hcq : 0 ≤ ((x : ℚ) - (s.setting_position_left : ℚ)) / s.grid_width :=
    div_nonneg (by linarith) hw.le
  have hr : 0 ≤ ⌊((y : ℚ) - (s.setting_position_top : ℚ)) / s.grid_height⌋ := Int.floor_nonneg.mpr hrq
  have hc : 0 ≤ ⌊((x : ℚ) - (s.setting_position_left : ℚ)) / s.grid_width⌋ := Int.floor_nonneg.mpr hcq
  unfold RaidBars.CalcClickIndex
  simp only [truncToInt_of_nonneg hrq, truncToInt_of_nonneg hcq]
  generalize ⌊((y : ℚ) - (s.setting_position_top : ℚ)) / s.grid_height⌋ = row at hr ⊢
  generalize ⌊((x : ℚ) - (s.setting_position_left : ℚ)) / s.grid_width⌋ = col at hc ⊢
  generalize s.grid_height_count_max = m
  generalize (s.visible_list.length : Int) = n
  have hnot : ¬ ((x : ℚ) < (s.setting_position_left : ℚ) ∨ (y : ℚ) < (s.setting_position_top : ℚ)) := by
    push_neg; exact ⟨hxq, hyq⟩
  rw [if_neg hnot]
  by_cases hrm : row < m
  · have hm : 0 ≤ col * m := mul_nonneg hc (by omega)
    generalize col * m = start at hm ⊢
    split_ifs <;> omega
  · have : row ≥ m := by omega
    simp [this, hrm]

/-- With positions and sizes taken as exact values, `CalcClickIndex` is the reference hit test
`locate`: for every point, anchor, positive cell size, visible list length and rows-per-column
value it returns `column * m + row` exactly when `locate` does, and `-1` when `locate` finds no
hit; a non-negative result is always an index of the visible list. -/
theorem CalcClickIndex_eq_locate (s : RaidBars) (x y : Int)
    (hw : 0 < s.grid_width) (hh : 0 < s.grid_height) :
    s.CalcClickIndex x y =
        (locate x y s.setting_position_left s.setting_position_top s.grid_width s.grid_height
          s.visible_list.length s.grid_height_count_max).getD (-1)
      ∧ (0 ≤ s.CalcClickIndex x y → s.CalcClickIndex x y < (s.visible_list.length : Int)) := by
  by_cases hx : s.setting_position_left ≤ x
  · by_cases hy : s.setting_position_top ≤ y
    · rw [CalcClickIndex_inside s x y hx hy hw hh]
      have hrq : 0 ≤ ((y : ℚ) - (s.setting_position_top : ℚ)) / s.grid_height :=
        div_nonneg (by have : (s.setting_position_top : ℚ) ≤ (y : ℚ) := by exact_mod_cast hy
                       linarith) hh.le
      have hcq : 0 ≤ ((x : ℚ) - (s.setting_position_left : ℚ)) / s.grid_width :=
        div_nonneg (by have : (s.setting_position_left : ℚ) ≤ (x : ℚ) := by exact_mod_cast hx
                       linarith) hw.le
      have hr := Int.floor_nonneg.mpr hrq
      have hc := Int.floor_nonneg.mpr hcq
      unfold locate
      simp only [ge_iff_le, hx, hy, true_and]
      generalize ⌊((y : ℚ) - (s.setting_position_top : ℚ)) / s.grid_height⌋ = row at hr ⊢
      generalize ⌊((x : ℚ) - (s.setting_position_left : ℚ)) / s.grid_width⌋ = col at hc ⊢
      generalize s.grid_height_count_max = m
      generalize (s.visible_list.length : Int) = n
      by_cases hrm : row < m
      · have hm : 0 ≤ col * m := mul_nonneg hc (by omega)
        generalize col * m = start at hm ⊢
        constructor
        · split_ifs <;> simp <;> omega
        · split_ifs <;> omega
      · simp [hrm]
    · have hyq : (y : ℚ) < (s.setting_position_top : ℚ) := by exact_mod_cast (not_le.mp hy)
      simp [RaidBars.CalcClickIndex, locate, hyq, hy]
  · have hxq : (x : ℚ) < (s.setting_position_left : ℚ) := by exact_mod_cast (not_le.mp hx)
    simp [RaidBars.CalcClickIndex, locate, hxq, hx]

/-! ## Layout and hit test agree -/

section loops
variable {gw gh x_min y_min y_max : ℚ} {m : ℕ}

theorem foldl_invariant {α β : Type} (P : β → Prop) (step : β → α → β)
    (hstep : ∀ b a, P b → P (step b a)) (l : List α) (b : β) (hb : P b) :
    P (l.foldl step b) := by
  induction l generalizing b with
  | nil => exact hb
  | cons a l ih => exact ih _ (hstep b a hb)

end loops

theorem QueueByClass_visible (g : Game) (s : RaidBars) (x_min y_min x_max y_max : ℚ) :
    (s.QueueByClass g x_min y_min x_max y_max).1.visible_list =
      s.visible_list ++ (s.QueueByClass g x_min y_min x_max y_max).2.map (fun c => c.entity) :=
  rfl

theorem QueueByGroup_visible (g : Game) (s : RaidBars) (x_min y_min x_max y_max : ℚ) :
    (s.QueueByGroup g x_min y_min x_max y_max).1.visible_list =
      s.visible_list ++ (s.QueueByGroup g x_min y_min x_max y_max).2.map (fun c => c.entity) :=
  rfl

theorem render_layout_cases (g : Game) (s : RaidBars) :
    ∃ (s3 : RaidBars) (right bottom : ℚ), s3.visible_list = [] ∧
      s3.grid_height_count_max =
        truncToInt ((bottom - (s3.setting_position_top : ℚ)) / s3.grid_height) ∧
      s3.grid_width = s.grid_width ∧ s3.grid_height = s.grid_height ∧
      (s.render_layout g =
          s3.QueueByGroup g (s3.setting_position_left : ℚ) (s3.setting_position_top : ℚ)
            right bottom ∨
        s.render_layout g =
          s3.QueueByClass g (s3.setting_position_left : ℚ) (s3.setting_position_top : ℚ)
            right bottom) := by
  refine ⟨{ s with
            grid_height_count_max := truncToInt
              ((((if s.setting_position_bottom > s.setting_position_top then
                    s.setting_position_bottom else g.screen_resolution_y : Int) : ℚ) -
                (s.setting_position_top : ℚ)) / s.grid_height)
            visible_list := []
            visible_group_index := List.replicate kNumGroupLabelSlots (-1) },
    ((if s.setting_position_right > s.setting_position_left then
        s.setting_position_right else g.screen_resolution_x : Int) : ℚ),
    ((if s.setting_position_bottom > s.setting_position_top then
        s.setting_position_bottom else g.screen_resolution_y : Int) : ℚ),
    rfl, rfl, rfl, rfl, ?_⟩
  unfold RaidBars.render_layout
  dsimp only
  by_cases hs : s.setting_group_sort = true
  · rw [if_pos hs]; left; rfl
  · rw [if_neg hs]; right; rfl

/-- C3 (as amended): a click strictly left of or strictly above the anchor is never a hit; a
click exactly at the anchor returns index 0 when the visible list is non-empty and at least one
row fits (`grid_height_count_max >= 1`, positive cell size). -/
theorem CalcClickIndex_boundary (s : RaidBars) (x y : Int) :
    ((x < s.setting_position_left ∨ y < s.setting_position_top) → s.CalcClickIndex x y = -1) ∧
      (s.visible_list ≠ [] → 1 ≤ s.grid_height_count_max → 0 < s.grid_width →
        0 < s.grid_height →
        s.CalcClickIndex s.setting_position_left s.setting_position_top = 0) := by
  constructor
  · intro h
    have hq : (x : ℚ) < (s.setting_position_left : ℚ) ∨ (y : ℚ) < (s.setting_position_top : ℚ) := by
      rcases h with h | h
      · left; exact_mod_cast h
      · right; exact_mod_cast h
    unfold RaidBars.CalcClickIndex
    dsimp only
    rw [if_pos hq]
  · intro hne hm1 hgw hgh
    rw [CalcClickIndex_inside s _ _ le_rfl le_rfl hgw hgh]
    have hlen : 0 < s.visible_list.length := List.length_pos.mpr hne
    have hlen' : (0 : Int) < (s.visible_list.length : Int) := by exact_mod_cast hlen
    simp only [sub_self, zero_div, Int.floor_zero, zero_mul, add_zero]
    rw [if_pos ⟨by omega, hlen'⟩]

/-- Witness of C3 on the state after the example render pass: a click left of the anchor misses
and the click at the anchor (10,10) hits index 0. -/
theorem CalcClickIndex_boundary_witness :
    (example_bars.CallbackRender example_game).1.CalcClickIndex 9 10 = -1 ∧
      (example_bars.CallbackRender example_game).1.CalcClickIndex 10 10 = 0 :=
  ⟨(CalcClickIndex_boundary (example_bars.CallbackRender example_game).1 9 10).1
      (Or.inl (by decide!)),
    (CalcClickIndex_boundary (example_bars.CallbackRender example_game).1 9 10).2
      (by decide!) (by decide!) (by decide!) (by decide!)⟩

/-- Counterexample to C3 as stated: with the viewport (10,10)-(110,25), lower than the cell
height 20, the render pass still places a cell (the visible list is non-empty) while
`grid_height_count_max = 0`, and a click exactly at the anchor (10,10) returns `-1`. -/
theorem click_at_anchor_no_hit :
    (short_bars.CallbackRender example_game).1.visible_list ≠ [] ∧
      (short_bars.CallbackRender example_game).1.setting_position_left = 10 ∧
      (short_bars.CallbackRender example_game).1.setting_position_top = 10 ∧
      (short_bars.CallbackRender example_game).1.CalcClickIndex 10 10 = -1 := by
  decide!

/-! ## Class priority -/

theorem find_class_index_lt (g : Game) (size : Nat) (entry : String) (i : Nat)
    (h : find_class_index g size entry = some i) : i < size := by
  unfold find_class_index at h
  have := List.mem_of_find?_eq_some h
  simpa using this

theorem priority_entries_spec (g : Game) (size : Nat) (split : List String) :
    (priority_entries g size split).Nodup ∧ ∀ i ∈ priority_entries g size split, i < size := by
  unfold priority_entries
  apply foldl_invariant (fun entries : List Nat => entries.Nodup ∧ ∀ i ∈ entries, i < size)
  · intro entries entry ⟨hnd, hlt⟩
    cases hf : find_class_index g size entry with
    | none => simpa using ⟨hnd, hlt⟩
    | some i =>
      simp only
      by_cases hi : i ∈ entries
      · rw [if_pos hi]; exact ⟨hnd, hlt⟩
      · rw [if_neg hi]
        constructor
        · rw [List.nodup_append]
          refine ⟨hnd, List.nodup_singleton _, ?_⟩
          intro a ha hb
          rw [List.mem_singleton] at hb
          exact hi (hb ▸ ha)
        · intro j hj
          rw [List.mem_append, List.mem_singleton] at hj
          rcases hj with hj | hj
          · exact hlt j hj
          · rw [hj]; exact find_class_index_lt g size entry i hf
  · exact ⟨List.nodup_nil, by simp⟩


theorem assign_entries_fold (entries : List Nat) :
    ∀ (pre rest source : List Nat), entries.length ≤ rest.length →
      entries.foldl
        (fun (st : List Nat × List Nat × Nat) value =>
          (st.1.set st.2.2 value, st.2.1.filter (fun v => v ≠ value), st.2.2 + 1))
        (pre ++ rest, source, pre.length) =
      (pre ++ entries ++ rest.drop entries.length,
        source.filter (fun v => v ∉ entries), pre.length + entries.length) := by
  induction entries with
  | nil => intro pre rest source _; simp
  | cons e es ih =>
    intro pre rest source hlen
    cases rest with
    | nil => simp at hlen
    | cons r rs =>
      have hlen' : es.length ≤ rs.length := by simpa using hlen
      have hset : (pre ++ r :: rs).set pre.length e = (pre ++ [e]) ++ rs := by
        rw [List.set_append_right _ _ (le_refl _)]
        simp
      simp only [List.foldl_cons, hset]
      have hl : pre.length + 1 = (pre ++ [e]).length := by simp
      rw [hl, ih (pre ++ [e]) rs _ hlen']
      refine Prod.ext ?_ (Prod.ext ?_ ?_)
      · simp
      · simp only [List.filter_filter]
        congr 1
        funext v
        simp [List.mem_cons, not_or, Bool.and_comm]
      · simp; omega

theorem append_source_fold (source : List Nat) :
    ∀ (pre rest : List Nat), source.length ≤ rest.length →
      append_source source (pre ++ rest) pre.length = pre ++ source ++ rest.drop source.length := by
  unfold append_source
  induction source with
  | nil => intro pre rest _; simp
  | cons v vs ih =>
    intro pre rest hlen
    cases rest with
    | nil => simp at hlen
    | cons r rs =>
      have hlen' : vs.length ≤ rs.length := by simpa using hlen
      have hset : (pre ++ r :: rs).set pre.length v = (pre ++ [v]) ++ rs := by
        rw [List.set_append_right _ _ (le_refl _)]
        simp
      have hguard : ¬ (pre.length ≥ (pre ++ r :: rs).length) := by simp
      simp only [List.foldl_cons, if_neg hguard, hset]
      have hl : pre.length + 1 = (pre ++ [v]).length := by simp
      rw [hl, ih (pre ++ [v]) rs hlen']
      simp

theorem default_class_priority_perm : default_class_priority.Perm (List.range kNumClasses) := by
  decide

theorem entries_append_rest_perm (entries : List Nat) (hnd : entries.Nodup)
    (hlt : ∀ i ∈ entries, i < default_class_priority.length) :
    (entries ++ default_class_priority.filter (fun v => v ∉ entries)).Perm
      default_class_priority := by
  have hdn : default_class_priority.Nodup := by decide
  have hmem : ∀ i, i < default_class_priority.length → i ∈ default_class_priority := by decide
  rw [List.perm_ext_iff_of_nodup _ hdn]
  · intro a
    simp only [List.mem_append, List.mem_filter, decide_eq_true_eq]
    constructor
    · rintro (h | ⟨h, -⟩)
      · exact hmem a (hlt a h)
      · exact h
    · intro h
      by_cases ha : a ∈ entries
      · exact Or.inl ha
      · exact Or.inr ⟨h, ha⟩
  · rw [List.nodup_append]
    refine ⟨hnd, hdn.filter _, ?_⟩
    intro a ha hb
    simp only [List.mem_filter, decide_eq_true_eq] at hb
    exact hb.2 ha

/-- The contents of `class_priority` after `SyncClassPriority` with a non-empty setting. -/
theorem SyncClassPriority_entries (g : Game) (s : RaidBars) (h : s.setting_class_priority ≠ "") :
    (s.SyncClassPriority g).class_priority =
      priority_entries g default_class_priority.length
          (g.split_text (g.toupper s.setting_class_priority)) ++
        default_class_priority.filter (fun v =>
          v ∉ priority_entries g default_class_priority.length
            (g.split_text (g.toupper s.setting_class_priority))) := by
  obtain ⟨hnd, hlt⟩ := priority_entries_spec g default_class_priority.length
    (g.split_text (g.toupper s.setting_class_priority))
  have hperm := entries_append_rest_perm _ hnd hlt
  unfold RaidBars.SyncClassPriority
  simp only [if_neg h]
  generalize priority_entries g default_class_priority.length
    (g.split_text (g.toupper s.setting_class_priority)) = entries at hnd hlt hperm ⊢
  have hlen := hperm.length_eq
  rw [List.length_append] at hlen
  have h1 := assign_entries_fold entries [] default_class_priority default_class_priority
    (by omega)
  simp only [List.nil_append, List.length_nil, Nat.zero_add] at h1
  unfold assign_entries
  rw [h1]
  simp only
  have h2 := append_source_fold (default_class_priority.filter (fun v => v ∉ entries)) entries
    (default_class_priority.drop entries.length) (by rw [List.length_drop]; omega)
  rw [h2, List.drop_drop, List.drop_eq_nil_of_le (by omega)]
  simp

/-- C4: priority completeness. For every priority override string, after `SyncClassPriority`
the array `class_priority` is a permutation of the 15 zero-based class indices `0..14`. -/
theorem SyncClassPriority_perm (g : Game) (s : RaidBars) :
    (s.SyncClassPriority g).class_priority.Perm (List.range kNumClasses) := by
  by_cases h : s.setting_class_priority = ""
  · have : (s.SyncClassPriority g).class_priority = default_class_priority := by
      unfold RaidBars.SyncClassPriority
      simp [h]
    rw [this]
    exact default_class_priority_perm
  · rw [SyncClassPriority_entries g s h]
    obtain ⟨hnd, hlt⟩ := priority_entries_spec g default_class_priority.length
      (g.split_text (g.toupper s.setting_class_priority))
    exact (entries_append_rest_perm _ hnd hlt).trans default_class_priority_perm

/-! ## Roster snapshot -/

theorem string_lt_trans {a b c : String} (h1 : string_lt a b = true) (h2 : string_lt b c = true) :
    string_lt a c = true := by
  unfold string_lt at *
  rw [decide_eq_true_eq] at *
  exact lt_trans h1 h2

theorem string_lt_of_not_lt {a b : String} (hne : a ≠ b) (h : ¬ string_lt a b = true) :
    string_lt b a = true := by
  unfold string_lt at *
  rw [decide_eq_true_eq] at *
  rcases lt_trichotomy a.toList b.toList with h1 | h1 | h1
  · exact absurd h1 h
  · exact absurd (String.toList_inj.mp h1) hne
  · exact h1

theorem mem_sort_insert {α : Type} (lt : α → α → Bool) (a x : α) (l : List α) :
    x ∈ sort_insert lt a l ↔ x = a ∨ x ∈ l := by
  induction l with
  | nil => simp [sort_insert]
  | cons b l ih =>
    unfold sort_insert
    split_ifs
    · simp
    · simp [ih]; tauto

theorem sort_insert_perm {α : Type} (lt : α → α → Bool) (a : α) (l : List α) :
    (sort_insert lt a l).Perm (a :: l) := by
  induction l with
  | nil => simp [sort_insert]
  | cons b l ih =>
    unfold sort_insert
    split_ifs
    · exact List.Perm.refl _
    · exact (List.Perm.cons b ih).trans (List.Perm.swap a b l)

theorem std_sort_perm {α : Type} (lt : α → α → Bool) (l : List α) : (std_sort lt l).Perm l := by
  induction l with
  | nil => simp [std_sort]
  | cons a l ih =>
    have : std_sort lt (a :: l) = sort_insert lt a (std_sort lt l) := rfl
    rw [this]
    exact (sort_insert_perm lt a _).trans (List.Perm.cons a ih)

theorem sort_insert_pairwise (a : RaidMember) (l : List RaidMember)
    (hl : l.Pairwise (fun x y => string_lt x.name y.name = true))
    (ha : ∀ x ∈ l, x.name ≠ a.name) :
    (sort_insert RaidMember.name_lt a l).Pairwise (fun x y => string_lt x.name y.name = true) := by
  induction l with
  | nil => simp [sort_insert]
  | cons b l ih =>
    rw [List.pairwise_cons] at hl
    unfold sort_insert
    by_cases hab : RaidMember.name_lt a b = true
    · rw [if_pos hab]
      refine List.Pairwise.cons ?_ (List.Pairwise.cons hl.1 hl.2)
      intro x hx
      rcases List.mem_cons.mp hx with hx | hx
      · rw [hx]; exact hab
      · exact string_lt_trans hab (hl.1 x hx)
    · rw [if_neg hab]
      refine List.Pairwise.cons ?_ (ih hl.2 (fun x hx => ha x (List.mem_cons_of_mem _ hx)))
      intro x hx
      rcases (mem_sort_insert _ _ _ _).mp hx with hx | hx
      · rw [hx]
        exact string_lt_of_not_lt (Ne.symm (ha b (List.mem_cons_self _ _))) hab
      · exact hl.1 x hx

theorem std_sort_pairwise (l : List RaidMember) (hnd : (l.map (fun x => x.name)).Nodup) :
    (std_sort RaidMember.name_lt l).Pairwise (fun x y => string_lt x.name y.name = true) := by
  induction l with
  | nil => simp [std_sort]
  | cons a l ih =>
    have : std_sort RaidMember.name_lt (a :: l) =
        sort_insert RaidMember.name_lt a (std_sort RaidMember.name_lt l) := rfl
    rw [this]
    rw [List.map_cons, List.nodup_cons] at hnd
    apply sort_insert_pairwise a _ (ih hnd.2)
    intro x hx hxa
    have hx' : x ∈ l := (std_sort_perm _ l).mem_iff.mp hx
    exact hnd.1 (hxa ▸ List.mem_map_of_mem _ hx')

theorem bucketize_cases (g : Game) (rc : List (List RaidMember)) (member : RaidInfoMember) :
    bucketize g rc member = rc ∨
      ∃ (i : Nat) (m : RaidMember), i < rc.length ∧ m.name = member.Name ∧ member.Name ≠ "" ∧
        bucketize g rc member = rc.set i (rc.getD i [] ++ [m]) := by
  unfold bucketize
  by_cases h1 : member.Name = ""
  · left; rw [if_pos h1]
  · rw [if_neg h1]
    by_cases h2 : member.ClassValue < kClassIndexOffset
    · left; rw [if_pos h2]
    · rw [if_neg h2]
      dsimp only
      by_cases h3 : member.ClassValue - kClassIndexOffset ≥ rc.length
      · left; rw [if_pos h3]
      · rw [if_neg h3]
        right
        exact ⟨_, _, not_le.mp h3, rfl, h1, rfl⟩

theorem bucketize_fold_nodup (g : Game) (l : List RaidInfoMember) :
    ∀ (rc : List (List RaidMember)) (seen : List String),
      (∀ bucket ∈ rc, (bucket.map (fun x => x.name)).Nodup ∧ ∀ m ∈ bucket, m.name ∈ seen) →
      ((l.filter (fun x => decide (x.Name ≠ ""))).map (fun x => x.Name)).Nodup →
      (∀ x ∈ l, x.Name ≠ "" → x.Name ∉ seen) →
      ∀ bucket ∈ l.foldl (bucketize g) rc, (bucket.map (fun x => x.name)).Nodup := by
  induction l with
  | nil => intro rc seen hrc _ _ bucket hb; exact (hrc bucket hb).1
  | cons x xs ih =>
    intro rc seen hrc hnd hseen
    rw [List.foldl_cons]
    rcases bucketize_cases g rc x with h | ⟨i, m, hi, hm, hne, h⟩
    · rw [h]
      apply ih rc seen hrc
      · by_cases hx : x.Name = ""
        · simpa [List.filter_cons, hx] using hnd
        · have : (List.filter (fun x => decide (x.Name ≠ "")) (x :: xs)) =
              x :: List.filter (fun x => decide (x.Name ≠ "")) xs := by
            simp [List.filter_cons, hx]
          rw [this, List.map_cons, List.nodup_cons] at hnd
          exact hnd.2
      · intro y hy; exact hseen y (List.mem_cons_of_mem _ hy)
    · rw [h]
      have hfil : (List.filter (fun x => decide (x.Name ≠ "")) (x :: xs)) =
          x :: List.filter (fun x => decide (x.Name ≠ "")) xs := by
        simp [List.filter_cons, hne]
      rw [hfil, List.map_cons, List.nodup_cons] at hnd
      have hxseen : x.Name ∉ seen := hseen x (List.mem_cons_self _ _) hne
      have hold : (((rc.getD i []).map (fun x => x.name)).Nodup ∧
          ∀ m ∈ rc.getD i [], m.name ∈ seen) := by
        have hget : rc.getD i [] = rc[i] := by simp [List.getD, hi]
        rw [hget]
        exact hrc _ (List.getElem_mem _)
      apply ih (rc.set i (rc.getD i [] ++ [m])) (x.Name :: seen)
      · intro bucket hb
        rcases List.mem_or_eq_of_mem_set hb with hb | hb
        · exact ⟨(hrc bucket hb).1, fun y hy => List.mem_cons_of_mem _ ((hrc bucket hb).2 y hy)⟩
        · rw [hb]
          constructor
          · rw [List.map_append, List.nodup_append]
            refine ⟨hold.1, by simp, ?_⟩
            intro a ha hb'
            simp only [List.map_cons, List.map_nil, List.mem_singleton] at hb'
            obtain ⟨y, hy, hya⟩ := List.mem_map.mp ha
            apply hxseen
            rw [← hm, ← hb', ← hya]
            exact hold.2 y hy
          · intro y hy
            rcases List.mem_append.mp hy with hy | hy
            · exact List.mem_cons_of_mem _ (hold.2 y hy)
            · rw [List.mem_singleton] at hy
              rw [hy, hm]
              exact List.mem_cons_self _ _
      · exact hnd.2
      · intro y hy hyne hmem
        rcases List.mem_cons.mp hmem with hmem | hmem
        · apply hnd.1
          rw [← hmem]
          exact List.mem_map_of_mem _ (List.mem_filter.mpr ⟨hy, by simpa using hyne⟩)
        · exact hseen y (List.mem_cons_of_mem _ hy) hyne hmem

/-- C5: sort invariant. For every roster whose non-empty member names are unique, after
`UpdateRaidMembers` every per-class bucket of `raid_classes` is strictly ascending by name. -/
theorem UpdateRaidMembers_sorted (g : Game) (s : RaidBars)
    (hnames : (((g.MemberList.take kRaidMaxMembers).filter
      (fun x => decide (x.Name ≠ ""))).map (fun x => x.Name)).Nodup) :
    ∀ bucket ∈ (RaidBars.UpdateRaidMembers g s).raid_classes,
      bucket.Pairwise (fun a b => string_lt a.name b.name = true) := by
  intro bucket hb
  unfold RaidBars.UpdateRaidMembers at hb
  dsimp only at hb
  by_cases hr : (!g.is_in_raid) = true
  · rw [if_pos hr] at hb
    obtain ⟨b0, -, hb0⟩ := List.mem_map.mp hb
    rw [← hb0]
    exact List.Pairwise.nil
  · rw [if_neg hr] at hb
    obtain ⟨b0, hb0, hsort⟩ := List.mem_map.mp hb
    rw [← hsort]
    apply std_sort_pairwise
    refine bucketize_fold_nodup g _ _ [] ?_ hnames (fun _ _ _ h => by simp at h) b0 hb0
    intro bucket hbk
    obtain ⟨b1, -, hb1⟩ := List.mem_map.mp hbk
    rw [← hb1]
    simp

/-- Witness of C5 on the example raid: its names are unique and every bucket of the rebuilt
snapshot is strictly ascending by name. -/
theorem UpdateRaidMembers_sorted_witness :
    (((example_game.MemberList.take kRaidMaxMembers).filter
        (fun x => decide (x.Name ≠ ""))).map (fun x => x.Name)).Nodup ∧
      ∀ bucket ∈ (RaidBars.UpdateRaidMembers example_game example_bars).raid_classes,
        bucket.Pairwise (fun a b => string_lt a.name b.name = true) :=
  ⟨by decide, UpdateRaidMembers_sorted example_game example_bars (by decide)⟩

/-! ## Despawn -/

/-- What the despawn callback does guarantee: when the overlay is enabled and the despawned
handle `p` refers to an entity of type `Player`, no member of any class bucket and no slot of
`visible_list` holds `p` afterwards; when the overlay is disabled, the handle is null or the
entity is not a player, the callback changes nothing. -/
theorem EntityDespawn_prunes (g : Game) (s : RaidBars) (p : EntityPtr) :
    (s.setting_enabled = true → (g.entity p).Type_ = EntityTypes.Player →
      (∀ bucket ∈ (s.EntityDespawn g (some p)).raid_classes, ∀ m ∈ bucket, m.entity ≠ some p) ∧
      (∀ e ∈ (s.EntityDespawn g (some p)).visible_list, e ≠ some p)) ∧
    ((s.setting_enabled = false ∨ (g.entity p).Type_ ≠ EntityTypes.Player) →
      s.EntityDespawn g (some p) = s) ∧
    s.EntityDespawn g none = s := by
  refine ⟨?_, ?_, rfl⟩
  · intro hen hty
    have hguard : ¬ ((!s.setting_enabled ||
        decide ((g.entity p).Type_ ≠ EntityTypes.Player)) = true) := by
      simp [hen, hty]
    unfold RaidBars.EntityDespawn
    simp only [if_neg hguard]
    constructor
    · intro bucket hb m hm
      obtain ⟨b0, -, hb0⟩ := List.mem_map.mp hb
      rw [← hb0] at hm
      obtain ⟨m0, -, hm0⟩ := List.mem_map.mp hm
      rw [← hm0]
      by_cases h : m0.entity = some p
      · rw [if_pos h]; simp
      · rw [if_neg h]; exact h
    · intro e he
      obtain ⟨e0, -, he0⟩ := List.mem_map.mp he
      rw [← he0]
      by_cases h : e0 = some p
      · rw [if_pos h]; simp
      · rw [if_neg h]; exact h
  · intro h
    have hguard : (!s.setting_enabled ||
        decide ((g.entity p).Type_ ≠ EntityTypes.Player)) = true := by
      rcases h with h | h
      · simp [h]
      · simp [h]
    unfold RaidBars.EntityDespawn
    simp only [if_pos hguard]

/-- C6 (divergence): pruning. The snapshot of the managed example caches Zed at address 3, in
the bucket of the warriors and in slot 1 of the visible list. When the entity at that address is
no longer of type `Player` at the time of its despawn (it has become a corpse), the guard of the
callback returns early: after the despawn notification for the handle 3, with the overlay
enabled, both the class bucket and the visible list still hold the handle 3. -/
theorem despawn_keeps_non_player_handle :
    managed.setting_enabled = true ∧
      (corpse_game.entity 3).Type_ ≠ EntityTypes.Player ∧
      managed.visible_list[1]? = some (some 3) ∧
      (managed.EntityDespawn corpse_game (some 3)).visible_list[1]? = some (some 3) ∧
      ((managed.EntityDespawn corpse_game (some 3)).raid_classes.getD 0 []).map
          (fun m => (m.name, m.entity)) = [("Anna", some 1), ("Zed", some 3)] ∧
      managed.EntityDespawn corpse_game (some 3) = managed :=
  ⟨by decide!, by decide!, by decide!, by decide!, by decide!,
    (EntityDespawn_prunes corpse_game managed 3).2.1 (Or.inr (by decide!))⟩

/-! ## Management gestures -/

theorem foldl_invariant_mem {α β : Type} (P : β → Prop) (step : β → α → β) (l : List α)
    (hstep : ∀ b a, a ∈ l → P b → P (step b a)) (b : β) (hb : P b) : P (l.foldl step b) := by
  induction l generalizing b with
  | nil => exact hb
  | cons a l ih =>
    exact ih (fun b x hx hp => hstep b x (List.mem_cons_of_mem _ hx) hp) _
      (hstep b a (List.mem_cons_self _ _) hb)

/-- The destination scan yields the unaffiliated sentinel or one of the group numbers `0..11`. -/
theorem resolve_dest_group_range (visible_group_index : List Int) (index : Int)
    (hlen : visible_group_index.length = kNumGroupLabelSlots) :
    resolve_dest_group visible_group_index index = kRaidUngrouped ∨
      resolve_dest_group visible_group_index index < 12 := by
  unfold resolve_dest_group
  apply foldl_invariant_mem (fun d : Nat => d = kRaidUngrouped ∨ d < 12)
  · intro d slot hslot hd
    rw [hlen, List.mem_range] at hslot
    split_ifs with h1 h2 h3
    · exact hd
    · exact Or.inl rfl
    · right; unfold kNumGroupLabelSlots at hslot; omega
    · exact hd
  · exact Or.inl rfl

/-- The second half of the select gesture in `HandleCtrlClick` (a name `n` is pending): the
handler returns true and clears the pending selection; the destination `d` found by the label
scan is the unaffiliated bucket or a numbered group; an unaffiliated destination emits exactly
the move command `(n, 0)`, a numbered group `d + 1` with fewer than 6 members emits exactly the
move command `(n, d + 1)`, and a group with 6 or more members emits no command, only the failure
message. -/
theorem HandleCtrlClick_second (g : Game) (s : RaidBars) (index : Int)
    (hpending : s.manage.move_pending_name ≠ "")
    (hslots : s.visible_group_index.length = kNumGroupLabelSlots) :
    (s.HandleCtrlClick g index).1 = true ∧
      (s.HandleCtrlClick g index).2.1 =
        { s with manage := { s.manage with move_pending_name := "" } } ∧
      (resolve_dest_group s.visible_group_index index = kRaidUngrouped ∨
        resolve_dest_group s.visible_group_index index < 12) ∧
      (resolve_dest_group s.visible_group_index index = kRaidUngrouped →
        (s.HandleCtrlClick g index).2.2.filter Emit.isCommand =
          [Emit.do_say "#raidmove %s 0" [FmtArg.str s.manage.move_pending_name]]) ∧
      (resolve_dest_group s.visible_group_index index ≠ kRaidUngrouped →
        g.get_raid_group_count (resolve_dest_group s.visible_group_index index) < 6 →
        (s.HandleCtrlClick g index).2.2.filter Emit.isCommand =
          [Emit.do_say "#raidmove %s %d"
            [FmtArg.str s.manage.move_pending_name,
             FmtArg.int ((resolve_dest_group s.visible_group_index index : Int) + 1)]]) ∧
      (resolve_dest_group s.visible_group_index index ≠ kRaidUngrouped →
        6 ≤ g.get_raid_group_count (resolve_dest_group s.visible_group_index index) →
        (s.HandleCtrlClick g index).2.2 =
          [Emit.print_chat "Group %d is full. Cannot move %s."
            [FmtArg.int ((resolve_dest_group s.visible_group_index index : Int) + 1),
             FmtArg.str s.manage.move_pending_name]]) := by
  have hrange := resolve_dest_group_range s.visible_group_index index hslots
  unfold RaidBars.HandleCtrlClick
  simp only [if_neg hpending]
  by_cases hd : resolve_dest_group s.visible_group_index index = kRaidUngrouped
  · simp [hd, Emit.isCommand]
  · have hlt := hrange.resolve_left hd
    by_cases hc : g.get_raid_group_count (resolve_dest_group s.visible_group_index index) ≥ 6
    · have hc' : ¬ g.get_raid_group_count (resolve_dest_group s.visible_group_index index) < 6 :=
        by omega
      simp [hd, hc, hc', hlt, Emit.isCommand]
    · have hc' : g.get_raid_group_count (resolve_dest_group s.visible_group_index index) < 6 := by
        omega
      have hc'' : ¬ 6 ≤ g.get_raid_group_count (resolve_dest_group s.visible_group_index index) :=
        by omega
      simp [hd, hc, hc'', hlt, Emit.isCommand]

theorem GetRaidMemberNameAtIndex_live (g : Game) (s : RaidBars) (index : Nat) (p : EntityPtr)
    (hcell : s.visible_list[index]? = some (some p)) :
    s.GetRaidMemberNameAtIndex g (index : Int) = (g.entity p).Name := by
  have hlt : index < s.visible_list.length := by
    by_contra hge
    rw [List.getElem?_eq_none (by omega)] at hcell
    cases hcell
  have h1 : ¬ ((index : Int) < 0 ∨ (index : Int) ≥ (s.visible_list.length : Int)) := by
    push_neg
    exact ⟨by omega, by exact_mod_cast hlt⟩
  unfold RaidBars.GetRaidMemberNameAtIndex
  rw [if_neg h1]
  have h2 : s.visible_list.getD (index : Int).toNat none = some p := by
    simp [List.getD, hcell]
  rw [h2]

theorem GetRaidMemberNameAtIndex_null (g : Game) (s : RaidBars) (index : Nat)
    (hcell : s.visible_list[index]? = some none) :
    s.GetRaidMemberNameAtIndex g (index : Int) = "" := by
  unfold RaidBars.GetRaidMemberNameAtIndex
  split_ifs
  · rfl
  · have h2 : s.visible_list.getD (index : Int).toNat none = none := by
      simp [List.getD, hcell]
    rw [h2]

/-- The first branch of `HandleCtrlClick` on a cell that holds a non-null entity pointer. -/
theorem HandleCtrlClick_idle_live (g : Game) (s : RaidBars) (index : Nat) (p : EntityPtr)
    (hidle : s.manage.move_pending_name = "")
    (hcell : s.visible_list[index]? = some (some p))
    (hname : (g.entity p).Name ≠ "") :
    s.HandleCtrlClick g (index : Int) =
      (true, { s with manage := { s.manage with move_pending_name := (g.entity p).Name } },
        [Emit.print_chat "Selected %s for move. Ctrl+Click a destination group."
          [FmtArg.str (g.entity p).Name]]) := by
  unfold RaidBars.HandleCtrlClick
  simp only [if_pos hidle, GetRaidMemberNameAtIndex_live g s index p hcell, if_neg hname]

/-- Counterexample to C8 as stated: cell 9 of the managed example pass is the bar of the raid
member Otto, who is out of zone, so the cell holds a null reference; a click with exactly the
Ctrl modifier on that cell, with no selection pending, is handled but stores nothing. And once
management mode is turned off, the same click on the bar of Mona (cell 8, in zone) is not
handled at all. -/
theorem select_click_on_unreachable_entry :
    ((manage_bars.CallbackRender example_game).2.2[9]?.map
        (fun c => (c.kind, c.text, c.entity))) = some (CellKind.bar, "Otto", none) ∧
      managed.manage.move_pending_name = "" ∧
      managed.CalcClickIndex 65 35 = 9 ∧
      managed.HandleClick example_game 65 35 = (true, managed, []) ∧
      managed.manage_off.CalcClickIndex 65 15 = 8 ∧
      managed.manage_off.visible_list[8]? = some (some 2) ∧
      managed.manage_off.HandleClick example_game 65 15 = (false, managed.manage_off, []) :=
  ⟨by decide!, by decide!, by decide!, by decide!, by decide!, by decide!, by decide!⟩

theorem LoadBitmapFont_pending (g : Game) (s : RaidBars) (h : s.manage.move_pending_name = "") :
    (s.LoadBitmapFont g).1.manage.move_pending_name = "" ∧
      (s.LoadBitmapFont g).1.manage.enabled = s.manage.enabled := by
  unfold RaidBars.LoadBitmapFont
  by_cases h0 : s.bitmap_font.isSome = true ∨ s.setting_bitmap_font_filename = ""
  · rw [if_pos h0]; exact ⟨h, rfl⟩
  · rw [if_neg h0]
    dsimp only
    split
    · split_ifs
      · exact ⟨rfl, rfl⟩
      · exact ⟨h, rfl⟩
    · exact ⟨h, rfl⟩

theorem render_update_manage (g : Game) (s : RaidBars) (t : Nat) :
    (s.render_update g t).manage = s.manage := by
  unfold RaidBars.render_update RaidBars.UpdateRaidMembers
  dsimp only
  split_ifs <;> rfl

theorem render_layout_manage (g : Game) (s : RaidBars) :
    (s.render_layout g).1.manage = s.manage := by
  obtain ⟨s3, right, bottom, -, -, -, -, h | h⟩ := render_layout_cases g s
  · unfold RaidBars.render_layout
    dsimp only
    split_ifs <;> rfl
  · unfold RaidBars.render_layout
    dsimp only
    split_ifs <;> rfl

/-- A render pass never creates a pending selection and never toggles management mode. -/
theorem CallbackRender_pending (g : Game) (s : RaidBars) (h : s.manage.move_pending_name = "") :
    (s.CallbackRender g).1.manage.move_pending_name = "" ∧
      (s.CallbackRender g).1.manage.enabled = s.manage.enabled := by
  unfold RaidBars.CallbackRender
  by_cases h1 : (!s.setting_enabled || !g.is_in_game) = true
  · rw [if_pos h1]; exact ⟨h, rfl⟩
  · rw [if_neg h1]
    by_cases h2 : (!g.is_in_raid) = true
    · rw [if_pos h2]
      by_cases h3 : s.bitmap_font.isSome = true
      · rw [if_pos h3]; exact ⟨rfl, rfl⟩
      · rw [if_neg h3]; exact ⟨h, rfl⟩
    · rw [if_neg h2]
      cases g.display with
      | none => exact ⟨h, rfl⟩
      | some t =>
        dsimp only
        by_cases h3 : (!g.is_gui_visible) = true
        · rw [if_pos h3]; exact ⟨h, rfl⟩
        · rw [if_neg h3]
          by_cases h4 : (s.LoadBitmapFont g).1.bitmap_font.isNone = true
          · rw [if_pos h4]; exact LoadBitmapFont_pending g s h
          · rw [if_neg h4]
            dsimp only
            rw [render_layout_manage, render_update_manage]
            exact LoadBitmapFont_pending g s h

theorem manage_off_manage (s : RaidBars) :
    s.manage_off.manage = { enabled := false, move_pending_name := "" } := by
  unfold RaidBars.manage_off RaidBars.ParseManageArgs
  simp

theorem manage_on_manage (s : RaidBars) :
    s.manage_on.manage = { enabled := true, move_pending_name := "" } := by
  unfold RaidBars.manage_on RaidBars.ParseManageArgs
  simp [RaidBars.set_setting_enabled, RaidBars.Clean, RaidBarsManage.Clean]

/-- Counterexample to C9 as stated: after the reset (off, on, render pass) a click with exactly
the Ctrl modifier on the bar of Otto (cell 9, out of zone, null reference) is handled as a first
click but stores no pending selection. -/
theorem reset_click_on_unreachable_entry :
    (((selecting "Mona").manage_off.manage_on.CallbackRender example_game).2.2[9]?.map
        (fun c => (c.kind, c.text, c.entity))) = some (CellKind.bar, "Otto", none) ∧
      reset_bars.CalcClickIndex 65 35 = 9 ∧
      reset_bars.HandleClick example_game 65 35 = (true, reset_bars, []) ∧
      reset_bars.manage.move_pending_name = "" := by
  decide!

/-- The handler `HandleAltClick` on a cell holding a non-null reference to an entity with a
non-empty name: it returns true and leaves no pending selection; the move command `(name, 0)` is
emitted exactly when the current group of that name is not the unaffiliated sentinel, and
otherwise only the no-op message is reported. -/
theorem HandleAltClick_demote (g : Game) (s : RaidBars) (index : Nat) (p : EntityPtr)
    (hcell : s.visible_list[index]? = some (some p))
    (hname : (g.entity p).Name ≠ "") :
    (s.HandleAltClick g (index : Int)).1 = true ∧
      (s.HandleAltClick g (index : Int)).2.1 =
        { s with manage := { s.manage with move_pending_name := "" } } ∧
      (g.get_raid_group_number (g.entity p).Name ≠ kRaidUngrouped →
        (s.HandleAltClick g (index : Int)).2.2.filter Emit.isCommand =
          [Emit.do_say "#raidmove %s 0" [FmtArg.str (g.entity p).Name]]) ∧
      (g.get_raid_group_number (g.entity p).Name = kRaidUngrouped →
        (s.HandleAltClick g (index : Int)).2.2 =
          [Emit.print_chat "Player %s is already ungrouped." [FmtArg.str (g.entity p).Name]]) := by
  have hget : RaidBars.GetRaidMemberNameAtIndex g
      { s with manage := { s.manage with move_pending_name := "" } } (index : Int) =
      (g.entity p).Name :=
    GetRaidMemberNameAtIndex_live g _ index p hcell
  unfold RaidBars.HandleAltClick
  simp only [hget, if_neg hname]
  by_cases hgrp : g.get_raid_group_number (g.entity p).Name = kRaidUngrouped
  · simp [hgrp]
  · simp [hgrp, Emit.isCommand]

/-- Counterexample to C10 as stated: Otto is in group 3, not unaffiliated, but out of zone; a
click with exactly the Alt modifier on his bar (cell 9, null reference) is handled and emits
neither the move command nor any message. The same happens on the bar of an entity in zone whose
name is empty (cell 8), and with management mode off the click is not handled at all. -/
theorem demote_click_on_unreachable_entry :
    ((manage_bars.CallbackRender example_game).2.2[9]?.map
        (fun c => (c.kind, c.text, c.entity))) = some (CellKind.bar, "Otto", none) ∧
      alt_game.get_raid_group_number "Otto" ≠ kRaidUngrouped ∧
      managed.CalcClickIndex 65 35 = 9 ∧
      managed.HandleClick alt_game 65 35 = (true, managed, []) ∧
      managed.CalcClickIndex 65 15 = 8 ∧ managed.visible_list[8]? = some (some 2) ∧
      (nameless_alt_game.entity 2).Name = "" ∧
      nameless_alt_game.get_raid_group_number "" ≠ kRaidUngrouped ∧
      managed.HandleClick nameless_alt_game 65 15 = (true, managed, []) ∧
      managed.manage_off.HandleClick alt_game 65 15 = (false, managed.manage_off, []) :=
  ⟨by decide!, by decide!, by decide!, by decide!, by decide!, by decide!, by decide!,
    by decide!, by decide!, by decide!⟩

/-! ## Layout passes place a prefix of the producer order -/

theorem place_from_append (gw gh x_min y_min : ℚ) (m : ℕ) (a b : List (ℚ → ℚ → Cell)) (k0 : ℕ) :
    place_from gw gh x_min y_min m k0 (a ++ b) =
      place_from gw gh x_min y_min m k0 a ++ place_from gw gh x_min y_min m (k0 + a.length) b := by
  induction a generalizing k0 with
  | nil => simp [place_from]
  | cons mk rest ih =>
    have h := ih (k0 + 1)
    rw [show k0 + 1 + rest.length = k0 + (rest.length + 1) by omega] at h
    show mk _ _ :: place_from gw gh x_min y_min m (k0 + 1) (rest ++ b) = _
    rw [h]
    rfl

theorem place_cells_snoc (gw gh x_min y_min : ℚ) (m : ℕ) (a : List (ℚ → ℚ → Cell))
    (mk : ℚ → ℚ → Cell) :
    place_cells gw gh x_min y_min m (a ++ [mk]) =
      place_cells gw gh x_min y_min m a ++
        [mk (x_min + ((a.length / m : ℕ) : ℚ) * gw) (y_min + ((a.length % m : ℕ) : ℚ) * gh)] := by
  unfold place_cells
  rw [place_from_append]
  simp [place_from]

theorem place_from_length (gw gh x_min y_min : ℚ) (m : ℕ) (a : List (ℚ → ℚ → Cell)) (k0 : ℕ) :
    (place_from gw gh x_min y_min m k0 a).length = a.length := by
  induction a generalizing k0 with
  | nil => simp [place_from]
  | cons mk rest ih => simp [place_from, ih]

theorem place_from_getElem? (gw gh x_min y_min : ℚ) (m : ℕ) (a : List (ℚ → ℚ → Cell))
    (k0 k : ℕ) :
    (place_from gw gh x_min y_min m k0 a)[k]? =
      a[k]?.map (fun mk => mk (x_min + (((k0 + k) / m : ℕ) : ℚ) * gw)
        (y_min + (((k0 + k) % m : ℕ) : ℚ) * gh)) := by
  induction a generalizing k0 k with
  | nil => simp [place_from]
  | cons mk rest ih =>
    cases k with
    | zero => simp [place_from]
    | succ k =>
      simp only [place_from, List.getElem?_cons_succ, ih (k0 + 1) k]
      rw [show k0 + 1 + k = k0 + (k + 1) by omega]

/-- The column test against the right edge, in terms of the number of columns that fit. -/
theorem off_right_iff {gw x_min x_max : ℚ} (hgw : 0 < gw) (col : ℕ) :
    x_min + (col : ℚ) * gw + gw > x_max ↔ (⌊(x_max - x_min) / gw⌋).toNat ≤ col := by
  have h1 : x_min + (col : ℚ) * gw + gw > x_max ↔ (x_max - x_min) / gw < (col : ℚ) + 1 := by
    rw [div_lt_iff₀ hgw]
    constructor <;> intro h <;> nlinarith
  rw [h1]
  have h2 : (x_max - x_min) / gw < (col : ℚ) + 1 ↔ ⌊(x_max - x_min) / gw⌋ < (col : Int) + 1 := by
    rw [Int.floor_lt]
    push_cast
    rfl
  rw [h2]
  omega

section offer
variable {gw gh x_min y_min x_max y_max : ℚ} {m : ℕ}

theorem div_mod_of_col_row {m col row k : ℕ} (hrow : row < m) (hk : k = col * m + row) :
    k / m = col ∧ k % m = row := by
  subst hk
  constructor
  · rw [Nat.add_comm, Nat.add_mul_div_right _ _ (by omega : 0 < m), Nat.div_eq_of_lt hrow]; simp
  · rw [Nat.add_comm, Nat.add_mul_mod_self_right, Nat.mod_eq_of_lt hrow]

theorem offer_spec (hgw : 0 < gw) (hgh : 0 < gh) (hm1 : 1 ≤ m)
    (hlo : (m : ℚ) * gh ≤ y_max - y_min) (hhi : y_max - y_min < ((m : ℚ) + 1) * gh)
    (offered : List (ℚ → ℚ → Cell)) (f : Flow)
    (h : Placed gw gh x_min y_min x_max y_max m offered f) :
    ((flow_wrap gw gh y_min y_max f).x + gw > x_max ∧
        grid_capacity gw x_min x_max m ≤ offered.length ∧
        FlowOver gw gh x_max y_max (flow_wrap gw gh y_min y_max f) ∧
        ∀ more, Placed gw gh x_min y_min x_max y_max m (offered ++ more)
          (flow_wrap gw gh y_min y_max f)) ∨
      (¬ (flow_wrap gw gh y_min y_max f).x + gw > x_max ∧
        Placed gw gh x_min y_min x_max y_max m offered (flow_wrap gw gh y_min y_max f) ∧
        ∀ mk : ℚ → ℚ → Cell, Placed gw gh x_min y_min x_max y_max m (offered ++ [mk])
          { flow_wrap gw gh y_min y_max f with
            cells := (flow_wrap gw gh y_min y_max f).cells ++
              [mk (flow_wrap gw gh y_min y_max f).x (flow_wrap gw gh y_min y_max f).y]
            y := (flow_wrap gw gh y_min y_max f).y + gh }) := by
  obtain ⟨hcells, hstate⟩ := h
  have hy0 : ¬ (y_min + gh > y_max) := by
    have : (1 : ℚ) ≤ (m : ℚ) := by exact_mod_cast hm1
    have : gh ≤ (m : ℚ) * gh := by nlinarith
    linarith
  rcases hstate with ⟨hle, col, row, hrow, hx, hy, hk⟩ | ⟨hge, hover⟩
  · -- the flow has placed everything offered so far
    have hwrap : ∃ col' row' : ℕ, row' < m ∧
        (flow_wrap gw gh y_min y_max f).x = x_min + (col' : ℚ) * gw ∧
        (flow_wrap gw gh y_min y_max f).y = y_min + (row' : ℚ) * gh ∧
        (flow_wrap gw gh y_min y_max f).cells = f.cells ∧ offered.length = col' * m + row' := by
      unfold flow_wrap
      by_cases hw : f.y + gh > y_max
      · rw [if_pos hw]
        have hrm : row = m := by
          by_contra hne
          have hlt : row + 1 ≤ m := by omega
          have hq : ((row : ℚ) + 1) ≤ (m : ℚ) := by exact_mod_cast hlt
          have : ((row : ℚ) + 1) * gh ≤ (m : ℚ) * gh := mul_le_mul_of_nonneg_right hq hgh.le
          rw [hy] at hw
          linarith
        refine ⟨col + 1, 0, by omega, ?_, ?_, rfl, ?_⟩
        · simp [hx]; ring
        · simp
        · rw [hk, hrm]; ring
      · rw [if_neg hw]
        have hrm : row < m := by
          by_contra hne
          have hrm : row = m := by omega
          apply hw
          rw [hy, hrm]
          have : ((m : ℚ) + 1) * gh = (m : ℚ) * gh + gh := by ring
          linarith
        exact ⟨col, row, hrm, hx, hy, rfl, hk⟩
    obtain ⟨col', row', hrow', hx', hy', hc', hk'⟩ := hwrap
    have hoff := @off_right_iff gw x_min x_max hgw col'
    by_cases hov : (flow_wrap gw gh y_min y_max f).x + gw > x_max
    · left
      refine ⟨hov, ?_⟩
      have hcol : (⌊(x_max - x_min) / gw⌋).toNat ≤ col' := by
        rw [hx'] at hov; exact hoff.mp hov
      have hcap : grid_capacity gw x_min x_max m ≤ col' * m := by
        unfold grid_capacity
        rw [Nat.mul_comm]
        exact Nat.mul_le_mul_right m hcol
      have hrow0 : row' = 0 := by omega
      have hlen : offered.length = grid_capacity gw x_min x_max m := by omega
      have hover : FlowOver gw gh x_max y_max (flow_wrap gw gh y_min y_max f) := by
        refine ⟨hov, ?_⟩
        rw [hy', hrow0]
        simpa using hy0
      refine ⟨by omega, hover, ?_⟩
      intro more
      constructor
      · rw [hc', hcells, List.take_append_of_le_length (by omega)]
      · right
        exact ⟨by rw [List.length_append]; omega, hover⟩
    · right
      have hcol : col' < (⌊(x_max - x_min) / gw⌋).toNat := by
        rw [hx'] at hov
        by_contra hge
        exact hov (hoff.mpr (by omega))
      have hcap : (col' + 1) * m ≤ grid_capacity gw x_min x_max m := by
        unfold grid_capacity
        rw [Nat.mul_comm]
        exact Nat.mul_le_mul_left m (by omega)
      have hlt : offered.length < grid_capacity gw x_min x_max m := by
        have : (col' + 1) * m = col' * m + m := by ring
        omega
      obtain ⟨hdiv, hmod⟩ := div_mod_of_col_row hrow' hk'
      refine ⟨hov, ⟨by rw [hc', hcells], Or.inl ⟨hle, col', row', hrow'.le, hx', hy', hk'⟩⟩, ?_⟩
      intro mk
      constructor
      · show (flow_wrap gw gh y_min y_max f).cells ++ _ = _
        rw [hc', hcells, List.take_of_length_le (by omega),
          List.take_of_length_le (by rw [List.length_append, List.length_singleton]; omega),
          place_cells_snoc, hx', hy', hdiv, hmod]
      · left
        refine ⟨by rw [List.length_append, List.length_singleton]; omega, col', row' + 1,
          by omega, hx', ?_, ?_⟩
        · show (flow_wrap gw gh y_min y_max f).y + gh = _
          rw [hy']; push_cast; ring
        · rw [List.length_append, List.length_singleton, hk']; ring
  · -- the flow is already off the right edge
    have hsame : flow_wrap gw gh y_min y_max f = f := by
      unfold flow_wrap
      rw [if_neg hover.2]
    left
    rw [hsame]
    refine ⟨hover.1, hge, hover,
      fun more => ⟨?_, Or.inr ⟨by rw [List.length_append]; omega, hover⟩⟩⟩
    rw [hcells, List.take_append_of_le_length hge]

theorem members_placed (g : Game) (s : RaidBars) (hgw : 0 < s.grid_width)
    (hgh : 0 < s.grid_height) (hm1 : 1 ≤ m)
    (hlo : (m : ℚ) * s.grid_height ≤ y_max - y_min)
    (hhi : y_max - y_min < ((m : ℚ) + 1) * s.grid_height)
    (show_class : Bool) (threshold : Int) (members : List RaidMember) :
    ∀ (offered : List (ℚ → ℚ → Cell)) (f : Flow),
      Placed s.grid_width s.grid_height x_min y_min x_max y_max m offered f →
      Placed s.grid_width s.grid_height x_min y_min x_max y_max m
        (offered ++ (members.filter (member_shown g show_class threshold)).map (bar_cell g))
        (QueueByClass.members g s x_max y_min y_max show_class threshold members f) := by
  induction members with
  | nil => intro offered f h; simpa [QueueByClass.members] using h
  | cons member rest ih =>
    intro offered f h
    simp only [QueueByClass.members]
    rcases offer_spec hgw hgh hm1 hlo hhi offered f h with
      ⟨hov, -, -, hall⟩ | ⟨hnov, hskip, hpush⟩
    · rw [if_pos hov]; exact hall _
    · rw [if_neg hnov]
      by_cases hself : member.entity = g.self
      · rw [if_pos hself]
        have hs : member_shown g show_class threshold member = false := by
          simp [member_shown, hself]
        rw [List.filter_cons_of_neg (by simp [hs])]
        exact ih offered _ hskip
      · rw [if_neg hself]
        by_cases hthr : hp_percent_of g member.entity ≥ threshold ∧ show_class = false
        · rw [if_pos hthr]
          have hs : member_shown g show_class threshold member = false := by
            simp [member_shown, hthr.1, hthr.2]
          rw [List.filter_cons_of_neg (by simp [hs])]
          exact ih offered _ hskip
        · rw [if_neg hthr]
          have hs : member_shown g show_class threshold member = true := by
            rw [not_and_or] at hthr
            rcases hthr with h1 | h1
            · simp [member_shown, hself, h1]
            · simp [member_shown, hself, h1]
          rw [List.filter_cons_of_pos hs, List.map_cons]
          have := ih (offered ++ [bar_cell g member]) _ (hpush (bar_cell g member))
          simpa [List.append_assoc] using this

theorem class_step_placed (g : Game) (s : RaidBars) (hgw : 0 < s.grid_width)
    (hgh : 0 < s.grid_height) (hm1 : 1 ≤ m)
    (hlo : (m : ℚ) * s.grid_height ≤ y_max - y_min)
    (hhi : y_max - y_min < ((m : ℚ) + 1) * s.grid_height)
    (offered : List (ℚ → ℚ → Cell)) (f : Flow) (class_index : Nat)
    (h : Placed s.grid_width s.grid_height x_min y_min x_max y_max m offered f) :
    Placed s.grid_width s.grid_height x_min y_min x_max y_max m
      (offered ++ (class_members_shown g s class_index).map (bar_cell g))
      (QueueByClass.class_step g s x_max y_min y_max f class_index) := by
  unfold QueueByClass.class_step class_members_shown
  dsimp only
  by_cases hskip : s.raid_classes.getD class_index [] = [] ∨
      s.class_never.getD class_index false = true
  · rw [if_pos hskip, if_pos hskip]; simpa using h
  · rw [if_neg hskip, if_neg hskip]
    exact members_placed g s hgw hgh hm1 hlo hhi _ _ _ offered f h

theorem class_fold_placed (g : Game) (s : RaidBars) (hgw : 0 < s.grid_width)
    (hgh : 0 < s.grid_height) (hm1 : 1 ≤ m)
    (hlo : (m : ℚ) * s.grid_height ≤ y_max - y_min)
    (hhi : y_max - y_min < ((m : ℚ) + 1) * s.grid_height) (classes : List Nat) :
    ∀ (offered : List (ℚ → ℚ → Cell)) (f : Flow),
      Placed s.grid_width s.grid_height x_min y_min x_max y_max m offered f →
      Placed s.grid_width s.grid_height x_min y_min x_max y_max m
        (offered ++ classes.flatMap (fun class_index =>
          (class_members_shown g s class_index).map (bar_cell g)))
        (classes.foldl (QueueByClass.class_step g s x_max y_min y_max) f) := by
  induction classes with
  | nil => intro offered f h; simpa using h
  | cons c rest ih =>
    intro offered f h
    have := ih _ _ (class_step_placed g s hgw hgh hm1 hlo hhi offered f c h)
    simpa [List.flatMap_cons, List.append_assoc] using this

theorem placed_start (gw gh x_min y_min x_max y_max : ℚ) (m : ℕ) :
    Placed gw gh x_min y_min x_max y_max m [] { x := x_min, y := y_min, cells := [] } := by
  refine ⟨by simp [place_cells, place_from], Or.inl ⟨Nat.zero_le _, 0, 0, Nat.zero_le _, ?_, ?_, ?_⟩⟩
  · simp
  · simp
  · simp

end offer


section group_pass
variable {gw gh x_min y_min x_max y_max : ℚ} {m : ℕ}

theorem group_placed_extend (offered more : List (ℚ → ℚ → Cell)) (f : GroupFlow)
    (h : GroupPlaced gw gh x_min y_min x_max y_max m offered f) (hret : f.returned = true) :
    GroupPlaced gw gh x_min y_min x_max y_max m (offered ++ more) f := by
  obtain ⟨⟨hcells, -⟩, hr⟩ := h
  obtain ⟨hcap, hover⟩ := hr hret
  refine ⟨⟨?_, Or.inr ⟨by rw [List.length_append]; omega, hover⟩⟩,
    fun _ => ⟨by rw [List.length_append]; omega, hover⟩⟩
  rw [hcells, List.take_append_of_le_length hcap]

theorem put_placed (s : RaidBars) (hgw : 0 < s.grid_width) (hgh : 0 < s.grid_height)
    (hm1 : 1 ≤ m) (hlo : (m : ℚ) * s.grid_height ≤ y_max - y_min)
    (hhi : y_max - y_min < ((m : ℚ) + 1) * s.grid_height)
    (mk : ℚ → ℚ → Cell) (offered : List (ℚ → ℚ → Cell)) (f : GroupFlow)
    (h : GroupPlaced s.grid_width s.grid_height x_min y_min x_max y_max m offered f) :
    GroupPlaced s.grid_width s.grid_height x_min y_min x_max y_max m (offered ++ [mk])
      (QueueByGroup.put s x_max y_min y_max mk f) := by
  unfold QueueByGroup.put
  by_cases hret : f.returned = true
  · rw [if_pos hret]; exact group_placed_extend offered [mk] f h hret
  · rw [if_neg hret]
    dsimp only
    rcases offer_spec hgw hgh hm1 hlo hhi offered f.flow h.1 with
      ⟨hov, hcap, hover, hall⟩ | ⟨hnov, -, hpush⟩
    · rw [if_pos hov]
      exact ⟨hall [mk], fun _ => ⟨by rw [List.length_append]; omega, hover⟩⟩
    · rw [if_neg hnov]
      exact ⟨hpush mk, fun hr => absurd hr hret⟩

theorem put_label_placed (s : RaidBars) (base : Nat) (hgw : 0 < s.grid_width)
    (hgh : 0 < s.grid_height) (hm1 : 1 ≤ m) (hlo : (m : ℚ) * s.grid_height ≤ y_max - y_min)
    (hhi : y_max - y_min < ((m : ℚ) + 1) * s.grid_height)
    (i : Nat) (offered : List (ℚ → ℚ → Cell)) (f : GroupFlow)
    (h : GroupPlaced s.grid_width s.grid_height x_min y_min x_max y_max m offered f) :
    GroupPlaced s.grid_width s.grid_height x_min y_min x_max y_max m
      (offered ++ [label_cell s i])
      (QueueByGroup.put_label s base x_max y_min y_max i f) := by
  unfold QueueByGroup.put_label
  by_cases hret : f.returned = true
  · rw [if_pos hret]; exact group_placed_extend offered [label_cell s i] f h hret
  · rw [if_neg hret]
    dsimp only
    rcases offer_spec hgw hgh hm1 hlo hhi offered f.flow h.1 with
      ⟨hov, hcap, hover, hall⟩ | ⟨hnov, -, hpush⟩
    · rw [if_pos hov]
      exact ⟨hall [label_cell s i], fun _ => ⟨by rw [List.length_append]; omega, hover⟩⟩
    · rw [if_neg hnov]
      exact ⟨hpush (label_cell s i), fun hr => absurd hr hret⟩

theorem put_fold_placed {α : Type} (s : RaidBars) (hgw : 0 < s.grid_width)
    (hgh : 0 < s.grid_height) (hm1 : 1 ≤ m) (hlo : (m : ℚ) * s.grid_height ≤ y_max - y_min)
    (hhi : y_max - y_min < ((m : ℚ) + 1) * s.grid_height)
    (mk : α → ℚ → ℚ → Cell) (items : List α) :
    ∀ (offered : List (ℚ → ℚ → Cell)) (f : GroupFlow),
      GroupPlaced s.grid_width s.grid_height x_min y_min x_max y_max m offered f →
      GroupPlaced s.grid_width s.grid_height x_min y_min x_max y_max m
        (offered ++ items.map mk)
        (items.foldl (fun f a => QueueByGroup.put s x_max y_min y_max (mk a) f) f) := by
  induction items with
  | nil => intro offered f h; simpa using h
  | cons a rest ih =>
    intro offered f h
    have := ih _ _ (put_placed s hgw hgh hm1 hlo hhi (mk a) offered f h)
    simpa [List.append_assoc] using this

theorem group_step_placed (g : Game) (s : RaidBars) (base : Nat) (hgw : 0 < s.grid_width)
    (hgh : 0 < s.grid_height) (hm1 : 1 ≤ m) (hlo : (m : ℚ) * s.grid_height ≤ y_max - y_min)
    (hhi : y_max - y_min < ((m : ℚ) + 1) * s.grid_height)
    (offered : List (ℚ → ℚ → Cell)) (f : GroupFlow) (i : Nat)
    (h : GroupPlaced s.grid_width s.grid_height x_min y_min x_max y_max m offered f) :
    GroupPlaced s.grid_width s.grid_height x_min y_min x_max y_max m
      (offered ++ slot_sequence g s i)
      (QueueByGroup.group_step g s base x_max y_min y_max f i) := by
  unfold QueueByGroup.group_step
  by_cases hret : f.returned = true
  · rw [if_pos hret]; exact group_placed_extend offered _ f h hret
  · rw [if_neg hret]
    have hmem : group_members_of s (if decide (i = 12) = true then kRaidUngrouped else i)
        (if decide (i = 12) = true then 72 else 6) = slot_members s i := by
      unfold slot_members
      by_cases hi : i = 12 <;> simp [hi]
    dsimp only
    rw [hmem]
    unfold slot_sequence
    by_cases hemp : slot_members s i = []
    · rw [if_pos hemp, if_pos hemp]; simpa using h
    · rw [if_neg hemp, if_neg hemp]
      have h1 := put_label_placed s base hgw hgh hm1 hlo hhi i offered f h
      have h2 := put_fold_placed s hgw hgh hm1 hlo hhi (bar_cell g) (slot_members s i) _ _ h1
      by_cases hshow : (!s.setting_show_all || decide (i = 12)) = true
      · rw [if_pos hshow, if_pos hshow]
        simpa [List.append_assoc] using h2
      · rw [if_neg hshow, if_neg hshow]
        have h3 := put_fold_placed s hgw hgh hm1 hlo hhi (fun _ : Nat => empty_cell)
          (List.range' (slot_members s i).length (6 - (slot_members s i).length)) _ _ h2
        simpa [List.append_assoc] using h3

theorem group_fold_placed (g : Game) (s : RaidBars) (base : Nat) (hgw : 0 < s.grid_width)
    (hgh : 0 < s.grid_height) (hm1 : 1 ≤ m) (hlo : (m : ℚ) * s.grid_height ≤ y_max - y_min)
    (hhi : y_max - y_min < ((m : ℚ) + 1) * s.grid_height) (slots : List Nat) :
    ∀ (offered : List (ℚ → ℚ → Cell)) (f : GroupFlow),
      GroupPlaced s.grid_width s.grid_height x_min y_min x_max y_max m offered f →
      GroupPlaced s.grid_width s.grid_height x_min y_min x_max y_max m
        (offered ++ slots.flatMap (slot_sequence g s))
        (slots.foldl (QueueByGroup.group_step g s base x_max y_min y_max) f) := by
  induction slots with
  | nil => intro offered f h; simpa using h
  | cons i rest ih =>
    intro offered f h
    have := ih _ _ (group_step_placed g s base hgw hgh hm1 hlo hhi offered f i h)
    simpa [List.flatMap_cons, List.append_assoc] using this

end group_pass

theorem rows_bounds_floor {gh y_min y_max : ℚ} {m : ℕ} (hgh : 0 < gh)
    (hm : ⌊(y_max - y_min) / gh⌋ = (m : Int)) :
    (m : ℚ) * gh ≤ y_max - y_min ∧ y_max - y_min < ((m : ℚ) + 1) * gh := by
  have h1 := Int.floor_le ((y_max - y_min) / gh)
  have h2 := Int.lt_floor_add_one ((y_max - y_min) / gh)
  rw [hm] at h1 h2
  constructor
  · have := (le_div_iff₀ hgh).mp h1
    simpa using this
  · have := (div_lt_iff₀ hgh).mp h2
    simpa using this

/-- The by-class pass places exactly the first `cap` cells of its producer order, column-major. -/
theorem QueueByClass_cells (g : Game) (s : RaidBars) (x_min y_min x_max y_max : ℚ) (m : ℕ)
    (hgw : 0 < s.grid_width) (hgh : 0 < s.grid_height) (hm1 : 1 ≤ m)
    (hm : ⌊(y_max - y_min) / s.grid_height⌋ = (m : Int)) :
    (s.QueueByClass g x_min y_min x_max y_max).2 =
      place_cells s.grid_width s.grid_height x_min y_min m
        ((class_sequence g s).take (grid_capacity s.grid_width x_min x_max m)) := by
  obtain ⟨hlo, hhi⟩ := rows_bounds_floor hgh hm
  have h := class_fold_placed g s hgw hgh hm1 hlo hhi s.class_priority [] _
    (placed_start s.grid_width s.grid_height x_min y_min x_max y_max m)
  exact h.1

/-- The by-group pass places exactly the first `cap` cells of its producer order, column-major. -/
theorem QueueByGroup_cells (g : Game) (s : RaidBars) (x_min y_min x_max y_max : ℚ) (m : ℕ)
    (hgw : 0 < s.grid_width) (hgh : 0 < s.grid_height) (hm1 : 1 ≤ m)
    (hm : ⌊(y_max - y_min) / s.grid_height⌋ = (m : Int)) :
    (s.QueueByGroup g x_min y_min x_max y_max).2 =
      place_cells s.grid_width s.grid_height x_min y_min m
        ((group_sequence g s).take (grid_capacity s.grid_width x_min x_max m)) := by
  obtain ⟨hlo, hhi⟩ := rows_bounds_floor hgh hm
  have h := group_fold_placed g s s.visible_list.length hgw hgh hm1 hlo hhi (List.range 13) []
    { flow := { x := x_min, y := y_min, cells := [] },
      visible_group_index := s.visible_group_index, returned := false }
    ⟨placed_start s.grid_width s.grid_height x_min y_min x_max y_max m, fun hr => by cases hr⟩
  exact h.1.1


/-! ## Promote click and unmatched modifiers -/

theorem find_range_first (p : Nat → Bool) (n k : Nat) (hk : k < n) (hp : p k = true)
    (hmin : ∀ j, j < k → p j = false) : (List.range n).find? p = some k := by
  induction n with
  | zero => omega
  | succ n ih =>
    rw [List.range_succ, List.find?_append]
    by_cases hkn : k < n
    · rw [ih hkn]; rfl
    · have hkn2 : k = n := by omega
      subst hkn2
      have hnone : (List.range k).find? p = none := by
        rw [List.find?_eq_none]
        intro x hx
        rw [hmin x (List.mem_range.mp hx)]
        exact Bool.false_ne_true
      rw [hnone]
      simp [List.find?, hp]

theorem FindFirstEmptyGroup_first (g : Game) (k : Nat) (hraid : g.is_in_raid = true)
    (hk : k < 12) (h0 : g.get_raid_group_count k = 0)
    (hmin : ∀ j, j < k → g.get_raid_group_count j ≠ 0) : FindFirstEmptyGroup g = (k : Int) := by
  unfold FindFirstEmptyGroup
  rw [find_range_first (fun group => g.get_raid_group_count group == 0) 12 k hk (by simp [h0])
    (fun j hj => by simpa using hmin j hj)]
  simp [hraid]

theorem FindFirstEmptyGroup_none (g : Game)
    (h : g.is_in_raid = false ∨ ∀ k, k < 12 → g.get_raid_group_count k ≠ 0) :
    FindFirstEmptyGroup g = -1 := by
  unfold FindFirstEmptyGroup
  rcases h with h | h
  · simp [h]
  · have hnone : (List.range 12).find? (fun group => g.get_raid_group_count group == 0) = none := by
      rw [List.find?_eq_none]
      intro x hx
      simpa using h x (List.mem_range.mp hx)
    rw [hnone]
    simp

/-- The handler `HandleShiftClick` on a cell holding a non-null reference to an entity with a
non-empty name: it returns true and leaves no pending selection; a name in a numbered group gets
the promote command; an unaffiliated name gets, when the player is in a raid, the move command
to the first group whose member count is zero; without such a group (or outside a raid) only the
failure message is reported. -/
theorem HandleShiftClick_promote (g : Game) (s : RaidBars) (index : Nat) (p : EntityPtr)
    (hcell : s.visible_list[index]? = some (some p))
    (hname : (g.entity p).Name ≠ "") :
    (s.HandleShiftClick g (index : Int)).1 = true ∧
      (s.HandleShiftClick g (index : Int)).2.1 =
        { s with manage := { s.manage with move_pending_name := "" } } ∧
      (g.get_raid_group_number (g.entity p).Name ≠ kRaidUngrouped →
        (s.HandleShiftClick g (index : Int)).2.2.filter Emit.isCommand =
          [Emit.do_say "#raidpromote %s" [FmtArg.str (g.entity p).Name]]) ∧
      (g.get_raid_group_number (g.entity p).Name = kRaidUngrouped →
        ∀ k : Nat, g.is_in_raid = true → k < 12 → g.get_raid_group_count k = 0 →
          (∀ j, j < k → g.get_raid_group_count j ≠ 0) →
          (s.HandleShiftClick g (index : Int)).2.2.filter Emit.isCommand =
            [Emit.do_say "#raidmove %s %d"
              [FmtArg.str (g.entity p).Name, FmtArg.int ((k : Int) + 1)]]) ∧
      (g.get_raid_group_number (g.entity p).Name = kRaidUngrouped →
        (g.is_in_raid = false ∨ ∀ k, k < 12 → g.get_raid_group_count k ≠ 0) →
          (s.HandleShiftClick g (index : Int)).2.2 =
            [Emit.print_chat "No empty groups available to move %s into."
              [FmtArg.str (g.entity p).Name]]) := by
  have hget : RaidBars.GetRaidMemberNameAtIndex g
      { s with manage := { s.manage with move_pending_name := "" } } (index : Int) =
      (g.entity p).Name :=
    GetRaidMemberNameAtIndex_live g _ index p hcell
  unfold RaidBars.HandleShiftClick
  simp only [hget, if_neg hname]
  by_cases hgrp : g.get_raid_group_number (g.entity p).Name = kRaidUngrouped
  · refine ⟨?_, ?_, fun h => absurd hgrp h, ?_, ?_⟩
    · rw [if_pos hgrp]; split_ifs <;> rfl
    · rw [if_pos hgrp]; split_ifs <;> rfl
    · intro _ k hraid hk h0 hmin
      rw [if_pos hgrp, FindFirstEmptyGroup_first g k hraid hk h0 hmin,
        if_neg (by omega)]
      simp [Emit.isCommand]
    · intro _ hnone
      rw [if_pos hgrp, FindFirstEmptyGroup_none g hnone, if_pos (by omega)]
  · simp [hgrp, Emit.isCommand]

/-- Counterexample to C11 as stated: Otto is in group 3 but out of zone; a click with exactly
the Shift modifier on his bar (cell 9, null reference) is handled and emits neither the promote
command nor any message. The same happens on the bar of an entity in zone whose name is empty
(cell 8). When the player has left the raid, a Shift click on the bar of Mona, reported as
unaffiliated while group 2 is empty, emits no move command but the failure message. With
management mode off the click is not handled at all. -/
theorem promote_click_on_unreachable_entry :
    ((manage_bars.CallbackRender example_game).2.2[9]?.map
        (fun c => (c.kind, c.text, c.entity))) = some (CellKind.bar, "Otto", none) ∧
      shift_game.get_raid_group_number "Otto" ≠ kRaidUngrouped ∧
      managed.CalcClickIndex 65 35 = 9 ∧
      managed.HandleClick shift_game 65 35 = (true, managed, []) ∧
      managed.CalcClickIndex 65 15 = 8 ∧ managed.visible_list[8]? = some (some 2) ∧
      (nameless_shift_game.entity 2).Name = "" ∧
      nameless_shift_game.get_raid_group_number "" ≠ kRaidUngrouped ∧
      managed.HandleClick nameless_shift_game 65 15 = (true, managed, []) ∧
      left_game.is_in_raid = false ∧
      left_game.get_raid_group_number "Mona" = kRaidUngrouped ∧
      left_game.get_raid_group_count 1 = 0 ∧
      managed.HandleClick left_game 65 15 =
        (true, managed,
          [Emit.print_chat "No empty groups available to move %s into." [FmtArg.str "Mona"]]) ∧
      managed.manage_off.HandleClick shift_game 65 15 = (false, managed.manage_off, []) :=
  ⟨by decide!, by decide!, by decide!, by decide!, by decide!, by decide!, by decide!,
    by decide!, by decide!, by decide!, by decide!, by decide!, by decide!, by decide!⟩

theorem CalcClickIndex_range (s : RaidBars) (x y : Int) :
    s.CalcClickIndex x y = -1 ∨
      (0 ≤ s.CalcClickIndex x y ∧ s.CalcClickIndex x y < (s.visible_list.length : Int)) := by
  unfold RaidBars.CalcClickIndex
  dsimp only
  split_ifs <;> first | exact Or.inl rfl | (right; constructor <;> omega)

/-- C12: unmatched modifiers are not handled. `HandleClick` returns false, changing nothing and
emitting nothing, when there is no window manager or when the number of held modifier keys is
not exactly one; and it returns true only when management mode and the overlay are enabled, the
visible list is non-empty, exactly one of the three modifiers is held and the click resolves to
a valid index of the visible list. -/
theorem HandleClick_unmatched (g : Game) (s : RaidBars) (x y : Int) :
    (g.wnd_manager = none → s.HandleClick g x y = (false, s, [])) ∧
      (∀ w, g.wnd_manager = some w → held_modifiers w ≠ 1 →
        s.HandleClick g x y = (false, s, [])) ∧
      ((s.HandleClick g x y).1 = true →
        s.manage.enabled = true ∧ s.setting_enabled = true ∧ s.visible_list ≠ [] ∧
          (∃ w, g.wnd_manager = some w ∧ held_modifiers w = 1) ∧
          0 ≤ s.CalcClickIndex x y ∧ s.CalcClickIndex x y < (s.visible_list.length : Int)) := by
  unfold RaidBars.HandleClick
  have hrange := CalcClickIndex_range s x y
  refine ⟨?_, ?_, ?_⟩
  · intro hw
    rw [hw]
    split_ifs <;> rfl
  · intro w hw hheld
    rw [hw]
    unfold held_modifiers at hheld
    dsimp only
    by_cases h1 : w.ShiftKeyState = 0 <;> by_cases h2 : w.ControlKeyState = 0 <;>
      by_cases h3 : w.AltKeyState = 0 <;> simp [h1, h2, h3] at hheld ⊢
  · by_cases hen : (!s.manage.enabled || !s.setting_enabled || s.visible_list.isEmpty) = true
    · rw [if_pos hen]; intro h; cases h
    · rw [if_neg hen]
      have hen2 : s.manage.enabled = true ∧ s.setting_enabled = true ∧ s.visible_list ≠ [] := by
        simp only [Bool.or_eq_true, Bool.not_eq_true', not_or, Bool.not_eq_false,
          List.isEmpty_iff] at hen
        exact ⟨hen.1.1, hen.1.2, hen.2⟩
      cases hw : g.wnd_manager with
      | none => intro h; cases h
      | some w =>
        dsimp only
        by_cases hidx : s.CalcClickIndex x y < 0
        · intro h
          exfalso
          revert h
          split_ifs <;> simp
        · have hr : 0 ≤ s.CalcClickIndex x y ∧
              s.CalcClickIndex x y < (s.visible_list.length : Int) := by
            rcases hrange with h | h
            · omega
            · exact h
          intro h
          refine ⟨hen2.1, hen2.2.1, hen2.2.2, ⟨w, rfl, ?_⟩, hr.1, hr.2⟩
          unfold held_modifiers
          by_cases h1 : w.ShiftKeyState = 0 <;> by_cases h2 : w.ControlKeyState = 0 <;>
            by_cases h3 : w.AltKeyState = 0 <;> simp [h1, h2, h3, hidx] at h ⊢

/-- Witness of C12: in the managed example state a click on the bar of Mona is not handled when
no modifier key is held or when Ctrl and Shift are held together, and is handled when exactly
Ctrl is held. -/
theorem HandleClick_unmatched_witness :
    managed.HandleClick
        { example_game with
          wnd_manager := some { ShiftKeyState := 0, ControlKeyState := 0, AltKeyState := 0 } }
        65 15 = (false, managed, []) ∧
      managed.HandleClick
        { example_game with
          wnd_manager := some { ShiftKeyState := 1, ControlKeyState := 1, AltKeyState := 0 } }
        65 15 = (false, managed, []) ∧
      (managed.HandleClick example_game 65 15).1 = true :=
  ⟨(HandleClick_unmatched _ managed 65 15).2.1 _ rfl (by decide),
    (HandleClick_unmatched _ managed 65 15).2.1 _ rfl (by decide), by decide!⟩


/-! ## Column-major placement and overflow -/

theorem class_sequence_origin (g : Game) (s : RaidBars) (mk : ℚ → ℚ → Cell)
    (hmk : mk ∈ class_sequence g s) (x y : ℚ) : (mk x y).x = x ∧ (mk x y).y = y := by
  unfold class_sequence at hmk
  obtain ⟨ci, -, hci⟩ := List.mem_flatMap.mp hmk
  obtain ⟨member, -, hm⟩ := List.mem_map.mp hci
  rw [← hm]
  exact ⟨rfl, rfl⟩

theorem group_sequence_origin (g : Game) (s : RaidBars) (mk : ℚ → ℚ → Cell)
    (hmk : mk ∈ group_sequence g s) (x y : ℚ) : (mk x y).x = x ∧ (mk x y).y = y := by
  unfold group_sequence at hmk
  obtain ⟨i, -, hi⟩ := List.mem_flatMap.mp hmk
  unfold slot_sequence at hi
  split_ifs at hi with h1 h2
  · cases hi
  · rcases List.mem_cons.mp hi with h | h
    · rw [h]; exact ⟨rfl, rfl⟩
    · rw [List.append_nil] at h
      obtain ⟨member, -, hm⟩ := List.mem_map.mp h
      rw [← hm]; exact ⟨rfl, rfl⟩
  · rcases List.mem_cons.mp hi with h | h
    · rw [h]; exact ⟨rfl, rfl⟩
    · rcases List.mem_append.mp h with h | h
      · obtain ⟨member, -, hm⟩ := List.mem_map.mp h
        rw [← hm]; exact ⟨rfl, rfl⟩
      · obtain ⟨n, -, hn⟩ := List.mem_map.mp h
        rw [← hn]; exact ⟨rfl, rfl⟩

/-- Position of the `k`-th cell of a column-major placement of makers that keep their origin. -/
theorem place_cells_position (gw gh x_min y_min : ℚ) (m : ℕ) (makers : List (ℚ → ℚ → Cell))
    (horigin : ∀ mk ∈ makers, ∀ x y, (mk x y).x = x ∧ (mk x y).y = y)
    (k : ℕ) (c : Cell) (hk : (place_cells gw gh x_min y_min m makers)[k]? = some c) :
    c.x = x_min + ((k / m : ℕ) : ℚ) * gw ∧ c.y = y_min + ((k % m : ℕ) : ℚ) * gh := by
  unfold place_cells at hk
  rw [place_from_getElem?, Nat.zero_add] at hk
  cases hmk : makers[k]? with
  | none => rw [hmk] at hk; cases hk
  | some mk =>
    rw [hmk] at hk
    simp only [Option.map_some', Option.some.injEq] at hk
    rw [← hk]
    exact horigin mk (List.mem_iff_getElem?.mpr ⟨k, hmk⟩) _ _

/-- Column-major placement with positions and sizes taken as exact values. In both layout
passes, with positive cell size and `m = floor((bottom - top) / cellHeight) >= 1`, the pass
appends the entities of its cells to the visible list in order, and the `k`-th cell it places
has its origin at `x = left + (k / m) * cellWidth`, `y = top + (k % m) * cellHeight`. -/
theorem column_major_placement (g : Game) (s : RaidBars) (x_min y_min x_max y_max : ℚ) (m : ℕ)
    (hgw : 0 < s.grid_width) (hgh : 0 < s.grid_height) (hm1 : 1 ≤ m)
    (hm : ⌊(y_max - y_min) / s.grid_height⌋ = (m : Int)) :
    ((s.QueueByClass g x_min y_min x_max y_max).1.visible_list =
        s.visible_list ++ (s.QueueByClass g x_min y_min x_max y_max).2.map (fun c => c.entity) ∧
      ∀ (k : ℕ) (c : Cell), (s.QueueByClass g x_min y_min x_max y_max).2[k]? = some c →
        c.x = x_min + ((k / m : ℕ) : ℚ) * s.grid_width ∧
          c.y = y_min + ((k % m : ℕ) : ℚ) * s.grid_height) ∧
    ((s.QueueByGroup g x_min y_min x_max y_max).1.visible_list =
        s.visible_list ++ (s.QueueByGroup g x_min y_min x_max y_max).2.map (fun c => c.entity) ∧
      ∀ (k : ℕ) (c : Cell), (s.QueueByGroup g x_min y_min x_max y_max).2[k]? = some c →
        c.x = x_min + ((k / m : ℕ) : ℚ) * s.grid_width ∧
          c.y = y_min + ((k % m : ℕ) : ℚ) * s.grid_height) := by
  refine ⟨⟨QueueByClass_visible g s x_min y_min x_max y_max, ?_⟩,
    ⟨QueueByGroup_visible g s x_min y_min x_max y_max, ?_⟩⟩
  · intro k c hk
    rw [QueueByClass_cells g s x_min y_min x_max y_max m hgw hgh hm1 hm] at hk
    exact place_cells_position _ _ _ _ m _
      (fun mk hmk => class_sequence_origin g s mk (List.mem_of_mem_take hmk)) k c hk
  · intro k c hk
    rw [QueueByGroup_cells g s x_min y_min x_max y_max m hgw hgh hm1 hm] at hk
    exact place_cells_position _ _ _ _ m _
      (fun mk hmk => group_sequence_origin g s mk (List.mem_of_mem_take hmk)) k c hk

theorem grid_capacity_eq {gw x_min x_max : ℚ} {m c : ℕ}
    (hc : ⌊(x_max - x_min) / gw⌋ = (c : Int)) : grid_capacity gw x_min x_max m = m * c := by
  unfold grid_capacity
  rw [hc, Int.toNat_natCast]

/-- Overflow with positions and sizes taken as exact values. In both layout passes, with
positive cell size, `m = floor(height / cellHeight) >= 1` rows and
`c = floor(width / cellWidth)` columns, the cells placed are exactly the first
`min(|s|, m * c)` cells of the sequence `s` the producer order emits, in the same order and in
column-major position, and the visible list grows by exactly the entities of those cells. -/
theorem overflow_drops_suffix (g : Game) (s : RaidBars) (x_min y_min x_max y_max : ℚ) (m c : ℕ)
    (hgw : 0 < s.grid_width) (hgh : 0 < s.grid_height) (hm1 : 1 ≤ m)
    (hm : ⌊(y_max - y_min) / s.grid_height⌋ = (m : Int))
    (hc : ⌊(x_max - x_min) / s.grid_width⌋ = (c : Int)) :
    ((s.QueueByClass g x_min y_min x_max y_max).2 =
        place_cells s.grid_width s.grid_height x_min y_min m
          ((class_sequence g s).take (min (class_sequence g s).length (m * c))) ∧
      (s.QueueByClass g x_min y_min x_max y_max).1.visible_list =
        s.visible_list ++ (place_cells s.grid_width s.grid_height x_min y_min m
          ((class_sequence g s).take (min (class_sequence g s).length (m * c)))).map
            (fun cell => cell.entity)) ∧
    ((s.QueueByGroup g x_min y_min x_max y_max).2 =
        place_cells s.grid_width s.grid_height x_min y_min m
          ((group_sequence g s).take (min (group_sequence g s).length (m * c))) ∧
      (s.QueueByGroup g x_min y_min x_max y_max).1.visible_list =
        s.visible_list ++ (place_cells s.grid_width s.grid_height x_min y_min m
          ((group_sequence g s).take (min (group_sequence g s).length (m * c)))).map
            (fun cell => cell.entity)) := by
  have h1 := QueueByClass_cells g s x_min y_min x_max y_max m hgw hgh hm1 hm
  have h2 := QueueByGroup_cells g s x_min y_min x_max y_max m hgw hgh hm1 hm
  rw [grid_capacity_eq hc] at h1 h2
  have t1 : (class_sequence g s).take (min (class_sequence g s).length (m * c)) =
      (class_sequence g s).take (m * c) := by
    rw [Nat.min_comm, ← List.take_take, List.take_length]
  have t2 : (group_sequence g s).take (min (group_sequence g s).length (m * c)) =
      (group_sequence g s).take (m * c) := by
    rw [Nat.min_comm, ← List.take_take, List.take_length]
  rw [t1, t2]
  refine ⟨⟨h1, ?_⟩, ⟨h2, ?_⟩⟩
  · rw [QueueByClass_visible, h1]
  · rw [QueueByGroup_visible, h2]

/-! ## By-category render order -/

theorem flow_wrap_narrow {gw gh x_min y_min y_max : ℚ} (hgw : 0 < gw) (f : Flow)
    (h : f.cells = [] ∧ x_min ≤ f.x) :
    (flow_wrap gw gh y_min y_max f).cells = [] ∧ x_min ≤ (flow_wrap gw gh y_min y_max f).x := by
  unfold flow_wrap
  split_ifs
  · exact ⟨h.1, by dsimp only; linarith [h.2]⟩
  · exact h

theorem members_narrow (g : Game) (s : RaidBars) (x_min y_min x_max y_max : ℚ)
    (hgw : 0 < s.grid_width) (hnarrow : x_max - x_min < s.grid_width)
    (show_class : Bool) (threshold : Int) (members : List RaidMember) (f : Flow)
    (h : f.cells = [] ∧ x_min ≤ f.x) :
    (QueueByClass.members g s x_max y_min y_max show_class threshold members f).cells = [] ∧
      x_min ≤ (QueueByClass.members g s x_max y_min y_max show_class threshold members f).x := by
  cases members with
  | nil => exact h
  | cons member rest =>
    have hw := @flow_wrap_narrow s.grid_width s.grid_height x_min y_min y_max hgw f h
    unfold QueueByClass.members
    dsimp only
    rw [if_pos (by linarith [hw.2])]
    exact hw

theorem put_narrow (s : RaidBars) (x_min y_min x_max y_max : ℚ)
    (hgw : 0 < s.grid_width) (hnarrow : x_max - x_min < s.grid_width)
    (mk : ℚ → ℚ → Cell) (f : GroupFlow) (h : f.flow.cells = [] ∧ x_min ≤ f.flow.x) :
    (QueueByGroup.put s x_max y_min y_max mk f).flow.cells = [] ∧
      x_min ≤ (QueueByGroup.put s x_max y_min y_max mk f).flow.x := by
  have hw := @flow_wrap_narrow s.grid_width s.grid_height x_min y_min y_max hgw
    f.flow h
  unfold QueueByGroup.put
  dsimp only
  split_ifs with h1
  · exact h
  · exact hw
  · linarith [hw.2]

theorem put_label_narrow (s : RaidBars) (base : Nat) (x_min y_min x_max y_max : ℚ)
    (hgw : 0 < s.grid_width) (hnarrow : x_max - x_min < s.grid_width)
    (i : Nat) (f : GroupFlow) (h : f.flow.cells = [] ∧ x_min ≤ f.flow.x) :
    (QueueByGroup.put_label s base x_max y_min y_max i f).flow.cells = [] ∧
      x_min ≤ (QueueByGroup.put_label s base x_max y_min y_max i f).flow.x := by
  have hw := @flow_wrap_narrow s.grid_width s.grid_height x_min y_min y_max hgw
    f.flow h
  unfold QueueByGroup.put_label
  dsimp only
  split_ifs with h1
  · exact h
  · exact hw
  · linarith [hw.2]

theorem put_fold_narrow {α : Type} (s : RaidBars) (x_min y_min x_max y_max : ℚ)
    (hgw : 0 < s.grid_width) (hnarrow : x_max - x_min < s.grid_width)
    (mk : α → ℚ → ℚ → Cell) (items : List α) (f : GroupFlow)
    (h : f.flow.cells = [] ∧ x_min ≤ f.flow.x) :
    (items.foldl (fun f a => QueueByGroup.put s x_max y_min y_max (mk a) f) f).flow.cells = [] ∧
      x_min ≤ (items.foldl (fun f a => QueueByGroup.put s x_max y_min y_max (mk a) f) f).flow.x :=
  foldl_invariant (fun f : GroupFlow => f.flow.cells = [] ∧ x_min ≤ f.flow.x) _
    (fun f a hf => put_narrow s x_min y_min x_max y_max hgw hnarrow (mk a) f hf) items f h

theorem group_step_narrow (g : Game) (s : RaidBars) (base : Nat) (x_min y_min x_max y_max : ℚ)
    (hgw : 0 < s.grid_width) (hnarrow : x_max - x_min < s.grid_width)
    (f : GroupFlow) (i : Nat) (h : f.flow.cells = [] ∧ x_min ≤ f.flow.x) :
    (QueueByGroup.group_step g s base x_max y_min y_max f i).flow.cells = [] ∧
      x_min ≤ (QueueByGroup.group_step g s base x_max y_min y_max f i).flow.x := by
  unfold QueueByGroup.group_step
  by_cases hret : f.returned = true
  · rw [if_pos hret]; exact h
  · rw [if_neg hret]
    dsimp only
    generalize group_members_of s (if decide (i = 12) = true then kRaidUngrouped else i)
      (if decide (i = 12) = true then 72 else 6) = members
    by_cases hemp : members = []
    · rw [if_pos hemp]; exact h
    · rw [if_neg hemp]
      have h1 := put_label_narrow s base x_min y_min x_max y_max hgw hnarrow i f h
      have h2 := put_fold_narrow s x_min y_min x_max y_max hgw hnarrow (bar_cell g) members _ h1
      by_cases hshow : (!s.setting_show_all || decide (i = 12)) = true
      · rw [if_pos hshow]; exact h2
      · rw [if_neg hshow]
        exact put_fold_narrow s x_min y_min x_max y_max hgw hnarrow (fun _ : Nat => empty_cell)
          (List.range' members.length (6 - members.length)) _ h2

/-- A viewport narrower than one cell: both layout passes place no cell, whatever the roster
and the height of the viewport. -/
theorem narrow_viewport_empty (g : Game) (s : RaidBars) (x_min y_min x_max y_max : ℚ)
    (hgw : 0 < s.grid_width) (hnarrow : x_max - x_min < s.grid_width) :
    (s.QueueByClass g x_min y_min x_max y_max).2 = [] ∧
      (s.QueueByGroup g x_min y_min x_max y_max).2 = [] := by
  constructor
  · unfold RaidBars.QueueByClass
    dsimp only
    refine (foldl_invariant (fun f : Flow => f.cells = [] ∧ x_min ≤ f.x) _ ?_ _ _
      ⟨rfl, le_refl _⟩).1
    intro f ci hf
    unfold QueueByClass.class_step
    dsimp only
    split_ifs
    · exact hf
    · exact members_narrow g s x_min y_min x_max y_max hgw hnarrow _ _ _ f hf
    · exact members_narrow g s x_min y_min x_max y_max hgw hnarrow _ _ _ f hf
  · unfold RaidBars.QueueByGroup
    dsimp only
    exact (foldl_invariant (fun f : GroupFlow => f.flow.cells = [] ∧ x_min ≤ f.flow.x) _
      (fun f i hf => group_step_narrow g s _ x_min y_min x_max y_max hgw hnarrow f i hf) _ _
      ⟨rfl, le_refl _⟩).1

/-- C16 (divergence): a viewport lower than one cell but two cells wide. With the viewport
(10,10)-(110,25) and cells of 50 by 20 the render pass computes zero rows per column, yet the
by-category pass places the bar of Anna at (60,10) and the by-group pass the label of group 1 at
(60,10); the visible list is not empty, and the hit test finds no cell at that point. -/
theorem short_viewport_emits_cells :
    short_bars.setting_position_bottom - short_bars.setting_position_top = 15 ∧
      short_bars.grid_height = 20 ∧
      (short_bars.CallbackRender example_game).1.grid_height_count_max = 0 ∧
      (short_bars.CallbackRender example_game).1.visible_list = [some 1] ∧
      (short_bars.CallbackRender example_game).2.2.map (fun c => (c.text, c.x, c.y)) =
        [("Anna", 60, 10)] ∧
      (short_group_bars.CallbackRender example_game).2.2.map (fun c => (c.text, c.x, c.y)) =
        [("Group 1: ", 60, 10)] ∧
      (short_bars.CallbackRender example_game).1.CalcClickIndex 65 15 = -1 :=
  ⟨by decide!, by decide!, by decide!, by decide!, by decide!, by decide!, by decide!⟩


/-! ## By-category visibility rule -/

theorem foldl_last_qualifying {β : Type} (q : Nat → Bool) (f : Nat → β) (l : List Nat) (d0 : β) :
    l.foldl (fun d slot => if q slot = true then f slot else d) d0 =
      match (l.filter q).getLast? with
      | none => d0
      | some slot => f slot := by
  induction l using List.reverseRecOn with
  | nil => rfl
  | append_singleton l a ih =>
    rw [List.foldl_append, List.filter_append, ih]
    by_cases ha : q a = true
    · simp [List.filter_cons, ha]
    · simp [List.filter_cons, ha]

theorem resolve_dest_group_last (vgi : List Int) (index : Int) :
    resolve_dest_group vgi index =
      match (qualifying_slots vgi index).getLast? with
      | none => kRaidUngrouped
      | some slot => if slot = 12 then kRaidUngrouped else slot := by
  unfold resolve_dest_group qualifying_slots
  rw [← foldl_last_qualifying (fun slot => decide (vgi.getD slot (-1) ≠ -1) &&
    decide (vgi.getD slot (-1) ≤ index)) (fun slot => if slot = 12 then kRaidUngrouped else slot)]
  congr 1
  funext d slot
  generalize vgi.getD slot (-1) = v
  by_cases h1 : v = -1 <;> by_cases h2 : v ≤ index <;> simp [h1, h2]

theorem greatest_fold_last (vgi : List Int) (hasc : LabelsAscending vgi) (l : List Nat)
    (hl : l.Pairwise (fun a b => a < b)) (hq : ∀ a ∈ l, vgi.getD a (-1) ≠ -1) (b : Nat)
    (hb : vgi.getD b (-1) ≠ -1) (hbl : ∀ a ∈ l, b < a) :
    l.foldl (greater_label vgi) (some b) = (b :: l).getLast? := by
  induction l generalizing b with
  | nil => rfl
  | cons a rest ih =>
    have hab : vgi.getD b (-1) ≤ vgi.getD a (-1) :=
      le_of_lt (hasc b a (hbl a (List.mem_cons_self _ _)) hb (hq a (List.mem_cons_self _ _)))
    rw [List.foldl_cons]
    have hstep : greater_label vgi (some b) a = some a := by
      unfold greater_label
      simp only [if_pos hab]
    rw [hstep]
    rw [ih (List.Pairwise.of_cons hl) (fun x hx => hq x (List.mem_cons_of_mem _ hx)) a
      (hq a (List.mem_cons_self _ _)) (fun x hx => List.rel_of_pairwise_cons hl hx)]
    simp [List.getLast?_cons_cons]

theorem greatest_label_dest_last (vgi : List Int) (index : Int) (hasc : LabelsAscending vgi) :
    greatest_label_dest vgi index =
      match (qualifying_slots vgi index).getLast? with
      | none => kRaidUngrouped
      | some slot => if slot = 12 then kRaidUngrouped else slot := by
  unfold greatest_label_dest
  have hpw : (qualifying_slots vgi index).Pairwise (fun a b => a < b) :=
    List.Pairwise.filter _ (List.pairwise_lt_range _)
  have hq : ∀ a ∈ qualifying_slots vgi index, vgi.getD a (-1) ≠ -1 := by
    intro a ha
    unfold qualifying_slots at ha
    have := (List.mem_filter.mp ha).2
    simp only [Bool.and_eq_true, decide_eq_true_eq] at this
    exact this.1
  cases hlist : qualifying_slots vgi index with
  | nil => rfl
  | cons b rest =>
    rw [hlist] at hpw hq
    rw [List.foldl_cons]
    have hstep : greater_label vgi none b = some b := rfl
    rw [hstep]
    rw [greatest_fold_last vgi hasc rest (List.Pairwise.of_cons hpw)
      (fun x hx => hq x (List.mem_cons_of_mem _ hx)) b (hq b (List.mem_cons_self _ _))
      (fun x hx => List.rel_of_pairwise_cons hpw hx)]

theorem range_foldl_invariant {β : Type} (P : Nat → β → Prop) (step : β → Nat → β) (n : Nat)
    (b0 : β) (h0 : P 0 b0) (hstep : ∀ i b, i < n → P i b → P (i + 1) (step b i)) :
    P n ((List.range n).foldl step b0) := by
  induction n with
  | zero => exact h0
  | succ n ih =>
    rw [List.range_succ, List.foldl_append]
    exact hstep n _ (Nat.lt_succ_self n)
      (ih (fun i b hi hp => hstep i b (Nat.lt_succ_of_lt hi) hp))

theorem put_labels (s : RaidBars) (x_max y_min y_max : ℚ) (mk : ℚ → ℚ → Cell) (f : GroupFlow) :
    (QueueByGroup.put s x_max y_min y_max mk f).visible_group_index = f.visible_group_index ∧
      f.flow.cells.length ≤ (QueueByGroup.put s x_max y_min y_max mk f).flow.cells.length := by
  unfold QueueByGroup.put flow_wrap
  dsimp only
  split_ifs <;> simp

theorem put_fold_labels {α : Type} (s : RaidBars) (x_max y_min y_max : ℚ)
    (mk : α → ℚ → ℚ → Cell) (items : List α) (f : GroupFlow) :
    (items.foldl (fun f a => QueueByGroup.put s x_max y_min y_max (mk a) f) f).visible_group_index
        = f.visible_group_index ∧
      f.flow.cells.length ≤
        (items.foldl (fun f a => QueueByGroup.put s x_max y_min y_max (mk a) f) f).flow.cells.length
      := by
  induction items generalizing f with
  | nil => exact ⟨rfl, le_refl _⟩
  | cons a rest ih =>
    rw [List.foldl_cons]
    obtain ⟨h1, h2⟩ := ih (QueueByGroup.put s x_max y_min y_max (mk a) f)
    obtain ⟨h3, h4⟩ := put_labels s x_max y_min y_max (mk a) f
    exact ⟨h1.trans h3, le_trans h4 h2⟩

theorem labelInv_grow (base i : Nat) (f f2 : GroupFlow) (h : LabelInv base i f)
    (hv : f2.visible_group_index = f.visible_group_index)
    (hc : f.flow.cells.length ≤ f2.flow.cells.length) : LabelInv base i f2 := by
  unfold LabelInv at h ⊢
  rw [hv]
  refine ⟨h.1, fun a ha => ⟨(h.2.1 a ha).1, ?_⟩, h.2.2⟩
  have := (h.2.1 a ha).2
  push_cast at this ⊢
  omega

theorem labelInv_next (base i : Nat) (f : GroupFlow) (h : LabelInv base i f) :
    LabelInv base (i + 1) f :=
  ⟨h.1, fun a ha => ⟨Nat.lt_succ_of_lt (h.2.1 a ha).1, (h.2.1 a ha).2⟩, h.2.2⟩

theorem put_label_labelInv (s : RaidBars) (base : Nat) (x_max y_min y_max : ℚ) (i : Nat)
    (hi : i < 13) (f : GroupFlow) (h : LabelInv base i f) :
    LabelInv base (i + 1) (QueueByGroup.put_label s base x_max y_min y_max i f) := by
  unfold QueueByGroup.put_label
  by_cases hret : f.returned = true
  · rw [if_pos hret]; exact labelInv_next base i f h
  · rw [if_neg hret]
    dsimp only
    have hcells : (flow_wrap s.grid_width s.grid_height y_min y_max f.flow).cells = f.flow.cells := by
      unfold flow_wrap; split_ifs <;> rfl
    split_ifs with hov
    · exact labelInv_next base i _ (labelInv_grow base i f _ h rfl (by rw [hcells]))
    · obtain ⟨hlen, hbelow, hasc⟩ := h
      rw [hcells]
      have hget : ∀ a : Nat,
          (f.visible_group_index.set i ((base + f.flow.cells.length : Nat) : Int)).getD a (-1) =
            if a = i then ((base + f.flow.cells.length : Nat) : Int)
            else f.visible_group_index.getD a (-1) := by
        intro a
        rw [List.getD_eq_getElem?_getD, List.getD_eq_getElem?_getD, List.getElem?_set]
        by_cases hai : i = a
        · subst hai
          simp [hlen, hi]
        · rw [if_neg hai, if_neg (fun h => hai h.symm)]
      refine ⟨by dsimp only; rw [List.length_set]; exact hlen, ?_, ?_⟩
      · intro a ha
        dsimp only at ha ⊢
        rw [hget] at ha ⊢
        rw [List.length_append, List.length_singleton]
        by_cases hai : a = i
        · rw [if_pos hai]
          exact ⟨by omega, by push_cast; omega⟩
        · rw [if_neg hai] at ha ⊢
          have := hbelow a ha
          exact ⟨by omega, by push_cast at this ⊢; omega⟩
      · intro a b hab ha hb
        dsimp only at ha hb ⊢
        rw [hget] at ha hb ⊢
        rw [hget]
        by_cases hai : a = i
        · rw [if_pos hai] at ha ⊢
          by_cases hbi : b = i
          · omega
          · rw [if_neg hbi] at hb ⊢
            have := (hbelow b hb).1
            omega
        · rw [if_neg hai] at ha ⊢
          by_cases hbi : b = i
          · rw [if_pos hbi]
            exact (hbelow a ha).2
          · rw [if_neg hbi] at hb ⊢
            exact hasc a b hab ha hb

theorem group_step_labelInv (g : Game) (s : RaidBars) (base : Nat) (x_max y_min y_max : ℚ)
    (i : Nat) (hi : i < 13) (f : GroupFlow) (h : LabelInv base i f) :
    LabelInv base (i + 1) (QueueByGroup.group_step g s base x_max y_min y_max f i) := by
  unfold QueueByGroup.group_step
  by_cases hret : f.returned = true
  · rw [if_pos hret]; exact labelInv_next base i f h
  · rw [if_neg hret]
    dsimp only
    generalize group_members_of s (if decide (i = 12) = true then kRaidUngrouped else i)
      (if decide (i = 12) = true then 72 else 6) = members
    by_cases hemp : members = []
    · rw [if_pos hemp]; exact labelInv_next base i f h
    · rw [if_neg hemp]
      have h1 := put_label_labelInv s base x_max y_min y_max i hi f h
      obtain ⟨h2, h3⟩ := put_fold_labels s x_max y_min y_max (bar_cell g) members
        (QueueByGroup.put_label s base x_max y_min y_max i f)
      have h4 := labelInv_grow base (i + 1) _ _ h1 h2 h3
      by_cases hshow : (!s.setting_show_all || decide (i = 12)) = true
      · rw [if_pos hshow]; exact h4
      · rw [if_neg hshow]
        obtain ⟨h5, h6⟩ := put_fold_labels s x_max y_min y_max (fun _ : Nat => empty_cell)
          (List.range' members.length (6 - members.length))
          (members.foldl (fun f member => QueueByGroup.put s x_max y_min y_max (bar_cell g member) f)
            (QueueByGroup.put_label s base x_max y_min y_max i f))
        exact labelInv_grow base (i + 1) _ _ h4 h5 h6

/-- After a by-group pass started from a cleared label index map (thirteen slots, all `-1`), the
recorded label positions ascend with the slot number and lie inside the visible list. -/
theorem QueueByGroup_labels (g : Game) (s : RaidBars) (x_min y_min x_max y_max : ℚ)
    (hclear : s.visible_group_index = List.replicate 13 (-1)) :
    LabelInv s.visible_list.length 13
      ((List.range 13).foldl
        (QueueByGroup.group_step g s s.visible_list.length x_max y_min y_max)
        { flow := { x := x_min, y := y_min, cells := [] },
          visible_group_index := s.visible_group_index, returned := false }) := by
  apply range_foldl_invariant (LabelInv s.visible_list.length)
  · have hall : ∀ a : Nat, (List.replicate 13 (-1 : Int)).getD a (-1) = -1 := by
      intro a
      rw [List.getD_eq_getElem?_getD, List.getElem?_replicate]
      split_ifs <;> rfl
    refine ⟨by dsimp only; rw [hclear]; rfl, ?_, ?_⟩
    · intro a ha
      dsimp only at ha
      rw [hclear, hall] at ha
      exact absurd rfl ha
    · intro a b _ ha
      dsimp only at ha
      rw [hclear, hall] at ha
      exact absurd rfl ha
  · intro i f hi h
    exact group_step_labelInv g s _ x_max y_min y_max i hi f h

theorem render_layout_labels (g : Game) (s : RaidBars) :
    LabelsAscending (s.render_layout g).1.visible_group_index := by
  unfold RaidBars.render_layout
  dsimp only
  by_cases hs : s.setting_group_sort = true
  · rw [if_pos hs]
    exact (QueueByGroup_labels g _ _ _ _ _ rfl).2.2
  · rw [if_neg hs]
    intro a b _ ha
    exfalso
    apply ha
    show (List.replicate kNumGroupLabelSlots (-1 : Int)).getD a (-1) = -1
    rw [List.getD_eq_getElem?_getD, List.getElem?_replicate]
    split_ifs <;> rfl

/-- C19: destination resolution. On the label index map left by the layout part of any render
pass, the scan of `HandleCtrlClick` (the last visible slot whose label position is `<= index`)
returns the destination of the specification: the bucket of the qualifying slot with the
greatest recorded label position, a later slot winning a tie, where slot 13 and the absence of a
qualifying slot give the unaffiliated bucket. -/
theorem resolve_dest_group_greatest (g : Game) (s : RaidBars) (index : Int) :
    resolve_dest_group (s.render_layout g).1.visible_group_index index =
      greatest_label_dest (s.render_layout g).1.visible_group_index index :=
  (resolve_dest_group_last _ index).trans
    (greatest_label_dest_last _ index (render_layout_labels g s)).symm

/-- Witness of C19 on the managed example (labels at 0, 7 and 14): a click on index 9 resolves
to group 3 (slot 2), on index 3 to group 1 (slot 0), on index 15 to the unaffiliated bucket. -/
theorem resolve_dest_group_greatest_witness :
    (manage_bars.render_layout example_game).1.visible_group_index =
        [0, -1, 7, -1, -1, -1, -1, -1, -1, -1, -1, -1, 14] ∧
      greatest_label_dest (manage_bars.render_layout example_game).1.visible_group_index 9 = 2 ∧
      resolve_dest_group (manage_bars.render_layout example_game).1.visible_group_index 9 = 2 ∧
      resolve_dest_group (manage_bars.render_layout example_game).1.visible_group_index 3 = 0 ∧
      resolve_dest_group (manage_bars.render_layout example_game).1.visible_group_index 15 =
        kRaidUngrouped :=
  ⟨by decide!, by decide!,
    (resolve_dest_group_greatest example_game manage_bars 9).trans (by decide!),
    (resolve_dest_group_greatest example_game manage_bars 3).trans (by decide!),
    (resolve_dest_group_greatest example_game manage_bars 15).trans (by decide!)⟩


/-! ## Commands -/

theorem usage_has_usage : ∃ e ∈ ParseArgs.usage, e.isUsage = true :=
  ⟨Emit.print_chat "Usage: /raidbars <on | off | toggle>" [], by simp [ParseArgs.usage], by decide⟩

theorem ParseArgs_short (g : Game) (s : RaidBars) (args : List String) (h : args.length < 2) :
    s.ParseArgs g args = (s, ParseArgs.usage) := by
  have h1 : ¬ args.length = 2 := by omega
  have h2 : ¬ args.length ≥ 2 := by omega
  have h3 : ¬ args.length > 1 := by omega
  unfold RaidBars.ParseArgs RaidBars.ParseManageArgs ParseArgs.rest
  simp only [h1, h2, h3, h, false_and, true_or, if_true, if_false, Bool.false_eq_true]

theorem ParseArgs_rest_of (g : Game) (s : RaidBars) (args : List String)
    (hon : ¬ (args.length = 2 ∧ (args.getD 1 "" = "on" ∨ args.getD 1 "" = "off")))
    (htoggle : ¬ (args.length = 2 ∧ args.getD 1 "" = "toggle"))
    (hkw : args.getD 1 "" ∉ ["manage", "groups", "font", "barwidth", "barheight", "position"]) :
    s.ParseArgs g args = ParseArgs.rest g s args := by
  simp only [List.mem_cons, List.mem_singleton, List.not_mem_nil, or_false, not_or] at hkw
  obtain ⟨k1, k2, k3, k4, k5, k6⟩ := hkw
  unfold RaidBars.ParseArgs RaidBars.ParseManageArgs
  rw [if_neg hon, if_neg htoggle, if_pos (Or.inr k1)]
  simp only [Bool.false_eq_true, if_false, k2, k3, k4, k5, k6, and_false]

theorem rest_usage_of (g : Game) (s : RaidBars) (args : List String)
    (hkw : args.getD 1 "" ∉ ["grid", "showall", "clickable", "background", "threshold",
      "priority", "always", "never", "filter"]) :
    ParseArgs.rest g s args = (s, ParseArgs.usage) := by
  simp only [List.mem_cons, List.mem_singleton, List.not_mem_nil, or_false, not_or] at hkw
  obtain ⟨k1, k2, k3, k4, k5, k6, k7, k8, k9⟩ := hkw
  unfold ParseArgs.rest
  simp only [k1, k2, k3, k4, k5, k6, k7, k8, k9, and_false, or_false, if_false]

theorem rejected_of_eq (g : Game) (s : RaidBars) (args : List String) (out : List Emit)
    (h : s.ParseArgs g args = (s, out)) (hout : ∃ e ∈ out, e.isUsage = true) :
    RejectedWithUsage g s args := by
  unfold RejectedWithUsage
  rw [h]
  exact ⟨rfl, hout⟩

theorem rejected_usage (g : Game) (s : RaidBars) (args : List String)
    (hlen : args.length ≠ 2 ∨ (args.getD 1 "" ≠ "on" ∧ args.getD 1 "" ≠ "off" ∧
      args.getD 1 "" ≠ "toggle"))
    (hkw : args.getD 1 "" ∉ ["manage", "groups", "font", "barwidth", "barheight", "position",
      "grid", "showall", "clickable", "background", "threshold", "priority", "always", "never",
      "filter"]) :
    RejectedWithUsage g s args := by
  have hon : ¬ (args.length = 2 ∧ (args.getD 1 "" = "on" ∨ args.getD 1 "" = "off")) := by
    rintro ⟨h, h1 | h1⟩ <;> rcases hlen with h3 | h3
    · exact h3 h
    · exact h3.1 h1
    · exact h3 h
    · exact h3.2.1 h1
  have htoggle : ¬ (args.length = 2 ∧ args.getD 1 "" = "toggle") := by
    rintro ⟨h, h1⟩
    rcases hlen with h3 | h3
    · exact h3 h
    · exact h3.2.2 h1
  simp only [List.mem_cons, List.mem_singleton, List.not_mem_nil, or_false, not_or] at hkw
  obtain ⟨k1, k2, k3, k4, k5, k6, k7, k8, k9, k10, k11, k12, k13, k14, k15⟩ := hkw
  refine rejected_of_eq g s args ParseArgs.usage ?_ usage_has_usage
  rw [ParseArgs_rest_of g s args hon htoggle (by
    simp only [List.mem_cons, List.mem_singleton, List.not_mem_nil, or_false, not_or]
    exact ⟨k1, k2, k3, k4, k5, k6⟩)]
  exact rest_usage_of g s args (by
    simp only [List.mem_cons, List.mem_singleton, List.not_mem_nil, or_false, not_or]
    exact ⟨k7, k8, k9, k10, k11, k12, k13, k14, k15⟩)

theorem rejected_manage (g : Game) (s : RaidBars) (args : List String) (h2 : 2 ≤ args.length)
    (hkw : args.getD 1 "" = "manage")
    (hbad : ¬ (args.length = 3 ∧ (args.getD 2 "" = "on" ∨ args.getD 2 "" = "off"))) :
    RejectedWithUsage g s args := by
  refine rejected_of_eq g s args
    [Emit.print_chat "Usage: /raidbars manage <on | off>" [],
     Emit.print_chat "Raidbars manage is %s"
       [FmtArg.str (if s.manage.enabled then "on" else "off")]] ?_
    ⟨_, List.mem_cons_self _ _, by decide⟩
  have hm : s.ParseManageArgs args =
      (true, s, [Emit.print_chat "Usage: /raidbars manage <on | off>" [],
        Emit.print_chat "Raidbars manage is %s"
          [FmtArg.str (if s.manage.enabled then "on" else "off")]]) := by
    unfold RaidBars.ParseManageArgs
    rw [if_neg (by rw [hkw]; push_neg; exact ⟨by omega, rfl⟩), if_neg hbad]
  unfold RaidBars.ParseArgs
  rw [if_neg (by rw [hkw]; rintro ⟨-, h | h⟩ <;> exact absurd h (by decide)),
    if_neg (by rw [hkw]; rintro ⟨-, h⟩; exact absurd h (by decide)), hm]
  rfl

theorem ParseArgs_groups_of (g : Game) (s : RaidBars) (args : List String)
    (h2 : 2 ≤ args.length) (hkw : args.getD 1 "" = "groups") :
    s.ParseArgs g args = ParseArgs.groups s args := by
  unfold RaidBars.ParseArgs RaidBars.ParseManageArgs
  simp only [hkw]
  simp
  intro h
  omega

theorem ParseArgs_font_of (g : Game) (s : RaidBars) (args : List String)
    (h2 : 2 ≤ args.length) (hkw : args.getD 1 "" = "font") :
    s.ParseArgs g args = ParseArgs.font g s args := by
  unfold RaidBars.ParseArgs RaidBars.ParseManageArgs
  simp only [hkw]
  simp
  intro h
  omega

theorem ParseArgs_barwidth_of (g : Game) (s : RaidBars) (args : List String)
    (h2 : 2 ≤ args.length) (hkw : args.getD 1 "" = "barwidth") :
    s.ParseArgs g args = ParseArgs.barwidth g s args := by
  unfold RaidBars.ParseArgs RaidBars.ParseManageArgs
  simp only [hkw]
  simp
  intro h
  omega

theorem ParseArgs_barheight_of (g : Game) (s : RaidBars) (args : List String)
    (h2 : 2 ≤ args.length) (hkw : args.getD 1 "" = "barheight") :
    s.ParseArgs g args = ParseArgs.barheight g s args := by
  unfold RaidBars.ParseArgs RaidBars.ParseManageArgs
  simp only [hkw]
  simp
  intro h
  omega

theorem ParseArgs_position_of (g : Game) (s : RaidBars) (args : List String)
    (h2 : 2 ≤ args.length) (hkw : args.getD 1 "" = "position") :
    s.ParseArgs g args =
      if (ParseArgs.position g s args).1 = true then
        ((ParseArgs.position g s args).2.1, (ParseArgs.position g s args).2.2)
      else ((ParseArgs.position g s args).2.1,
        (ParseArgs.position g s args).2.2 ++ ParseArgs.usage) := by
  have hrest : ∀ t : RaidBars, ParseArgs.rest g t args = (t, ParseArgs.usage) := fun t =>
    rest_usage_of g t args (by rw [hkw]; decide)
  unfold RaidBars.ParseArgs RaidBars.ParseManageArgs
  simp only [hkw, hrest]
  simp
  intro h
  omega

theorem ParseArgs_grid_of (g : Game) (s : RaidBars) (args : List String)
    (h2 : 2 ≤ args.length) (hkw : args.getD 1 "" = "grid") :
    s.ParseArgs g args = ParseArgs.grid g s args := by
  unfold RaidBars.ParseArgs RaidBars.ParseManageArgs ParseArgs.rest
  simp only [hkw]
  simp
  omega

theorem ParseArgs_showall_of (g : Game) (s : RaidBars) (args : List String)
    (h2 : 2 ≤ args.length) (hkw : args.getD 1 "" = "showall") :
    s.ParseArgs g args = ParseArgs.showall s args := by
  unfold RaidBars.ParseArgs RaidBars.ParseManageArgs ParseArgs.rest
  simp only [hkw]
  simp
  omega

theorem ParseArgs_clickable_of (g : Game) (s : RaidBars) (args : List String)
    (h2 : 2 ≤ args.length) (hkw : args.getD 1 "" = "clickable") :
    s.ParseArgs g args = ParseArgs.clickable s args := by
  unfold RaidBars.ParseArgs RaidBars.ParseManageArgs ParseArgs.rest
  simp only [hkw]
  simp
  omega

theorem ParseArgs_background_of (g : Game) (s : RaidBars) (args : List String)
    (h2 : 2 ≤ args.length) (hkw : args.getD 1 "" = "background") :
    s.ParseArgs g args = ParseArgs.background g s args := by
  unfold RaidBars.ParseArgs RaidBars.ParseManageArgs ParseArgs.rest
  simp only [hkw]
  simp
  omega

theorem ParseArgs_threshold_of (g : Game) (s : RaidBars) (args : List String)
    (h2 : 2 ≤ args.length) (hkw : args.getD 1 "" = "threshold") :
    s.ParseArgs g args = ParseArgs.threshold g s args := by
  unfold RaidBars.ParseArgs RaidBars.ParseManageArgs ParseArgs.rest
  simp only [hkw]
  simp
  omega

theorem ParseArgs_class_list_of (g : Game) (s : RaidBars) (args : List String)
    (h2 : 2 ≤ args.length)
    (hkw : args.getD 1 "" = "priority" ∨ args.getD 1 "" = "always" ∨
      args.getD 1 "" = "never" ∨ args.getD 1 "" = "filter") :
    s.ParseArgs g args = ParseArgs.class_list g s args := by
  unfold RaidBars.ParseArgs RaidBars.ParseManageArgs ParseArgs.rest
  rcases hkw with h | h | h | h <;>
  · simp only [h]
    simp
    omega


theorem rejected_groups (g : Game) (s : RaidBars) (args : List String) (h2 : 2 ≤ args.length)
    (hkw : args.getD 1 "" = "groups") (hlen : args.length ≠ 2)
    (hbad : ¬ (args.length = 3 ∧
      (args.getD 2 "" = "on" ∨ args.getD 2 "" = "off" ∨ args.getD 2 "" = "toggle"))) :
    RejectedWithUsage g s args := by
  unfold RejectedWithUsage
  rw [ParseArgs_groups_of g s args h2 hkw]
  unfold ParseArgs.groups
  rw [if_neg (fun h => hbad ⟨h.1, h.2.elim Or.inl (fun h => Or.inr (Or.inl h))⟩),
    if_neg (fun h => hbad ⟨h.1, Or.inr (Or.inr h.2)⟩), if_pos hlen]
  exact ⟨rfl, _, List.mem_cons_self _ _, by decide⟩

theorem rejected_showall (g : Game) (s : RaidBars) (args : List String) (h2 : 2 ≤ args.length)
    (hkw : args.getD 1 "" = "showall") (hlen : args.length ≠ 2)
    (hbad : ¬ (args.length = 3 ∧
      (args.getD 2 "" = "on" ∨ args.getD 2 "" = "off" ∨ args.getD 2 "" = "toggle"))) :
    RejectedWithUsage g s args := by
  unfold RejectedWithUsage
  rw [ParseArgs_showall_of g s args h2 hkw]
  unfold ParseArgs.showall
  rw [if_neg (fun h => hbad ⟨h.1, h.2.elim Or.inl (fun h => Or.inr (Or.inl h))⟩),
    if_neg (fun h => hbad ⟨h.1, Or.inr (Or.inr h.2)⟩), if_pos hlen]
  exact ⟨rfl, _, List.mem_cons_self _ _, by decide⟩

theorem rejected_font (g : Game) (s : RaidBars) (args : List String) (h2 : 2 ≤ args.length)
    (hkw : args.getD 1 "" = "font") (hlen : args.length ≠ 3) :
    RejectedWithUsage g s args := by
  unfold RejectedWithUsage
  rw [ParseArgs_font_of g s args h2 hkw]
  unfold ParseArgs.font
  rw [if_neg hlen]
  exact ⟨rfl, Emit.print_chat "Usage: /raidbars font <fontname> where fontname is one of:" [],
    by simp, by decide⟩

theorem parse_rejected (g : Game) (args : List String)
    (hbad : ¬ (args.length = 3 ∧ (g.tryParse (args.getD 2 "") false).isSome = true)) :
    (if args.length = 3 then g.tryParse (args.getD 2 "") false else none) = none := by
  split_ifs with h
  · cases hp : g.tryParse (args.getD 2 "") false with
    | none => rfl
    | some v => exact absurd ⟨h, by rw [hp]; rfl⟩ hbad
  · rfl

theorem rejected_barwidth (g : Game) (s : RaidBars) (args : List String) (h2 : 2 ≤ args.length)
    (hkw : args.getD 1 "" = "barwidth")
    (hbad : ¬ (args.length = 3 ∧ (g.tryParse (args.getD 2 "") false).isSome = true)) :
    RejectedWithUsage g s args := by
  unfold RejectedWithUsage
  rw [ParseArgs_barwidth_of g s args h2 hkw]
  unfold ParseArgs.barwidth
  rw [parse_rejected g args hbad]
  exact ⟨rfl, _, List.mem_cons_self _ _, by decide⟩

theorem rejected_barheight (g : Game) (s : RaidBars) (args : List String) (h2 : 2 ≤ args.length)
    (hkw : args.getD 1 "" = "barheight")
    (hbad : ¬ (args.length = 3 ∧ (g.tryParse (args.getD 2 "") false).isSome = true)) :
    RejectedWithUsage g s args := by
  unfold RejectedWithUsage
  rw [ParseArgs_barheight_of g s args h2 hkw]
  unfold ParseArgs.barheight
  rw [parse_rejected g args hbad]
  exact ⟨rfl, _, List.mem_cons_self _ _, by decide⟩

theorem percent_rejected (g : Game) (args : List String) (hbad : ¬ well_formed_percent g args) :
    (if args.length = 3 then g.tryParse (args.getD 2 "") true else none) = none ∨
      ∃ v, (if args.length = 3 then g.tryParse (args.getD 2 "") true else none) = some v ∧
        ¬ (v ≥ 0 ∧ v ≤ 100) := by
  by_cases h : args.length = 3
  · rw [if_pos h]
    cases hp : g.tryParse (args.getD 2 "") true with
    | none => exact Or.inl rfl
    | some v =>
      exact Or.inr ⟨v, rfl, fun hv => hbad ⟨v, h, hp, hv.1, hv.2⟩⟩
  · rw [if_neg h]; exact Or.inl rfl

theorem rejected_background (g : Game) (s : RaidBars) (args : List String)
    (h2 : 2 ≤ args.length) (hkw : args.getD 1 "" = "background") (hlen : args.length ≠ 2)
    (hbad : ¬ well_formed_percent g args) : RejectedWithUsage g s args := by
  unfold RejectedWithUsage
  rw [ParseArgs_background_of g s args h2 hkw]
  unfold ParseArgs.background
  rcases percent_rejected g args hbad with h | ⟨v, h, hv⟩
  · rw [h]
    dsimp only
    rw [if_pos hlen]
    exact ⟨rfl, _, List.mem_cons_self _ _, by decide⟩
  · rw [h]
    dsimp only
    rw [if_neg hv]
    exact ⟨rfl, _, List.mem_cons_self _ _, by decide⟩

theorem rejected_threshold (g : Game) (s : RaidBars) (args : List String)
    (h2 : 2 ≤ args.length) (hkw : args.getD 1 "" = "threshold") (hlen : args.length ≠ 2)
    (hbad : ¬ well_formed_percent g args) : RejectedWithUsage g s args := by
  unfold RejectedWithUsage
  rw [ParseArgs_threshold_of g s args h2 hkw]
  unfold ParseArgs.threshold
  rcases percent_rejected g args hbad with h | ⟨v, h, hv⟩
  · rw [h]
    dsimp only
    rw [if_pos hlen]
    exact ⟨rfl, _, List.mem_cons_self _ _, by decide⟩
  · rw [h]
    dsimp only
    rw [if_neg hv]
    exact ⟨rfl, _, List.mem_cons_self _ _, by decide⟩


theorem position_parse_some (g : Game) (args : List String) (left top right bottom : Int)
    (h : ParseArgs.position_parse g args = some (left, top, right, bottom)) :
    (args.length = 4 ∧ g.tryParse (args.getD 2 "") true = some left ∧
        g.tryParse (args.getD 3 "") true = some top ∧ right = 0 ∧ bottom = 0) ∨
      (args.length = 6 ∧ g.tryParse (args.getD 2 "") true = some left ∧
        g.tryParse (args.getD 3 "") true = some top ∧
        g.tryParse (args.getD 4 "") true = some right ∧
        g.tryParse (args.getD 5 "") true = some bottom) := by
  unfold ParseArgs.position_parse at h
  by_cases h4 : args.length = 4
  · rw [if_pos h4] at h
    left
    cases h2 : g.tryParse (args.getD 2 "") true <;>
      cases h3 : g.tryParse (args.getD 3 "") true <;> rw [h2, h3] at h <;>
      simp only [Option.some.injEq, Prod.mk.injEq, reduceCtorEq] at h
    obtain ⟨rfl, rfl, rfl, rfl⟩ := h
    exact ⟨h4, rfl, rfl, rfl, rfl⟩
  · rw [if_neg h4] at h
    by_cases h6 : args.length = 6
    · rw [if_pos h6] at h
      right
      cases h2 : g.tryParse (args.getD 2 "") true <;>
        cases h3 : g.tryParse (args.getD 3 "") true <;>
        cases h4 : g.tryParse (args.getD 4 "") true <;>
        cases h5 : g.tryParse (args.getD 5 "") true <;> rw [h2, h3, h4, h5] at h <;>
        simp only [Option.some.injEq, Prod.mk.injEq, reduceCtorEq] at h
      obtain ⟨rfl, rfl, rfl, rfl⟩ := h
      exact ⟨h6, rfl, rfl, rfl, rfl⟩
    · rw [if_neg h6] at h
      cases h

theorem rejected_position (g : Game) (s : RaidBars) (args : List String)
    (h2 : 2 ≤ args.length) (hkw : args.getD 1 "" = "position") (hlen : args.length ≠ 2)
    (hbad : ¬ well_formed_position g args) : RejectedWithUsage g s args := by
  have hpos : ∃ out, ParseArgs.position g s args = (false, s, out) := by
    unfold ParseArgs.position
    cases hp : ParseArgs.position_parse g args with
    | none =>
      dsimp only
      rw [if_neg hlen]
      exact ⟨[], rfl⟩
    | some p =>
      obtain ⟨left, top, right, bottom⟩ := p
      dsimp only
      by_cases hc : left < 0 ∨ (right ≠ 0 ∧ right < left) ∨ top < 0 ∨ (bottom ≠ 0 ∧ bottom < top)
      · rw [if_pos hc]
        exact ⟨_, rfl⟩
      · exfalso
        apply hbad
        refine ⟨left, top, right, bottom, position_parse_some g args left top right bottom hp,
          ?_, ?_, ?_, ?_⟩ <;> omega
  obtain ⟨out, hout⟩ := hpos
  unfold RejectedWithUsage
  rw [ParseArgs_position_of g s args h2 hkw, hout]
  refine ⟨rfl, ?_⟩
  obtain ⟨e, he, hu⟩ := usage_has_usage
  exact ⟨e, List.mem_append_right _ he, hu⟩

theorem HandleSetGrid_rejected (g : Game) (s : RaidBars) (rows columns : Int)
    (hbad : ¬ (1 ≤ rows ∧ rows ≤ 100 ∧ 1 ≤ columns ∧ columns ≤ 100) ∨ unfit_grid g s) :
    ∃ out, s.HandleSetGrid g rows columns = (false, s, out) := by
  unfold RaidBars.HandleSetGrid
  by_cases hr : rows ≤ 0 ∨ rows > 100 ∨ columns ≤ 0 ∨ columns > 100
  · rw [if_pos hr]; exact ⟨_, rfl⟩
  · rw [if_neg hr]
    rcases hbad with hbad | ⟨hfont, hfit⟩
    · exfalso; apply hbad; omega
    · have hload : s.LoadBitmapFont g = (s, []) := by
        unfold RaidBars.LoadBitmapFont
        rw [if_pos (Or.inl hfont)]
      dsimp only
      rw [hload]
      dsimp only
      by_cases h1 : s.bitmap_font.isNone = true ∨ s.grid_height ≤ 0 ∨ s.grid_width ≤ 0
      · rw [if_pos h1]; exact ⟨_, rfl⟩
      · rw [if_neg h1]
        rw [if_pos (by
          rcases hfit with h | h | h | h
          · exact absurd (Or.inr (Or.inl h)) h1
          · exact absurd (Or.inr (Or.inr h)) h1
          · exact Or.inl h
          · exact Or.inr h)]
        exact ⟨_, rfl⟩

theorem rejected_grid (g : Game) (s : RaidBars) (args : List String)
    (h2 : 2 ≤ args.length) (hkw : args.getD 1 "" = "grid")
    (hbad : malformed_grid g args ∨ unfit_grid g s) : RejectedWithUsage g s args := by
  unfold RejectedWithUsage
  rw [ParseArgs_grid_of g s args h2 hkw]
  unfold ParseArgs.grid
  by_cases h4 : args.length = 4
  · rw [if_pos h4, if_pos h4]
    cases hp2 : g.tryParse (args.getD 2 "") true with
    | none => exact ⟨rfl, _, List.mem_cons_self _ _, by decide⟩
    | some rows =>
      cases hp3 : g.tryParse (args.getD 3 "") true with
      | none => exact ⟨rfl, _, List.mem_cons_self _ _, by decide⟩
      | some columns =>
        have hset : ∃ out, s.HandleSetGrid g rows columns = (false, s, out) := by
          apply HandleSetGrid_rejected
          rcases hbad with hb | hb
          · left
            intro hr
            exact hb ⟨rows, columns, h4, hp2, hp3, hr.1, hr.2.1, hr.2.2.1, hr.2.2.2⟩
          · exact Or.inr hb
        obtain ⟨out, hout⟩ := hset
        dsimp only
        rw [hout]
        exact ⟨rfl, _, List.mem_append_right _ (List.mem_cons_self _ _), by decide⟩
  · rw [if_neg h4, if_neg h4]
    exact ⟨rfl, _, List.mem_cons_self _ _, by decide⟩

/-- C18 (as amended): malformed command arguments are rejected atomically. For every
`/raidbars` argument list that is malformed for its subcommand in the sense of
`malformed_args` (no subcommand, unknown keyword, wrong argument count, non-numeric or
out-of-range number, invalid position, invalid grid request), `ParseArgs` leaves the whole state
unchanged, in particular every setting, and prints at least one usage line. -/
theorem ParseArgs_rejects_malformed (g : Game) (s : RaidBars) (args : List String)
    (h : malformed_args g s args) :
    (s.ParseArgs g args).1 = s ∧ ∃ e ∈ (s.ParseArgs g args).2, e.isUsage = true := by
  show RejectedWithUsage g s args
  rcases h with hshort | ⟨h2, h | h | h | h | h | h | h | h | h⟩
  · exact rejected_of_eq g s args _ (ParseArgs_short g s args hshort) usage_has_usage
  · obtain ⟨hkw, hlen⟩ := h
    apply rejected_usage g s args (Or.inl hlen)
    rcases hkw with hk | hk | hk <;> rw [hk] <;> decide
  · exact rejected_manage g s args h2 h.1 h.2
  · rcases h.1 with hk | hk
    · exact rejected_groups g s args h2 hk h.2.1 h.2.2
    · exact rejected_showall g s args h2 hk h.2.1 h.2.2
  · exact rejected_font g s args h2 h.1 h.2
  · rcases h.1 with hk | hk
    · exact rejected_barwidth g s args h2 hk h.2
    · exact rejected_barheight g s args h2 hk h.2
  · exact rejected_position g s args h2 h.1 h.2.1 h.2.2
  · exact rejected_grid g s args h2 h.1 h.2
  · rcases h.1 with hk | hk
    · exact rejected_background g s args h2 hk h.2.1 h.2.2
    · exact rejected_threshold g s args h2 hk h.2.1 h.2.2
  · have hne : args.getD 1 "" ≠ "on" ∧ args.getD 1 "" ≠ "off" ∧ args.getD 1 "" ≠ "toggle" := by
      simp only [List.mem_cons, List.mem_singleton, List.not_mem_nil, or_false, not_or] at h
      exact ⟨h.1, h.2.1, h.2.2.1⟩
    apply rejected_usage g s args (Or.inr hne)
    simp only [List.mem_cons, List.mem_singleton, List.not_mem_nil, or_false, not_or] at h ⊢
    obtain ⟨-, -, -, k1, k2, k3, k4, k5, k6, k7, k8, k9, k10, k11, k12, k13, k14, k15⟩ := h
    exact ⟨k1, k2, k3, k4, k5, k6, k7, k8, k9, k10, k11, k12, k13, k14, k15⟩


/-! ## The dirty flag -/

theorem Clean_dirty (s : RaidBars) : s.Clean.raid_update_dirty = s.raid_update_dirty := rfl

theorem LoadBitmapFont_dirty (g : Game) (s : RaidBars) :
    (s.LoadBitmapFont g).1.raid_update_dirty = s.raid_update_dirty := by
  unfold RaidBars.LoadBitmapFont
  by_cases h0 : s.bitmap_font.isSome = true ∨ s.setting_bitmap_font_filename = ""
  · rw [if_pos h0]
  · rw [if_neg h0]
    dsimp only
    split
    · split_ifs <;> rfl
    · rfl

theorem EntityDespawn_dirty (g : Game) (s : RaidBars) (entity : Option EntityPtr) :
    (s.EntityDespawn g entity).raid_update_dirty = s.raid_update_dirty := by
  unfold RaidBars.EntityDespawn
  cases entity with
  | none => rfl
  | some p => dsimp only; split_ifs <;> rfl

theorem HandleAltClick_dirty (g : Game) (s : RaidBars) (index : Int) :
    (s.HandleAltClick g index).2.1.raid_update_dirty = s.raid_update_dirty := by
  unfold RaidBars.HandleAltClick
  dsimp only
  split_ifs <;> rfl

theorem HandleShiftClick_dirty (g : Game) (s : RaidBars) (index : Int) :
    (s.HandleShiftClick g index).2.1.raid_update_dirty = s.raid_update_dirty := by
  unfold RaidBars.HandleShiftClick
  dsimp only
  split_ifs <;> rfl

theorem HandleCtrlClick_dirty (g : Game) (s : RaidBars) (index : Int) :
    (s.HandleCtrlClick g index).2.1.raid_update_dirty = s.raid_update_dirty := by
  unfold RaidBars.HandleCtrlClick
  dsimp only
  split_ifs <;> rfl

theorem HandleClick_dirty (g : Game) (s : RaidBars) (x y : Int) :
    (s.HandleClick g x y).2.1.raid_update_dirty = s.raid_update_dirty := by
  unfold RaidBars.HandleClick
  by_cases h0 : (!s.manage.enabled || !s.setting_enabled || s.visible_list.isEmpty) = true
  · rw [if_pos h0]
  · rw [if_neg h0]
    cases g.wnd_manager with
    | none => rfl
    | some w =>
      dsimp only
      split_ifs
      · rfl
      · rfl
      · exact HandleAltClick_dirty g s _
      · exact HandleShiftClick_dirty g s _
      · exact HandleCtrlClick_dirty g s _
      · rfl

theorem HandleLMouseUp_dirty (g : Game) (s : RaidBars) (x y : Int) :
    (s.HandleLMouseUp g x y).2.1.raid_update_dirty = s.raid_update_dirty := by
  have h := HandleClick_dirty g s x y
  unfold RaidBars.HandleLMouseUp
  dsimp only
  split_ifs
  · rfl
  · rfl
  · rfl
  · rfl
  · exact h
  · exact h
  · split <;> exact h


theorem ParseManageArgs_dirty (s : RaidBars) (args : List String) :
    (s.ParseManageArgs args).2.1.raid_update_dirty = s.raid_update_dirty := by
  unfold RaidBars.ParseManageArgs
  dsimp only
  split_ifs <;> rfl

theorem HandleSetGrid_dirty (g : Game) (s : RaidBars) (rows columns : Int) :
    (s.HandleSetGrid g rows columns).2.1.raid_update_dirty = s.raid_update_dirty := by
  have h := LoadBitmapFont_dirty g s
  unfold RaidBars.HandleSetGrid
  dsimp only
  split_ifs
  · rfl
  · exact h
  · exact h
  · exact h

theorem set_class_setting_dirty (g : Game) (s : RaidBars) (which text : String) :
    (s.set_class_setting g which text).raid_update_dirty = s.raid_update_dirty := by
  unfold RaidBars.set_class_setting RaidBars.SyncClassPriority RaidBars.SyncClassAlways
    RaidBars.SyncClassNever RaidBars.SyncClassFilter
  dsimp only
  split_ifs <;> rfl

theorem rest_dirty (g : Game) (s : RaidBars) (args : List String) :
    (ParseArgs.rest g s args).1.raid_update_dirty = s.raid_update_dirty := by
  unfold ParseArgs.rest
  split_ifs
  · unfold ParseArgs.grid
    split
    · dsimp only
      split_ifs <;> exact HandleSetGrid_dirty g s _ _
    · rfl
  · unfold ParseArgs.showall
    dsimp only
    split_ifs <;> rfl
  · unfold ParseArgs.clickable
    dsimp only
    split_ifs <;> rfl
  · unfold ParseArgs.background
    split
    · dsimp only
      split_ifs <;> rfl
    · split_ifs <;> rfl
  · unfold ParseArgs.threshold
    split
    · dsimp only
      split_ifs <;> rfl
    · split_ifs <;> rfl
  · unfold ParseArgs.class_list
    dsimp only
    split_ifs
    · exact set_class_setting_dirty g s _ _
    · rfl
  · rfl

theorem position_dirty (g : Game) (s : RaidBars) (args : List String) :
    (ParseArgs.position g s args).2.1.raid_update_dirty = s.raid_update_dirty := by
  unfold ParseArgs.position
  split
  · dsimp only
    split_ifs <;> rfl
  · split_ifs <;> rfl

theorem ParseArgs_dirty (g : Game) (s : RaidBars) (args : List String) :
    (s.ParseArgs g args).1.raid_update_dirty = s.raid_update_dirty := by
  unfold RaidBars.ParseArgs
  split_ifs
  · rfl
  · rfl
  · exact ParseManageArgs_dirty s args
  · unfold ParseArgs.groups
    dsimp only
    split_ifs <;> rfl
  · unfold ParseArgs.font
    dsimp only
    split_ifs <;> rfl
  · unfold ParseArgs.barwidth
    split <;> rfl
  · unfold ParseArgs.barheight
    split <;> rfl
  · dsimp only
    split_ifs
    · exact position_dirty g s args
    · exact (rest_dirty g _ args).trans (position_dirty g s args)
  · exact rest_dirty g s args


theorem render_update_dirty (g : Game) (s : RaidBars) (t : Nat)
    (hdirty : s.raid_update_dirty = true) :
    s.render_update g t =
      RaidBars.UpdateRaidMembers g
        { s with next_update_game_time_ms := (t + 1000) % 2 ^ 32, raid_update_dirty := false } := by
  unfold RaidBars.render_update
  rw [hdirty]
  rfl

theorem CallbackRender_dirty (g : Game) (s : RaidBars) (hdirty : s.raid_update_dirty = true) :
    (s.CallbackRender g).1.raid_update_dirty = true ∨ rebuilds g s := by
  unfold rebuilds
  unfold RaidBars.CallbackRender
  by_cases h1 : (!s.setting_enabled || !g.is_in_game) = true
  · rw [if_pos h1]; exact Or.inl hdirty
  · rw [if_neg h1]
    by_cases h2 : (!g.is_in_raid) = true
    · rw [if_pos h2]
      left
      split_ifs
      · exact hdirty
      · exact hdirty
    · rw [if_neg h2]
      cases hd : g.display with
      | none => exact Or.inl hdirty
      | some t =>
        dsimp only
        by_cases h3 : (!g.is_gui_visible) = true
        · rw [if_pos h3]; exact Or.inl hdirty
        · rw [if_neg h3]
          by_cases h4 : (s.LoadBitmapFont g).1.bitmap_font.isNone = true
          · rw [if_pos h4]
            exact Or.inl ((LoadBitmapFont_dirty g s).trans hdirty)
          · rw [if_neg h4]
            right
            refine ⟨t, rfl, ?_⟩
            rw [render_update_dirty g _ t ((LoadBitmapFont_dirty g s).trans hdirty)]

theorem handle_dirty (g : Game) (s : RaidBars) (ev : Event)
    (hdirty : s.raid_update_dirty = true) :
    (s.handle g ev).raid_update_dirty = true ∨ (ev = Event.render ∧ rebuilds g s) := by
  cases ev with
  | render =>
    rcases CallbackRender_dirty g s hdirty with h | h
    · exact Or.inl h
    · exact Or.inr ⟨rfl, h⟩
  | clean => exact Or.inl hdirty
  | packet opcode =>
    left
    show (s.WorldMessage opcode).raid_update_dirty = true
    unfold RaidBars.WorldMessage
    split_ifs
    · rfl
    · exact hdirty
  | despawn entity => exact Or.inl ((EntityDespawn_dirty g s entity).trans hdirty)
  | click x y => exact Or.inl ((HandleLMouseUp_dirty g s x y).trans hdirty)
  | command args => exact Or.inl ((ParseArgs_dirty g s args).trans hdirty)

theorem run_dirty (events : List (Game × Event)) :
    ∀ s : RaidBars, s.raid_update_dirty = true →
      (∀ (k : Nat) (g : Game) (sk : RaidBars), events[k]? = some (g, Event.render) →
        (states_before s events)[k]? = some sk → ¬ rebuilds g sk) →
      (run s events).raid_update_dirty = true := by
  induction events with
  | nil => intro s hdirty _; exact hdirty
  | cons ge rest ih =>
    intro s hdirty hno
    obtain ⟨g, ev⟩ := ge
    show (run (s.handle g ev) rest).raid_update_dirty = true
    rcases handle_dirty g s ev hdirty with h | ⟨hev, hre⟩
    · exact ih _ h (fun k g2 sk hk hs =>
        hno (k + 1) g2 sk (by rw [List.getElem?_cons_succ]; exact hk)
          (by rw [states_before, List.getElem?_cons_succ]; exact hs))
    · subst hev
      exact absurd hre (hno 0 g s (by rw [List.getElem?_cons_zero])
        (by rw [states_before, List.getElem?_cons_zero]))

/-- C17: the dirty flag is never silently dropped. The roster-changed packet sets the flag;
once set, it stays set through every notification handled (render passes, `Clean`, despawn
sweeps, clicks, commands, other packets) except a render pass that performs the rebuild; a
render pass reaching the rebuild check with the flag set runs `UpdateRaidMembers` whatever the
update time; and over any run of notifications the flag is still set at the end unless one of
its render passes rebuilt. -/
theorem dirty_flag_kept (s : RaidBars) :
    (s.WorldMessage Opcode.RaidUpdate).raid_update_dirty = true ∧
      (∀ (g : Game) (ev : Event), s.raid_update_dirty = true →
        (s.handle g ev).raid_update_dirty = true ∨ (ev = Event.render ∧ rebuilds g s)) ∧
      (∀ (g : Game) (t : Nat), s.raid_update_dirty = true →
        s.render_update g t =
          RaidBars.UpdateRaidMembers g
            { s with
              next_update_game_time_ms := (t + 1000) % 2 ^ 32, raid_update_dirty := false }) ∧
      (∀ events : List (Game × Event), s.raid_update_dirty = true →
        (∀ (k : Nat) (g : Game) (sk : RaidBars), events[k]? = some (g, Event.render) →
          (states_before s events)[k]? = some sk → ¬ rebuilds g sk) →
        (run s events).raid_update_dirty = true) :=
  ⟨rfl, fun g ev h => handle_dirty g s ev h, fun g t h => render_update_dirty g s t h,
    fun events h hno => run_dirty events s h hno⟩


/-- Witness of C17: after a roster update packet at game time 5500, with the update time at
6000, the next render pass rebuilds at once (next update time 6500, flag cleared), while
without the packet it does not; the flag survives `Clean`, a click and a command. -/
theorem dirty_flag_kept_witness :
    dirty_bars.raid_update_dirty = true ∧
      (dirty_bars.CallbackRender example_game).1.next_update_game_time_ms = 6500 ∧
      (dirty_bars.CallbackRender example_game).1.raid_update_dirty = false ∧
      (example_bars.CallbackRender example_game).1.next_update_game_time_ms = 6000 ∧
      (run dirty_bars
        [(example_game, Event.clean), (example_game, Event.click 15 15),
          (command_game, Event.command ["/raidbars", "threshold", "50"])]).raid_update_dirty =
        true :=
  ⟨(dirty_flag_kept example_bars).1, by decide!, by decide!, by decide!,
    (dirty_flag_kept dirty_bars).2.2.2 _ (dirty_flag_kept example_bars).1
      (fun k g sk hk => by
        match k with
        | 0 => simp at hk
        | 1 => simp at hk
        | 2 => simp at hk
        | k + 3 => simp at hk)⟩

/-- Witness of C18: a threshold of 250 is out of range and an unknown subcommand is no keyword;
both leave the example overlay unchanged and print a usage line. -/
theorem ParseArgs_rejects_malformed_witness :
    command_game.tryParse "250" true = some 250 ∧
      (example_bars.ParseArgs command_game ["/raidbars", "threshold", "250"]).1 = example_bars ∧
      (example_bars.ParseArgs command_game ["/raidbars", "threshold", "250"]).2 =
        [Emit.print_chat
          "Usage: /raidbars threshold <value> (0 to 100, applies to /raidbars filter <classes>)"
          [],
         Emit.print_chat "Raidbars filter threshold is set to show values <= to %d%%"
          [FmtArg.int 100]] ∧
      (example_bars.ParseArgs command_game ["/raidbars", "bogus"]).1 = example_bars :=
  ⟨by decide!,
    (ParseArgs_rejects_malformed command_game example_bars ["/raidbars", "threshold", "250"]
      (Or.inr ⟨by decide, Or.inr (Or.inr (Or.inr (Or.inr (Or.inr (Or.inr (Or.inr (Or.inl
        ⟨Or.inr rfl, by decide, fun ⟨v, _, hp, _, h100⟩ => by
          have h250 : command_game.tryParse "250" true = some 250 := by decide!
          have hv : v = 250 := by
            have := hp.symm.trans h250
            exact (Option.some.inj this)
          omega⟩)))))))⟩)).1,
    by decide!,
    (ParseArgs_rejects_malformed command_game example_bars ["/raidbars", "bogus"]
      (Or.inr ⟨by decide, Or.inr (Or.inr (Or.inr (Or.inr (Or.inr (Or.inr (Or.inr (Or.inr
        (by decide))))))))⟩)).1⟩

/-- Counterexample to C18 as stated: `XYZ` is no class name, yet `/raidbars priority xyz` stores
`XYZ` in the class priority setting and prints the class settings without any usage line. -/
theorem unknown_class_name_is_stored :
    find_class_index command_game kNumClasses "XYZ" = none ∧
      example_bars.setting_class_priority = "" ∧
      (example_bars.ParseArgs command_game
        ["/raidbars", "priority", "xyz"]).1.setting_class_priority = "XYZ" ∧
      ((example_bars.ParseArgs command_game ["/raidbars", "priority", "xyz"]).2.all
        (fun e => !e.isUsage)) = true :=
  ⟨by decide!, by decide!, by decide!, by decide!⟩


/-! ## Frame of the despawn sweep -/

/-- C27: despawn changes references only. For every state, game side and handle (null or not),
the despawn notification leaves in every class bucket the number of entries, their order,
names, colors, group numbers and leader flags unchanged, changes a live reference only from the
despawned handle to null, and leaves the length of the visible list and every slot that does not
hold the despawned handle unchanged (a slot holding it becomes null, no slot is removed). -/
theorem EntityDespawn_frame (g : Game) (s : RaidBars) (entity : Option EntityPtr) :
    (s.EntityDespawn g entity).raid_classes.length = s.raid_classes.length ∧
      (∀ ci : Nat,
        ((s.EntityDespawn g entity).raid_classes.getD ci []).map
            (fun m => (m.name, m.color, m.group_number, m.is_group_leader)) =
          (s.raid_classes.getD ci []).map
            (fun m => (m.name, m.color, m.group_number, m.is_group_leader))) ∧
      (∀ ci k : Nat, ∀ m : RaidMember, (s.raid_classes.getD ci [])[k]? = some m →
        ∃ m2, ((s.EntityDespawn g entity).raid_classes.getD ci [])[k]? = some m2 ∧
          (m2.entity = m.entity ∨ (m.entity = entity ∧ m2.entity = none)) ∧
          (m.entity ≠ entity → m2 = m)) ∧
      (s.EntityDespawn g entity).visible_list.length = s.visible_list.length ∧
      (∀ k : Nat, ∀ slot : Option EntityPtr, s.visible_list[k]? = some slot →
        (slot ≠ entity → (s.EntityDespawn g entity).visible_list[k]? = some slot) ∧
        (slot = entity → (s.EntityDespawn g entity).visible_list[k]? = some none ∨
          (s.EntityDespawn g entity).visible_list[k]? = some slot)) := by
  have hsame : ∀ t : RaidBars, t = s →
      t.raid_classes.length = s.raid_classes.length ∧
      (∀ ci : Nat,
        (t.raid_classes.getD ci []).map
            (fun m => (m.name, m.color, m.group_number, m.is_group_leader)) =
          (s.raid_classes.getD ci []).map
            (fun m => (m.name, m.color, m.group_number, m.is_group_leader))) ∧
      (∀ ci k : Nat, ∀ m : RaidMember, (s.raid_classes.getD ci [])[k]? = some m →
        ∃ m2, (t.raid_classes.getD ci [])[k]? = some m2 ∧
          (m2.entity = m.entity ∨ (m.entity = entity ∧ m2.entity = none)) ∧
          (m.entity ≠ entity → m2 = m)) ∧
      t.visible_list.length = s.visible_list.length ∧
      (∀ k : Nat, ∀ slot : Option EntityPtr, s.visible_list[k]? = some slot →
        (slot ≠ entity → t.visible_list[k]? = some slot) ∧
        (slot = entity → t.visible_list[k]? = some none ∨ t.visible_list[k]? = some slot)) := by
    intro t ht
    subst ht
    exact ⟨rfl, fun _ => rfl, fun ci k m hm => ⟨m, hm, Or.inl rfl, fun _ => rfl⟩, rfl,
      fun k slot hk => ⟨fun _ => hk, fun _ => Or.inr hk⟩⟩
  unfold RaidBars.EntityDespawn
  cases entity with
  | none => exact hsame s rfl
  | some p =>
    dsimp only
    by_cases hg : (!s.setting_enabled || decide ((g.entity p).Type_ ≠ EntityTypes.Player)) = true
    · rw [if_pos hg]; exact hsame s rfl
    · rw [if_neg hg]
      dsimp only
      refine ⟨by rw [List.length_map], ?_, ?_, by rw [List.length_map], ?_⟩
      · intro ci
        rw [List.getD_eq_getElem?_getD, List.getD_eq_getElem?_getD, List.getElem?_map]
        cases s.raid_classes[ci]? with
        | none => rfl
        | some bucket =>
          simp only [Option.map_some', Option.getD_some, List.map_map]
          apply List.map_congr_left
          intro m _
          simp only [Function.comp]
          split_ifs <;> rfl
      · intro ci k m hm
        rw [List.getD_eq_getElem?_getD, List.getElem?_map]
        rw [List.getD_eq_getElem?_getD] at hm
        cases hb : s.raid_classes[ci]? with
        | none => rw [hb] at hm; simp at hm
        | some bucket =>
          rw [hb] at hm
          simp only [Option.getD_some] at hm
          simp only [Option.map_some', Option.getD_some, List.getElem?_map, hm]
          by_cases he : m.entity = some p
          · rw [if_pos he]
            exact ⟨_, rfl, Or.inr ⟨he, rfl⟩, fun h => absurd he h⟩
          · rw [if_neg he]
            exact ⟨_, rfl, Or.inl rfl, fun _ => rfl⟩
      · intro k slot hk
        rw [List.getElem?_map, hk]
        simp only [Option.map_some']
        constructor
        · intro h; rw [if_neg h]
        · intro h; rw [if_pos h]; exact Or.inl rfl

/-- Witness of C27 on the managed example: the player Mona (address 2) despawns; her bar, at
slot 8 of the visible list, is nulled, the other fifteen slots are unchanged, and her roster
entry stays in the cleric bucket with a null reference. -/
theorem EntityDespawn_frame_witness :
    (managed.EntityDespawn example_game (some 2)).visible_list.length = 16 ∧
      (managed.EntityDespawn example_game (some 2)).visible_list[8]? = some none ∧
      (managed.EntityDespawn example_game (some 2)).visible_list[1]? = some (some 3) ∧
      ((managed.EntityDespawn example_game (some 2)).raid_classes.getD 1 []).map
          (fun m => (m.name, m.entity)) = [("Mona", none)] :=
  ⟨((EntityDespawn_frame example_game managed (some 2)).2.2.2.1).trans (by decide!),
    by decide!, by decide!, by decide!⟩

/-! ## Clicks that keep the gesture -/

/-- C30: unhandled and empty clicks keep the gesture. Whenever `HandleClick` returns false the
state, in particular the pending selection, is unchanged and nothing is emitted; and a select
click while no selection is pending on a cell that yields no name (an index outside the visible
list, or a slot holding a null reference: a label, an empty slot or the bar of an entry out of
zone) is reported handled, leaves the state unchanged and emits nothing. -/
theorem clicks_keep_gesture (g : Game) (s : RaidBars) (x y : Int) (index : Int) :
    ((s.HandleClick g x y).1 = false →
        (s.HandleClick g x y).2.1 = s ∧ (s.HandleClick g x y).2.2 = []) ∧
      (s.manage.move_pending_name = "" → s.GetRaidMemberNameAtIndex g index = "" →
        s.HandleCtrlClick g index = (true, s, [])) ∧
      (∀ k : Nat, s.visible_list[k]? = some none →
        s.GetRaidMemberNameAtIndex g (k : Int) = "") := by
  refine ⟨?_, ?_, fun k hk => GetRaidMemberNameAtIndex_null g s k hk⟩
  · unfold RaidBars.HandleClick
    by_cases h0 : (!s.manage.enabled || !s.setting_enabled || s.visible_list.isEmpty) = true
    · rw [if_pos h0]; intro _; exact ⟨rfl, rfl⟩
    · rw [if_neg h0]
      cases g.wnd_manager with
      | none => intro _; exact ⟨rfl, rfl⟩
      | some w =>
        dsimp only
        have halt : (s.HandleAltClick g (s.CalcClickIndex x y)).1 = true := by
          unfold RaidBars.HandleAltClick
          dsimp only
          split_ifs <;> rfl
        have hshift : (s.HandleShiftClick g (s.CalcClickIndex x y)).1 = true := by
          unfold RaidBars.HandleShiftClick
          dsimp only
          split_ifs <;> rfl
        have hctrl : (s.HandleCtrlClick g (s.CalcClickIndex x y)).1 = true := by
          unfold RaidBars.HandleCtrlClick
          dsimp only
          split_ifs <;> rfl
        split_ifs
        · intro _; exact ⟨rfl, rfl⟩
        · intro _; exact ⟨rfl, rfl⟩
        · intro h; rw [halt] at h; cases h
        · intro h; rw [hshift] at h; cases h
        · intro h; rw [hctrl] at h; cases h
        · intro _; exact ⟨rfl, rfl⟩
  · intro hidle hname
    unfold RaidBars.HandleCtrlClick
    rw [if_pos hidle]
    dsimp only
    rw [if_pos hname]

/-- Witness of C30 on the managed example: a Ctrl click on the label of group 3 (cell 7, at
(15,150)) is handled and changes nothing; a click with Ctrl and Shift held while Anna is pending
is not handled and keeps the pending selection. -/
theorem clicks_keep_gesture_witness :
    managed.CalcClickIndex 15 150 = 7 ∧
      managed.HandleClick example_game 15 150 = (true, managed, []) ∧
      ((selecting "Anna").HandleClick
        { example_game with
          wnd_manager := some { ShiftKeyState := 1, ControlKeyState := 1, AltKeyState := 0 } }
        65 15).2.1.manage.move_pending_name = "Anna" :=
  ⟨by decide!, by decide!,
    (congrArg (fun t : RaidBars => t.manage.move_pending_name)
      ((clicks_keep_gesture _ (selecting "Anna") 65 15 0).1 (by decide!)).1).trans (by decide!)⟩


/-! ## Rebuild is a full replace -/

theorem bucketize_getD (g : Game) (rc : List (List RaidMember)) (member : RaidInfoMember)
    (ci : Nat) (hci : ci < rc.length) :
    (bucketize g rc member).length = rc.length ∧
      (bucketize g rc member).getD ci [] =
        rc.getD ci [] ++ (if in_class ci member = true then [roster_entry g member] else []) := by
  unfold bucketize in_class
  by_cases h1 : member.Name = ""
  · rw [if_pos h1]; simp [h1]
  · rw [if_neg h1]
    by_cases h2 : member.ClassValue < kClassIndexOffset
    · rw [if_pos h2]
      have : ¬ kClassIndexOffset ≤ member.ClassValue := by omega
      simp [this]
    · rw [if_neg h2]
      dsimp only
      by_cases h3 : member.ClassValue - kClassIndexOffset ≥ rc.length
      · rw [if_pos h3]
        have : ¬ member.ClassValue - kClassIndexOffset = ci := by omega
        simp [this]
      · rw [if_neg h3]
        refine ⟨by rw [List.length_set], ?_⟩
        have hent : ∀ (e : Option EntityPtr),
            (match e with
              | some p => if (g.entity p).Type_ ≠ EntityTypes.Player then none else some p
              | none => none) =
            e.filter (fun p => decide ((g.entity p).Type_ = EntityTypes.Player)) := by
          intro e
          cases e with
          | none => rfl
          | some p =>
            by_cases hp : (g.entity p).Type_ = EntityTypes.Player
            · simp [Option.filter, hp]
            · simp [Option.filter, hp]
        unfold roster_entry resolved_reference
        generalize g.entity_get member.Name = e
        rw [← hent e]
        have h2' : kClassIndexOffset ≤ member.ClassValue := by omega
        rw [List.getD_eq_getElem?_getD, List.getElem?_set]
        by_cases hc : member.ClassValue - kClassIndexOffset = ci
        · subst hc
          simp [h1, h2', hci]
        · rw [if_neg hc]
          simp [h1, h2', hc]

theorem bucketize_fold_length (g : Game) (l : List RaidInfoMember) :
    ∀ rc : List (List RaidMember), (l.foldl (bucketize g) rc).length = rc.length := by
  induction l with
  | nil => intro rc; rfl
  | cons x xs ih =>
    intro rc
    rw [List.foldl_cons, ih]
    rcases bucketize_cases g rc x with h | ⟨i, m, -, -, -, h⟩
    · rw [h]
    · rw [h, List.length_set]

theorem bucketize_fold_getD (g : Game) (l : List RaidInfoMember) (ci : Nat) :
    ∀ rc : List (List RaidMember), ci < rc.length →
      (l.foldl (bucketize g) rc).length = rc.length ∧
        (l.foldl (bucketize g) rc).getD ci [] =
          rc.getD ci [] ++ (l.filter (in_class ci)).map (roster_entry g) := by
  induction l with
  | nil => intro rc _; simp
  | cons x xs ih =>
    intro rc hci
    obtain ⟨hlen, hget⟩ := bucketize_getD g rc x ci hci
    obtain ⟨hlen2, hget2⟩ := ih (bucketize g rc x) (by rw [hlen]; exact hci)
    rw [List.foldl_cons]
    refine ⟨hlen2.trans hlen, ?_⟩
    rw [hget2, hget, List.filter_cons]
    by_cases hx : in_class ci x = true
    · simp [hx]
    · simp [hx]

/-- C26: rebuild is a full replace. For every prior state and every roster, `UpdateRaidMembers`
keeps the number of buckets; when the player is in a raid, the bucket of every class holds,
up to the order fixed by the sort, exactly the entries expected for the first 72 roster slots
that have a non-empty name and that class (one entry per slot, with name, color, group number
and leader flag copied and the reference resolved to a player or null), and nothing else; when
the player is in no raid every bucket is empty. -/
theorem UpdateRaidMembers_full_replace (g : Game) (s : RaidBars) :
    (s.UpdateRaidMembers g).raid_classes.length = s.raid_classes.length ∧
      (g.is_in_raid = true → ∀ ci : Nat, ci < s.raid_classes.length →
        ((s.UpdateRaidMembers g).raid_classes.getD ci []).Perm
          (((g.MemberList.take kRaidMaxMembers).filter (in_class ci)).map (roster_entry g))) ∧
      (g.is_in_raid = false → ∀ ci : Nat, (s.UpdateRaidMembers g).raid_classes.getD ci [] = []) := by
  unfold RaidBars.UpdateRaidMembers
  dsimp only
  by_cases hr : g.is_in_raid = true
  · have hn : ¬ ((!g.is_in_raid) = true) := by simp [hr]
    rw [if_neg hn]
    dsimp only
    refine ⟨?_, fun _ ci hci => ?_, fun h => absurd hr (by simp [h])⟩
    · rw [List.length_map, bucketize_fold_length, List.length_map]
    · obtain ⟨hlen, hget⟩ := bucketize_fold_getD g (g.MemberList.take kRaidMaxMembers) ci
        (s.raid_classes.map (fun _ => ([] : List RaidMember))) (by rw [List.length_map]; exact hci)
      rw [List.getD_eq_getElem?_getD, List.getElem?_map]
      rw [List.getD_eq_getElem?_getD] at hget
      have hlt : ci < ((g.MemberList.take kRaidMaxMembers).foldl (bucketize g)
          (s.raid_classes.map (fun _ => ([] : List RaidMember)))).length := by
        rw [hlen, List.length_map]; exact hci
      rw [List.getElem?_eq_getElem hlt] at hget ⊢
      simp only [Option.map_some', Option.getD_some] at hget ⊢
      rw [hget]
      have hempty : (s.raid_classes.map (fun _ => ([] : List RaidMember))).getD ci [] = [] := by
        rw [List.getD_eq_getElem?_getD, List.getElem?_map]
        cases s.raid_classes[ci]? <;> rfl
      rw [hempty, List.nil_append]
      exact std_sort_perm _ _
  · have hf : g.is_in_raid = false := by simpa using hr
    rw [if_pos (by simp [hf])]
    refine ⟨by simp, fun h => absurd h hr, fun _ ci => ?_⟩
    rw [List.getD_eq_getElem?_getD, List.getElem?_map]
    cases s.raid_classes[ci]? <;> rfl


/-- Witness of C26: the example overlay holds five entries of an earlier roster; rebuilt from
the roster of scenario 1 it holds exactly Anna and Zed (warriors) and Mona (cleric), and rebuilt
after Zed has died his entry has a null reference. -/
theorem UpdateRaidMembers_full_replace_witness :
    (example_bars.UpdateRaidMembers scenario_game).raid_classes.length = 15 ∧
      (example_bars.UpdateRaidMembers scenario_game).raid_classes.map
          (fun bucket => bucket.map (fun m => m.name)) =
        [["Anna", "Zed"], ["Mona"], [], [], [], [], [], [], [], [], [], [], [], [], []] ∧
      ((example_bars.UpdateRaidMembers corpse_game).raid_classes.getD 0 []).map
          (fun m => (m.name, m.entity)) = [("Anna", some 1), ("Zed", none)] :=
  ⟨((UpdateRaidMembers_full_replace scenario_game example_bars).1).trans (by decide!),
    by decide!, by decide!⟩

/-! ## Priority override content -/

theorem priority_entries_first_occurrences (g : Game) (size : Nat) (split : List String) :
    priority_entries g size split =
      ((split.filterMap (find_class_index g size)).reverse.dedup).reverse := by
  unfold priority_entries
  induction split using List.reverseRecOn with
  | nil => rfl
  | append_singleton l a ih =>
    rw [List.foldl_append, ih, List.filterMap_append]
    cases hf : find_class_index g size a with
    | none => simp [List.filterMap_cons, hf]
    | some i =>
      simp only [List.foldl_cons, List.foldl_nil, List.filterMap_cons, hf, List.filterMap_nil,
        List.reverse_append, List.reverse_cons, List.reverse_nil, List.nil_append,
        List.singleton_append]
      by_cases hi : i ∈ (l.filterMap (find_class_index g size)).reverse
      · rw [List.dedup_cons_of_mem hi, if_pos (by simpa using hi)]
      · rw [List.dedup_cons_of_not_mem hi, if_neg (by simpa using hi), List.reverse_cons]

/-- C25: priority override content. For every override string, after `SyncClassPriority` the
priority order is the recognised classes of the upper-cased, tokenised override in order of
first occurrence (duplicates and unknown tokens dropped), followed by every class not named, in
the default order Warrior, Paladin, Shadowknight, Enchanter, Wizard, Monk, Ranger, Rogue,
Beastlord, Bard, Cleric, Shaman, Druid, Magician, Necromancer; an empty override gives exactly
the default order. -/
theorem SyncClassPriority_content (g : Game) (s : RaidBars) :
    (s.setting_class_priority = "" →
        (s.SyncClassPriority g).class_priority = default_class_priority) ∧
      (s.setting_class_priority ≠ "" →
        (s.SyncClassPriority g).class_priority =
          recognised_classes g (g.split_text (g.toupper s.setting_class_priority)) ++
            default_class_priority.filter (fun v =>
              v ∉ recognised_classes g (g.split_text (g.toupper s.setting_class_priority)))) := by
  constructor
  · intro h
    unfold RaidBars.SyncClassPriority
    simp [h]
  · intro h
    rw [SyncClassPriority_entries g s h, priority_entries_first_occurrences]
    rfl

/-- Witness of C25: with the class names WAR and CLR known, the override `war xyz war clr`
gives warriors, clerics, then the other classes in default order; the empty override gives the
default order. -/
theorem SyncClassPriority_content_witness :
    (override_bars.SyncClassPriority scenario_game).class_priority =
        [0, 1, 2, 4, 13, 11, 6, 3, 8, 14, 7, 9, 5, 12, 10] ∧
      (example_bars.SyncClassPriority scenario_game).class_priority =
        [0, 2, 4, 13, 11, 6, 3, 8, 14, 7, 1, 9, 5, 12, 10] :=
  ⟨((SyncClassPriority_content scenario_game override_bars).2 (by decide!)).trans (by decide!),
    ((SyncClassPriority_content scenario_game example_bars).1 (by decide!)).trans (by decide!)⟩


/-! ## The members collected for a bucket -/

theorem foldl_flatMap_eq {α β γ : Type} (f : γ → β → γ) (b : α → List β) (l : List α) (init : γ) :
    l.foldl (fun acc a => (b a).foldl f acc) init = (l.flatMap b).foldl f init := by
  induction l generalizing init with
  | nil => rfl
  | cons a rest ih => rw [List.foldl_cons, ih, List.flatMap_cons, List.foldl_append]

theorem collect_filter (group_index group_max : Nat) (all : List RaidMember) :
    ∀ acc : List RaidMember,
      all.foldl
        (fun acc member =>
          if member.group_number ≠ group_index ∨ acc.length ≥ group_max then acc
          else if member.is_group_leader then member :: acc
          else acc ++ [member])
        acc =
      (all.filter (fun member => decide (member.group_number = group_index))).foldl
        (fun acc member =>
          if acc.length ≥ group_max then acc
          else if member.is_group_leader then member :: acc
          else acc ++ [member])
        acc := by
  induction all with
  | nil => intro acc; rfl
  | cons x xs ih =>
    intro acc
    by_cases hx : x.group_number = group_index
    · have hf : (x :: xs).filter (fun member => decide (member.group_number = group_index)) =
          x :: xs.filter (fun member => decide (member.group_number = group_index)) := by
        rw [List.filter_cons, if_pos (by simpa using hx)]
      rw [hf, List.foldl_cons, List.foldl_cons, ih]
      congr 1
      by_cases hl : acc.length ≥ group_max
      · rw [if_pos (Or.inr hl), if_pos hl]
      · rw [if_neg (by push_neg; exact ⟨hx, by omega⟩), if_neg hl]
    · have hf : (x :: xs).filter (fun member => decide (member.group_number = group_index)) =
          xs.filter (fun member => decide (member.group_number = group_index)) := by
        rw [List.filter_cons, if_neg (by simpa using hx)]
      rw [hf, List.foldl_cons, ih, if_pos (Or.inl hx)]

theorem leaders_first_length (members : List RaidMember) :
    (leaders_first members).length = members.length := by
  unfold leaders_first
  rw [List.length_append, List.length_reverse]
  induction members with
  | nil => rfl
  | cons x xs ih =>
    simp only [List.filter_cons]
    cases x.is_group_leader <;> simp <;> omega

theorem collect_leaders_first (group_max : Nat) (cand : List RaidMember) :
    ∀ pre : List RaidMember, pre.length ≤ group_max →
      cand.foldl
        (fun acc member =>
          if acc.length ≥ group_max then acc
          else if member.is_group_leader then member :: acc
          else acc ++ [member])
        (leaders_first pre) =
      leaders_first ((pre ++ cand).take group_max) := by
  induction cand with
  | nil =>
    intro pre hpre
    rw [List.append_nil, List.take_of_length_le hpre]
    rfl
  | cons x xs ih =>
    intro pre hpre
    rw [List.foldl_cons]
    by_cases hfull : (leaders_first pre).length ≥ group_max
    · rw [if_pos hfull]
      rw [leaders_first_length] at hfull
      have hlen : pre.length = group_max := by omega
      have hstay : ∀ rest : List RaidMember,
          rest.foldl
            (fun acc member =>
              if acc.length ≥ group_max then acc
              else if member.is_group_leader then member :: acc
              else acc ++ [member])
            (leaders_first pre) = leaders_first pre := by
        intro rest
        induction rest with
        | nil => rfl
        | cons y ys ihy =>
          rw [List.foldl_cons, if_pos (by rw [leaders_first_length]; omega)]
          exact ihy
      rw [hstay, List.take_append_of_le_length (by omega), List.take_of_length_le (by omega)]
    · rw [if_neg hfull]
      rw [leaders_first_length] at hfull
      have hstep : (if x.is_group_leader = true then x :: leaders_first pre
          else leaders_first pre ++ [x]) = leaders_first (pre ++ [x]) := by
        unfold leaders_first
        cases hx : x.is_group_leader <;> simp [List.filter_append, hx]
      rw [hstep, ih (pre ++ [x]) (by rw [List.length_append, List.length_singleton]; omega),
        List.append_assoc, List.singleton_append]

/-- The members `QueueByGroup` collects for a bucket are the listed members of the
specification: the first `group_max` candidates, leaders first. -/
theorem slot_members_listing (s : RaidBars) (i : Nat) : slot_members s i = bucket_listing s i := by
  unfold slot_members group_members_of bucket_listing bucket_candidates
  rw [foldl_flatMap_eq, collect_filter]
  have h := collect_leaders_first (if i = 12 then 72 else 6)
    ((s.class_priority.flatMap (fun class_index => s.raid_classes.getD class_index [])).filter
      (fun member => decide (member.group_number = if i = 12 then kRaidUngrouped else i)))
    [] (Nat.zero_le _)
  rw [List.nil_append] at h
  have hfm : (s.class_priority.flatMap (fun class_index => s.raid_classes.getD class_index [])).filter
      (fun member => decide (member.group_number = if i = 12 then kRaidUngrouped else i)) =
      s.class_priority.flatMap (fun class_index =>
        (s.raid_classes.getD class_index []).filter (fun member =>
          decide (member.group_number = if i = 12 then kRaidUngrouped else i))) := by
    rw [List.filter_flatMap]
  rw [← hfm]
  exact h

/-- C21 (divergence): the threshold as documented and as applied. The status line of
`/raidbars threshold 50` and the usage text promise that a filtered class is shown with health
percent `<=` the value; with the warriors filtered at 50, Anna at exactly 50 percent (not the
self entry, class neither forced visible nor never-show, four bars for six slots) gets no bar,
while Zed at 10 percent does. -/
theorem threshold_boundary_member_hidden :
    (example_bars.ParseArgs command_game ["/raidbars", "threshold", "50"]).2 =
        [Emit.print_chat "Raidbars filter threshold is set to show values <= to %d%%"
          [FmtArg.int 50]] ∧
      Emit.print_chat
          "Usage: /raidbars threshold <value> (filtered class shown with hp % <= value)" [] ∈
        ParseArgs.usage ∧
      filtered_bars.setting_show_threshold = 50 ∧
      filtered_bars.class_filter.getD 0 false = true ∧
      class_forced filtered_bars 0 = false ∧
      filtered_bars.class_never.getD 0 false = false ∧
      (filtered_bars.raid_classes.getD 0 []).map (fun m => (m.name, m.entity)) =
        [("Anna", some 1), ("Zed", some 3)] ∧
      hp_percent_of command_game (some 1) = 50 ∧
      command_game.self = some 9 ∧
      (filtered_bars.CallbackRender command_game).2.2.map (fun c => (c.text, c.hp_percent)) =
        [("Zed", 10), ("Otto", 0), ("Foo", 0), ("Mona", 80)] ∧
      (filtered_bars.CallbackRender command_game).1.grid_height_count_max = 3 :=
  ⟨by decide!, by decide!, by decide!, by decide!, by decide!, by decide!, by decide!,
    by decide!, by decide!, by decide!, by decide!⟩

/-! ## Unreachable members -/

theorem put_returned (s : RaidBars) (x_max y_min y_max : ℚ) (mk : ℚ → ℚ → Cell) (f : GroupFlow)
    (h : f.returned = true) : QueueByGroup.put s x_max y_min y_max mk f = f := by
  unfold QueueByGroup.put
  rw [if_pos h]

theorem put_fold_returned {α : Type} (s : RaidBars) (x_max y_min y_max : ℚ)
    (mk : α → ℚ → ℚ → Cell) (items : List α) (f : GroupFlow) (h : f.returned = true) :
    items.foldl (fun f a => QueueByGroup.put s x_max y_min y_max (mk a) f) f = f := by
  induction items with
  | nil => rfl
  | cons a rest ih => rw [List.foldl_cons, put_returned s x_max y_min y_max (mk a) f h, ih]

theorem put_fold_emits {α : Type} (s : RaidBars) (x_max y_min y_max : ℚ)
    (mk : α → ℚ → ℚ → Cell) (items : List α) :
    ∀ f : GroupFlow, ∃ rest : List Cell,
      (items.foldl (fun f a => QueueByGroup.put s x_max y_min y_max (mk a) f) f).flow.cells =
          f.flow.cells ++ rest ∧
        (items.foldl (fun f a => QueueByGroup.put s x_max y_min y_max (mk a) f)
          f).visible_group_index = f.visible_group_index ∧
        ∀ c ∈ rest, ∃ a ∈ items, ∃ x y, c = mk a x y := by
  induction items with
  | nil => intro f; exact ⟨[], by simp, rfl, by simp⟩
  | cons a rest ih =>
    intro f
    rw [List.foldl_cons]
    obtain ⟨r2, h1, h2, h3⟩ := ih (QueueByGroup.put s x_max y_min y_max (mk a) f)
    have hput : (QueueByGroup.put s x_max y_min y_max (mk a) f).visible_group_index =
        f.visible_group_index ∧
        ((QueueByGroup.put s x_max y_min y_max (mk a) f).flow.cells = f.flow.cells ∨
          ∃ x y, (QueueByGroup.put s x_max y_min y_max (mk a) f).flow.cells =
            f.flow.cells ++ [mk a x y]) := by
      unfold QueueByGroup.put flow_wrap
      dsimp only
      split_ifs
      · exact ⟨rfl, Or.inl rfl⟩
      · exact ⟨rfl, Or.inl rfl⟩
      · exact ⟨rfl, Or.inr ⟨_, _, rfl⟩⟩
      · exact ⟨rfl, Or.inl rfl⟩
      · exact ⟨rfl, Or.inr ⟨_, _, rfl⟩⟩
    rcases hput with ⟨hv, hc | ⟨x, y, hc⟩⟩
    · refine ⟨r2, by rw [h1, hc], h2.trans hv, ?_⟩
      intro c hcm
      obtain ⟨b, hb, hxy⟩ := h3 c hcm
      exact ⟨b, List.mem_cons_of_mem _ hb, hxy⟩
    · refine ⟨mk a x y :: r2, by rw [h1, hc, List.append_assoc, List.singleton_append],
        h2.trans hv, ?_⟩
      intro c hcm
      rcases List.mem_cons.mp hcm with h | h
      · exact ⟨a, List.mem_cons_self _ _, x, y, h⟩
      · obtain ⟨b, hb, hxy⟩ := h3 c h
        exact ⟨b, List.mem_cons_of_mem _ hb, hxy⟩

theorem put_label_emits (s : RaidBars) (base : Nat) (x_max y_min y_max : ℚ) (i : Nat)
    (f : GroupFlow) :
    ((QueueByGroup.put_label s base x_max y_min y_max i f).returned = true ∧
        (QueueByGroup.put_label s base x_max y_min y_max i f).flow.cells = f.flow.cells ∧
        (QueueByGroup.put_label s base x_max y_min y_max i f).visible_group_index =
          f.visible_group_index) ∨
      (∃ x y, (QueueByGroup.put_label s base x_max y_min y_max i f).flow.cells =
          f.flow.cells ++ [label_cell s i x y] ∧
        (QueueByGroup.put_label s base x_max y_min y_max i f).visible_group_index =
          f.visible_group_index.set i ((base + f.flow.cells.length : Nat) : Int)) := by
  unfold QueueByGroup.put_label flow_wrap
  dsimp only
  split_ifs with h1 h2 h3 h4
  · exact Or.inl ⟨h1, rfl, rfl⟩
  · exact Or.inl ⟨rfl, rfl, rfl⟩
  · exact Or.inr ⟨_, _, rfl, rfl⟩
  · exact Or.inl ⟨rfl, rfl, rfl⟩
  · exact Or.inr ⟨_, _, rfl, rfl⟩

/-- One iteration of the main loop of `QueueByGroup` for slot `i` either places nothing and
leaves the label index map alone, or places the label of slot `i`, records its position in slot
`i`, and then places bars of listed members of the bucket and empty slots only. -/
theorem group_step_emits (g : Game) (s : RaidBars) (base : Nat) (x_max y_min y_max : ℚ)
    (f : GroupFlow) (i : Nat) :
    ((QueueByGroup.group_step g s base x_max y_min y_max f i).flow.cells = f.flow.cells ∧
        (QueueByGroup.group_step g s base x_max y_min y_max f i).visible_group_index =
          f.visible_group_index) ∨
      (∃ (x y : ℚ) (rest : List Cell),
        (QueueByGroup.group_step g s base x_max y_min y_max f i).flow.cells =
          f.flow.cells ++ label_cell s i x y :: rest ∧
        (QueueByGroup.group_step g s base x_max y_min y_max f i).visible_group_index =
          f.visible_group_index.set i ((base + f.flow.cells.length : Nat) : Int) ∧
        ∀ c ∈ rest, (∃ member ∈ bucket_listing s i, ∃ x y, c = bar_cell g member x y) ∨
          (∃ x y, c = empty_cell x y)) := by
  unfold QueueByGroup.group_step
  by_cases hret : f.returned = true
  · rw [if_pos hret]; exact Or.inl ⟨rfl, rfl⟩
  · rw [if_neg hret]
    have hmem : group_members_of s (if decide (i = 12) = true then kRaidUngrouped else i)
        (if decide (i = 12) = true then 72 else 6) = bucket_listing s i := by
      rw [← slot_members_listing]
      unfold slot_members
      by_cases hi : i = 12 <;> simp [hi]
    dsimp only
    rw [hmem]
    by_cases hemp : bucket_listing s i = []
    · rw [if_pos hemp]; exact Or.inl ⟨rfl, rfl⟩
    · rw [if_neg hemp]
      rcases put_label_emits s base x_max y_min y_max i f with ⟨hr, hc, hv⟩ | ⟨x, y, hc, hv⟩
      · left
        rw [put_fold_returned s x_max y_min y_max (bar_cell g) _ _ hr]
        split_ifs
        · exact ⟨hc, hv⟩
        · rw [put_fold_returned s x_max y_min y_max (fun _ : Nat => empty_cell) _ _ hr]
          exact ⟨hc, hv⟩
      · right
        obtain ⟨r1, h1, h2, h3⟩ := put_fold_emits s x_max y_min y_max (bar_cell g)
          (bucket_listing s i) (QueueByGroup.put_label s base x_max y_min y_max i f)
        by_cases hshow : (!s.setting_show_all || decide (i = 12)) = true
        · rw [if_pos hshow]
          refine ⟨x, y, r1, by rw [h1, hc, List.append_assoc, List.singleton_append],
            h2.trans hv, ?_⟩
          intro c hcm
          obtain ⟨member, hm, hxy⟩ := h3 c hcm
          exact Or.inl ⟨member, hm, hxy⟩
        · rw [if_neg hshow]
          obtain ⟨r2, h4, h5, h6⟩ := put_fold_emits s x_max y_min y_max
            (fun _ : Nat => empty_cell)
            (List.range' (bucket_listing s i).length (6 - (bucket_listing s i).length))
            ((bucket_listing s i).foldl
              (fun f member => QueueByGroup.put s x_max y_min y_max (bar_cell g member) f)
              (QueueByGroup.put_label s base x_max y_min y_max i f))
          refine ⟨x, y, r1 ++ r2, by
            rw [h4, h1, hc, List.append_assoc, List.append_assoc, List.singleton_append],
            (h5.trans h2).trans hv, ?_⟩
          intro c hcm
          rcases List.mem_append.mp hcm with h | h
          · obtain ⟨member, hm, hxy⟩ := h3 c h
            exact Or.inl ⟨member, hm, hxy⟩
          · obtain ⟨_, _, hxy⟩ := h6 c h
            exact Or.inr hxy


theorem getD_set_slot (vgi : List Int) (k : Nat) (v : Int) (hk : k < vgi.length) (a : Nat) :
    (vgi.set k v).getD a (-1) = if a = k then v else vgi.getD a (-1) := by
  rw [List.getD_eq_getElem?_getD, List.getD_eq_getElem?_getD, List.getElem?_set]
  by_cases hak : k = a
  · subst hak
    simp [hk]
  · rw [if_neg hak, if_neg (fun h => hak h.symm)]

theorem labelInv_start (base : Nat) (f : GroupFlow)
    (hclear : f.visible_group_index = List.replicate 13 (-1)) : LabelInv base 0 f := by
  have hall : ∀ a : Nat, (List.replicate 13 (-1 : Int)).getD a (-1) = -1 := by
    intro a
    rw [List.getD_eq_getElem?_getD, List.getElem?_replicate]
    split_ifs <;> rfl
  refine ⟨by rw [hclear]; rfl, ?_, ?_⟩
  · intro a ha
    rw [hclear, hall] at ha
    exact absurd rfl ha
  · intro a b _ ha
    rw [hclear, hall] at ha
    exact absurd rfl ha

theorem labelCellsInv_start (base : Nat) (f : GroupFlow)
    (hclear : f.visible_group_index = List.replicate 13 (-1)) (hcells : f.flow.cells = []) :
    LabelCellsInv base f := by
  have hall : ∀ a : Nat, (List.replicate 13 (-1 : Int)).getD a (-1) = -1 := by
    intro a
    rw [List.getD_eq_getElem?_getD, List.getElem?_replicate]
    split_ifs <;> rfl
  refine ⟨?_, ?_, fun h => absurd hcells h⟩
  · intro a ha
    rw [hclear, hall] at ha
    exact absurd rfl ha
  · intro p c a hp
    rw [hcells] at hp
    simp at hp

theorem group_step_labelCells (g : Game) (s : RaidBars) (base : Nat) (x_max y_min y_max : ℚ)
    (k : Nat) (hk : k < 13) (f : GroupFlow) (hinv : LabelInv base k f)
    (h : LabelCellsInv base f) :
    LabelCellsInv base (QueueByGroup.group_step g s base x_max y_min y_max f k) := by
  obtain ⟨hB, hC, hE⟩ := h
  obtain ⟨hlen, hbelow, -⟩ := hinv
  rcases group_step_emits g s base x_max y_min y_max f k with ⟨hc, hv⟩ | ⟨x, y, rest, hc, hv, hrest⟩
  · unfold LabelCellsInv
    rw [hc, hv]
    exact ⟨hB, hC, hE⟩
  · have hget := getD_set_slot f.visible_group_index k
      ((base + f.flow.cells.length : Nat) : Int) (by omega)
    have hkind : ∀ c ∈ rest, ∀ a : Nat, c.kind ≠ CellKind.label a := by
      intro c hcm a hk2
      rcases hrest c hcm with ⟨member, -, x2, y2, hxy⟩ | ⟨x2, y2, hxy⟩
      · rw [hxy] at hk2; cases hk2
      · rw [hxy] at hk2; cases hk2
    unfold LabelCellsInv
    rw [hc, hv]
    refine ⟨?_, ?_, ?_⟩
    · intro a ha
      rw [hget] at ha ⊢
      by_cases hak : a = k
      · rw [if_pos hak]
        refine ⟨f.flow.cells.length, label_cell s k x y, rfl, ?_, by rw [hak]; rfl, rfl⟩
        rw [List.getElem?_append_right (le_refl _), Nat.sub_self, List.getElem?_cons_zero]
      · rw [if_neg hak] at ha ⊢
        obtain ⟨p, c, h1, h2, h3, h4⟩ := hB a ha
        refine ⟨p, c, h1, ?_, h3, h4⟩
        have hp : p < f.flow.cells.length := by
          by_contra hge
          rw [List.getElem?_eq_none (by omega)] at h2
          cases h2
        rw [List.getElem?_append_left hp]
        exact h2
    · intro p c a hp hka
      rw [hget]
      by_cases hlt : p < f.flow.cells.length
      · rw [List.getElem?_append_left hlt] at hp
        have hold := hC p c a hp hka
        have hak : a ≠ k := by
          intro h
          have hrec : f.visible_group_index.getD a (-1) ≠ -1 := by
            rw [hold]
            omega
          have := (hbelow a hrec).1
          omega
        rw [if_neg hak]
        exact hold
      · rw [List.getElem?_append_right (by omega)] at hp
        by_cases heq : p = f.flow.cells.length
        · rw [heq, Nat.sub_self] at hp
          simp only [List.getElem?_cons_zero, Option.some.injEq] at hp
          rw [← hp] at hka
          have hak : a = k := by
            have : CellKind.label k = CellKind.label a := hka
            cases this
            rfl
          rw [if_pos hak, heq]
        · exfalso
          have hpos : p - f.flow.cells.length = (p - f.flow.cells.length - 1) + 1 := by omega
          rw [hpos, List.getElem?_cons_succ] at hp
          exact hkind c (List.mem_iff_getElem?.mpr ⟨_, hp⟩) a hka
    · intro _
      by_cases hemp : f.flow.cells = []
      · rw [hemp, List.nil_append]
        exact ⟨label_cell s k x y, k, List.getElem?_cons_zero, rfl⟩
      · obtain ⟨c, a, h1, h2⟩ := hE hemp
        refine ⟨c, a, ?_, h2⟩
        rw [List.getElem?_append_left (List.length_pos.mpr hemp)]
        exact h1

/-- After a by-group pass started from a cleared label index map, the map and the label cells
of the pass agree. -/
theorem QueueByGroup_labelCells (g : Game) (s : RaidBars) (x_min y_min x_max y_max : ℚ)
    (hclear : s.visible_group_index = List.replicate 13 (-1)) :
    LabelInv s.visible_list.length 13 (QueueByGroup.after g s x_min y_min x_max y_max 13) ∧
      LabelCellsInv s.visible_list.length
        (QueueByGroup.after g s x_min y_min x_max y_max 13) := by
  unfold QueueByGroup.after
  apply range_foldl_invariant
    (fun k f => LabelInv s.visible_list.length k f ∧ LabelCellsInv s.visible_list.length f)
  · exact ⟨labelInv_start _ _ hclear, labelCellsInv_start _ _ hclear rfl⟩
  · intro k f hk ⟨h1, h2⟩
    exact ⟨group_step_labelInv g s _ x_max y_min y_max k hk f h1,
      group_step_labelCells g s _ x_max y_min y_max k hk f h1 h2⟩

theorem QueueByGroup_after (g : Game) (s : RaidBars) (x_min y_min x_max y_max : ℚ) :
    (s.QueueByGroup g x_min y_min x_max y_max).2 =
        (QueueByGroup.after g s x_min y_min x_max y_max 13).flow.cells ∧
      (s.QueueByGroup g x_min y_min x_max y_max).1.visible_group_index =
        (QueueByGroup.after g s x_min y_min x_max y_max 13).visible_group_index ∧
      (s.QueueByGroup g x_min y_min x_max y_max).1.visible_list =
        s.visible_list ++
          (QueueByGroup.after g s x_min y_min x_max y_max 13).flow.cells.map (fun c => c.entity) :=
  ⟨rfl, rfl, rfl⟩


theorem render_layout_group (g : Game) (s : RaidBars) (h : s.setting_group_sort = true) :
    ∃ (s3 : RaidBars) (x_min y_min x_max y_max : ℚ), s3.visible_list = [] ∧
      s3.visible_group_index = List.replicate 13 (-1) ∧
      s.render_layout g = s3.QueueByGroup g x_min y_min x_max y_max := by
  refine ⟨{ s with
            grid_height_count_max := truncToInt
              ((((if s.setting_position_bottom > s.setting_position_top then
                    s.setting_position_bottom else g.screen_resolution_y : Int) : ℚ) -
                (s.setting_position_top : ℚ)) / s.grid_height)
            visible_list := []
            visible_group_index := List.replicate kNumGroupLabelSlots (-1) },
    (s.setting_position_left : ℚ), (s.setting_position_top : ℚ),
    ((if s.setting_position_right > s.setting_position_left then
        s.setting_position_right else g.screen_resolution_x : Int) : ℚ),
    ((if s.setting_position_bottom > s.setting_position_top then
        s.setting_position_bottom else g.screen_resolution_y : Int) : ℚ),
    rfl, rfl, ?_⟩
  unfold RaidBars.render_layout
  dsimp only
  rw [if_pos h]

theorem render_layout_class (g : Game) (s : RaidBars) (h : s.setting_group_sort = false) :
    (s.render_layout g).1.visible_group_index = List.replicate 13 (-1) := by
  unfold RaidBars.render_layout
  dsimp only
  rw [if_neg (by simp [h])]
  rfl

theorem QueueByGroup_labelSlots (g : Game) (s : RaidBars) (x_min y_min x_max y_max : ℚ)
    (hvis : s.visible_list = [])
    (hclear : s.visible_group_index = List.replicate 13 (-1)) :
    LabelSlots (s.QueueByGroup g x_min y_min x_max y_max).1.visible_group_index
      (s.QueueByGroup g x_min y_min x_max y_max).1.visible_list
      (s.QueueByGroup g x_min y_min x_max y_max).2 := by
  obtain ⟨h1, h2, h3⟩ := QueueByGroup_after g s x_min y_min x_max y_max
  obtain ⟨⟨hlen, -, hasc⟩, hB, hC, hE⟩ := QueueByGroup_labelCells g s x_min y_min x_max y_max hclear
  rw [hvis] at h3 hB hC
  rw [h1, h2, h3, List.nil_append]
  generalize QueueByGroup.after g s x_min y_min x_max y_max 13 = f at hlen hasc hB hC hE
  have hpos : ∀ a : Nat, f.visible_group_index.getD a (-1) ≠ -1 →
      ∃ (p : Nat) (c : Cell), f.visible_group_index.getD a (-1) = (p : Int) ∧
        f.flow.cells[p]? = some c ∧ c.kind = CellKind.label a ∧ c.entity = none := by
    intro a ha
    obtain ⟨p, c, h4, h5, h6, h7⟩ := hB a ha
    refine ⟨p, c, ?_, h5, h6, h7⟩
    rw [h4]
    simp
  refine ⟨hlen, ?_, hasc, ?_, ?_, ?_⟩
  · intro a
    by_cases ha : f.visible_group_index.getD a (-1) = -1
    · exact Or.inl ha
    · right
      obtain ⟨p, c, h4, h5, h6, h7⟩ := hpos a ha
      have hp : p < f.flow.cells.length := by
        by_contra hge
        rw [List.getElem?_eq_none (by omega)] at h5
        cases h5
      refine ⟨p, c, h4, by rw [List.length_map]; exact hp, ?_, h5, h6⟩
      rw [List.getElem?_map, h5]
      simp [h7]
  · intro a
    constructor
    · intro ha
      obtain ⟨p, c, -, h5, h6, -⟩ := hpos a ha
      exact ⟨c, List.mem_iff_getElem?.mpr ⟨p, h5⟩, h6⟩
    · rintro ⟨c, hc, hk⟩
      obtain ⟨p, hp⟩ := List.mem_iff_getElem?.mp hc
      rw [hC p c a hp hk]
      omega
  · intro hne
    have hcells : f.flow.cells ≠ [] := by
      intro h
      apply hne
      rw [h]
      rfl
    obtain ⟨c, a, h4, h5⟩ := hE hcells
    refine ⟨a, ?_⟩
    rw [hC 0 c a h4 h5]
    simp
  · intro a
    by_cases ha : f.visible_group_index.getD a (-1) = -1
    · exact Or.inl ha
    · right
      obtain ⟨p, c, h4, -⟩ := hpos a ha
      rw [h4]
      omega

/-- C28: label-slot index invariant. After the layout part of every render pass sorted by
groups, each of the thirteen slots of `visible_group_index` is `-1` or a valid index of the
visible list whose entry is null and whose cell is the label of that slot, the recorded
positions are strictly increasing in slot order, a slot is recorded exactly for the buckets
whose label was placed, and if the visible list is not empty some slot records position 0 (no
recorded position is negative). After the layout part of every render pass sorted by category
all thirteen slots are `-1`. -/
theorem label_slot_invariant (g : Game) (s : RaidBars) :
    (s.setting_group_sort = true →
        LabelSlots (s.render_layout g).1.visible_group_index (s.render_layout g).1.visible_list
          (s.render_layout g).2) ∧
      (s.setting_group_sort = false →
        (s.render_layout g).1.visible_group_index = List.replicate 13 (-1)) := by
  refine ⟨fun h => ?_, render_layout_class g s⟩
  obtain ⟨s3, x_min, y_min, x_max, y_max, hvis, hclear, heq⟩ := render_layout_group g s h
  rw [heq]
  exact QueueByGroup_labelSlots g s3 x_min y_min x_max y_max hvis hclear

/-- Witness of C28 on the managed example: the labels of group 1, group 3 and the unaffiliated
bucket are recorded at the positions 0, 7 and 14 of the sixteen cells, all other slots are `-1`;
the by-category pass of the example leaves all slots at `-1`. -/
theorem label_slot_invariant_witness :
    (manage_bars.render_layout example_game).1.visible_group_index =
        [0, -1, 7, -1, -1, -1, -1, -1, -1, -1, -1, -1, 14] ∧
      (manage_bars.render_layout example_game).2.map (fun c => c.kind) =
        [CellKind.label 0, CellKind.bar, CellKind.bar, CellKind.empty, CellKind.empty,
          CellKind.empty, CellKind.empty, CellKind.label 2, CellKind.bar, CellKind.bar,
          CellKind.empty, CellKind.empty, CellKind.empty, CellKind.empty, CellKind.label 12,
          CellKind.bar] ∧
      (manage_bars.render_layout example_game).1.visible_group_index.length = 13 ∧
      (example_bars.render_layout example_game).1.visible_group_index =
        List.replicate 13 (-1) :=
  ⟨by decide!, by decide!,
    ((label_slot_invariant example_game manage_bars).1 (by decide!)).1,
    (label_slot_invariant example_game example_bars).2 (by decide!)⟩


/-! ## What is clicked is what is drawn -/

theorem filter_range_getLast (q : Nat → Bool) (n i : Nat) (hi : i < n) (hq : q i = true)
    (hlater : ∀ j, i < j → j < n → q j = false) :
    ((List.range n).filter q).getLast? = some i := by
  induction n with
  | zero => omega
  | succ n ih =>
    rw [List.range_succ, List.filter_append]
    by_cases hin : i = n
    · subst hin
      simp [List.filter_cons, hq]
    · have hqn : q n = false := hlater n (by omega) (by omega)
      have hlt : i < n := by omega
      have hnil : List.filter q [n] = [] := by simp [List.filter_cons, hqn]
      rw [hnil, List.append_nil]
      exact ih hlt (fun j h1 h2 => hlater j h1 (by omega))

theorem after_succ (g : Game) (s : RaidBars) (x_min y_min x_max y_max : ℚ) (k : Nat) :
    QueueByGroup.after g s x_min y_min x_max y_max (k + 1) =
      QueueByGroup.group_step g s s.visible_list.length x_max y_min y_max
        (QueueByGroup.after g s x_min y_min x_max y_max k) k := by
  unfold QueueByGroup.after
  rw [List.range_succ, List.foldl_append]
  rfl

theorem group_step_own (g : Game) (s : RaidBars) (x_min y_min x_max y_max : ℚ) (k : Nat)
    (hk : k < 13) (f : GroupFlow)
    (hf : f = QueueByGroup.after g s x_min y_min x_max y_max k)
    (hlab : LabelInv s.visible_list.length k f)
    (hown : OwnInv g s x_min y_min x_max y_max k f) :
    OwnInv g s x_min y_min x_max y_max (k + 1)
      (QueueByGroup.group_step g s s.visible_list.length x_max y_min y_max f k) := by
  have hnext : QueueByGroup.group_step g s s.visible_list.length x_max y_min y_max f k =
      QueueByGroup.after g s x_min y_min x_max y_max (k + 1) := by
    rw [after_succ, hf]
  rcases group_step_emits g s s.visible_list.length x_max y_min y_max f k with
    ⟨hc, hv⟩ | ⟨x, y, rest, hc, hv, hrest⟩
  · intro p hp
    rw [hc] at hp
    obtain ⟨i, hi, h1, h2, h3, h4, h5, h6⟩ := hown p hp
    refine ⟨i, by omega, h1, h2, ?_, ?_, ?_, ?_⟩
    · rw [hv]; exact h3
    · rw [hv]; exact h4
    · rw [hc]; exact h5
    · rw [hv]; exact h6
  · have hklen : k < f.visible_group_index.length := by rw [hlab.1]; exact hk
    intro p hp
    by_cases hold : p < f.flow.cells.length
    · obtain ⟨i, hi, h1, h2, h3, h4, h5, h6⟩ := hown p hold
      have hik : i ≠ k := by omega
      refine ⟨i, by omega, h1, h2, ?_, ?_, ?_, ?_⟩
      · rw [hv, getD_set_slot _ _ _ hklen, if_neg hik]; exact h3
      · rw [hv, getD_set_slot _ _ _ hklen, if_neg hik]; exact h4
      · obtain ⟨c, h7, h8⟩ := h5
        refine ⟨c, ?_, h8⟩
        rw [hc, List.getElem?_append_left hold]
        exact h7
      · intro j hj
        rw [hv, getD_set_slot _ _ _ hklen]
        by_cases hjk : j = k
        · rw [if_pos hjk]
          right
          omega
        · rw [if_neg hjk]
          exact h6 j hj
    · have hge : f.flow.cells.length ≤ p := by omega
      refine ⟨k, by omega, ?_, ?_, ?_, ?_, ?_, ?_⟩
      · rw [← hf]; exact hge
      · rw [← hnext]; exact hp
      · rw [hv, getD_set_slot _ _ _ hklen, if_pos rfl]
        omega
      · rw [hv, getD_set_slot _ _ _ hklen, if_pos rfl]
        omega
      · rw [hc] at hp ⊢
        rw [List.length_append] at hp
        rw [List.getElem?_append_right hge]
        have hlt : p - f.flow.cells.length < (label_cell s k x y :: rest).length := by omega
        refine ⟨(label_cell s k x y :: rest)[p - f.flow.cells.length], ?_, ?_⟩
        · exact List.getElem?_eq_getElem hlt
        · have hmem := List.getElem_mem hlt
          rcases List.mem_cons.mp hmem with h | h
          · exact Or.inl ⟨x, y, h⟩
          · exact Or.inr (hrest _ h)
      · intro j hj
        left
        rw [hv, getD_set_slot _ _ _ hklen, if_neg (by omega)]
        by_contra hne
        have := (hlab.2.1 j hne).1
        omega

theorem QueueByGroup_own (g : Game) (s : RaidBars) (x_min y_min x_max y_max : ℚ)
    (hclear : s.visible_group_index = List.replicate 13 (-1)) :
    OwnInv g s x_min y_min x_max y_max 13 (QueueByGroup.after g s x_min y_min x_max y_max 13) := by
  have h := range_foldl_invariant
    (fun k f => f = QueueByGroup.after g s x_min y_min x_max y_max k ∧
      LabelInv s.visible_list.length k f ∧ OwnInv g s x_min y_min x_max y_max k f)
    (QueueByGroup.group_step g s s.visible_list.length x_max y_min y_max) 13
    { flow := { x := x_min, y := y_min, cells := [] },
      visible_group_index := s.visible_group_index, returned := false }
    ⟨rfl, labelInv_start _ _ hclear, fun p hp => absurd hp (Nat.not_lt_zero p)⟩
    (fun k f hk ⟨h1, h2, h3⟩ =>
      ⟨by rw [after_succ, h1], group_step_labelInv g s _ x_max y_min y_max k hk f h2,
        group_step_own g s x_min y_min x_max y_max k hk f h1 h2 h3⟩)
  exact h.2.2

theorem resolve_dest_group_owner (vgi : List Int) (index : Int) (i : Nat)
    (hlen : vgi.length = 13) (hi : i < 13) (h1 : vgi.getD i (-1) ≠ -1)
    (h2 : vgi.getD i (-1) ≤ index)
    (h3 : ∀ j : Nat, i < j → vgi.getD j (-1) = -1 ∨ index < vgi.getD j (-1)) :
    resolve_dest_group vgi index = bucket_dest i := by
  rw [resolve_dest_group_last]
  unfold qualifying_slots
  have hqi : (decide (vgi.getD i (-1) ≠ -1) && decide (vgi.getD i (-1) ≤ index)) = true := by
    rw [Bool.and_eq_true, decide_eq_true_eq, decide_eq_true_eq]
    exact ⟨h1, h2⟩
  rw [filter_range_getLast _ vgi.length i (by omega) hqi]
  · rfl
  · intro j hj _
    have hj3 := h3 j hj
    show (decide (vgi.getD j (-1) ≠ -1) && decide (vgi.getD j (-1) ≤ index)) = false
    generalize vgi.getD j (-1) = v at hj3
    rcases hj3 with h | h
    · simp [h]
    · have : ¬ v ≤ index := by omega
      simp [this]

theorem QueueByGroup_owner (g : Game) (s : RaidBars) (x_min y_min x_max y_max : ℚ)
    (hvis : s.visible_list = [])
    (hclear : s.visible_group_index = List.replicate 13 (-1)) (p : Nat)
    (hp : p < (s.QueueByGroup g x_min y_min x_max y_max).1.visible_list.length) :
    ∃ i : Nat, i < 13 ∧
      (QueueByGroup.after g s x_min y_min x_max y_max i).flow.cells.length ≤ p ∧
      p < (QueueByGroup.after g s x_min y_min x_max y_max (i + 1)).flow.cells.length ∧
      (∃ c : Cell, (s.QueueByGroup g x_min y_min x_max y_max).2[p]? = some c ∧
        cell_of_bucket g s i c) ∧
      resolve_dest_group (s.QueueByGroup g x_min y_min x_max y_max).1.visible_group_index
        (p : Int) = bucket_dest i := by
  obtain ⟨h1, h2, h3⟩ := QueueByGroup_after g s x_min y_min x_max y_max
  have hlab := (QueueByGroup_labelCells g s x_min y_min x_max y_max hclear).1
  have hown := QueueByGroup_own g s x_min y_min x_max y_max hclear
  rw [h3, hvis, List.nil_append, List.length_map] at hp
  obtain ⟨i, hi, h4, h5, h6, h7, h8, h9⟩ := hown p hp
  rw [hvis] at h7 h9
  simp only [List.length_nil, Nat.zero_add] at h7 h9
  refine ⟨i, hi, h4, h5, ?_, ?_⟩
  · rw [h1]; exact h8
  · rw [h2]
    exact resolve_dest_group_owner _ _ i hlab.1 hi h6 h7 h9

theorem render_layout_start (g : Game) (s : RaidBars) (h : s.setting_group_sort = true) :
    s.render_layout g = (s.layout_start g).QueueByGroup g (s.setting_position_left : ℚ)
      (s.setting_position_top : ℚ)
      ((if s.setting_position_right > s.setting_position_left then
          s.setting_position_right else g.screen_resolution_x : Int) : ℚ)
      ((if s.setting_position_bottom > s.setting_position_top then
          s.setting_position_bottom else g.screen_resolution_y : Int) : ℚ) := by
  unfold RaidBars.render_layout RaidBars.layout_start
  dsimp only
  rw [if_pos h]

theorem HandleCtrlClick_selecting (g : Game) (s : RaidBars) (index : Int)
    (hsel : s.manage.move_pending_name ≠ "") :
    s.HandleCtrlClick g index =
      s.move_pending g (resolve_dest_group s.visible_group_index index) := by
  unfold RaidBars.HandleCtrlClick RaidBars.move_pending
  rw [if_neg hsel]

/-- C29: what is clicked is what is drawn. After the layout part of a render pass sorted by
groups, every index `p` of the visible list is occupied by a cell that one iteration `i` of the
by-group loop placed (the label, a member bar or an empty-slot cell of bucket `i`), and the
destination scan of a select click at `p` resolves to that bucket: group `i` for the twelve
group slots, the unaffiliated bucket for slot 13; in the Selecting state (a name is pending)
`HandleCtrlClick` at `p` carries out the move to that bucket. -/
theorem click_resolves_to_drawn_bucket (g : Game) (s : RaidBars)
    (h : s.setting_group_sort = true) (p : Nat)
    (hp : p < (s.render_layout g).1.visible_list.length) :
    ∃ i : Nat, i < 13 ∧ drawn_by_bucket g s i p ∧
      resolve_dest_group (s.render_layout g).1.visible_group_index (p : Int) = bucket_dest i ∧
      ((s.render_layout g).1.manage.move_pending_name ≠ "" →
        (s.render_layout g).1.HandleCtrlClick g (p : Int) =
          (s.render_layout g).1.move_pending g (bucket_dest i)) := by
  have heq := render_layout_start g s h
  have hsel : ∀ i : Nat,
      resolve_dest_group (s.render_layout g).1.visible_group_index (p : Int) = bucket_dest i →
      (s.render_layout g).1.manage.move_pending_name ≠ "" →
        (s.render_layout g).1.HandleCtrlClick g (p : Int) =
          (s.render_layout g).1.move_pending g (bucket_dest i) := by
    intro i hi hne
    rw [HandleCtrlClick_selecting g _ _ hne, hi]
  unfold drawn_by_bucket RaidBars.layout_after
  rw [heq] at hp hsel ⊢
  obtain ⟨i, hi, h1, h2, h3, h4⟩ := QueueByGroup_owner g (s.layout_start g) _ _ _ _ rfl rfl p hp
  exact ⟨i, hi, ⟨h1, h2, h3⟩, h4, hsel i h4⟩

/-- Witness of C29 on the managed example (sixteen cells, bucket of group 1 at 0..6, of group 3
at 7..13, unaffiliated at 14..15): position 9 is drawn by the bucket of slot 2 and a select
click there with Anna pending moves Anna to group 3. -/
theorem click_resolves_to_drawn_bucket_witness :
    manage_bars.setting_group_sort = true ∧
      9 < (manage_bars.render_layout example_game).1.visible_list.length ∧
      (∃ i : Nat, i < 13 ∧ drawn_by_bucket example_game manage_bars i 9 ∧
        resolve_dest_group (manage_bars.render_layout example_game).1.visible_group_index
          ((9 : Nat) : Int) = bucket_dest i ∧
        ((manage_bars.render_layout example_game).1.manage.move_pending_name ≠ "" →
          (manage_bars.render_layout example_game).1.HandleCtrlClick example_game ((9 : Nat) : Int) =
            (manage_bars.render_layout example_game).1.move_pending example_game
              (bucket_dest i))) ∧
      (List.range 14).map
          (fun k => (manage_bars.layout_after example_game k).flow.cells.length) =
        [0, 7, 7, 14, 14, 14, 14, 14, 14, 14, 14, 14, 14, 16] ∧
      resolve_dest_group (manage_bars.render_layout example_game).1.visible_group_index 9 =
        bucket_dest 2 ∧
      ((selecting "Anna").HandleCtrlClick example_game 9).2.2 =
        [Emit.print_chat "Moving %s to group %d." [FmtArg.str "Anna", FmtArg.int 3],
         Emit.do_say "#raidmove %s %d" [FmtArg.str "Anna", FmtArg.int 3]] :=
  ⟨by decide!, by decide!,
    click_resolves_to_drawn_bucket example_game manage_bars (by decide!) 9 (by decide!),
    by decide!, by decide!, by decide!⟩


/-! ## Clicks with one modifier reach their handler -/

theorem hit_nonempty (s : RaidBars) (x y : Int) (index : Nat)
    (hhit : s.CalcClickIndex x y = (index : Int)) :
    index < s.visible_list.length ∧ s.visible_list.isEmpty = false := by
  have hlt : index < s.visible_list.length := by
    rcases CalcClickIndex_range s x y with h | h
    · omega
    · omega
  refine ⟨hlt, ?_⟩
  cases hl : s.visible_list with
  | nil => rw [hl] at hlt; simp at hlt
  | cons a l => rfl

theorem HandleClick_ctrl (g : Game) (s : RaidBars) (x y : Int) (w : CXWndManager) (index : Nat)
    (hmanage : s.manage.enabled = true) (henabled : s.setting_enabled = true)
    (hw : g.wnd_manager = some w) (hkeys : only_ctrl w)
    (hhit : s.CalcClickIndex x y = (index : Int)) :
    s.HandleClick g x y = s.HandleCtrlClick g (index : Int) := by
  obtain ⟨h1, h2, h3⟩ := hkeys
  have hne := (hit_nonempty s x y index hhit).2
  unfold RaidBars.HandleClick
  rw [hw, hhit]
  simp [hmanage, henabled, hne, h1, h2, h3]

theorem HandleClick_alt (g : Game) (s : RaidBars) (x y : Int) (w : CXWndManager) (index : Nat)
    (hmanage : s.manage.enabled = true) (henabled : s.setting_enabled = true)
    (hw : g.wnd_manager = some w) (hkeys : only_alt w)
    (hhit : s.CalcClickIndex x y = (index : Int)) :
    s.HandleClick g x y = s.HandleAltClick g (index : Int) := by
  obtain ⟨h1, h2, h3⟩ := hkeys
  have hne := (hit_nonempty s x y index hhit).2
  unfold RaidBars.HandleClick
  rw [hw, hhit]
  simp [hmanage, henabled, hne, h1, h2, h3]

theorem HandleClick_shift (g : Game) (s : RaidBars) (x y : Int) (w : CXWndManager) (index : Nat)
    (hmanage : s.manage.enabled = true) (henabled : s.setting_enabled = true)
    (hw : g.wnd_manager = some w) (hkeys : only_shift w)
    (hhit : s.CalcClickIndex x y = (index : Int)) :
    s.HandleClick g x y = s.HandleShiftClick g (index : Int) := by
  obtain ⟨h1, h2, h3⟩ := hkeys
  have hne := (hit_nonempty s x y index hhit).2
  unfold RaidBars.HandleClick
  rw [hw, hhit]
  simp [hmanage, henabled, hne, h1, h2, h3]


theorem pending_idle_eta (s : RaidBars) (hidle : s.manage.move_pending_name = "") :
    { s with manage := { s.manage with move_pending_name := "" } } = s := by
  cases s with
  | mk =>
    rename_i manage
    cases manage
    simp only at hidle
    subst hidle
    rfl

/-- C7: second select click, capacity rule. In management mode with the overlay on, a click
with exactly the Ctrl modifier that hits a cell `index` of the visible list while the name `n`
is pending is dispatched by `HandleClick` to the second half of the select gesture: it is
reported handled and clears the pending selection; the destination `d` found by the label scan
for `index` is the unaffiliated bucket or a numbered group; an unaffiliated destination emits
exactly the move command `(n, 0)`, a numbered group `d + 1` with fewer than 6 members emits
exactly the move command `(n, d + 1)`, and a group with 6 or more members emits no command, only
the failure message. A name is pending only while management mode and the overlay are on
(`run_gesture`), so the first two conditions hold in every Selecting state that is reached. -/
theorem select_click_second (g : Game) (s : RaidBars) (x y : Int) (w : CXWndManager)
    (index : Nat)
    (hmanage : s.manage.enabled = true) (henabled : s.setting_enabled = true)
    (hw : g.wnd_manager = some w) (hkeys : only_ctrl w)
    (hhit : s.CalcClickIndex x y = (index : Int))
    (hpending : s.manage.move_pending_name ≠ "")
    (hslots : s.visible_group_index.length = kNumGroupLabelSlots) :
    (s.HandleClick g x y).1 = true ∧
      (s.HandleClick g x y).2.1 =
        { s with manage := { s.manage with move_pending_name := "" } } ∧
      (resolve_dest_group s.visible_group_index index = kRaidUngrouped ∨
        resolve_dest_group s.visible_group_index index < 12) ∧
      (resolve_dest_group s.visible_group_index index = kRaidUngrouped →
        (s.HandleClick g x y).2.2.filter Emit.isCommand =
          [Emit.do_say "#raidmove %s 0" [FmtArg.str s.manage.move_pending_name]]) ∧
      (resolve_dest_group s.visible_group_index index ≠ kRaidUngrouped →
        g.get_raid_group_count (resolve_dest_group s.visible_group_index index) < 6 →
        (s.HandleClick g x y).2.2.filter Emit.isCommand =
          [Emit.do_say "#raidmove %s %d"
            [FmtArg.str s.manage.move_pending_name,
             FmtArg.int ((resolve_dest_group s.visible_group_index index : Int) + 1)]]) ∧
      (resolve_dest_group s.visible_group_index index ≠ kRaidUngrouped →
        6 ≤ g.get_raid_group_count (resolve_dest_group s.visible_group_index index) →
        (s.HandleClick g x y).2.2 =
          [Emit.print_chat "Group %d is full. Cannot move %s."
            [FmtArg.int ((resolve_dest_group s.visible_group_index index : Int) + 1),
             FmtArg.str s.manage.move_pending_name]]) := by
  rw [HandleClick_ctrl g s x y w index hmanage henabled hw hkeys hhit]
  exact HandleCtrlClick_second g s index hpending hslots

/-- Witness of C7 (scenarios 3 and 4): with Mona pending, a Ctrl click at (15,155), on the label
of group 3 (index 7, two members), emits the move command (Mona, 3); with Foo pending and group 1
holding 6 members, a Ctrl click at (15,15), on the label of group 1 (index 0), emits no command;
both clear the pending selection. -/
theorem select_click_second_witness :
    (selecting "Mona").CalcClickIndex 15 155 = ((7 : Nat) : Int) ∧
      (selecting "Mona").manage.move_pending_name ≠ "" ∧
      ((selecting "Mona").HandleClick example_game 15 155).2.2.filter Emit.isCommand =
        [Emit.do_say "#raidmove %s %d" [FmtArg.str "Mona", FmtArg.int 3]] ∧
      ((selecting "Mona").HandleClick example_game 15 155).2.1.manage.move_pending_name = "" ∧
      ((selecting "Foo").HandleClick full_game 15 15).2.2 =
        [Emit.print_chat "Group %d is full. Cannot move %s." [FmtArg.int 1, FmtArg.str "Foo"]] ∧
      ((selecting "Foo").HandleClick full_game 15 15).2.1.manage.move_pending_name = "" :=
  ⟨by decide!, by decide!,
    ((select_click_second example_game (selecting "Mona") 15 155 _ 7 (by decide!) (by decide!)
      rfl ⟨by decide, rfl, rfl⟩ (by decide!) (by decide!) (by decide!)).2.2.2.2.1 (by decide!)
      (by decide!)).trans (by decide!),
    by decide!,
    ((select_click_second full_game (selecting "Foo") 15 15 _ 0 (by decide!) (by decide!)
      rfl ⟨by decide, rfl, rfl⟩ (by decide!) (by decide!) (by decide!)).2.2.2.2.2 (by decide!)
      (by decide!)).trans (by decide!),
    by decide!⟩

theorem HandleCtrlClick_idle (g : Game) (s : RaidBars) (index : Nat) (p : EntityPtr)
    (hidle : s.manage.move_pending_name = "")
    (hcell : s.visible_list[index]? = some (some p)) :
    (s.HandleCtrlClick g (index : Int)).1 = true ∧
      (s.HandleCtrlClick g (index : Int)).2.1 =
        { s with manage := { s.manage with move_pending_name := (g.entity p).Name } } ∧
      (s.HandleCtrlClick g (index : Int)).2.2.filter Emit.isCommand = [] := by
  by_cases hname : (g.entity p).Name = ""
  · have h : s.HandleCtrlClick g (index : Int) = (true, s, []) := by
      unfold RaidBars.HandleCtrlClick
      simp only [if_pos hidle, GetRaidMemberNameAtIndex_live g s index p hcell, if_pos hname]
    rw [h, hname, pending_idle_eta s hidle]
    exact ⟨rfl, rfl, rfl⟩
  · rw [HandleCtrlClick_idle_live g s index p hidle hcell hname]
    simp [Emit.isCommand]

/-- C8 (as amended): first select click. In management mode with the overlay on, a click with
exactly the Ctrl modifier that hits a cell of the visible list holding a non-null entity
reference, while no selection is pending, is reported handled by `HandleClick`, stores the name
of that entity as the pending selection and emits no command. -/
theorem select_click_first (g : Game) (s : RaidBars) (x y : Int) (w : CXWndManager)
    (index : Nat) (p : EntityPtr)
    (hmanage : s.manage.enabled = true) (henabled : s.setting_enabled = true)
    (hw : g.wnd_manager = some w) (hkeys : only_ctrl w)
    (hhit : s.CalcClickIndex x y = (index : Int))
    (hcell : s.visible_list[index]? = some (some p))
    (hidle : s.manage.move_pending_name = "") :
    (s.HandleClick g x y).1 = true ∧
      (s.HandleClick g x y).2.1 =
        { s with manage := { s.manage with move_pending_name := (g.entity p).Name } } ∧
      (s.HandleClick g x y).2.2.filter Emit.isCommand = [] := by
  rw [HandleClick_ctrl g s x y w index hmanage henabled hw hkeys hhit]
  exact HandleCtrlClick_idle g s index p hidle hcell

/-- Witness of C8: in the managed example state a first Ctrl click at (65,15), on the bar of Mona
(index 8, address 2), stores the name Mona and emits no command. -/
theorem select_click_first_witness :
    managed.CalcClickIndex 65 15 = ((8 : Nat) : Int) ∧
      managed.manage.move_pending_name = "" ∧ managed.visible_list[8]? = some (some 2) ∧
      (managed.HandleClick example_game 65 15).2.1 = selecting "Mona" ∧
      (managed.HandleClick example_game 65 15).2.2.filter Emit.isCommand = [] :=
  ⟨by decide!, by decide!, by decide!,
    ((select_click_first example_game managed 65 15 _ 8 2 (by decide!) (by decide!) rfl
      ⟨by decide, rfl, rfl⟩ (by decide!) (by decide!) (by decide!)).2.1).trans (by decide!),
    (select_click_first example_game managed 65 15 _ 8 2 (by decide!) (by decide!) rfl
      ⟨by decide, rfl, rfl⟩ (by decide!) (by decide!) (by decide!)).2.2⟩

theorem manage_on_overlay (s : RaidBars) :
    s.manage_on.setting_enabled = true ∧ s.manage_on.visible_list = [] := by
  unfold RaidBars.manage_on RaidBars.ParseManageArgs
  simp [RaidBars.set_setting_enabled, RaidBars.Clean, RaidBarsManage.Clean]

theorem LoadBitmapFont_overlay (g : Game) (s : RaidBars) (hvis : s.visible_list = []) :
    (s.LoadBitmapFont g).1.visible_list = [] ∧
      ((s.LoadBitmapFont g).1.bitmap_font.isNone = true ∨
        (s.LoadBitmapFont g).1.setting_enabled = s.setting_enabled) := by
  unfold RaidBars.LoadBitmapFont
  by_cases h0 : s.bitmap_font.isSome = true ∨ s.setting_bitmap_font_filename = ""
  · rw [if_pos h0]; exact ⟨hvis, Or.inr rfl⟩
  · rw [if_neg h0]
    dsimp only
    split
    · split_ifs
      · exact ⟨rfl, Or.inl rfl⟩
      · exact ⟨hvis, Or.inl rfl⟩
    · exact ⟨hvis, Or.inr rfl⟩

theorem render_update_overlay (g : Game) (s : RaidBars) (t : Nat) :
    (s.render_update g t).setting_enabled = s.setting_enabled := by
  unfold RaidBars.render_update RaidBars.UpdateRaidMembers
  dsimp only
  split_ifs <;> rfl

theorem render_layout_overlay (g : Game) (s : RaidBars) :
    (s.render_layout g).1.setting_enabled = s.setting_enabled := by
  unfold RaidBars.render_layout
  dsimp only
  split_ifs <;> rfl

/-- A render pass started with the overlay on and an empty visible list ends with an empty
visible list or with the overlay still on. -/
theorem CallbackRender_overlay (g : Game) (s : RaidBars) (hen : s.setting_enabled = true)
    (hvis : s.visible_list = []) :
    (s.CallbackRender g).1.visible_list = [] ∨ (s.CallbackRender g).1.setting_enabled = true := by
  unfold RaidBars.CallbackRender
  by_cases h1 : (!s.setting_enabled || !g.is_in_game) = true
  · rw [if_pos h1]; exact Or.inl hvis
  · rw [if_neg h1]
    by_cases h2 : (!g.is_in_raid) = true
    · rw [if_pos h2]
      by_cases h3 : s.bitmap_font.isSome = true
      · rw [if_pos h3]; exact Or.inl rfl
      · rw [if_neg h3]; exact Or.inl hvis
    · rw [if_neg h2]
      cases g.display with
      | none => exact Or.inl hvis
      | some t =>
        dsimp only
        by_cases h3 : (!g.is_gui_visible) = true
        · rw [if_pos h3]; exact Or.inl hvis
        · rw [if_neg h3]
          by_cases h4 : (s.LoadBitmapFont g).1.bitmap_font.isNone = true
          · rw [if_pos h4]; exact Or.inl (LoadBitmapFont_overlay g s hvis).1
          · rw [if_neg h4]
            dsimp only
            right
            rw [render_layout_overlay, render_update_overlay]
            rcases (LoadBitmapFont_overlay g s hvis).2 with h | h
            · exact absurd h h4
            · rw [h]; exact hen

/-- C9 (as amended): gesture reset. Whatever selection is pending, turning management mode off
empties the pending selection; after management mode is turned on again and a render pass has
rebuilt the visible list, a click with exactly the Ctrl modifier that hits a cell holding a
non-null entity reference is a first click: `HandleClick` reports it handled, stores the name of
that entity as the pending selection and emits no command. -/
theorem gesture_reset_click (g : Game) (s : RaidBars) :
    s.manage_off.manage.move_pending_name = "" ∧ s.manage_off.manage.enabled = false ∧
      s.manage_off.manage_on.manage.move_pending_name = "" ∧
      s.manage_off.manage_on.manage.enabled = true ∧
      ∀ (x y : Int) (w : CXWndManager) (index : Nat) (p : EntityPtr),
        g.wnd_manager = some w → only_ctrl w →
        (s.manage_off.manage_on.CallbackRender g).1.CalcClickIndex x y = (index : Int) →
        (s.manage_off.manage_on.CallbackRender g).1.visible_list[index]? = some (some p) →
        ((s.manage_off.manage_on.CallbackRender g).1.HandleClick g x y).1 = true ∧
        ((s.manage_off.manage_on.CallbackRender g).1.HandleClick g
            x y).2.1.manage.move_pending_name = (g.entity p).Name ∧
        ((s.manage_off.manage_on.CallbackRender g).1.HandleClick g
            x y).2.2.filter Emit.isCommand = [] := by
  refine ⟨by rw [manage_off_manage], by rw [manage_off_manage], by rw [manage_on_manage],
    by rw [manage_on_manage], ?_⟩
  intro x y w index p hw hkeys hhit hcell
  obtain ⟨hidle, hmanage⟩ := CallbackRender_pending g s.manage_off.manage_on
    (by rw [manage_on_manage])
  rw [manage_on_manage] at hmanage
  have henabled : (s.manage_off.manage_on.CallbackRender g).1.setting_enabled = true := by
    rcases CallbackRender_overlay g s.manage_off.manage_on (manage_on_overlay _).1
      (manage_on_overlay _).2 with h | h
    · have hlt := (hit_nonempty _ x y index hhit).1
      rw [h] at hlt
      simp at hlt
    · exact h
  rw [HandleClick_ctrl g _ x y w index hmanage henabled hw hkeys hhit]
  obtain ⟨h1, h2, h3⟩ := HandleCtrlClick_idle g _ index p hidle hcell
  exact ⟨h1, by rw [h2], h3⟩

/-- Witness of C9: Mona is selected, management mode is turned off and on, the raid is rendered
again and a Ctrl click at (15,55), on the bar of Anna (index 2, address 1), stores Anna, with no
command. -/
theorem gesture_reset_click_witness :
    (selecting "Mona").manage.move_pending_name = "Mona" ∧
      (selecting "Mona").manage_off.manage.move_pending_name = "" ∧
      reset_bars.CalcClickIndex 15 55 = ((2 : Nat) : Int) ∧
      reset_bars.visible_list[2]? = some (some 1) ∧
      (reset_bars.HandleClick example_game 15 55).2.1.manage.move_pending_name = "Anna" ∧
      (reset_bars.HandleClick example_game 15 55).2.2.filter Emit.isCommand = [] :=
  ⟨by decide!, (gesture_reset_click example_game (selecting "Mona")).1, by decide!, by decide!,
    (((gesture_reset_click example_game (selecting "Mona")).2.2.2.2 15 55 _ 2 1 rfl
      ⟨by decide, rfl, rfl⟩ (by decide!) (by decide!)).2.1).trans (by decide!),
    ((gesture_reset_click example_game (selecting "Mona")).2.2.2.2 15 55 _ 2 1 rfl
      ⟨by decide, rfl, rfl⟩ (by decide!) (by decide!)).2.2⟩

/-- An Alt click on any index is reported handled and leaves the state with no pending
selection and nothing else changed. -/
theorem HandleAltClick_clears (g : Game) (s : RaidBars) (index : Int) :
    (s.HandleAltClick g index).1 = true ∧
      (s.HandleAltClick g index).2.1 =
        { s with manage := { s.manage with move_pending_name := "" } } := by
  unfold RaidBars.HandleAltClick
  dsimp only
  split_ifs <;> exact ⟨rfl, rfl⟩

/-- A Shift click on any index is reported handled and leaves the state with no pending
selection and nothing else changed. -/
theorem HandleShiftClick_clears (g : Game) (s : RaidBars) (index : Int) :
    (s.HandleShiftClick g index).1 = true ∧
      (s.HandleShiftClick g index).2.1 =
        { s with manage := { s.manage with move_pending_name := "" } } := by
  unfold RaidBars.HandleShiftClick
  dsimp only
  split_ifs <;> exact ⟨rfl, rfl⟩

/-- C10 (as amended): demote click. In management mode with the overlay on, a click with
exactly the Alt modifier that hits a cell of the visible list is reported handled by
`HandleClick` and leaves no pending selection, whatever was pending before and whatever the
cell holds; when the cell holds a non-null reference to an entity with a non-empty name, the
move command `(name, 0)` is emitted exactly when the current group of that name is not the
unaffiliated sentinel, and otherwise only the no-op message is reported. -/
theorem demote_click (g : Game) (s : RaidBars) (x y : Int) (w : CXWndManager)
    (index : Nat)
    (hmanage : s.manage.enabled = true) (henabled : s.setting_enabled = true)
    (hw : g.wnd_manager = some w) (hkeys : only_alt w)
    (hhit : s.CalcClickIndex x y = (index : Int)) :
    (s.HandleClick g x y).1 = true ∧
      (s.HandleClick g x y).2.1 =
        { s with manage := { s.manage with move_pending_name := "" } } ∧
      ∀ p : EntityPtr, s.visible_list[index]? = some (some p) → (g.entity p).Name ≠ "" →
        (g.get_raid_group_number (g.entity p).Name ≠ kRaidUngrouped →
          (s.HandleClick g x y).2.2.filter Emit.isCommand =
            [Emit.do_say "#raidmove %s 0" [FmtArg.str (g.entity p).Name]]) ∧
        (g.get_raid_group_number (g.entity p).Name = kRaidUngrouped →
          (s.HandleClick g x y).2.2 =
            [Emit.print_chat "Player %s is already ungrouped."
              [FmtArg.str (g.entity p).Name]]) := by
  rw [HandleClick_alt g s x y w index hmanage henabled hw hkeys hhit]
  refine ⟨(HandleAltClick_clears g s index).1, (HandleAltClick_clears g s index).2, ?_⟩
  intro p hcell hname
  exact (HandleAltClick_demote g s index p hcell hname).2.2

/-- Witness of C10: in the managed example state with Anna pending, an Alt click at (65,15), on
the bar of Mona (index 8, address 2, group 3), emits the move command (Mona, 0) and clears the
selection. -/
theorem demote_click_witness :
    (selecting "Anna").CalcClickIndex 65 15 = ((8 : Nat) : Int) ∧
      (selecting "Anna").visible_list[8]? = some (some 2) ∧
      ((selecting "Anna").HandleClick alt_game 65 15).1 = true ∧
      ((selecting "Anna").HandleClick alt_game 65 15).2.1 = managed ∧
      ((selecting "Anna").HandleClick alt_game 65 15).2.2.filter
          Emit.isCommand = [Emit.do_say "#raidmove %s 0" [FmtArg.str "Mona"]] :=
  ⟨by decide!, by decide!,
    (demote_click alt_game (selecting "Anna") 65 15 _ 8 (by decide!) (by decide!) rfl
      ⟨by decide, rfl, rfl⟩ (by decide!)).1,
    ((demote_click alt_game (selecting "Anna") 65 15 _ 8 (by decide!) (by decide!) rfl
      ⟨by decide, rfl, rfl⟩ (by decide!)).2.1).trans (by decide!),
    (((demote_click alt_game (selecting "Anna") 65 15 _ 8 (by decide!) (by decide!) rfl
      ⟨by decide, rfl, rfl⟩ (by decide!)).2.2 2 (by decide!) (by decide!)).1
      (by decide!)).trans (by decide!)⟩

/-- C11 (as amended): promote click. In management mode with the overlay on, a click with
exactly the Shift modifier that hits a cell of the visible list is reported handled by
`HandleClick` and leaves no pending selection, whatever the cell holds. When the cell holds a
non-null reference to an entity with a non-empty name: if the current group of that name is a
numbered group the promote command for the name is emitted; if it is the unaffiliated sentinel
and the player is in a raid, the move command to group `k + 1` is emitted, where `k` is the
first of the twelve group indices whose member count is zero; if there is no such group (or the
player is in no raid) only the failure message is reported and no command is sent. -/
theorem promote_click (g : Game) (s : RaidBars) (x y : Int) (w : CXWndManager)
    (index : Nat)
    (hmanage : s.manage.enabled = true) (henabled : s.setting_enabled = true)
    (hw : g.wnd_manager = some w) (hkeys : only_shift w)
    (hhit : s.CalcClickIndex x y = (index : Int)) :
    (s.HandleClick g x y).1 = true ∧
      (s.HandleClick g x y).2.1 =
        { s with manage := { s.manage with move_pending_name := "" } } ∧
      ∀ p : EntityPtr, s.visible_list[index]? = some (some p) → (g.entity p).Name ≠ "" →
        (g.get_raid_group_number (g.entity p).Name ≠ kRaidUngrouped →
          (s.HandleClick g x y).2.2.filter Emit.isCommand =
            [Emit.do_say "#raidpromote %s" [FmtArg.str (g.entity p).Name]]) ∧
        (g.get_raid_group_number (g.entity p).Name = kRaidUngrouped →
          ∀ k : Nat, g.is_in_raid = true → k < 12 → g.get_raid_group_count k = 0 →
            (∀ j, j < k → g.get_raid_group_count j ≠ 0) →
            (s.HandleClick g x y).2.2.filter Emit.isCommand =
              [Emit.do_say "#raidmove %s %d"
                [FmtArg.str (g.entity p).Name, FmtArg.int ((k : Int) + 1)]]) ∧
        (g.get_raid_group_number (g.entity p).Name = kRaidUngrouped →
          (g.is_in_raid = false ∨ ∀ k, k < 12 → g.get_raid_group_count k ≠ 0) →
            (s.HandleClick g x y).2.2 =
              [Emit.print_chat "No empty groups available to move %s into."
                [FmtArg.str (g.entity p).Name]]) := by
  rw [HandleClick_shift g s x y w index hmanage henabled hw hkeys hhit]
  refine ⟨(HandleShiftClick_clears g s index).1, (HandleShiftClick_clears g s index).2, ?_⟩
  intro p hcell hname
  exact (HandleShiftClick_promote g s index p hcell hname).2.2

/-- Witness of C11: in the managed example state with Anna pending, a Shift click at (65,15), on
the bar of Mona (index 8, address 2, in group 3), emits the promote command and clears the
selection; when Mona is reported as ungrouped and groups 1 and 3 are occupied, the move command
to group 2 is emitted; when all twelve groups are occupied only the failure is reported. -/
theorem promote_click_witness :
    (selecting "Anna").CalcClickIndex 65 15 = ((8 : Nat) : Int) ∧
      (selecting "Anna").visible_list[8]? = some (some 2) ∧
      ((selecting "Anna").HandleClick shift_game 65 15).1 = true ∧
      ((selecting "Anna").HandleClick shift_game 65 15).2.1 = managed ∧
      ((selecting "Anna").HandleClick shift_game 65 15).2.2.filter
          Emit.isCommand = [Emit.do_say "#raidpromote %s" [FmtArg.str "Mona"]] ∧
      ((selecting "Anna").HandleClick loose_game 65 15).2.2.filter
          Emit.isCommand = [Emit.do_say "#raidmove %s %d" [FmtArg.str "Mona", FmtArg.int 2]] ∧
      ((selecting "Anna").HandleClick crowded_game 65 15).2.2 =
          [Emit.print_chat "No empty groups available to move %s into." [FmtArg.str "Mona"]] :=
  ⟨by decide!, by decide!,
    (promote_click shift_game (selecting "Anna") 65 15 _ 8 (by decide!) (by decide!) rfl
      ⟨by decide, rfl, rfl⟩ (by decide!)).1,
    ((promote_click shift_game (selecting "Anna") 65 15 _ 8 (by decide!) (by decide!) rfl
      ⟨by decide, rfl, rfl⟩ (by decide!)).2.1).trans (by decide!),
    (((promote_click shift_game (selecting "Anna") 65 15 _ 8 (by decide!) (by decide!) rfl
      ⟨by decide, rfl, rfl⟩ (by decide!)).2.2 2 (by decide!) (by decide!)).1
      (by decide!)).trans (by decide!),
    (((promote_click loose_game (selecting "Anna") 65 15 _ 8 (by decide!) (by decide!) rfl
      ⟨by decide, rfl, rfl⟩ (by decide!)).2.2 2 (by decide!) (by decide!)).2.1 (by decide!) 1
      (by decide!) (by decide!) (by decide!) (by decide!)).trans (by decide!),
    (((promote_click crowded_game (selecting "Anna") 65 15 _ 8 (by decide!) (by decide!) rfl
      ⟨by decide, rfl, rfl⟩ (by decide!)).2.2 2 (by decide!) (by decide!)).2.2 (by decide!)
      (Or.inr (by decide!))).trans (by decide!)⟩

/-! ## Exactness of binary32 operations on small dyadic values -/

theorem f32_ulp_from_spec (fuel : Nat) (q : ℚ) :
    ∀ u : ℚ, ∃ j : ℕ, j ≤ fuel ∧ f32_ulp_from fuel q u = 2 ^ j * u ∧
      (j = 0 ∨ 2 ^ 23 * (2 ^ j * u) ≤ q) := by
  induction fuel with
  | zero => intro u; exact ⟨0, le_rfl, by simp [f32_ulp_from], Or.inl rfl⟩
  | succ fuel ih =>
    intro u
    by_cases h : 2 ^ 24 * u ≤ q
    · obtain ⟨j, hj, heq, hlow⟩ := ih (2 * u)
      refine ⟨j + 1, by omega, ?_, Or.inr ?_⟩
      · rw [f32_ulp_from, if_pos h, heq]; ring
      · rcases hlow with h0 | h1
        · subst h0
          have e : (2 : ℚ) ^ 23 * (2 ^ (0 + 1) * u) = 2 ^ 24 * u := by ring
          rw [e]; exact h
        · calc (2 : ℚ) ^ 23 * (2 ^ (j + 1) * u) = 2 ^ 23 * (2 ^ j * (2 * u)) := by ring
            _ ≤ q := h1
    · exact ⟨0, by omega, by rw [f32_ulp_from, if_neg h]; simp, Or.inl rfl⟩

theorem f32_ulp_down_spec (fuel : Nat) (q : ℚ) :
    ∀ u : ℚ, ∃ d : ℕ, d ≤ fuel ∧ f32_ulp_down fuel q u = u / 2 ^ d ∧
      (d = fuel ∨ 2 ^ 23 * (u / 2 ^ d) ≤ q) := by
  induction fuel with
  | zero => intro u; exact ⟨0, le_rfl, by simp [f32_ulp_down], Or.inl rfl⟩
  | succ fuel ih =>
    intro u
    by_cases h : q < 2 ^ 23 * u
    · obtain ⟨d, hd, heq, hlow⟩ := ih (u / 2)
      have e : u / 2 / 2 ^ d = u / 2 ^ (d + 1) := by rw [div_div, pow_succ, mul_comm]
      refine ⟨d + 1, by omega, ?_, ?_⟩
      · rw [f32_ulp_down, if_pos h, heq, e]
      · rcases hlow with h0 | h1
        · exact Or.inl (by omega)
        · right; rw [← e]; exact h1
    · refine ⟨0, by omega, by rw [f32_ulp_down, if_neg h]; simp, Or.inr ?_⟩
      rw [pow_zero, div_one]
      exact not_lt.mp h

theorem f32_ulp_spec (q : ℚ) (hq : 0 ≤ q) :
    ∃ j : ℕ, j ≤ 253 ∧ f32_ulp q = 2 ^ j / 2 ^ 149 ∧ (j = 0 ∨ 2 ^ 23 * (2 ^ j / 2 ^ 149) ≤ q) := by
  have habs : (if q < 0 then -q else q) = q := by rw [if_neg (not_lt.mpr hq)]
  unfold f32_ulp
  rw [habs]
  by_cases hbig : (2 : ℚ) ^ 24 ≤ q
  · rw [if_pos hbig]
    obtain ⟨j, hj, heq, hlow⟩ := f32_ulp_from_spec 104 q 1
    have e : (2 : ℚ) ^ (j + 149) / 2 ^ 149 = 2 ^ j * 1 := by
      rw [pow_add, mul_one]
      field_simp
    refine ⟨j + 149, by omega, by rw [heq, e], Or.inr ?_⟩
    rw [e]
    rcases hlow with h | h
    · rw [h, pow_zero, mul_one, mul_one]
      have : (2 : ℚ) ^ 23 ≤ 2 ^ 24 := pow_le_pow_right₀ (by norm_num) (by norm_num)
      linarith
    · exact h
  · rw [if_neg hbig]
    obtain ⟨d, hd, heq, hlow⟩ := f32_ulp_down_spec 149 q 1
    have e : (2 : ℚ) ^ (149 - d) / 2 ^ 149 = 1 / 2 ^ d := by
      have h149 : (2 : ℚ) ^ 149 = 2 ^ (149 - d) * 2 ^ d := by
        rw [← pow_add]; congr 1; omega
      rw [h149]
      field_simp
    refine ⟨149 - d, by omega, by rw [heq, e], ?_⟩
    rcases hlow with h | h
    · left; omega
    · right; rw [e]; exact h

theorem round_half_even_int (z : Int) : round_half_even (z : ℚ) = z := by
  unfold round_half_even
  rw [Int.floor_intCast]
  simp

theorem round_half_even_near (t : ℚ) :
    (round_half_even t : ℚ) - t ≤ 1 / 2 ∧ t - (round_half_even t : ℚ) ≤ 1 / 2 := by
  have h1 := Int.floor_le t
  have h2 := Int.lt_floor_add_one t
  unfold round_half_even
  split_ifs with ha hb hc
  · constructor <;> linarith
  · push_cast; constructor <;> linarith
  · constructor <;> linarith
  · push_cast; constructor <;> linarith

theorem f32_ulp_pos (q : ℚ) (hq : 0 ≤ q) : 0 < f32_ulp q := by
  obtain ⟨j, -, heq, -⟩ := f32_ulp_spec q hq
  rw [heq]
  positivity

theorem f32_near (q : ℚ) (hq : 0 ≤ q) :
    f32 q - q ≤ f32_ulp q / 2 ∧ q - f32 q ≤ f32_ulp q / 2 := by
  have hu := f32_ulp_pos q hq
  obtain ⟨h1, h2⟩ := round_half_even_near (q / f32_ulp q)
  have hq' : q = q / f32_ulp q * f32_ulp q := by field_simp
  unfold f32
  constructor
  · have := mul_le_mul_of_nonneg_right h1 hu.le
    nlinarith
  · have := mul_le_mul_of_nonneg_right h2 hu.le
    nlinarith

/-- A non-negative multiple of `2 ^ (-k)` with a numerator below `2 ^ 24` is a binary32 value:
rounding leaves it unchanged. -/
theorem f32_dyadic (n k : ℕ) (hn : n < 2 ^ 24) (hk : k ≤ 149) :
    f32 ((n : ℚ) / 2 ^ k) = (n : ℚ) / 2 ^ k := by
  have hq : (0 : ℚ) ≤ (n : ℚ) / 2 ^ k := by positivity
  obtain ⟨j, hj, heq, hlow⟩ := f32_ulp_spec _ hq
  have hjk : j + k ≤ 149 := by
    rcases hlow with h | h
    · omega
    · by_contra hgt
      have hge : 150 ≤ j + k := by omega
      have h2 : (n : ℚ) < 2 ^ 24 := by exact_mod_cast hn
      have hpos : (0 : ℚ) < 2 ^ 149 * 2 ^ k := by positivity
      have h3 : (2 : ℚ) ^ 23 * 2 ^ j * 2 ^ k ≤ (n : ℚ) * 2 ^ 149 := by
        have hmul := mul_le_mul_of_nonneg_right h hpos.le
        have e1 : (2 : ℚ) ^ 23 * (2 ^ j / 2 ^ 149) * (2 ^ 149 * 2 ^ k) = 2 ^ 23 * 2 ^ j * 2 ^ k := by
          field_simp
          ring
        have e2 : (n : ℚ) / 2 ^ k * (2 ^ 149 * 2 ^ k) = (n : ℚ) * 2 ^ 149 := by
          field_simp
          ring
        rw [e1, e2] at hmul
        exact hmul
      have h6 : (n : ℚ) * 2 ^ 149 < 2 ^ 24 * 2 ^ 149 :=
        mul_lt_mul_of_pos_right h2 (by positivity)
      have h7 : (2 : ℚ) ^ (23 + j + k) < 2 ^ (24 + 149) := by
        rw [pow_add, pow_add, pow_add]
        linarith
      have h8 : 23 + j + k < 24 + 149 := (pow_lt_pow_iff_right₀ (by norm_num : (1 : ℚ) < 2)).mp h7
      omega
  have hquot : (n : ℚ) / 2 ^ k / (2 ^ j / 2 ^ 149) = ((n * 2 ^ (149 - (j + k)) : ℕ) : Int) := by
    have h149 : (2 : ℚ) ^ 149 = 2 ^ (149 - (j + k)) * 2 ^ (j + k) := by
      rw [← pow_add]; congr 1; omega
    push_cast
    rw [h149, pow_add]
    field_simp
    ring
  unfold f32
  rw [heq, hquot, round_half_even_int]
  rw [← hquot]
  field_simp
  ring

theorem f32_natCast (n : ℕ) (hn : n < 2 ^ 24) : f32 (n : ℚ) = (n : ℚ) := by
  have h := f32_dyadic n 0 hn (by omega)
  simpa using h

/-- The binary32 quotient of two naturals below `2 ^ 24` truncates to their exact integer
quotient. -/
theorem f32_div_floor (a b : ℕ) (hb : 0 < b) (ha : a < 2 ^ 24) (hb24 : b < 2 ^ 24) :
    ⌊f32 ((a : ℚ) / (b : ℚ))⌋ = ((a / b : ℕ) : Int) := by
  have hbq : (0 : ℚ) < (b : ℚ) := by exact_mod_cast hb
  have hdm : (a : ℚ) = ((a / b : ℕ) : ℚ) * (b : ℚ) + ((a % b : ℕ) : ℚ) := by
    have := Nat.div_add_mod a b
    have h2 : ((b * (a / b) + a % b : ℕ) : ℚ) = (a : ℚ) := by rw [this]
    push_cast at h2
    linarith
  by_cases hrem : a % b = 0
  · have hq : (a : ℚ) / (b : ℚ) = ((a / b : ℕ) : ℚ) := by
      rw [hdm, hrem]; field_simp
    have hlt : a / b < 2 ^ 24 := lt_of_le_of_lt (Nat.div_le_self a b) ha
    rw [hq, f32_natCast _ hlt]
    exact Int.floor_natCast _
  · have hq0 : (0 : ℚ) ≤ (a : ℚ) / (b : ℚ) := by positivity
    obtain ⟨hn1, hn2⟩ := f32_near _ hq0
    obtain ⟨j, hj, heq, hlow⟩ := f32_ulp_spec _ hq0
    have hr1 : (1 : ℚ) ≤ ((a % b : ℕ) : ℚ) := by
      have : 1 ≤ a % b := Nat.one_le_iff_ne_zero.mpr hrem
      exact_mod_cast this
    have hr2 : ((a % b : ℕ) : ℚ) + 1 ≤ (b : ℚ) := by
      have : a % b + 1 ≤ b := Nat.mod_lt a hb
      exact_mod_cast this
    have hqlo : ((a / b : ℕ) : ℚ) + 1 / (b : ℚ) ≤ (a : ℚ) / (b : ℚ) := by
      rw [le_div_iff₀ hbq]
      have e : (((a / b : ℕ) : ℚ) + 1 / (b : ℚ)) * (b : ℚ) = ((a / b : ℕ) : ℚ) * (b : ℚ) + 1 := by
        field_simp
      rw [e]
      linarith
    have hqhi : (a : ℚ) / (b : ℚ) + 1 / (b : ℚ) ≤ ((a / b : ℕ) : ℚ) + 1 := by
      rw [← add_div, div_le_iff₀ hbq]
      have e : (((a / b : ℕ) : ℚ) + 1) * (b : ℚ) = ((a / b : ℕ) : ℚ) * (b : ℚ) + (b : ℚ) := by
        ring
      rw [e]
      linarith
    have hb24q : (b : ℚ) < 2 ^ 24 := by exact_mod_cast hb24
    have ha24q : (a : ℚ) < 2 ^ 24 := by exact_mod_cast ha
    have hsmall : f32_ulp ((a : ℚ) / (b : ℚ)) / 2 < 1 / (b : ℚ) := by
      rw [heq]
      rcases hlow with h0 | h1
      · rw [h0]
        have e : (2 : ℚ) ^ 0 / 2 ^ 149 / 2 = 1 / 2 ^ 150 := by
          rw [pow_zero, div_div, ← pow_succ]
        rw [e]
        have h24 : (1 : ℚ) / 2 ^ 150 < 1 / 2 ^ 24 :=
          one_div_lt_one_div_of_lt (by positivity)
            (pow_lt_pow_right₀ (by norm_num : (1 : ℚ) < 2) (by norm_num : 24 < 150))
        exact lt_trans h24 (one_div_lt_one_div_of_lt hbq hb24q)
      · have h2 : (2 : ℚ) ^ 24 * (2 ^ j / 2 ^ 149 / 2) ≤ (a : ℚ) / (b : ℚ) := by
          calc (2 : ℚ) ^ 24 * (2 ^ j / 2 ^ 149 / 2) = 2 ^ 23 * (2 ^ j / 2 ^ 149) := by ring
            _ ≤ (a : ℚ) / (b : ℚ) := h1
        have h3 : (a : ℚ) / (b : ℚ) < 2 ^ 24 * (1 / (b : ℚ)) := by
          rw [mul_one_div]
          exact div_lt_div_of_pos_right ha24q hbq
        have h4 : (2 : ℚ) ^ 24 * (2 ^ j / 2 ^ 149 / 2) < 2 ^ 24 * (1 / (b : ℚ)) :=
          lt_of_le_of_lt h2 h3
        exact lt_of_mul_lt_mul_left h4 (by positivity)
    rw [Int.floor_eq_iff, Int.cast_natCast]
    constructor <;> linarith

/-! ## The layout passes in machine arithmetic -/

section machine
variable {gw gh x_min y_min x_max y_max : ℚ} {m : ℕ}

theorem onGrid_wrap (hgw : 0 < gw) (hgh : 0 < gh) (hm1 : 1 ≤ m)
    (hlo : (m : ℚ) * gh ≤ y_max - y_min) (hhi : y_max - y_min < ((m : ℚ) + 1) * gh)
    (hx : ∀ c : ℕ, c ≤ (⌊(x_max - x_min) / gw⌋).toNat + 1 →
      f32 (x_min + (c : ℚ) * gw) = x_min + (c : ℚ) * gw)
    (hy : ∀ r : ℕ, r ≤ m + 1 → f32 (y_min + (r : ℚ) * gh) = y_min + (r : ℚ) * gh)
    (f : Flow) (h : OnGrid gw gh x_min y_min x_max m f) :
    flow_wrap_f32 gw gh y_min y_max f = flow_wrap gw gh y_min y_max f ∧
      f32 ((flow_wrap gw gh y_min y_max f).x + gw) = (flow_wrap gw gh y_min y_max f).x + gw ∧
      f32 ((flow_wrap gw gh y_min y_max f).y + gh) = (flow_wrap gw gh y_min y_max f).y + gh ∧
      OnGrid gw gh x_min y_min x_max m (flow_wrap gw gh y_min y_max f) ∧
      (¬ (flow_wrap gw gh y_min y_max f).x + gw > x_max → ∀ cells : List Cell,
        OnGrid gw gh x_min y_min x_max m
          { flow_wrap gw gh y_min y_max f with
            cells := cells, y := (flow_wrap gw gh y_min y_max f).y + gh }) := by
  obtain ⟨col, row, hfx, hfy, hrow, hcol, hcol1⟩ := h
  have hys : f.y + gh = y_min + ((row + 1 : ℕ) : ℚ) * gh := by rw [hfy]; push_cast; ring
  have hxs : f.x + gw = x_min + ((col + 1 : ℕ) : ℚ) * gw := by rw [hfx]; push_cast; ring
  have hey : f32 (f.y + gh) = f.y + gh := by rw [hys]; exact hy _ (by omega)
  have hex : f32 (f.x + gw) = f.x + gw := by rw [hxs]; exact hx _ (by omega)
  have hwrap : f.y + gh > y_max ↔ row = m := by
    rw [hys]
    constructor
    · intro hgt
      by_contra hne
      have hlt : row + 1 ≤ m := by omega
      have hq : ((row + 1 : ℕ) : ℚ) ≤ (m : ℚ) := by exact_mod_cast hlt
      have : ((row + 1 : ℕ) : ℚ) * gh ≤ (m : ℚ) * gh := mul_le_mul_of_nonneg_right hq hgh.le
      linarith
    · intro heq
      rw [heq]
      push_cast
      linarith
  have hoff : ∀ c : ℕ, x_min + (c : ℚ) * gw + gw > x_max ↔
      (⌊(x_max - x_min) / gw⌋).toNat ≤ c := fun c => off_right_iff hgw c
  by_cases hw : f.y + gh > y_max
  · have hrm : row = m := hwrap.mp hw
    have hfw : flow_wrap gw gh y_min y_max f = { f with y := y_min, x := f.x + gw } := by
      unfold flow_wrap; rw [if_pos hw]
    have hfm : flow_wrap_f32 gw gh y_min y_max f = { f with y := y_min, x := f.x + gw } := by
      unfold flow_wrap_f32; rw [hey, if_pos hw, hex]
    rw [hfw, hfm]
    have hc1 : col + 1 ≤ (⌊(x_max - x_min) / gw⌋).toNat := hcol1 (by omega)
    have hx2 : f.x + gw + gw = x_min + ((col + 2 : ℕ) : ℚ) * gw := by rw [hfx]; push_cast; ring
    have hy2 : y_min + gh = y_min + ((1 : ℕ) : ℚ) * gh := by push_cast; ring
    refine ⟨rfl, ?_, ?_, ⟨col + 1, 0, hxs, by push_cast; ring, by omega, hc1, by omega⟩, ?_⟩
    · show f32 (f.x + gw + gw) = f.x + gw + gw
      rw [hx2]; exact hx _ (by omega)
    · show f32 (y_min + gh) = y_min + gh
      rw [hy2]; exact hy _ (by omega)
    · intro hno cells
      have hno' : ¬ (x_min + ((col + 1 : ℕ) : ℚ) * gw + gw > x_max) := by
        rw [← hxs]; exact hno
      rw [hoff] at hno'
      exact ⟨col + 1, 1, hxs, hy2, hm1, hc1, fun _ => by omega⟩
  · have hrm : row ≠ m := fun h => hw (hwrap.mpr h)
    have hfw : flow_wrap gw gh y_min y_max f = f := by
      unfold flow_wrap; rw [if_neg hw]
    have hfm : flow_wrap_f32 gw gh y_min y_max f = f := by
      unfold flow_wrap_f32; rw [hey, if_neg hw]
    rw [hfw, hfm]
    refine ⟨rfl, hex, hey, ⟨col, row, hfx, hfy, hrow, hcol, hcol1⟩, ?_⟩
    intro hno cells
    have hno' : ¬ (x_min + (col : ℚ) * gw + gw > x_max) := by rw [← hfx]; exact hno
    rw [hoff] at hno'
    exact ⟨col, row + 1, hfx, hys, by omega, hcol, fun _ => by omega⟩

theorem onGrid_start (x_min y_min x_max gw gh : ℚ) (m : ℕ) (cells : List Cell) :
    OnGrid gw gh x_min y_min x_max m { x := x_min, y := y_min, cells := cells } :=
  ⟨0, 0, by simp, by simp, by omega, by omega, by omega⟩

theorem members_f32_exact (g : Game) (s : RaidBars) (hgw : 0 < s.grid_width)
    (hgh : 0 < s.grid_height) (hm1 : 1 ≤ m)
    (hlo : (m : ℚ) * s.grid_height ≤ y_max - y_min)
    (hhi : y_max - y_min < ((m : ℚ) + 1) * s.grid_height)
    (hx : ∀ c : ℕ, c ≤ (⌊(x_max - x_min) / s.grid_width⌋).toNat + 1 →
      f32 (x_min + (c : ℚ) * s.grid_width) = x_min + (c : ℚ) * s.grid_width)
    (hy : ∀ r : ℕ, r ≤ m + 1 →
      f32 (y_min + (r : ℚ) * s.grid_height) = y_min + (r : ℚ) * s.grid_height)
    (show_class : Bool) (threshold : Int) (members : List RaidMember) :
    ∀ f : Flow, OnGrid s.grid_width s.grid_height x_min y_min x_max m f →
      QueueByClass_f32.members g s x_max y_min y_max show_class threshold members f =
          QueueByClass.members g s x_max y_min y_max show_class threshold members f ∧
        OnGrid s.grid_width s.grid_height x_min y_min x_max m
          (QueueByClass.members g s x_max y_min y_max show_class threshold members f) := by
  induction members with
  | nil => intro f h; exact ⟨rfl, h⟩
  | cons member rest ih =>
    intro f h
    obtain ⟨h1, h2, h3, h4, h5⟩ := onGrid_wrap hgw hgh hm1 hlo hhi hx hy f h
    rw [QueueByClass_f32.members, QueueByClass.members]
    rw [h1, h2, h3]
    by_cases hoff : (flow_wrap s.grid_width s.grid_height y_min y_max f).x + s.grid_width > x_max
    · rw [if_pos hoff, if_pos hoff]
      exact ⟨rfl, h4⟩
    · rw [if_neg hoff, if_neg hoff]
      by_cases hself : member.entity = g.self
      · rw [if_pos hself, if_pos hself]
        exact ih _ h4
      · rw [if_neg hself, if_neg hself]
        by_cases hskip : hp_percent_of g member.entity ≥ threshold ∧ show_class = false
        · rw [if_pos hskip, if_pos hskip]
          exact ih _ h4
        · rw [if_neg hskip, if_neg hskip]
          exact ih _ (h5 hoff _)

theorem class_step_f32_exact (g : Game) (s : RaidBars) (hgw : 0 < s.grid_width)
    (hgh : 0 < s.grid_height) (hm1 : 1 ≤ m)
    (hlo : (m : ℚ) * s.grid_height ≤ y_max - y_min)
    (hhi : y_max - y_min < ((m : ℚ) + 1) * s.grid_height)
    (hx : ∀ c : ℕ, c ≤ (⌊(x_max - x_min) / s.grid_width⌋).toNat + 1 →
      f32 (x_min + (c : ℚ) * s.grid_width) = x_min + (c : ℚ) * s.grid_width)
    (hy : ∀ r : ℕ, r ≤ m + 1 →
      f32 (y_min + (r : ℚ) * s.grid_height) = y_min + (r : ℚ) * s.grid_height)
    (f : Flow) (class_index : Nat)
    (h : OnGrid s.grid_width s.grid_height x_min y_min x_max m f) :
    QueueByClass_f32.class_step g s x_max y_min y_max f class_index =
        QueueByClass.class_step g s x_max y_min y_max f class_index ∧
      OnGrid s.grid_width s.grid_height x_min y_min x_max m
        (QueueByClass.class_step g s x_max y_min y_max f class_index) := by
  unfold QueueByClass_f32.class_step QueueByClass.class_step
  dsimp only
  by_cases hskip : s.raid_classes.getD class_index [] = [] ∨
      s.class_never.getD class_index false = true
  · rw [if_pos hskip, if_pos hskip]; exact ⟨rfl, h⟩
  · rw [if_neg hskip, if_neg hskip]
    exact members_f32_exact g s hgw hgh hm1 hlo hhi hx hy _ _ _ f h

theorem foldl_exact {α β : Type} (P : β → Prop) (step1 step2 : β → α → β) (l : List α)
    (hstep : ∀ b a, P b → step1 b a = step2 b a ∧ P (step2 b a)) :
    ∀ b : β, P b → l.foldl step1 b = l.foldl step2 b ∧ P (l.foldl step2 b) := by
  induction l with
  | nil => intro b hb; exact ⟨rfl, hb⟩
  | cons a l ih =>
    intro b hb
    rw [List.foldl_cons, List.foldl_cons, (hstep b a hb).1]
    exact ih _ (hstep b a hb).2

theorem QueueByClass_f32_exact (g : Game) (s : RaidBars) (x_min y_min x_max y_max : ℚ) (m : ℕ)
    (hgw : 0 < s.grid_width) (hgh : 0 < s.grid_height) (hm1 : 1 ≤ m)
    (hm : ⌊(y_max - y_min) / s.grid_height⌋ = (m : Int))
    (hx : ∀ c : ℕ, c ≤ (⌊(x_max - x_min) / s.grid_width⌋).toNat + 1 →
      f32 (x_min + (c : ℚ) * s.grid_width) = x_min + (c : ℚ) * s.grid_width)
    (hy : ∀ r : ℕ, r ≤ m + 1 →
      f32 (y_min + (r : ℚ) * s.grid_height) = y_min + (r : ℚ) * s.grid_height) :
    s.QueueByClass_f32 g x_min y_min x_max y_max = s.QueueByClass g x_min y_min x_max y_max := by
  obtain ⟨hlo, hhi⟩ := rows_bounds_floor hgh hm
  unfold RaidBars.QueueByClass_f32 RaidBars.QueueByClass
  rw [(foldl_exact (OnGrid s.grid_width s.grid_height x_min y_min x_max m) _ _ s.class_priority
    (fun f ci hf => class_step_f32_exact g s hgw hgh hm1 hlo hhi hx hy f ci hf) _
    (onGrid_start x_min y_min x_max _ _ m [])).1]

/-- The flow of a by-group loop state stands on the grid. -/
theorem put_f32_exact (s : RaidBars) (hgw : 0 < s.grid_width) (hgh : 0 < s.grid_height)
    (hm1 : 1 ≤ m) (hlo : (m : ℚ) * s.grid_height ≤ y_max - y_min)
    (hhi : y_max - y_min < ((m : ℚ) + 1) * s.grid_height)
    (hx : ∀ c : ℕ, c ≤ (⌊(x_max - x_min) / s.grid_width⌋).toNat + 1 →
      f32 (x_min + (c : ℚ) * s.grid_width) = x_min + (c : ℚ) * s.grid_width)
    (hy : ∀ r : ℕ, r ≤ m + 1 →
      f32 (y_min + (r : ℚ) * s.grid_height) = y_min + (r : ℚ) * s.grid_height)
    (mk : ℚ → ℚ → Cell) (f : GroupFlow)
    (h : OnGrid s.grid_width s.grid_height x_min y_min x_max m f.flow) :
    QueueByGroup_f32.put s x_max y_min y_max mk f = QueueByGroup.put s x_max y_min y_max mk f ∧
      OnGrid s.grid_width s.grid_height x_min y_min x_max m
        (QueueByGroup.put s x_max y_min y_max mk f).flow := by
  obtain ⟨h1, h2, h3, h4, h5⟩ := onGrid_wrap hgw hgh hm1 hlo hhi hx hy f.flow h
  unfold QueueByGroup_f32.put QueueByGroup.put
  by_cases hret : f.returned = true
  · rw [if_pos hret, if_pos hret]; exact ⟨rfl, h⟩
  · rw [if_neg hret, if_neg hret]
    dsimp only
    rw [h1, h2, h3]
    by_cases hoff : (flow_wrap s.grid_width s.grid_height y_min y_max f.flow).x + s.grid_width
        > x_max
    · rw [if_pos hoff]; exact ⟨rfl, h4⟩
    · rw [if_neg hoff]; exact ⟨rfl, h5 hoff _⟩

theorem put_label_f32_exact (s : RaidBars) (base : Nat) (hgw : 0 < s.grid_width)
    (hgh : 0 < s.grid_height)
    (hm1 : 1 ≤ m) (hlo : (m : ℚ) * s.grid_height ≤ y_max - y_min)
    (hhi : y_max - y_min < ((m : ℚ) + 1) * s.grid_height)
    (hx : ∀ c : ℕ, c ≤ (⌊(x_max - x_min) / s.grid_width⌋).toNat + 1 →
      f32 (x_min + (c : ℚ) * s.grid_width) = x_min + (c : ℚ) * s.grid_width)
    (hy : ∀ r : ℕ, r ≤ m + 1 →
      f32 (y_min + (r : ℚ) * s.grid_height) = y_min + (r : ℚ) * s.grid_height)
    (i : Nat) (f : GroupFlow)
    (h : OnGrid s.grid_width s.grid_height x_min y_min x_max m f.flow) :
    QueueByGroup_f32.put_label s base x_max y_min y_max i f =
        QueueByGroup.put_label s base x_max y_min y_max i f ∧
      OnGrid s.grid_width s.grid_height x_min y_min x_max m
        (QueueByGroup.put_label s base x_max y_min y_max i f).flow := by
  obtain ⟨h1, h2, h3, h4, h5⟩ := onGrid_wrap hgw hgh hm1 hlo hhi hx hy f.flow h
  unfold QueueByGroup_f32.put_label QueueByGroup.put_label
  by_cases hret : f.returned = true
  · rw [if_pos hret, if_pos hret]; exact ⟨rfl, h⟩
  · rw [if_neg hret, if_neg hret]
    dsimp only
    rw [h1, h2, h3]
    by_cases hoff : (flow_wrap s.grid_width s.grid_height y_min y_max f.flow).x + s.grid_width
        > x_max
    · rw [if_pos hoff]; exact ⟨rfl, h4⟩
    · rw [if_neg hoff]; exact ⟨rfl, h5 hoff _⟩

theorem group_step_f32_exact (g : Game) (s : RaidBars) (base : Nat) (hgw : 0 < s.grid_width)
    (hgh : 0 < s.grid_height)
    (hm1 : 1 ≤ m) (hlo : (m : ℚ) * s.grid_height ≤ y_max - y_min)
    (hhi : y_max - y_min < ((m : ℚ) + 1) * s.grid_height)
    (hx : ∀ c : ℕ, c ≤ (⌊(x_max - x_min) / s.grid_width⌋).toNat + 1 →
      f32 (x_min + (c : ℚ) * s.grid_width) = x_min + (c : ℚ) * s.grid_width)
    (hy : ∀ r : ℕ, r ≤ m + 1 →
      f32 (y_min + (r : ℚ) * s.grid_height) = y_min + (r : ℚ) * s.grid_height)
    (f : GroupFlow) (i : Nat)
    (h : OnGrid s.grid_width s.grid_height x_min y_min x_max m f.flow) :
    QueueByGroup_f32.group_step g s base x_max y_min y_max f i =
        QueueByGroup.group_step g s base x_max y_min y_max f i ∧
      OnGrid s.grid_width s.grid_height x_min y_min x_max m
        (QueueByGroup.group_step g s base x_max y_min y_max f i).flow := by
  unfold QueueByGroup_f32.group_step QueueByGroup.group_step
  by_cases hret : f.returned = true
  · rw [if_pos hret, if_pos hret]; exact ⟨rfl, h⟩
  · rw [if_neg hret, if_neg hret]
    dsimp only
    generalize group_members_of s (if decide (i = 12) = true then kRaidUngrouped else i)
      (if decide (i = 12) = true then 72 else 6) = members
    by_cases hemp : members = []
    · rw [if_pos hemp, if_pos hemp]; exact ⟨rfl, h⟩
    · rw [if_neg hemp, if_neg hemp]
      have hl := put_label_f32_exact s base hgw hgh hm1 hlo hhi hx hy i f h
      rw [hl.1]
      have hb := foldl_exact
        (fun f : GroupFlow => OnGrid s.grid_width s.grid_height x_min y_min x_max m f.flow)
        (fun f member => QueueByGroup_f32.put s x_max y_min y_max (bar_cell g member) f)
        (fun f member => QueueByGroup.put s x_max y_min y_max (bar_cell g member) f) members
        (fun f member hf => put_f32_exact s hgw hgh hm1 hlo hhi hx hy _ f hf) _ hl.2
      rw [hb.1]
      by_cases hshow : (!s.setting_show_all || decide (i = 12)) = true
      · rw [if_pos hshow, if_pos hshow]; exact ⟨rfl, hb.2⟩
      · rw [if_neg hshow, if_neg hshow]
        exact foldl_exact
          (fun f : GroupFlow => OnGrid s.grid_width s.grid_height x_min y_min x_max m f.flow)
          (fun f _ => QueueByGroup_f32.put s x_max y_min y_max empty_cell f)
          (fun f _ => QueueByGroup.put s x_max y_min y_max empty_cell f) _
          (fun f _ hf => put_f32_exact s hgw hgh hm1 hlo hhi hx hy _ f hf) _ hb.2

theorem QueueByGroup_f32_exact (g : Game) (s : RaidBars) (x_min y_min x_max y_max : ℚ) (m : ℕ)
    (hgw : 0 < s.grid_width) (hgh : 0 < s.grid_height) (hm1 : 1 ≤ m)
    (hm : ⌊(y_max - y_min) / s.grid_height⌋ = (m : Int))
    (hx : ∀ c : ℕ, c ≤ (⌊(x_max - x_min) / s.grid_width⌋).toNat + 1 →
      f32 (x_min + (c : ℚ) * s.grid_width) = x_min + (c : ℚ) * s.grid_width)
    (hy : ∀ r : ℕ, r ≤ m + 1 →
      f32 (y_min + (r : ℚ) * s.grid_height) = y_min + (r : ℚ) * s.grid_height) :
    s.QueueByGroup_f32 g x_min y_min x_max y_max = s.QueueByGroup g x_min y_min x_max y_max := by
  obtain ⟨hlo, hhi⟩ := rows_bounds_floor hgh hm
  unfold RaidBars.QueueByGroup_f32 RaidBars.QueueByGroup
  rw [(foldl_exact
    (fun f : GroupFlow => OnGrid s.grid_width s.grid_height x_min y_min x_max m f.flow) _ _
    (List.range 13)
    (fun f i hf => group_step_f32_exact g s _ hgw hgh hm1 hlo hhi hx hy f i hf) _
    (onGrid_start x_min y_min x_max _ _ m [])).1]

end machine

/-! ## The hit test in machine arithmetic -/

theorem wrap32_id (z : Int) (h1 : -(2 ^ 31) ≤ z) (h2 : z < 2 ^ 31) : wrap32 z = z := by
  unfold wrap32
  omega

theorem quotient_exact (d k p : ℕ) (hp : 0 < p) (hp24 : p < 2 ^ 24) (hd : d * 2 ^ k < 2 ^ 24) :
    cast_int (f32 (f32 (d : ℚ) / ((p : ℚ) / 2 ^ k))) = ((d * 2 ^ k / p : ℕ) : Int) ∧
      truncToInt ((d : ℚ) / ((p : ℚ) / 2 ^ k)) = ((d * 2 ^ k / p : ℕ) : Int) := by
  have hk1 : 1 ≤ 2 ^ k := Nat.one_le_two_pow
  have hd24 : d < 2 ^ 24 := lt_of_le_of_lt (Nat.le_mul_of_pos_right d (by omega)) hd
  have hpq : (0 : ℚ) < (p : ℚ) := by exact_mod_cast hp
  have hquot : (d : ℚ) / ((p : ℚ) / 2 ^ k) = ((d * 2 ^ k : ℕ) : ℚ) / (p : ℚ) := by
    push_cast
    field_simp
  have hfl := f32_div_floor (d * 2 ^ k) p hp hd hp24
  have hle : (d * 2 ^ k / p : ℕ) < 2 ^ 24 := lt_of_le_of_lt (Nat.div_le_self _ _) hd
  have hle' : ((d * 2 ^ k / p : ℕ) : Int) < 2 ^ 24 := by exact_mod_cast hle
  have hnn : (0 : Int) ≤ ((d * 2 ^ k / p : ℕ) : Int) := Int.natCast_nonneg _
  constructor
  · rw [f32_natCast d hd24, hquot]
    have h0 : (0 : ℚ) ≤ f32 (((d * 2 ^ k : ℕ) : ℚ) / (p : ℚ)) := by
      have h1 := Int.floor_le (f32 (((d * 2 ^ k : ℕ) : ℚ) / (p : ℚ)))
      rw [hfl] at h1
      have h2 : (0 : ℚ) ≤ (((d * 2 ^ k / p : ℕ) : Int) : ℚ) := by exact_mod_cast hnn
      linarith
    unfold cast_int
    rw [truncToInt_of_nonneg h0, hfl]
    rw [if_pos ⟨by omega, by omega⟩]
  · rw [hquot]
    have h0 : (0 : ℚ) ≤ ((d * 2 ^ k : ℕ) : ℚ) / (p : ℚ) := by positivity
    rw [truncToInt_of_nonneg h0]
    have h := Rat.floor_intCast_div_natCast ((d * 2 ^ k : ℕ) : Int) p
    rw [Int.cast_natCast] at h
    rw [h]
    exact (Int.natCast_div _ _).symm

theorem CalcClickIndex_f32_exact (s : RaidBars) (x y : Int) (k pw ph : ℕ)
    (hgw : s.grid_width = (pw : ℚ) / 2 ^ k) (hgh : s.grid_height = (ph : ℚ) / 2 ^ k)
    (hpw : 0 < pw) (hph : 0 < ph) (hpw24 : pw < 2 ^ 24) (hph24 : ph < 2 ^ 24)
    (hleft : 0 ≤ s.setting_position_left) (hleft24 : s.setting_position_left < 2 ^ 24)
    (htop : 0 ≤ s.setting_position_top) (htop24 : s.setting_position_top < 2 ^ 24)
    (hx : (x - s.setting_position_left) * 2 ^ k < 2 ^ 24)
    (hy : (y - s.setting_position_top) * 2 ^ k < 2 ^ 24)
    (hn : s.visible_list.length < 2 ^ 31)
    (hprod : ⌊((x : ℚ) - (s.setting_position_left : ℚ)) / s.grid_width⌋ *
      s.grid_height_count_max < 2 ^ 31) :
    s.CalcClickIndex_f32 x y = s.CalcClickIndex x y := by
  obtain ⟨L, hL⟩ := Int.eq_ofNat_of_zero_le hleft
  obtain ⟨T, hT⟩ := Int.eq_ofNat_of_zero_le htop
  have hL24 : L < 2 ^ 24 := by omega
  have hT24 : T < 2 ^ 24 := by omega
  have hfl : f32 ((s.setting_position_left : Int) : ℚ) = ((s.setting_position_left : Int) : ℚ) := by
    rw [hL, Int.cast_natCast]; exact f32_natCast L hL24
  have hft : f32 ((s.setting_position_top : Int) : ℚ) = ((s.setting_position_top : Int) : ℚ) := by
    rw [hT, Int.cast_natCast]; exact f32_natCast T hT24
  unfold RaidBars.CalcClickIndex_f32 RaidBars.CalcClickIndex
  dsimp only
  rw [hfl, hft]
  by_cases hout : (x : ℚ) < (s.setting_position_left : ℚ) ∨ (y : ℚ) < (s.setting_position_top : ℚ)
  · rw [if_pos hout, if_pos hout]
  · rw [if_neg hout, if_neg hout]
    have hxl : s.setting_position_left ≤ x := by
      by_contra h
      exact hout (Or.inl (by exact_mod_cast not_le.mp h))
    have hyt : s.setting_position_top ≤ y := by
      by_contra h
      exact hout (Or.inr (by exact_mod_cast not_le.mp h))
    obtain ⟨dx, hdx⟩ := Int.eq_ofNat_of_zero_le (sub_nonneg.mpr hxl)
    obtain ⟨dy, hdy⟩ := Int.eq_ofNat_of_zero_le (sub_nonneg.mpr hyt)
    have hdxq : (x : ℚ) - (s.setting_position_left : ℚ) = (dx : ℚ) := by
      have : ((x - s.setting_position_left : Int) : ℚ) = ((dx : Int) : ℚ) := by rw [hdx]
      push_cast at this
      exact this
    have hdyq : (y : ℚ) - (s.setting_position_top : ℚ) = (dy : ℚ) := by
      have : ((y - s.setting_position_top : Int) : ℚ) = ((dy : Int) : ℚ) := by rw [hdy]
      push_cast at this
      exact this
    have hdx24 : dx * 2 ^ k < 2 ^ 24 := by
      rw [hdx] at hx
      exact_mod_cast hx
    have hdy24 : dy * 2 ^ k < 2 ^ 24 := by
      rw [hdy] at hy
      exact_mod_cast hy
    obtain ⟨hc1, hc2⟩ := quotient_exact dx k pw hpw hpw24 hdx24
    obtain ⟨hr1, hr2⟩ := quotient_exact dy k ph hph hph24 hdy24
    have hcf : ⌊((x : ℚ) - (s.setting_position_left : ℚ)) / s.grid_width⌋ =
        ((dx * 2 ^ k / pw : ℕ) : Int) := by
      rw [hdxq, hgw, ← hc2, truncToInt_of_nonneg (by positivity)]
    rw [hcf] at hprod
    rw [hdxq, hdyq, hgw, hgh, hc1, hc2, hr1, hr2]
    generalize dx * 2 ^ k / pw = c at hprod ⊢
    generalize dy * 2 ^ k / ph = r
    generalize s.grid_height_count_max = m at hprod ⊢
    generalize s.visible_list.length = n at hn ⊢
    have hn' : (n : Int) < 2 ^ 31 := by exact_mod_cast hn
    by_cases hrm : (r : Int) ≥ m
    · rw [if_pos hrm, if_pos hrm]
    · rw [if_neg hrm, if_neg hrm]
      have hm0 : 0 < m := by omega
      have hcm0 : 0 ≤ (c : Int) * m := mul_nonneg (Int.natCast_nonneg c) hm0.le
      rw [wrap32_id ((c : Int) * m) (by omega) hprod, wrap32_id (n : Int) (by omega) hn',
        wrap32_id ((n : Int) - (c : Int) * m) (by omega) (by omega)]
      by_cases hcol : (n : Int) - (c : Int) * m < 0 ∨ (r : Int) ≥ (n : Int) - (c : Int) * m
      · rw [if_pos hcol, if_pos hcol]
      · rw [if_neg hcol, if_neg hcol]
        rw [wrap32_id ((c : Int) * m + (r : Int)) (by omega) (by omega)]

/-! ## Placement and hit test in the arithmetic of the program -/

theorem grid_lines_exact (k X P bound : ℕ) (hk : k ≤ 149) (hfit : X + bound * P < 2 ^ 24) :
    ∀ c : ℕ, c ≤ bound →
      f32 ((X : ℚ) / 2 ^ k + (c : ℚ) * ((P : ℚ) / 2 ^ k)) =
        (X : ℚ) / 2 ^ k + (c : ℚ) * ((P : ℚ) / 2 ^ k) := by
  intro c hc
  have hlt : X + c * P < 2 ^ 24 :=
    lt_of_le_of_lt (Nat.add_le_add_left (Nat.mul_le_mul_right P hc) X) hfit
  have he : (X : ℚ) / 2 ^ k + (c : ℚ) * ((P : ℚ) / 2 ^ k) = ((X + c * P : ℕ) : ℚ) / 2 ^ k := by
    push_cast
    ring
  rw [he]
  exact f32_dyadic _ k hlt hk

/-- Under the dyadic-grid conditions both machine passes are the exact passes. -/
theorem passes_f32_exact (g : Game) (s : RaidBars) (x_min y_min x_max y_max : ℚ)
    (m k X Y PW PH : ℕ) (hm1 : 1 ≤ m)
    (hm : ⌊(y_max - y_min) / s.grid_height⌋ = (m : Int)) (hk : k ≤ 149)
    (hxm : x_min = (X : ℚ) / 2 ^ k) (hym : y_min = (Y : ℚ) / 2 ^ k)
    (hgw : s.grid_width = (PW : ℚ) / 2 ^ k) (hgh : s.grid_height = (PH : ℚ) / 2 ^ k)
    (hPW : 0 < PW) (hPH : 0 < PH)
    (hxfit : X + ((⌊(x_max - x_min) / s.grid_width⌋).toNat + 1) * PW < 2 ^ 24)
    (hyfit : Y + (m + 1) * PH < 2 ^ 24) :
    0 < s.grid_width ∧ 0 < s.grid_height ∧
      s.QueueByClass_f32 g x_min y_min x_max y_max = s.QueueByClass g x_min y_min x_max y_max ∧
      s.QueueByGroup_f32 g x_min y_min x_max y_max = s.QueueByGroup g x_min y_min x_max y_max := by
  have hgw0 : 0 < s.grid_width := by
    rw [hgw]
    have : (0 : ℚ) < (PW : ℚ) := by exact_mod_cast hPW
    positivity
  have hgh0 : 0 < s.grid_height := by
    rw [hgh]
    have : (0 : ℚ) < (PH : ℚ) := by exact_mod_cast hPH
    positivity
  have hx : ∀ c : ℕ, c ≤ (⌊(x_max - x_min) / s.grid_width⌋).toNat + 1 →
      f32 (x_min + (c : ℚ) * s.grid_width) = x_min + (c : ℚ) * s.grid_width := by
    intro c hc
    rw [hxm, hgw] at hc ⊢
    rw [hxm, hgw] at hxfit
    exact grid_lines_exact k X PW _ hk hxfit c hc
  have hy : ∀ r : ℕ, r ≤ m + 1 →
      f32 (y_min + (r : ℚ) * s.grid_height) = y_min + (r : ℚ) * s.grid_height := by
    intro r hr
    rw [hym, hgh]
    exact grid_lines_exact k Y PH _ hk hyfit r hr
  exact ⟨hgw0, hgh0,
    QueueByClass_f32_exact g s x_min y_min x_max y_max m hgw0 hgh0 hm1 hm hx hy,
    QueueByGroup_f32_exact g s x_min y_min x_max y_max m hgw0 hgh0 hm1 hm hx hy⟩

/-- C14 (as amended): column-major placement in the arithmetic of the program. For every layout
pass (by category or by group) with `m = floor((bottom - top) / cellHeight) >= 1` whose anchor
and cell size are non-negative multiples of `2 ^ (-k)` and whose grid lines, up to one cell past
the last column and the last row, stay below `2 ^ 24` in units of `2 ^ (-k)` (so that no `float`
addition of the pass rounds), the visible list grows by the cells placed and the `k`-th cell
placed is at column `k / m`, row `k % m`: at `x = left + (k / m) * cellWidth`,
`y = top + (k % m) * cellHeight`. -/
theorem column_major_placement_f32 (g : Game) (s : RaidBars) (x_min y_min x_max y_max : ℚ)
    (m k X Y PW PH : ℕ) (hm1 : 1 ≤ m)
    (hm : ⌊(y_max - y_min) / s.grid_height⌋ = (m : Int)) (hk : k ≤ 149)
    (hxm : x_min = (X : ℚ) / 2 ^ k) (hym : y_min = (Y : ℚ) / 2 ^ k)
    (hgw : s.grid_width = (PW : ℚ) / 2 ^ k) (hgh : s.grid_height = (PH : ℚ) / 2 ^ k)
    (hPW : 0 < PW) (hPH : 0 < PH)
    (hxfit : X + ((⌊(x_max - x_min) / s.grid_width⌋).toNat + 1) * PW < 2 ^ 24)
    (hyfit : Y + (m + 1) * PH < 2 ^ 24) :
    ((s.QueueByClass_f32 g x_min y_min x_max y_max).1.visible_list =
        s.visible_list ++
          (s.QueueByClass_f32 g x_min y_min x_max y_max).2.map (fun c => c.entity) ∧
      ∀ (i : ℕ) (c : Cell), (s.QueueByClass_f32 g x_min y_min x_max y_max).2[i]? = some c →
        c.x = x_min + ((i / m : ℕ) : ℚ) * s.grid_width ∧
          c.y = y_min + ((i % m : ℕ) : ℚ) * s.grid_height) ∧
    ((s.QueueByGroup_f32 g x_min y_min x_max y_max).1.visible_list =
        s.visible_list ++
          (s.QueueByGroup_f32 g x_min y_min x_max y_max).2.map (fun c => c.entity) ∧
      ∀ (i : ℕ) (c : Cell), (s.QueueByGroup_f32 g x_min y_min x_max y_max).2[i]? = some c →
        c.x = x_min + ((i / m : ℕ) : ℚ) * s.grid_width ∧
          c.y = y_min + ((i % m : ℕ) : ℚ) * s.grid_height) := by
  obtain ⟨hgw0, hgh0, h1, h2⟩ := passes_f32_exact g s x_min y_min x_max y_max m k X Y PW PH hm1
    hm hk hxm hym hgw hgh hPW hPH hxfit hyfit
  rw [h1, h2]
  exact column_major_placement g s x_min y_min x_max y_max m hgw0 hgh0 hm1 hm

/-- Witness of C14 (scenario 2): viewport (10,10)-(110,70) with cells of 50 by 20 (whole pixels,
`k = 0`) gives three rows per column; the five entries of the example raid occupy column 0 rows
0..2 and column 1 rows 0..1, the fifth (index 4) at (60,30), and after the layout a click at
(15,65) resolves to index 2. -/
theorem column_major_placement_f32_witness :
    ⌊((70 : ℚ) - 10) / example_bars.grid_height⌋ = ((3 : ℕ) : Int) ∧
      (example_bars.QueueByClass_f32 example_game 10 10 110 70).2.map
          (fun c => (c.text, c.x, c.y)) =
        [("Anna", 10, 10), ("Zed", 10, 30), ("Otto", 10, 50), ("Foo", 60, 10),
          ("Mona", 60, 30)] ∧
      (∀ c, (example_bars.QueueByClass_f32 example_game 10 10 110 70).2[4]? = some c →
        c.x = 10 + ((4 / 3 : ℕ) : ℚ) * example_bars.grid_width ∧
          c.y = 10 + ((4 % 3 : ℕ) : ℚ) * example_bars.grid_height) ∧
      (example_bars.render_layout_f32 example_game).1.grid_height_count_max = 3 ∧
      (example_bars.render_layout_f32 example_game).1.CalcClickIndex_f32 15 65 = 2 :=
  ⟨by decide!, by decide!,
    (column_major_placement_f32 example_game example_bars 10 10 110 70 3 0 10 10 50 20
      (by decide) (by decide!) (by decide) (by decide!) (by decide!) (by decide!) (by decide!)
      (by decide) (by decide) (by decide!) (by decide)).1.2 4,
    by decide!, by decide!⟩

/-- Counterexample to C14 as stated: cell height 6.3000002 (`6606029 / 2 ^ 20`, the `float`
nearest to 6.3), viewport (10,10)-(1000,73). Exactly, `(73 - 10) / 6.3000002 = 9.9999997`, so
`m = 9` and the tenth cell (index 9) belongs to column 1, row 0, at (60,10); the pass of the
program, which adds the cell height in `float`, reaches `y + cellHeight = 73` exactly after
nine cells and places the tenth cell, the bar of Otto, in column 0. -/
theorem tenth_cell_stays_in_column :
    ⌊((73 : ℚ) - 10) / tall_bars.grid_height⌋ = ((9 : ℕ) : Int) ∧
      (10 : ℚ) + ((9 / 9 : ℕ) : ℚ) * tall_bars.grid_width = 60 ∧
      (10 : ℚ) + ((9 % 9 : ℕ) : ℚ) * tall_bars.grid_height = 10 ∧
      (tall_bars.render_layout_f32 example_game).2[9]?.map (fun c => (c.text, c.x, c.y)) =
        some ("Otto", 10, 4371251 / 65536) ∧
      f32 ((1979187 : ℚ) / 32768 + tall_bars.grid_height) = 4371251 / 65536 ∧
      f32 ((4371251 : ℚ) / 65536 + tall_bars.grid_height) = 73 ∧
      (tall_bars.render_layout_f32 example_game).1.grid_height_count_max = 10 :=
  ⟨by decide!, by decide!, by decide!, by decide!, by decide!, by decide!, by decide!⟩

/-- C15 (as amended): overflow drops a suffix, silently, in the arithmetic of the program. For
every layout pass with `m = floor(height / cellHeight) >= 1` and `c = floor(width / cellWidth)`
whose anchor and cell size are non-negative multiples of `2 ^ (-k)` and whose grid lines, up to
one cell past the last column and the last row, stay below `2 ^ 24` in units of `2 ^ (-k)` (so
that no `float` addition of the pass rounds): if the producer order would emit the cell sequence
`s`, the cells placed are exactly the first `min(|s|, m * c)` cells of `s`, in the same order
and in column-major position, and the visible list is their list of references. -/
theorem overflow_drops_suffix_f32 (g : Game) (s : RaidBars) (x_min y_min x_max y_max : ℚ)
    (m c k X Y PW PH : ℕ) (hm1 : 1 ≤ m)
    (hm : ⌊(y_max - y_min) / s.grid_height⌋ = (m : Int))
    (hc : ⌊(x_max - x_min) / s.grid_width⌋ = (c : Int)) (hk : k ≤ 149)
    (hxm : x_min = (X : ℚ) / 2 ^ k) (hym : y_min = (Y : ℚ) / 2 ^ k)
    (hgw : s.grid_width = (PW : ℚ) / 2 ^ k) (hgh : s.grid_height = (PH : ℚ) / 2 ^ k)
    (hPW : 0 < PW) (hPH : 0 < PH)
    (hxfit : X + (c + 1) * PW < 2 ^ 24) (hyfit : Y + (m + 1) * PH < 2 ^ 24) :
    ((s.QueueByClass_f32 g x_min y_min x_max y_max).2 =
        place_cells s.grid_width s.grid_height x_min y_min m
          ((class_sequence g s).take (min (class_sequence g s).length (m * c))) ∧
      (s.QueueByClass_f32 g x_min y_min x_max y_max).1.visible_list =
        s.visible_list ++ (place_cells s.grid_width s.grid_height x_min y_min m
          ((class_sequence g s).take (min (class_sequence g s).length (m * c)))).map
            (fun cell => cell.entity)) ∧
    ((s.QueueByGroup_f32 g x_min y_min x_max y_max).2 =
        place_cells s.grid_width s.grid_height x_min y_min m
          ((group_sequence g s).take (min (group_sequence g s).length (m * c))) ∧
      (s.QueueByGroup_f32 g x_min y_min x_max y_max).1.visible_list =
        s.visible_list ++ (place_cells s.grid_width s.grid_height x_min y_min m
          ((group_sequence g s).take (min (group_sequence g s).length (m * c)))).map
            (fun cell => cell.entity)) := by
  have hxfit' : X + ((⌊(x_max - x_min) / s.grid_width⌋).toNat + 1) * PW < 2 ^ 24 := by
    rw [hc, Int.toNat_natCast]; exact hxfit
  obtain ⟨hgw0, hgh0, h1, h2⟩ := passes_f32_exact g s x_min y_min x_max y_max m k X Y PW PH hm1
    hm hk hxm hym hgw hgh hPW hPH hxfit' hyfit
  rw [h1, h2]
  exact overflow_drops_suffix g s x_min y_min x_max y_max m c hgw0 hgh0 hm1 hm hc

/-- Witness of C15: in the viewport (10,10)-(60,70) with cells of 50 by 20 (three rows, one
column, whole pixels) the by-class pass of the example raid places the first three of its five
cells, and the by-group pass of the managed example the first three of its sixteen. -/
theorem overflow_drops_suffix_f32_witness :
    (class_sequence example_game example_bars).length = 5 ∧
      (group_sequence example_game manage_bars).length = 16 ∧
      (example_bars.QueueByClass_f32 example_game 10 10 60 70).2.map
          (fun c => (c.text, c.x, c.y)) =
        [("Anna", 10, 10), ("Zed", 10, 30), ("Otto", 10, 50)] ∧
      (manage_bars.QueueByGroup_f32 example_game 10 10 60 70).2.map
          (fun c => (c.text, c.x, c.y)) =
        [("Group 1: ", 10, 10), ("Zed", 10, 30), ("Anna", 10, 50)] ∧
      (example_bars.QueueByClass_f32 example_game 10 10 60 70).2 =
        place_cells 50 20 10 10 3 ((class_sequence example_game example_bars).take 3) :=
  ⟨by decide!, by decide!, by decide!, by decide!,
    ((overflow_drops_suffix_f32 example_game example_bars 10 10 60 70 3 1 0 10 10 50 20
      (by decide) (by decide!) (by decide!) (by decide) (by decide!) (by decide!) (by decide!)
      (by decide!) (by decide) (by decide) (by decide) (by decide)).1.1).trans (by decide!)⟩

/-- Counterexample to C15 as stated: cell height 6.3000002 (`6606029 / 2 ^ 20`), viewport
(10,10)-(60,73), one column wide. Exactly, `m = floor(63 / 6.3000002) = 9` and
`c = floor(50 / 50) = 1`, so of the sixteen cells of the producer order the first
`min(16, 9 * 1) = 9` should be placed; the pass of the program places ten. -/
theorem rounding_places_extra_cell :
    ⌊((73 : ℚ) - 10) / tall_narrow_bars.grid_height⌋ = ((9 : ℕ) : Int) ∧
      ⌊((60 : ℚ) - 10) / tall_narrow_bars.grid_width⌋ = ((1 : ℕ) : Int) ∧
      (group_sequence example_game tall_narrow_bars).length = 16 ∧
      (tall_narrow_bars.render_layout_f32 example_game).2.map (fun c => c.text) =
        ["Group 1: ", "Zed", "Anna", "Empty", "Empty", "Empty", "Empty", "Group 3: ", "Mona",
          "Otto"] ∧
      (tall_narrow_bars.render_layout_f32 example_game).1.visible_list.length = 10 :=
  ⟨by decide!, by decide!, by decide!, by decide!, by decide!⟩

/-- C2 (as amended): `CalcClickIndex` in the arithmetic of the program is the reference hit test
`locate`. A non-negative result is always an index of the visible list. When the anchor is
non-negative and below `2 ^ 24`, the cell size is a positive multiple of `2 ^ (-k)`, the offsets
of the point from the anchor are below `2 ^ 24` in units of `2 ^ (-k)` (so that the `float`
quotients truncate to the exact floors), the list is shorter than `2 ^ 31` and `column * m` is
below `2 ^ 31` (so that no `int` operation wraps), `CalcClickIndex` returns `column * m + row`
exactly when `locate` does, and `-1` when `locate` finds no hit. -/
theorem CalcClickIndex_f32_eq_locate (s : RaidBars) (x y : Int) :
    (0 ≤ s.CalcClickIndex_f32 x y → s.CalcClickIndex_f32 x y < (s.visible_list.length : Int)) ∧
      ∀ k pw ph : ℕ,
        s.grid_width = (pw : ℚ) / 2 ^ k → s.grid_height = (ph : ℚ) / 2 ^ k →
        0 < pw → 0 < ph → pw < 2 ^ 24 → ph < 2 ^ 24 →
        0 ≤ s.setting_position_left → s.setting_position_left < 2 ^ 24 →
        0 ≤ s.setting_position_top → s.setting_position_top < 2 ^ 24 →
        (x - s.setting_position_left) * 2 ^ k < 2 ^ 24 →
        (y - s.setting_position_top) * 2 ^ k < 2 ^ 24 →
        s.visible_list.length < 2 ^ 31 →
        ⌊((x : ℚ) - (s.setting_position_left : ℚ)) / s.grid_width⌋ *
          s.grid_height_count_max < 2 ^ 31 →
        s.CalcClickIndex_f32 x y =
          (locate x y s.setting_position_left s.setting_position_top s.grid_width s.grid_height
            s.visible_list.length s.grid_height_count_max).getD (-1) := by
  constructor
  · unfold RaidBars.CalcClickIndex_f32
    dsimp only
    intro h
    split_ifs at h ⊢ <;> omega
  · intro k pw ph hgw hgh hpw hph hpw24 hph24 hleft hleft24 htop htop24 hx hy hn hprod
    rw [CalcClickIndex_f32_exact s x y k pw ph hgw hgh hpw hph hpw24 hph24 hleft hleft24 htop
      htop24 hx hy hn hprod]
    have hgw0 : 0 < s.grid_width := by
      rw [hgw]
      have : (0 : ℚ) < (pw : ℚ) := by exact_mod_cast hpw
      positivity
    have hgh0 : 0 < s.grid_height := by
      rw [hgh]
      have : (0 : ℚ) < (ph : ℚ) := by exact_mod_cast hph
      positivity
    exact (CalcClickIndex_eq_locate s x y hgw0 hgh0).1

/-- Witness of C2 on the state after the layout of the example raid (cells of 50 by 20, whole
pixels, `k = 0`; three rows; five cells): the click at (15,65) is the reference hit, index 2. -/
theorem CalcClickIndex_f32_eq_locate_witness :
    (example_bars.render_layout_f32 example_game).1.CalcClickIndex_f32 15 65 = 2 ∧
      (locate 15 65 10 10 50 20 5 3).getD (-1) = 2 ∧
      (example_bars.render_layout_f32 example_game).1.CalcClickIndex_f32 15 65 =
        (locate 15 65 (example_bars.render_layout_f32 example_game).1.setting_position_left
          (example_bars.render_layout_f32 example_game).1.setting_position_top
          (example_bars.render_layout_f32 example_game).1.grid_width
          (example_bars.render_layout_f32 example_game).1.grid_height
          (example_bars.render_layout_f32 example_game).1.visible_list.length
          (example_bars.render_layout_f32 example_game).1.grid_height_count_max).getD (-1) :=
  ⟨by decide!, by decide!,
    (CalcClickIndex_f32_eq_locate (example_bars.render_layout_f32 example_game).1 15 65).2 0 50 20
      (by decide!) (by decide!) (by decide) (by decide) (by decide) (by decide) (by decide!)
      (by decide!) (by decide!) (by decide!) (by decide!) (by decide!) (by decide!)
      (by decide!)⟩

/-- Counterexample to C2 as stated. In the viewport (10,10)-(1000,1342177290) with cells of 50
by 20 the layout gives `m = 2 ^ 26` rows and sixteen cells; the click at (3215,15) lies in column
64, row 0, so `column * m + row = 2 ^ 32` is no index and `locate` finds no hit, but the 32-bit
product wraps to 0 and `CalcClickIndex` returns 0 (and 1 for the click at (3215,35)). With the
cell height 6.3000002 (`6606029 / 2 ^ 20`) in the viewport (10,10)-(1000,73), ten rows and
sixteen cells, the click at (15,73) lies in row `floor(63 / 6.3000002) = 9` and `locate` returns
9, but the `float` quotient is 10 and `CalcClickIndex` returns `-1`; in the higher viewport
(10,10)-(1000,200), thirty rows, the same click returns the index 10 where `locate` returns 9. -/
theorem hit_test_wraps_and_rounds :
    (deep_bars.render_layout_f32 example_game).1.grid_height_count_max = 2 ^ 26 ∧
      (deep_bars.render_layout_f32 example_game).1.visible_list.length = 16 ∧
      ⌊((3215 : ℚ) - 10) / deep_bars.grid_width⌋ = 64 ∧
      locate 3215 15 10 10 50 20 16 (2 ^ 26) = none ∧
      (deep_bars.render_layout_f32 example_game).1.CalcClickIndex_f32 3215 15 = 0 ∧
      locate 3215 35 10 10 50 20 16 (2 ^ 26) = none ∧
      (deep_bars.render_layout_f32 example_game).1.CalcClickIndex_f32 3215 35 = 1 ∧
      (tall_bars.render_layout_f32 example_game).1.grid_height_count_max = 10 ∧
      (tall_bars.render_layout_f32 example_game).1.visible_list.length = 16 ∧
      locate 15 73 10 10 50 (6606029 / 1048576) 16 10 = some 9 ∧
      cast_int (f32 (f32 ((73 : ℚ) - 10) / (6606029 / 1048576))) = 10 ∧
      (tall_bars.render_layout_f32 example_game).1.CalcClickIndex_f32 15 73 = -1 ∧
      (tall_high_bars.render_layout_f32 example_game).1.grid_height_count_max = 30 ∧
      (tall_high_bars.render_layout_f32 example_game).1.visible_list.length = 16 ∧
      locate 15 73 10 10 50 (6606029 / 1048576) 16 30 = some 9 ∧
      (tall_high_bars.render_layout_f32 example_game).1.CalcClickIndex_f32 15 73 = 10 :=
  ⟨by decide!, by decide!, by decide!, by decide!, by decide!, by decide!, by decide!,
    by decide!, by decide!, by decide!, by decide!, by decide!, by decide!, by decide!,
    by decide!, by decide!⟩


/-! ## A selection is pending only in management mode -/

theorem Clean_gesture (s : RaidBars) : GestureInv s.Clean :=
  fun hp => absurd rfl hp

theorem LoadBitmapFont_gesture (g : Game) (s : RaidBars) (h : GestureInv s) :
    GestureInv (s.LoadBitmapFont g).1 := by
  unfold RaidBars.LoadBitmapFont
  by_cases h0 : s.bitmap_font.isSome = true ∨ s.setting_bitmap_font_filename = ""
  · rw [if_pos h0]; exact h
  · rw [if_neg h0]
    dsimp only
    split
    · split_ifs
      · exact fun hp => absurd rfl hp
      · exact h
    · exact h

theorem EntityDespawn_gesture (g : Game) (s : RaidBars) (entity : Option EntityPtr)
    (h : GestureInv s) : GestureInv (s.EntityDespawn g entity) := by
  unfold RaidBars.EntityDespawn
  cases entity with
  | none => exact h
  | some p => dsimp only; split_ifs <;> exact h

theorem HandleClick_gesture (g : Game) (s : RaidBars) (x y : Int) (h : GestureInv s) :
    GestureInv (s.HandleClick g x y).2.1 := by
  unfold RaidBars.HandleClick
  by_cases h0 : (!s.manage.enabled || !s.setting_enabled || s.visible_list.isEmpty) = true
  · rw [if_pos h0]; exact h
  · rw [if_neg h0]
    have hen : s.manage.enabled = true ∧ s.setting_enabled = true := by
      simp only [Bool.or_eq_true, Bool.not_eq_true', not_or, Bool.not_eq_false] at h0
      exact ⟨h0.1.1, h0.1.2⟩
    cases g.wnd_manager with
    | none => exact h
    | some w =>
      dsimp only
      split_ifs
      · exact h
      · exact h
      · rw [(HandleAltClick_clears g s _).2]; exact fun hp => absurd rfl hp
      · rw [(HandleShiftClick_clears g s _).2]; exact fun hp => absurd rfl hp
      · unfold RaidBars.HandleCtrlClick
        dsimp only
        split_ifs <;> first | exact h | exact fun _ => hen
      · exact h

theorem HandleLMouseUp_gesture (g : Game) (s : RaidBars) (x y : Int) (h : GestureInv s) :
    GestureInv (s.HandleLMouseUp g x y).2.1 := by
  have hc := HandleClick_gesture g s x y h
  unfold RaidBars.HandleLMouseUp
  dsimp only
  split_ifs
  · exact h
  · exact h
  · exact h
  · exact h
  · exact hc
  · exact hc
  · split <;> exact hc

theorem ParseManageArgs_gesture (s : RaidBars) (args : List String) (h : GestureInv s) :
    GestureInv (s.ParseManageArgs args).2.1 := by
  unfold RaidBars.ParseManageArgs
  dsimp only
  split_ifs <;> first | exact h | exact fun hp => absurd rfl hp

theorem HandleSetGrid_gesture (g : Game) (s : RaidBars) (rows columns : Int)
    (h : GestureInv s) : GestureInv (s.HandleSetGrid g rows columns).2.1 := by
  have hl := LoadBitmapFont_gesture g s h
  unfold RaidBars.HandleSetGrid
  dsimp only
  split_ifs
  · exact h
  · exact hl
  · exact hl
  · exact hl

theorem set_class_setting_gesture (g : Game) (s : RaidBars) (which text : String)
    (h : GestureInv s) : GestureInv (s.set_class_setting g which text) := by
  unfold RaidBars.set_class_setting RaidBars.SyncClassPriority RaidBars.SyncClassAlways
    RaidBars.SyncClassNever RaidBars.SyncClassFilter
  dsimp only
  split_ifs <;> exact h

theorem rest_gesture (g : Game) (s : RaidBars) (args : List String) (h : GestureInv s) :
    GestureInv (ParseArgs.rest g s args).1 := by
  unfold ParseArgs.rest
  split_ifs
  · unfold ParseArgs.grid
    split
    · dsimp only
      split_ifs <;> exact HandleSetGrid_gesture g s _ _ h
    · exact h
  · unfold ParseArgs.showall
    dsimp only
    split_ifs <;> exact h
  · unfold ParseArgs.clickable
    dsimp only
    split_ifs <;> exact h
  · unfold ParseArgs.background
    split
    · dsimp only
      split_ifs <;> exact h
    · split_ifs <;> exact h
  · unfold ParseArgs.threshold
    split
    · dsimp only
      split_ifs <;> exact h
    · split_ifs <;> exact h
  · unfold ParseArgs.class_list
    dsimp only
    split_ifs
    · exact set_class_setting_gesture g s _ _ h
    · exact h
  · exact h

theorem position_gesture (g : Game) (s : RaidBars) (args : List String) (h : GestureInv s) :
    GestureInv (ParseArgs.position g s args).2.1 := by
  unfold ParseArgs.position
  split
  · dsimp only
    split_ifs <;> exact h
  · split_ifs <;> exact h

theorem ParseArgs_gesture (g : Game) (s : RaidBars) (args : List String) (h : GestureInv s) :
    GestureInv (s.ParseArgs g args).1 := by
  unfold RaidBars.ParseArgs
  split_ifs
  · exact fun hp => absurd rfl hp
  · exact fun hp => absurd rfl hp
  · exact ParseManageArgs_gesture s args h
  · unfold ParseArgs.groups
    dsimp only
    split_ifs <;> exact h
  · unfold ParseArgs.font
    dsimp only
    split_ifs <;> exact h
  · unfold ParseArgs.barwidth
    split
    · exact fun hp => absurd rfl hp
    · exact h
  · unfold ParseArgs.barheight
    split
    · exact fun hp => absurd rfl hp
    · exact h
  · dsimp only
    split_ifs
    · exact position_gesture g s args h
    · exact rest_gesture g _ args (position_gesture g s args h)
  · exact rest_gesture g s args h

theorem CallbackRender_gesture (g : Game) (s : RaidBars) (h : GestureInv s) :
    GestureInv (s.CallbackRender g).1 := by
  unfold RaidBars.CallbackRender
  by_cases h1 : (!s.setting_enabled || !g.is_in_game) = true
  · rw [if_pos h1]; exact h
  · rw [if_neg h1]
    by_cases h2 : (!g.is_in_raid) = true
    · rw [if_pos h2]
      split_ifs
      · exact Clean_gesture s
      · exact h
    · rw [if_neg h2]
      cases g.display with
      | none => exact h
      | some t =>
        dsimp only
        by_cases h3 : (!g.is_gui_visible) = true
        · rw [if_pos h3]; exact h
        · rw [if_neg h3]
          have hl := LoadBitmapFont_gesture g s h
          by_cases h4 : (s.LoadBitmapFont g).1.bitmap_font.isNone = true
          · rw [if_pos h4]; exact hl
          · rw [if_neg h4]
            dsimp only
            unfold GestureInv
            rw [render_layout_manage, render_update_manage, render_layout_overlay,
              render_update_overlay]
            exact hl

/-- Every registered handler keeps the invariant: a selection is pending only while management
mode and the overlay are enabled. -/
theorem handle_gesture (g : Game) (s : RaidBars) (ev : Event) (h : GestureInv s) :
    GestureInv (s.handle g ev) := by
  cases ev with
  | render => exact CallbackRender_gesture g s h
  | clean => exact Clean_gesture s
  | packet opcode =>
    show GestureInv (s.WorldMessage opcode)
    unfold RaidBars.WorldMessage
    split_ifs <;> exact h
  | despawn entity => exact EntityDespawn_gesture g s entity h
  | click x y => exact HandleLMouseUp_gesture g s x y h
  | command args => exact ParseArgs_gesture g s args h

/-- In every state reached from a state without pending selection by any run of notifications,
a pending selection implies that management mode and the overlay are enabled. -/
theorem run_gesture (events : List (Game × Event)) :
    ∀ s : RaidBars, GestureInv s → GestureInv (run s events) := by
  induction events with
  | nil => intro s h; exact h
  | cons ge rest ih =>
    intro s h
    exact ih _ (handle_gesture ge.1 s ge.2 h)

end Zeal
